import Mathlib

/-! InfluxQL front end: tokens, durations and the expression parser.

A shallow embedding of `influxql/token.go` and of the expression and duration
parts of `influxql/parser.go`, with the properties proved about them.
-/

namespace influxql

/-! ## token.go -/

/-- Token is a lexical token of the InfluxQL language.  The constructors are
listed in the order of the `iota` block of token.go, markers included, so the
constructor index of a token is its Go integer value. -/
inductive Token
  | ILLEGAL | EOF | WS
  | literal_beg
  | IDENT | NUMBER | DURATION_VAL | STRING | BADSTRING | BADESCAPE | TRUE | FALSE
  | literal_end
  | operator_beg
  | ADD | SUB | MUL | DIV
  | AND | OR
  | EQ | NEQ | LT | LTE | GT | GTE
  | operator_end
  | LPAREN | RPAREN | COMMA | SEMICOLON | DOT
  | keyword_beg
  | ALL | ALTER | AS | ASC | BEGIN | BY | CREATE | CONTINUOUS | DATABASE | DATABASES
  | DEFAULT | DELETE | DESC | DROP | DURATION | END | EXISTS | EXPLAIN | FIELD | FROM
  | GRANT | GROUP | IF | INNER | INSERT | INTO | KEYS | LIMIT | LIST | MEASUREMENT
  | MEASUREMENTS | ON | ORDER | PASSWORD | POLICY | PRIVILEGES | QUERIES | QUERY | READ
  | REPLICATION | RETENTION | REVOKE | SELECT | SERIES | TAG | TO | USER | VALUES | WHERE
  | WITH | WRITE
  | keyword_end
  deriving DecidableEq, Repr

/-- The Go integer value of a token. -/
def Token.toInt (tok : Token) : Int := tok.toCtorIdx

/-- String returns the string representation of the token: the entry of the
`tokens` array, which is empty for the markers and for BADSTRING and
BADESCAPE. -/
def Token.String : Token → String
  | .ILLEGAL => "ILLEGAL" | .EOF => "EOF" | .WS => "WS"
  | .IDENT => "IDENT" | .NUMBER => "NUMBER" | .DURATION_VAL => "DURATION_VAL"
  | .STRING => "STRING" | .TRUE => "TRUE" | .FALSE => "FALSE"
  | .ADD => "+" | .SUB => "-" | .MUL => "*" | .DIV => "/"
  | .AND => "AND" | .OR => "OR"
  | .EQ => "=" | .NEQ => "!=" | .LT => "<" | .LTE => "<=" | .GT => ">" | .GTE => ">="
  | .LPAREN => "(" | .RPAREN => ")" | .COMMA => "," | .SEMICOLON => ";" | .DOT => "."
  | .ALL => "ALL" | .ALTER => "ALTER" | .AS => "AS" | .ASC => "ASC" | .BEGIN => "BEGIN"
  | .BY => "BY" | .CREATE => "CREATE" | .CONTINUOUS => "CONTINUOUS"
  | .DATABASE => "DATABASE" | .DATABASES => "DATABASES" | .DEFAULT => "DEFAULT"
  | .DELETE => "DELETE" | .DESC => "DESC" | .DROP => "DROP" | .DURATION => "DURATION"
  | .END => "END" | .EXISTS => "EXISTS" | .EXPLAIN => "EXPLAIN" | .FIELD => "FIELD"
  | .FROM => "FROM" | .GRANT => "GRANT" | .GROUP => "GROUP" | .IF => "IF"
  | .INNER => "INNER" | .INSERT => "INSERT" | .INTO => "INTO" | .KEYS => "KEYS"
  | .LIMIT => "LIMIT" | .LIST => "LIST" | .MEASUREMENT => "MEASUREMENT"
  | .MEASUREMENTS => "MEASUREMENTS" | .ON => "ON" | .ORDER => "ORDER"
  | .PASSWORD => "PASSWORD" | .POLICY => "POLICY" | .PRIVILEGES => "PRIVILEGES"
  | .QUERIES => "QUERIES" | .QUERY => "QUERY" | .READ => "READ"
  | .REPLICATION => "REPLICATION" | .RETENTION => "RETENTION" | .REVOKE => "REVOKE"
  | .SELECT => "SELECT" | .SERIES => "SERIES" | .TAG => "TAG" | .TO => "TO"
  | .USER => "USER" | .VALUES => "VALUES" | .WHERE => "WHERE" | .WITH => "WITH"
  | .WRITE => "WRITE"
  | _ => ""

/-- Precedence returns the operator precedence of the binary operator token. -/
def Token.Precedence : Token → Int
  | .OR => 1
  | .AND => 2
  | .EQ | .NEQ | .LT | .LTE | .GT | .GTE => 3
  | .ADD | .SUB => 4
  | .MUL | .DIV => 5
  | _ => 0

/-- The method isOperator returns true for operator tokens. -/
def Token.isOperator (tok : Token) : Bool :=
  decide (tok.toInt > Token.operator_beg.toInt) && decide (tok.toInt < Token.operator_end.toInt)

/-- The function tokstr returns a literal if provided, otherwise returns the
token string. -/
def tokstr (tok : Token) (lit : String) : String :=
  if lit ≠ "" then lit else tok.String

/-- Pos specifies the line and character position of a token. -/
structure Pos where
  Line : Int
  Char : Int
  deriving DecidableEq, Repr

/-! ## The buffered scanner

`scanner.go` is not part of the sources at hand; the parser only uses the two
methods `Scan` and `Unscan` of its `bufScanner`. -/

/-- One scanned token: the triple `(tok, pos, lit)` returned by `Scan`. -/
structure Lexeme where
  tok : Token
  pos : Pos
  lit : String
  deriving DecidableEq, Repr

/-- Modelled from the spec: bufScanner (scanner.go is missing).  The lexer
"converts a character stream into a sequence of (token-kind, position,
literal-text) triples; owns exactly one token of pushback".  The character
stream is represented by the triples the lexer still has to deliver (`input`),
followed by end-of-input at position `eof`; `buf` is the most recently scanned
token and `n` tells whether it has been pushed back. -/
structure bufScanner where
  input : List Lexeme
  eof : Pos
  buf : Lexeme
  n : Bool
  deriving DecidableEq, Repr

/-- Modelled from the spec: bufScanner.Scan (scanner.go is missing).  It
"returns the next (kind, position, literal) skipping nothing": the pushed-back
token if there is one, else the next token of the lexer, which is EOF with an
empty literal once the input is exhausted. -/
def bufScanner.Scan (s : bufScanner) : Lexeme × bufScanner :=
  if s.n then (s.buf, { s with n := false })
  else match s.input with
    | [] => (⟨.EOF, s.eof, ""⟩, { s with buf := ⟨.EOF, s.eof, ""⟩ })
    | t :: rest => (t, { s with input := rest, buf := t })

/-- Modelled from the spec: bufScanner.Unscan (scanner.go is missing).  It
"pushes back exactly the most recently scanned token - at most one level of
pushback is required or supported". -/
def bufScanner.Unscan (s : bufScanner) : bufScanner :=
  { s with n := true }

/-- A scanner over the tokens `input`, with end-of-input at `eof`, nothing
scanned yet. -/
def newBufScanner (input : List Lexeme) (eof : Pos) : bufScanner :=
  { input := input, eof := eof, buf := ⟨.ILLEGAL, ⟨0, 0⟩, ""⟩, n := false }

/-! ## parser.go: scanning helpers -/

/-- Parser represents an InfluxQL parser. -/
structure Parser where
  s : bufScanner
  deriving DecidableEq, Repr

/-- NewParser returns a new instance of Parser (over the tokens of the reader). -/
def NewParser (input : List Lexeme) (eof : Pos) : Parser :=
  { s := newBufScanner input eof }

/-- The method scan returns the next token from the underlying scanner. -/
def Parser.scan (p : Parser) : Lexeme × Parser :=
  ((p.s.Scan).1, { s := (p.s.Scan).2 })

/-- The method unscan pushes the previously read token back onto the buffer. -/
def Parser.unscan (p : Parser) : Parser :=
  { s := p.s.Unscan }

/-- The method scanIgnoreWhitespace scans the next non-whitespace token. -/
def Parser.scanIgnoreWhitespace (p : Parser) : Lexeme × Parser :=
  if (p.scan).1.tok = .WS then (p.scan).2.scan else p.scan

/-! ## parser.go: errors -/

/-- ParseError represents an error that occurred during parsing. -/
structure ParseError where
  Message : String
  Found : String
  Expected : List String
  Pos : Pos
  deriving DecidableEq, Repr

/-- The function newParseError returns a new instance of ParseError. -/
def newParseError (found : String) (expected : List String) (pos : Pos) : ParseError :=
  { Message := "", Found := found, Expected := expected, Pos := pos }

/-- The errors a Go function of this file returns beside a ParseError. -/
inductive Error
  | ErrInvalidDuration
  | ErrSyntax
  | ErrRange
  deriving DecidableEq, Repr

/-! ## Go library functions used by the duration codec -/

/-- Conversion of an integer to Go's int64: the value modulo 2^64 in the range
from -2^63 to 2^63 - 1 (Go's wrap-around arithmetic). -/
def int64 (x : Int) : Int := (x + 2 ^ 63) % 2 ^ 64 - 2 ^ 63

/-! ## parser.go: the text of an error -/

/-- Go's strings.Join: the elements of `elems` with `sep` between them. -/
def strings.Join : List String → String → String
  | [], _ => ""
  | [a], _ => a
  | a :: rest, sep => rest.foldl (fun b s => b ++ sep ++ s) a

/-- Error returns the string representation of the error.  The verb `%d`
prints the decimal numeral of the Go int `e.Pos.Line+1`. -/
def ParseError.Error (e : ParseError) : String :=
  if e.Message ≠ "" then
    e.Message ++ " at line " ++ toString (int64 (e.Pos.Line + 1)) ++ ", char "
      ++ toString (int64 (e.Pos.Char + 1))
  else
    "found " ++ e.Found ++ ", expected " ++ strings.Join e.Expected ", " ++ " at line "
      ++ toString (int64 (e.Pos.Line + 1)) ++ ", char " ++ toString (int64 (e.Pos.Char + 1))

/-! ## Go library functions: strconv -/

/-- The value of a decimal digit character (Go: `c - '0'`). -/
def digitVal (c : Char) : Nat := c.toNat - 48

/-- Modelled from the spec: isDigit (scanner.go is missing), "the last character
is itself a digit": the ASCII digits. -/
def isDigit (ch : Char) : Bool := decide ('0' ≤ ch) && decide (ch ≤ '9')

/-- The loop of Go's strconv.ParseUint(s, 10, 64) over the characters of the
text, with `n` the value read so far: a non-digit is a syntax error with value
0, a value beyond 2^64 - 1 a range error with value 2^64 - 1. -/
def ParseUintLoop : List Char → Nat → Nat × Option Error
  | [], n => (n, none)
  | c :: cs, n =>
    if !isDigit c then (0, some .ErrSyntax)
    else if n ≥ (2 ^ 64 - 1) / 10 + 1 then (2 ^ 64 - 1, some .ErrRange)
    else if n * 10 + digitVal c > 2 ^ 64 - 1 then (2 ^ 64 - 1, some .ErrRange)
    else ParseUintLoop cs (n * 10 + digitVal c)

/-- Go's strconv.ParseUint(s, 10, 64). -/
def ParseUint (s : List Char) : Nat × Option Error :=
  if s = [] then (0, some .ErrSyntax) else ParseUintLoop s 0

/-- The part of Go's strconv.ParseInt(s, 10, 64) after the sign is picked off:
convert unsigned and check the range. -/
def ParseIntSigned (neg : Bool) (s : List Char) : Int × Option Error :=
  match ParseUint s with
  | (_, some .ErrSyntax) => (0, some .ErrSyntax)
  | (_, some .ErrInvalidDuration) => (0, some .ErrSyntax)
  | (un, _) =>
    if !neg && un ≥ 2 ^ 63 then (2 ^ 63 - 1, some .ErrRange)
    else if neg && un > 2 ^ 63 then (-(2 ^ 63), some .ErrRange)
    else if neg then (-(un : Int), none) else ((un : Int), none)

/-- Go's strconv.ParseInt(s, 10, 64): an optional sign followed by decimal
digits, in the range of int64. -/
def ParseInt (s : String) : Int × Option Error :=
  match s.data with
  | [] => (0, some .ErrSyntax)
  | '+' :: cs => ParseIntSigned false cs
  | '-' :: cs => ParseIntSigned true cs
  | cs => ParseIntSigned false cs

/-! ## parser.go: the duration codec -/

/-- Go's time.Microsecond, in nanoseconds. -/
def Microsecond : Int := 1000
/-- Go's time.Millisecond. -/
def Millisecond : Int := 1000 * Microsecond
/-- Go's time.Second. -/
def Second : Int := 1000 * Millisecond
/-- Go's time.Minute. -/
def Minute : Int := 60 * Second
/-- Go's time.Hour. -/
def Hour : Int := 60 * Minute

/-- The function split splits a string into a slice of runes. -/
def split (s : String) : List Char := s.data

/-- ParseDuration parses a time duration from a string.  The result is the Go
pair (duration, error).  Strings are sequences of characters (valid UTF-8), so
the byte test `s[len(s)-2:] == "ms"` is the test that the last two characters
are `m` and `s`; `len(s)` is the length in bytes. -/
def ParseDuration (s : String) : Int × Option Error :=
  -- Return an error if the string is blank.
  if s.utf8ByteSize = 0 then (0, some .ErrInvalidDuration)
  -- If there's only character then it must be a digit (in microseconds).
  else if s.utf8ByteSize = 1 then
    match ParseInt s with
    | (_, some _) => (0, some .ErrInvalidDuration)
    | (n, none) => (int64 (n * Microsecond), none)
  else
    -- Split string into individual runes.
    let a := split s
    -- Extract the unit of measure.
    let numuom : String × String :=
      if (match a.getLast? with | some c => isDigit c | none => false) then (s, "u")
      else if s.utf8ByteSize > 2 && a.drop (a.length - 2) == ['m', 's'] then
        (String.mk (a.take (a.length - 2)), "ms")
      else (String.mk (a.take (a.length - 1)), String.mk (a.drop (a.length - 1)))
    -- Parse the numeric part.
    match ParseInt numuom.1 with
    | (_, some _) => (0, some .ErrInvalidDuration)
    | (n, none) =>
      -- Multiply by the unit of measure.
      if numuom.2 = "u" ∨ numuom.2 = "µ" then (int64 (n * Microsecond), none)
      else if numuom.2 = "ms" then (int64 (n * Millisecond), none)
      else if numuom.2 = "s" then (int64 (n * Second), none)
      else if numuom.2 = "m" then (int64 (n * Minute), none)
      else if numuom.2 = "h" then (int64 (n * Hour), none)
      else if numuom.2 = "d" then (int64 (int64 (n * 24) * Hour), none)
      else if numuom.2 = "w" then (int64 (int64 (int64 (n * 7) * 24) * Hour), none)
      else (0, some .ErrInvalidDuration)

/-- FormatDuration formats a duration to a string.  Go's `%` and `/` on
integers truncate toward zero (`Int.tmod`, `Int.tdiv`) and `%d` prints the
decimal numeral, with a minus sign for a negative number. -/
def FormatDuration (d : Int) : String :=
  if d = 0 then "0s"
  else if d.tmod (7 * 24 * Hour) = 0 then toString (d.tdiv (7 * 24 * Hour)) ++ "w"
  else if d.tmod (24 * Hour) = 0 then toString (d.tdiv (24 * Hour)) ++ "d"
  else if d.tmod Hour = 0 then toString (d.tdiv Hour) ++ "h"
  else if d.tmod Minute = 0 then toString (d.tdiv Minute) ++ "m"
  else if d.tmod Second = 0 then toString (d.tdiv Second) ++ "s"
  else if d.tmod Millisecond = 0 then toString (d.tdiv Millisecond) ++ "ms"
  else toString (d.tdiv Microsecond)

/-! ## Values of the Go library types kept in the tree -/

/-- A Go float64, as its IEEE 754 bit pattern. -/
structure Float64 where
  bits : Nat
  deriving DecidableEq, Repr

/-- A Go time.Time, as seconds and nanoseconds since the Unix epoch (UTC). -/
structure Time where
  sec : Int
  nsec : Int
  deriving DecidableEq, Repr

/-- The Go library functions the parser calls whose results are not computed
here: strconv.ParseFloat(lit, 64) and time.Parse(layout, value), each giving
`none` for a Go error, and the text `err.Error()` of the error that
strconv.Atoi returns for a text it rejects. -/
structure Stdlib where
  ParseFloat : String → Option Float64
  TimeParse : String → String → Option Time
  AtoiErrorText : String → String

/-- DateFormat represents the format for date literals. -/
def DateFormat : String := "2006-01-02"

/-- DateTimeFormat represents the format for date time literals. -/
def DateTimeFormat : String := "2006-01-02 15:04:05.999999"

/-- Modelled from the spec: the expression node types (ast.go is missing).
"Variable reference (name), number literal (64-bit float), string literal,
boolean literal, time literal (absolute timestamp), duration literal (machine
duration), wildcard, binary expression (left expr, operator, right expr),
parenthesized expression (wraps one expr), function call (name, ordered
argument expressions, possibly empty)"; the constructors and fields carry the
names parser.go uses when it builds the nodes. -/
inductive Expr
  | VarRef (Val : String)
  | NumberLiteral (Val : Float64)
  | StringLiteral (Val : String)
  | BooleanLiteral (Val : Bool)
  | TimeLiteral (Val : Time)
  | DurationLiteral (Val : Int)
  | Wildcard
  | BinaryExpr (Op : Token) (LHS : Expr) (RHS : Expr)
  | ParenExpr (Expr : Expr)
  | Call (Name : String) (Args : List Expr)
  deriving Repr

/-- The outcome of running a parser method with a bound on the number of nested
calls and loop iterations: the Go result `(v, nil)` together with the parser
state it leaves, the Go result `(nil, err)`, or the bound was reached. -/
inductive Result (α : Type)
  | ok (v : α) (p : Parser)
  | error (e : ParseError)
  | outOfFuel
  deriving Repr

/-! ## parser.go: the expression parser -/

/-- The regular expression `^\d{4}-\d{2}-\d{2}$` on a text (Go's `\d` is an
ASCII digit and `$` the end of the text). -/
def matchDate : List Char → Bool
  | [y1, y2, y3, y4, '-', m1, m2, '-', d1, d2] =>
    isDigit y1 && isDigit y2 && isDigit y3 && isDigit y4 && isDigit m1 && isDigit m2
      && isDigit d1 && isDigit d2
  | _ => false

/-- The function isDateString returns true if the string looks like a date-only
time literal. -/
def isDateString (s : String) : Bool := matchDate s.data

/-- The regular expression ` \d{2}:\d{2}:\d{2}(?:\.\d+)?$`, the part of
dateTimeStringRegexp after the date. -/
def matchClock : List Char → Bool
  | ' ' :: h1 :: h2 :: ':' :: m1 :: m2 :: ':' :: s1 :: s2 :: rest =>
    isDigit h1 && isDigit h2 && isDigit m1 && isDigit m2 && isDigit s1 && isDigit s2
      && (match rest with
          | [] => true
          | '.' :: frac => !frac.isEmpty && frac.all isDigit
          | _ => false)
  | _ => false

/-- The function isDateTimeString returns true if the string looks like a
date+time time literal: the regular expression
`^\d{4}-\d{2}-\d{2} \d{2}:\d{2}:\d{2}(?:\.\d+)?$`. -/
def isDateTimeString (s : String) : Bool :=
  matchDate (s.data.take 10) && matchClock (s.data.drop 10)

/-- The last statement of the loop of ParseExpr: assign the new root based on
the precedence of the LHS and RHS operators. -/
def assignRoot (expr : Expr) (op : Token) (rhs : Expr) : Expr :=
  match expr with
  | .BinaryExpr lop l r =>
    if lop.Precedence < op.Precedence then .BinaryExpr lop l (.BinaryExpr op r rhs)
    else .BinaryExpr op expr rhs
  | _ => .BinaryExpr op expr rhs

mutual
/-- ParseExpr parses an expression.  The first argument of each function of
this block bounds the nested calls and loop iterations. -/
def ParseExpr (go : Stdlib) : Nat → Parser → Result Expr
  | 0, _ => .outOfFuel
  | fuel + 1, p =>
    match parseUnaryExpr go fuel p with
    | .ok expr p => ParseExprLoop go fuel expr p
    | .error e => .error e
    | .outOfFuel => .outOfFuel
/-- The loop of ParseExpr over operations and unary exprs, `expr` being the
root of the expression tree so far. -/
def ParseExprLoop (go : Stdlib) : Nat → Expr → Parser → Result Expr
  | 0, _, _ => .outOfFuel
  | fuel + 1, expr, p =>
    let op := (p.scanIgnoreWhitespace).1
    let p := (p.scanIgnoreWhitespace).2
    if !op.tok.isOperator then .ok expr p.unscan
    else
      match parseUnaryExpr go fuel p with
      | .ok rhs p => ParseExprLoop go fuel (assignRoot expr op.tok rhs) p
      | .error e => .error e
      | .outOfFuel => .outOfFuel
/-- The method parseUnaryExpr parses an non-binary expression. -/
def parseUnaryExpr (go : Stdlib) : Nat → Parser → Result Expr
  | 0, _ => .outOfFuel
  | fuel + 1, p =>
    if (p.scanIgnoreWhitespace).1.tok = .LPAREN then
      match ParseExpr go fuel (p.scanIgnoreWhitespace).2 with
      | .ok expr p =>
        let t := (p.scanIgnoreWhitespace).1
        if t.tok ≠ .RPAREN then .error (newParseError (tokstr t.tok t.lit) [")"] t.pos)
        else .ok (.ParenExpr expr) (p.scanIgnoreWhitespace).2
      | .error e => .error e
      | .outOfFuel => .outOfFuel
    else
      let p := (p.scanIgnoreWhitespace).2.unscan
      let t := (p.scanIgnoreWhitespace).1
      let p := (p.scanIgnoreWhitespace).2
      match t.tok with
      | .IDENT =>
        if (p.scan).1.tok = .LPAREN then parseCall go fuel t.lit (p.scan).2
        else .ok (.VarRef t.lit) (p.scan).2.unscan
      | .STRING =>
        if isDateTimeString t.lit then
          match go.TimeParse DateTimeFormat t.lit with
          | none => .error { Message := "unable to parse datetime", Found := "", Expected := [], Pos := t.pos }
          | some v => .ok (.TimeLiteral v) p
        else if isDateString t.lit then
          match go.TimeParse DateFormat t.lit with
          | none => .error { Message := "unable to parse date", Found := "", Expected := [], Pos := t.pos }
          | some v => .ok (.TimeLiteral v) p
        else .ok (.StringLiteral t.lit) p
      | .NUMBER =>
        match go.ParseFloat t.lit with
        | none => .error { Message := "unable to parse number", Found := "", Expected := [], Pos := t.pos }
        | some v => .ok (.NumberLiteral v) p
      | .TRUE => .ok (.BooleanLiteral true) p
      | .FALSE => .ok (.BooleanLiteral false) p
      | .DURATION_VAL => .ok (.DurationLiteral (ParseDuration t.lit).1) p
      | _ => .error (newParseError (tokstr t.tok t.lit) ["identifier", "string", "number", "bool"] t.pos)
/-- The method parseCall parses a function call.  This function assumes the
function name and LPAREN have been consumed. -/
def parseCall (go : Stdlib) : Nat → String → Parser → Result Expr
  | 0, _, _ => .outOfFuel
  | fuel + 1, name, p =>
    if (p.scan).1.tok = .RPAREN then .ok (.Call name []) (p.scan).2
    else parseCallArgs go fuel name [] (p.scan).2.unscan
/-- The argument loop of parseCall with the check of the closing parenthesis
that follows it, `args` being the arguments parsed so far. -/
def parseCallArgs (go : Stdlib) : Nat → String → List Expr → Parser → Result Expr
  | 0, _, _, _ => .outOfFuel
  | fuel + 1, name, args, p =>
    match ParseExpr go fuel p with
    | .ok arg p =>
      if (p.scan).1.tok ≠ .COMMA then
        let p := (p.scan).2.unscan
        let t := (p.scan).1
        if t.tok ≠ .RPAREN then .error (newParseError (tokstr t.tok t.lit) [")"] t.pos)
        else .ok (.Call name (args ++ [arg])) (p.scan).2
      else parseCallArgs go fuel name (args ++ [arg]) (p.scan).2
    | .error e => .error e
    | .outOfFuel => .outOfFuel
end


/-! ## token.go: the keyword table -/

/-- Every token, in the order of the `iota` block of token.go. -/
def allTokens : List Token :=
  [Token.ILLEGAL, Token.EOF, Token.WS, Token.literal_beg, Token.IDENT, Token.NUMBER, Token.DURATION_VAL, Token.STRING, Token.BADSTRING,
   Token.BADESCAPE, Token.TRUE, Token.FALSE, Token.literal_end, Token.operator_beg, Token.ADD, Token.SUB, Token.MUL, Token.DIV, Token.AND, Token.OR,
   Token.EQ, Token.NEQ, Token.LT, Token.LTE, Token.GT, Token.GTE, Token.operator_end, Token.LPAREN, Token.RPAREN, Token.COMMA, Token.SEMICOLON, Token.DOT,
   Token.keyword_beg, Token.ALL, Token.ALTER, Token.AS, Token.ASC, Token.BEGIN, Token.BY, Token.CREATE, Token.CONTINUOUS, Token.DATABASE,
   Token.DATABASES, Token.DEFAULT, Token.DELETE, Token.DESC, Token.DROP, Token.DURATION, Token.END, Token.EXISTS, Token.EXPLAIN, Token.FIELD,
   Token.FROM, Token.GRANT, Token.GROUP, Token.IF, Token.INNER, Token.INSERT, Token.INTO, Token.KEYS, Token.LIMIT, Token.LIST, Token.MEASUREMENT,
   Token.MEASUREMENTS, Token.ON, Token.ORDER, Token.PASSWORD, Token.POLICY, Token.PRIVILEGES, Token.QUERIES, Token.QUERY, Token.READ,
   Token.REPLICATION, Token.RETENTION, Token.REVOKE, Token.SELECT, Token.SERIES, Token.TAG, Token.TO, Token.USER, Token.VALUES, Token.WHERE,
   Token.WITH, Token.WRITE, Token.keyword_end]

/-- Go's strings.ToUpper, on the characters of ASCII (the texts it is applied
to here are ASCII); other characters are left as they are. -/
def ToUpper (s : String) : String := String.mk (s.data.map Char.toUpper)

/-- Go's strings.ToLower, on the characters of ASCII (the spellings of the
tokens and the identifiers of the lexer are ASCII); other characters are left
as they are. -/
def ToLower (s : String) : String := String.mk (s.data.map Char.toLower)

/-- The assignment `keywords[key] = tok` on the map held as a list of entries,
the newest first. -/
def keywordsSet (m : List (String × Token)) (key : String) (tok : Token) :
    List (String × Token) :=
  (key, tok) :: m

/-- The map `keywords` as the function init leaves it: for every token between
keyword_beg and keyword_end, and then for AND and OR, the upper-cased and the
lower-cased spelling are set to the token; then `true` and `false` are set. -/
def keywords : List (String × Token) :=
  let m : List (String × Token) := []
  let m := (allTokens.filter fun tok =>
      decide (Token.keyword_beg.toInt + 1 ≤ tok.toInt) && decide (tok.toInt < Token.keyword_end.toInt)).foldl
    (fun m tok => keywordsSet (keywordsSet m (ToUpper tok.String) tok) (ToLower tok.String) tok) m
  let m := [Token.AND, Token.OR].foldl
    (fun m tok => keywordsSet (keywordsSet m (ToUpper tok.String) tok) (ToLower tok.String) tok) m
  let m := keywordsSet m "true" .TRUE
  keywordsSet m "false" .FALSE

/-- Lookup returns the token associated with a given string. -/
def Lookup (ident : String) : Token :=
  match keywords.lookup ident with
  | some tok => tok
  | none => .IDENT

/-! ## parser.go: quoting -/

/-- The replacer of Quote: a newline (character 10) becomes a backslash
(character 92) followed by `n`, a backslash becomes two backslashes, a double
quote (character 34) becomes a backslash followed by a double quote; every
other character stays.  The three old strings are single characters, so the
replacement goes character by character. -/
def quoteReplace : List Char → List Char
  | [] => []
  | c :: cs =>
    (if c = Char.ofNat 10 then [Char.ofNat 92, 'n']
     else if c = Char.ofNat 92 then [Char.ofNat 92, Char.ofNat 92]
     else if c = Char.ofNat 34 then [Char.ofNat 92, Char.ofNat 34]
     else [c]) ++ quoteReplace cs

/-- Quote returns a quoted string. -/
def Quote (s : String) : String :=
  String.mk ([Char.ofNat 34] ++ quoteReplace s.data ++ [Char.ofNat 34])

/-- The character class `[a-zA-Z_.]`. -/
def isIdentClass (c : Char) : Bool :=
  (decide ('a' ≤ c) && decide (c ≤ 'z')) || (decide ('A' ≤ c) && decide (c ≤ 'Z'))
    || c == '_' || c == '.'

/-- QuoteIdent returns a quoted identifier if the identifier requires quoting.
Otherwise returns the original string passed in.  The regular expression
`[^a-zA-Z_.]` matches a string when some character of it is outside the
class. -/
def QuoteIdent (s : String) : String :=
  if s = "" ∨ s.data.any (fun c => !isIdentClass c) then Quote s else s

/-! ## The statement nodes -/

/-- Modelled from the spec: Measurement (ast.go is missing), "Measurement{name}". -/
structure Measurement where
  Name : String
  deriving Repr

/-- Modelled from the spec: Join (ast.go is missing), "Join{ordered measurement
list}". -/
structure Join where
  Measurements : List Measurement
  deriving Repr

/-- Modelled from the spec: Merge (ast.go is missing), "Merge{ordered
measurement list}". -/
structure Merge where
  Measurements : List Measurement
  deriving Repr

/-- Modelled from the spec: Source (ast.go is missing), "polymorphic variant:
Measurement, Join, Merge". -/
inductive Source
  | measurement (m : Measurement)
  | join (j : Join)
  | merge (m : Merge)
  deriving Repr

/-- Modelled from the spec: Field (ast.go is missing), "Field{expr, optional
alias}"; the alias is a Go string, empty when absent. -/
structure Field where
  Expr : Expr
  Alias : String
  deriving Repr

/-- Modelled from the spec: Dimension (ast.go is missing), "Dimension{expr}". -/
structure Dimension where
  Expr : Expr
  deriving Repr

/-- Modelled from the spec: SortField (ast.go is missing), "SortField{optional
name, ascending-flag}". -/
structure SortField where
  Name : String
  Ascending : Bool
  deriving Repr

/-- Modelled from the spec: Target (ast.go is missing), "Target{optional
retention-policy, measurement, optional database}". -/
structure Target where
  RetentionPolicy : String
  Measurement : String
  DB : String
  deriving Repr

/-- Modelled from the spec: Privilege (ast.go is missing), "enumeration {Read,
Write, All}", under the names parser.go uses. -/
inductive Privilege
  | ReadPrivilege
  | WritePrivilege
  | AllPrivileges
  deriving DecidableEq, Repr

/-- Modelled from the spec: SelectStatement (ast.go is missing), "Select{fields,
optional target, source, optional condition, dimensions, sort fields, limit}".
A Go nil pointer or interface is `none`, a nil slice the empty list. -/
structure SelectStatement where
  Fields : List Field
  Target : Option Target
  Source : Source
  Condition : Option Expr
  Dimensions : List Dimension
  SortFields : List SortField
  Limit : Int
  deriving Repr

/-- Modelled from the spec: DeleteStatement (ast.go is missing), "Delete{source,
optional condition}". -/
structure DeleteStatement where
  Source : Source
  Condition : Option Expr
  deriving Repr

/-- Modelled from the spec: ListSeriesStatement (ast.go is missing), a List
statement with condition, sort fields and limit. -/
structure ListSeriesStatement where
  Condition : Option Expr
  SortFields : List SortField
  Limit : Int
  deriving Repr

/-- Modelled from the spec: ListMeasurementsStatement (ast.go is missing), a
List statement with condition, sort fields and limit. -/
structure ListMeasurementsStatement where
  Condition : Option Expr
  SortFields : List SortField
  Limit : Int
  deriving Repr

/-- Modelled from the spec: ListTagKeysStatement (ast.go is missing), a List
statement with source, condition, sort fields and limit. -/
structure ListTagKeysStatement where
  Source : Source
  Condition : Option Expr
  SortFields : List SortField
  Limit : Int
  deriving Repr

/-- Modelled from the spec: ListTagValuesStatement (ast.go is missing), a List
statement with source, condition, sort fields and limit. -/
structure ListTagValuesStatement where
  Source : Source
  Condition : Option Expr
  SortFields : List SortField
  Limit : Int
  deriving Repr

/-- Modelled from the spec: ListFieldKeysStatement (ast.go is missing), a List
statement with source, condition, sort fields and limit. -/
structure ListFieldKeysStatement where
  Source : Source
  Condition : Option Expr
  SortFields : List SortField
  Limit : Int
  deriving Repr

/-- Modelled from the spec: ListFieldValuesStatement (ast.go is missing), a List
statement with source, condition, sort fields and limit. -/
structure ListFieldValuesStatement where
  Source : Source
  Condition : Option Expr
  SortFields : List SortField
  Limit : Int
  deriving Repr

/-- Modelled from the spec: ListContinuousQueriesStatement (ast.go is missing),
a statement without fields. -/
structure ListContinuousQueriesStatement where
  deriving Repr

/-- Modelled from the spec: ListDatabasesStatement (ast.go is missing), a
statement without fields. -/
structure ListDatabasesStatement where
  deriving Repr

/-- Modelled from the spec: DropSeriesStatement (ast.go is missing),
"DropSeries{name}". -/
structure DropSeriesStatement where
  Name : String
  deriving Repr

/-- Modelled from the spec: DropContinuousQueryStatement (ast.go is missing),
"DropContinuousQuery{name}". -/
structure DropContinuousQueryStatement where
  Name : String
  deriving Repr

/-- Modelled from the spec: DropDatabaseStatement (ast.go is missing),
"DropDatabase{name}". -/
structure DropDatabaseStatement where
  Name : String
  deriving Repr

/-- Modelled from the spec: DropUserStatement (ast.go is missing),
"DropUser{name}". -/
structure DropUserStatement where
  Name : String
  deriving Repr

/-- Modelled from the spec: CreateDatabaseStatement (ast.go is missing),
"CreateDatabase{name}". -/
structure CreateDatabaseStatement where
  Name : String
  deriving Repr

/-- Modelled from the spec: CreateUserStatement (ast.go is missing),
"CreateUser{name, password}". -/
structure CreateUserStatement where
  Name : String
  Password : String
  deriving Repr

/-- Modelled from the spec: CreateContinuousQueryStatement (ast.go is missing),
"CreateContinuousQuery{name, database, inner select (target required)}". -/
structure CreateContinuousQueryStatement where
  Name : String
  DB : String
  Source : SelectStatement
  deriving Repr

/-- Modelled from the spec: CreateRetentionPolicyStatement (ast.go is missing),
"CreateRetentionPolicy{name, database, duration, replication, is-default}". -/
structure CreateRetentionPolicyStatement where
  Name : String
  DB : String
  Duration : Int
  Replication : Int
  Default : Bool
  deriving Repr

/-- Modelled from the spec: AlterRetentionPolicyStatement (ast.go is missing),
"AlterRetentionPolicy{name, database, optional duration, optional replication,
is-default}". -/
structure AlterRetentionPolicyStatement where
  Name : String
  DB : String
  Duration : Option Int
  Replication : Option Int
  Default : Bool
  deriving Repr

/-- Modelled from the spec: GrantStatement (ast.go is missing),
"Grant{privilege, optional object-name, user}". -/
structure GrantStatement where
  Privilege : Privilege
  On : String
  User : String
  deriving Repr

/-- Modelled from the spec: RevokeStatement (ast.go is missing),
"Revoke{privilege, optional object-name, user}". -/
structure RevokeStatement where
  Privilege : Privilege
  On : String
  User : String
  deriving Repr

/-- Modelled from the spec: Statement (ast.go is missing), the closed union of
the statement variants. -/
inductive Statement
  | Select (s : SelectStatement)
  | Delete (s : DeleteStatement)
  | ListSeries (s : ListSeriesStatement)
  | ListMeasurements (s : ListMeasurementsStatement)
  | ListTagKeys (s : ListTagKeysStatement)
  | ListTagValues (s : ListTagValuesStatement)
  | ListFieldKeys (s : ListFieldKeysStatement)
  | ListFieldValues (s : ListFieldValuesStatement)
  | ListContinuousQueries (s : ListContinuousQueriesStatement)
  | ListDatabases (s : ListDatabasesStatement)
  | DropSeries (s : DropSeriesStatement)
  | DropContinuousQuery (s : DropContinuousQueryStatement)
  | DropDatabase (s : DropDatabaseStatement)
  | DropUser (s : DropUserStatement)
  | CreateDatabase (s : CreateDatabaseStatement)
  | CreateUser (s : CreateUserStatement)
  | CreateContinuousQuery (s : CreateContinuousQueryStatement)
  | CreateRetentionPolicy (s : CreateRetentionPolicyStatement)
  | AlterRetentionPolicy (s : AlterRetentionPolicyStatement)
  | Grant (s : GrantStatement)
  | Revoke (s : RevokeStatement)
  deriving Repr

/-- Modelled from the spec: Query (ast.go is missing), "ordered sequence of
Statement (insertion order = source order)". -/
structure Query where
  Statements : List Statement
  deriving Repr

/-! ## parser.go: the statement parser -/

/-- The Go idiom `v, err := f(); if err != nil { return nil, err }` followed by
the rest of the function: the rest runs on the value and the parser state that
`f` leaves. -/
def Result.bind {α β : Type} (r : Result α) (k : α → Parser → Result β) : Result β :=
  match r with
  | .ok v p => k v p
  | .error e => .error e
  | .outOfFuel => .outOfFuel

/-- A result of a statement parser returned as a Statement. -/
def Result.map {α β : Type} (f : α → β) (r : Result α) : Result β :=
  r.bind fun v p => .ok (f v) p

/-- The method consumeWhitespace scans the next token if it's whitespace. -/
def Parser.consumeWhitespace (p : Parser) : Parser :=
  if (p.scan).1.tok ≠ .WS then (p.scan).2.unscan else (p.scan).2

/-- A ParseError that carries a message, `&ParseError{Message: m, Pos: pos}`. -/
def messageError (m : String) (pos : Pos) : ParseError :=
  { Message := m, Found := "", Expected := [], Pos := pos }

/-- Go's math.MaxInt32. -/
def MaxInt32 : Int := 2147483647

/-- Go's strconv.Atoi on a platform with 64-bit int. -/
def Atoi (s : String) : Int × Option Error := ParseInt s

/-- The function parseTokens consumes an expected sequence of tokens. -/
def parseTokens : List Token → Parser → Result Unit
  | [], p => .ok () p
  | expected :: toks, p =>
    let t := (p.scanIgnoreWhitespace).1
    let p := (p.scanIgnoreWhitespace).2
    if t.tok ≠ expected then
      .error (newParseError (tokstr t.tok t.lit) [expected.String] t.pos)
    else parseTokens toks p

/-- The method parseInt parses a string and returns an integer literal. -/
def parseInt (go : Stdlib) (min max : Int) (p : Parser) : Result Int :=
  let t := (p.scanIgnoreWhitespace).1
  let p := (p.scanIgnoreWhitespace).2
  if t.tok ≠ .NUMBER then .error (newParseError (tokstr t.tok t.lit) ["number"] t.pos)
  -- Return an error if the number has a fractional part.
  else if '.' ∈ t.lit.data then .error (messageError "number must be an integer" t.pos)
  else
    -- Convert string to int.
    match Atoi t.lit with
    | (_, some _) => .error (messageError (go.AtoiErrorText t.lit) t.pos)
    | (n, none) =>
      if min > n ∨ n > max then
        .error (messageError ("invalid value " ++ toString n ++ ": must be " ++ toString min
          ++ " <= n <= " ++ toString max) t.pos)
      else .ok n p

/-- The method parseDuration parses a string and returns a duration literal.
This function assumes the DURATION token has already been consumed. -/
def parseDuration (p : Parser) : Result Int :=
  let t := (p.scanIgnoreWhitespace).1
  let p := (p.scanIgnoreWhitespace).2
  if t.tok ≠ .DURATION_VAL then
    .error (newParseError (tokstr t.tok t.lit) ["duration"] t.pos)
  else
    match ParseDuration t.lit with
    | (_, some _) => .error (messageError "invalid duration" t.pos)
    | (d, none) => .ok d p

/-- The method parseIdentifier parses a string and returns an identifier. -/
def parseIdentifier (p : Parser) : Result String :=
  let t := (p.scanIgnoreWhitespace).1
  let p := (p.scanIgnoreWhitespace).2
  if t.tok ≠ .IDENT ∧ t.tok ≠ .STRING then
    .error (newParseError (tokstr t.tok t.lit) ["identifier"] t.pos)
  else .ok t.lit p

/-- The method parseCreateRetentionPolicyStatement parses a string and returns
a create retention policy statement.  This function assumes the CREATE
RETENTION POLICY tokens have already been consumed. -/
def parseCreateRetentionPolicyStatement (go : Stdlib) (p : Parser) :
    Result CreateRetentionPolicyStatement :=
  -- Parse the retention policy name.
  (parseIdentifier p).bind fun name p =>
  -- Consume the required ON token.
  let t := (p.scanIgnoreWhitespace).1
  let p := (p.scanIgnoreWhitespace).2
  if t.tok ≠ .ON then .error (newParseError (tokstr t.tok t.lit) ["ON"] t.pos)
  else
  -- Parse the database name.
  (parseIdentifier p).bind fun db p =>
  -- Parse required DURATION token.
  let t := (p.scanIgnoreWhitespace).1
  let p := (p.scanIgnoreWhitespace).2
  if t.tok ≠ .DURATION then .error (newParseError (tokstr t.tok t.lit) ["DURATION"] t.pos)
  else
  -- Parse duration value
  (parseDuration p).bind fun d p =>
  -- Parse required REPLICATION token.
  let t := (p.scanIgnoreWhitespace).1
  let p := (p.scanIgnoreWhitespace).2
  if t.tok ≠ .REPLICATION then
    .error (newParseError (tokstr t.tok t.lit) ["REPLICATION"] t.pos)
  else
  -- Parse replication value.
  (parseInt go 1 MaxInt32 p).bind fun n p =>
  -- Parse optional DEFAULT token.
  let t := (p.scanIgnoreWhitespace).1
  let p := (p.scanIgnoreWhitespace).2
  if t.tok = .DEFAULT then
    .ok { Name := name, DB := db, Duration := d, Replication := n, Default := true } p
  else
    .ok { Name := name, DB := db, Duration := d, Replication := n, Default := false } p.unscan

/-- The loop of parseAlterRetentionPolicyStatement through the option tokens:
`k` iterations are left, `i` is the loop counter. -/
def parseAlterOptions (go : Stdlib) :
    Nat → Nat → AlterRetentionPolicyStatement → Parser → Result AlterRetentionPolicyStatement
  | 0, _, stmt, p => .ok stmt p
  | k + 1, i, stmt, p =>
    let t := (p.scanIgnoreWhitespace).1
    let p := (p.scanIgnoreWhitespace).2
    match t.tok with
    | .DURATION =>
      (parseDuration p).bind fun d p =>
        parseAlterOptions go k (i + 1) { stmt with Duration := some d } p
    | .REPLICATION =>
      (parseInt go 1 MaxInt32 p).bind fun n p =>
        parseAlterOptions go k (i + 1) { stmt with Replication := some n } p
    | .DEFAULT => parseAlterOptions go k (i + 1) { stmt with Default := true } p
    | _ =>
      if i < 1 then
        .error (newParseError (tokstr t.tok t.lit) ["DURATION", "RETENTION", "DEFAULT"] t.pos)
      else .ok stmt p.unscan

/-- The method parseAlterRetentionPolicyStatement parses a string and returns
an alter retention policy statement.  This function assumes the ALTER RETENTION
POLICY tokens have already been consumed. -/
def parseAlterRetentionPolicyStatement (go : Stdlib) (p : Parser) :
    Result AlterRetentionPolicyStatement :=
  -- Parse the retention policy name.
  (parseIdentifier p).bind fun name p =>
  -- Consume the required ON token.
  let t := (p.scanIgnoreWhitespace).1
  let p := (p.scanIgnoreWhitespace).2
  if t.tok ≠ .ON then .error (newParseError (tokstr t.tok t.lit) ["ON"] t.pos)
  else
  -- Parse the database name.
  (parseIdentifier p).bind fun db p =>
  -- Loop through option tokens (DURATION, REPLICATION, DEFAULT, etc.).
  parseAlterOptions go 3 0
    { Name := name, DB := db, Duration := none, Replication := none, Default := false } p

/-- The method parsePrivilege parses a string and returns a Privilege. -/
def parsePrivilege (p : Parser) : Result Privilege :=
  let t := (p.scanIgnoreWhitespace).1
  let p := (p.scanIgnoreWhitespace).2
  match t.tok with
  | .READ => .ok .ReadPrivilege p
  | .WRITE => .ok .WritePrivilege p
  | .ALL =>
    -- Consume optional PRIVILEGES token
    if (p.scanIgnoreWhitespace).1.tok ≠ .PRIVILEGES then
      .ok .AllPrivileges (p.scanIgnoreWhitespace).2.unscan
    else .ok .AllPrivileges (p.scanIgnoreWhitespace).2
  | _ => .error (newParseError (tokstr t.tok t.lit) ["READ", "WRITE", "ALL [PRIVILEGES]"] t.pos)

/-- The ON clause of parseGrantStatement and parseRevokeStatement: the value of
`stmt.On` and the token `tok, pos, lit` that is current after the clause. -/
def parseOnClause (priv : Privilege) (p : Parser) : Result (String × Lexeme) :=
  let t := (p.scanIgnoreWhitespace).1
  let p := (p.scanIgnoreWhitespace).2
  if t.tok = .ON then
    -- Parse the name of the thing we're granting a privilege to use.
    let t := (p.scanIgnoreWhitespace).1
    let p := (p.scanIgnoreWhitespace).2
    if t.tok ≠ .IDENT ∧ t.tok ≠ .STRING then
      .error (newParseError (tokstr t.tok t.lit) ["identifier", "string"] t.pos)
    else .ok (t.lit, (p.scanIgnoreWhitespace).1) (p.scanIgnoreWhitespace).2
  else if priv ≠ .AllPrivileges then
    -- ALL PRIVILEGES is the only privilege allowed cluster-wide.
    .error (newParseError (tokstr t.tok t.lit) ["ON"] t.pos)
  else .ok ("", t) p

/-- The method parseRevokeStatement parses a string and returns a revoke
statement.  This function assumes the REVOKE token has already been consumed. -/
def parseRevokeStatement (p : Parser) : Result RevokeStatement :=
  -- Parse the privilege to be granted.
  (parsePrivilege p).bind fun priv p =>
  -- Parse ON clause.
  (parseOnClause priv p).bind fun onc p =>
  -- Check for required FROM token.
  if onc.2.tok ≠ .FROM then
    .error (newParseError (tokstr onc.2.tok onc.2.lit) ["FROM"] onc.2.pos)
  else
  -- Parse the name of the user we're granting the privilege to.
  let t := (p.scanIgnoreWhitespace).1
  let p := (p.scanIgnoreWhitespace).2
  if t.tok ≠ .IDENT ∧ t.tok ≠ .STRING then
    .error (newParseError (tokstr t.tok t.lit) ["identifier", "string"] t.pos)
  else .ok { Privilege := priv, On := onc.1, User := t.lit } p

/-- The method parseGrantStatement parses a string and returns a grant
statement.  This function assumes the GRANT token has already been consumed. -/
def parseGrantStatement (p : Parser) : Result GrantStatement :=
  -- Parse the privilege to be granted.
  (parsePrivilege p).bind fun priv p =>
  -- Parse ON clause.
  (parseOnClause priv p).bind fun onc p =>
  -- Check for required TO token.
  if onc.2.tok ≠ .TO then
    .error (newParseError (tokstr onc.2.tok onc.2.lit) ["TO"] onc.2.pos)
  else
  -- Parse the name of the user we're granting the privilege to.
  let t := (p.scanIgnoreWhitespace).1
  let p := (p.scanIgnoreWhitespace).2
  if t.tok ≠ .IDENT ∧ t.tok ≠ .STRING then
    .error (newParseError (tokstr t.tok t.lit) ["identifier", "string"] t.pos)
  else .ok { Privilege := priv, On := onc.1, User := t.lit } p

/-- The type targetRequirement specifies whether or not a target clause is
required. -/
inductive targetRequirement
  | targetRequired
  | targetNotRequired
  deriving DecidableEq, Repr

/-- The method parseTarget parses a string and returns a Target. -/
def parseTarget (tr : targetRequirement) (p : Parser) : Result (Option Target) :=
  let t := (p.scanIgnoreWhitespace).1
  let p := (p.scanIgnoreWhitespace).2
  if t.tok ≠ .INTO then
    if tr = .targetRequired then .error (newParseError (tokstr t.tok t.lit) ["INTO"] t.pos)
    else .ok none p.unscan
  else
  -- Parse identifier.  Could be policy or measurement name.
  (parseIdentifier p).bind fun ident p =>
  let t := (p.scanIgnoreWhitespace).1
  let p := (p.scanIgnoreWhitespace).2
  (if t.tok = .DOT then
    -- Previous identifier was retention policy name.  Parse required measurement.
    (parseIdentifier p).bind fun measurement p => .ok (ident, measurement) p
   else (.ok ("", ident) p.unscan : Result (String × String))).bind fun names p =>
  -- Parse optional ON.
  if (p.scanIgnoreWhitespace).1.tok ≠ .ON then
    .ok (some { RetentionPolicy := names.1, Measurement := names.2, DB := "" })
      (p.scanIgnoreWhitespace).2.unscan
  else
  -- Found an ON token so parse required identifier.
  (parseIdentifier (p.scanIgnoreWhitespace).2).bind fun db p =>
  .ok (some { RetentionPolicy := names.1, Measurement := names.2, DB := db }) p

/-- The method parseAlias parses the "AS (IDENT|STRING)" alias for fields and
dimensions. -/
def parseAlias (p : Parser) : Result String :=
  -- Check if the next token is "AS". If not, then unscan and exit.
  if (p.scanIgnoreWhitespace).1.tok ≠ .AS then .ok "" (p.scanIgnoreWhitespace).2.unscan
  else
  -- Then we should have the alias identifier.
  let p := (p.scanIgnoreWhitespace).2
  let t := (p.scanIgnoreWhitespace).1
  let p := (p.scanIgnoreWhitespace).2
  if t.tok ≠ .IDENT ∧ t.tok ≠ .STRING then
    .error (newParseError (tokstr t.tok t.lit) ["identifier", "string"] t.pos)
  else .ok t.lit p

/-- The method parseField parses a single field. -/
def parseField (go : Stdlib) (fuel : Nat) (p : Parser) : Result Field :=
  -- Parse the expression first.
  (ParseExpr go fuel p).bind fun expr p =>
  -- Parse the alias if the current and next tokens are "WS AS".
  (parseAlias p).bind fun aliasName p =>
  -- Consume all trailing whitespace.
  .ok { Expr := expr, Alias := aliasName } p.consumeWhitespace

/-- The loop of parseFields, `fields` being the fields parsed so far. -/
def parseFieldsLoop (go : Stdlib) : Nat → List Field → Parser → Result (List Field)
  | 0, _, _ => .outOfFuel
  | fuel + 1, fields, p =>
    -- Parse the field.
    (parseField go fuel p).bind fun f p =>
    -- If there's not a comma next then stop parsing fields.
    if (p.scan).1.tok ≠ .COMMA then .ok (fields ++ [f]) (p.scan).2.unscan
    else parseFieldsLoop go fuel (fields ++ [f]) (p.scan).2

/-- The method parseFields parses a list of one or more fields. -/
def parseFields (go : Stdlib) (fuel : Nat) (p : Parser) : Result (List Field) :=
  -- Check for "*" (i.e., "all fields")
  if (p.scanIgnoreWhitespace).1.tok = .MUL then
    .ok [{ Expr := .Wildcard, Alias := "" }] (p.scanIgnoreWhitespace).2
  else parseFieldsLoop go fuel [] (p.scanIgnoreWhitespace).2.unscan

/-- The measurement loop of parseSource, `measurements` being the measurements
scanned so far. -/
def parseSourceMeasurements : Nat → List Measurement → Parser → Result (List Measurement)
  | 0, _, _ => .outOfFuel
  | fuel + 1, measurements, p =>
    -- Scan the measurement name.
    let t := (p.scanIgnoreWhitespace).1
    let p := (p.scanIgnoreWhitespace).2
    if t.tok ≠ .IDENT ∧ t.tok ≠ .STRING then
      .error (newParseError (tokstr t.tok t.lit) ["measurement name"] t.pos)
    -- If there's not a comma next then stop parsing measurements.
    else if (p.scan).1.tok ≠ .COMMA then
      .ok (measurements ++ [{ Name := t.lit }]) (p.scan).2.unscan
    else parseSourceMeasurements fuel (measurements ++ [{ Name := t.lit }]) (p.scan).2

/-- The method parseSource parses the "FROM" clause of the query. -/
def parseSource (fuel : Nat) (p : Parser) : Result Source :=
  -- The first token can either be the series name or a join/merge call.
  let t := (p.scanIgnoreWhitespace).1
  let p := (p.scanIgnoreWhitespace).2
  if t.tok ≠ .IDENT ∧ t.tok ≠ .STRING then
    .error (newParseError (tokstr t.tok t.lit) ["identifier", "string"] t.pos)
  -- If the token is a string or the next token is not an LPAREN then return a measurement.
  else if t.tok = .STRING ∨ (t.tok = .IDENT ∧ (p.scan).1.tok ≠ .LPAREN) then
    .ok (.measurement { Name := t.lit }) (p.scan).2.unscan
  else
  let p := (p.scan).2
  -- Verify the source type is join/merge.
  let sourceType := ToLower t.lit
  if sourceType ≠ "join" ∧ sourceType ≠ "merge" then
    .error (messageError ("unknown merge type: " ++ sourceType) t.pos)
  else
  -- Parse measurement list.
  (parseSourceMeasurements fuel [] p).bind fun measurements p =>
  -- Expect a closing right paren.
  let t := (p.scanIgnoreWhitespace).1
  let p := (p.scanIgnoreWhitespace).2
  if t.tok ≠ .RPAREN then .error (newParseError (tokstr t.tok t.lit) [")"] t.pos)
  -- Return the appropriate source type.
  else if sourceType = "join" then .ok (.join { Measurements := measurements }) p
  else .ok (.merge { Measurements := measurements }) p

/-- The method parseCondition parses the "WHERE" clause of the query, if it
exists. -/
def parseCondition (go : Stdlib) (fuel : Nat) (p : Parser) : Result (Option Expr) :=
  -- Check if the WHERE token exists.
  if (p.scanIgnoreWhitespace).1.tok ≠ .WHERE then .ok none (p.scanIgnoreWhitespace).2.unscan
  else
  -- Scan the identifier for the source.
  (ParseExpr go fuel (p.scanIgnoreWhitespace).2).bind fun expr p => .ok (some expr) p

/-- The method parseDimension parses a single dimension. -/
def parseDimension (go : Stdlib) (fuel : Nat) (p : Parser) : Result Dimension :=
  -- Parse the expression first.
  (ParseExpr go fuel p).bind fun expr p =>
  -- Consume all trailing whitespace.
  .ok { Expr := expr } p.consumeWhitespace

/-- The loop of parseDimensions, `dimensions` being the dimensions parsed so
far. -/
def parseDimensionsLoop (go : Stdlib) : Nat → List Dimension → Parser → Result (List Dimension)
  | 0, _, _ => .outOfFuel
  | fuel + 1, dimensions, p =>
    -- Parse the dimension.
    (parseDimension go fuel p).bind fun d p =>
    -- If there's not a comma next then stop parsing dimensions.
    if (p.scan).1.tok ≠ .COMMA then .ok (dimensions ++ [d]) (p.scan).2.unscan
    else parseDimensionsLoop go fuel (dimensions ++ [d]) (p.scan).2

/-- The method parseDimensions parses the "GROUP BY" clause of the query, if it
exists. -/
def parseDimensions (go : Stdlib) (fuel : Nat) (p : Parser) : Result (List Dimension) :=
  -- If the next token is not GROUP then exit.
  if (p.scanIgnoreWhitespace).1.tok ≠ .GROUP then .ok [] (p.scanIgnoreWhitespace).2.unscan
  else
  -- Now the next token should be "BY".
  let p := (p.scanIgnoreWhitespace).2
  let t := (p.scanIgnoreWhitespace).1
  let p := (p.scanIgnoreWhitespace).2
  if t.tok ≠ .BY then .error (newParseError (tokstr t.tok t.lit) ["BY"] t.pos)
  else parseDimensionsLoop go fuel [] p

/-- The method parseLimit parses the "LIMIT" clause of the query, if it exists. -/
def parseLimit (p : Parser) : Result Int :=
  -- Check if the LIMIT token exists.
  if (p.scanIgnoreWhitespace).1.tok ≠ .LIMIT then .ok 0 (p.scanIgnoreWhitespace).2.unscan
  else
  -- Scan the limit number.
  let p := (p.scanIgnoreWhitespace).2
  let t := (p.scanIgnoreWhitespace).1
  let p := (p.scanIgnoreWhitespace).2
  if t.tok ≠ .NUMBER then .error (newParseError (tokstr t.tok t.lit) ["number"] t.pos)
  -- Return an error if the number has a fractional part.
  else if '.' ∈ t.lit.data then
    .error (messageError "fractional parts not allowed in limit" t.pos)
  -- Parse number.
  else if (ParseInt t.lit).1 < 1 then .error (messageError "LIMIT must be > 0" t.pos)
  else .ok (ParseInt t.lit).1 p

/-- The method parseSortField parses one field of an ORDER BY clause. -/
def parseSortField (p : Parser) : Result SortField :=
  -- Next token should be ASC, DESC, or IDENT | STRING.
  let t := (p.scanIgnoreWhitespace).1
  let p := (p.scanIgnoreWhitespace).2
  if t.tok = .IDENT ∨ t.tok = .STRING then
    -- Check for optional ASC or DESC token.
    if (p.scanIgnoreWhitespace).1.tok ≠ .ASC ∧ (p.scanIgnoreWhitespace).1.tok ≠ .DESC then
      .ok { Name := t.lit, Ascending := false } (p.scanIgnoreWhitespace).2.unscan
    else
      .ok { Name := t.lit, Ascending := decide ((p.scanIgnoreWhitespace).1.tok = .ASC) }
        (p.scanIgnoreWhitespace).2
  else if t.tok ≠ .ASC ∧ t.tok ≠ .DESC then
    .error (newParseError (tokstr t.tok t.lit) ["identifier, ASC, or DESC"] t.pos)
  else .ok { Name := "", Ascending := decide (t.tok = .ASC) } p

/-- The loop of parseSortFields that parses the additional fields, `fields`
being the fields parsed so far. -/
def parseSortFieldsLoop : Nat → List SortField → Parser → Result (List SortField)
  | 0, _, _ => .outOfFuel
  | fuel + 1, fields, p =>
    if (p.scanIgnoreWhitespace).1.tok ≠ .COMMA then .ok fields (p.scanIgnoreWhitespace).2.unscan
    else
      (parseSortField (p.scanIgnoreWhitespace).2).bind fun field p =>
      parseSortFieldsLoop fuel (fields ++ [field]) p

/-- The method parseSortFields parses all fields of and ORDER BY clause. -/
def parseSortFields (fuel : Nat) (p : Parser) : Result (List SortField) :=
  -- At least one field is required.
  (parseSortField p).bind fun field p =>
  -- Parse additional fields.
  parseSortFieldsLoop fuel [field] p

/-- The method parseOrderBy parses the "ORDER BY" clause of a query, if it
exists. -/
def parseOrderBy (fuel : Nat) (p : Parser) : Result (List SortField) :=
  -- Return nil result and nil error if no ORDER token at this position.
  if (p.scanIgnoreWhitespace).1.tok ≠ .ORDER then .ok [] (p.scanIgnoreWhitespace).2.unscan
  else
  -- Parse the required BY token.
  let p := (p.scanIgnoreWhitespace).2
  let t := (p.scanIgnoreWhitespace).1
  let p := (p.scanIgnoreWhitespace).2
  if t.tok ≠ .BY then .error (newParseError (tokstr t.tok t.lit) ["BY"] t.pos)
  -- Parse the ORDER BY fields.
  else parseSortFields fuel p

/-- The method parseSelectStatement parses a select string and returns a
Statement AST object.  This function assumes the SELECT token has already been
consumed. -/
def parseSelectStatement (go : Stdlib) (fuel : Nat) (tr : targetRequirement) (p : Parser) :
    Result SelectStatement :=
  -- Parse fields: "SELECT FIELD+".
  (parseFields go fuel p).bind fun fields p =>
  -- Parse target: "INTO"
  (parseTarget tr p).bind fun target p =>
  -- Parse source.
  let t := (p.scanIgnoreWhitespace).1
  let p := (p.scanIgnoreWhitespace).2
  if t.tok ≠ .FROM then .error (newParseError (tokstr t.tok t.lit) ["FROM"] t.pos)
  else
  (parseSource fuel p).bind fun source p =>
  -- Parse condition: "WHERE EXPR".
  (parseCondition go fuel p).bind fun condition p =>
  -- Parse dimensions: "GROUP BY DIMENSION+".
  (parseDimensions go fuel p).bind fun dimensions p =>
  -- Parse sort: "ORDER BY FIELD+".
  (parseOrderBy fuel p).bind fun sortFields p =>
  -- Parse limit: "LIMIT INT".
  (parseLimit p).bind fun limit p =>
  .ok { Fields := fields, Target := target, Source := source, Condition := condition,
        Dimensions := dimensions, SortFields := sortFields, Limit := limit } p

/-- The method parseDeleteStatement parses a delete string and returns a
DeleteStatement.  This function assumes the DELETE token has already been
consumed. -/
def parseDeleteStatement (go : Stdlib) (fuel : Nat) (p : Parser) : Result DeleteStatement :=
  -- Parse source
  let t := (p.scanIgnoreWhitespace).1
  let p := (p.scanIgnoreWhitespace).2
  if t.tok ≠ .FROM then .error (newParseError (tokstr t.tok t.lit) ["FROM"] t.pos)
  else
  (parseSource fuel p).bind fun source p =>
  -- Parse condition: "WHERE EXPR".
  (parseCondition go fuel p).bind fun condition p =>
  .ok { Source := source, Condition := condition } p

/-- The method parseListSeriesStatement parses a string and returns a ListSeriesStatement.
This function assumes the "LIST SERIES" tokens have already been consumed. -/
def parseListSeriesStatement (go : Stdlib) (fuel : Nat) (p : Parser) : Result ListSeriesStatement :=
  -- Parse condition: "WHERE EXPR".
  (parseCondition go fuel p).bind fun condition p =>
  -- Parse sort: "ORDER BY FIELD+".
  (parseOrderBy fuel p).bind fun sortFields p =>
  -- Parse limit: "LIMIT INT".
  (parseLimit p).bind fun limit p =>
  .ok { Condition := condition, SortFields := sortFields, Limit := limit } p

/-- The method parseListMeasurementsStatement parses a string and returns a ListMeasurementsStatement.
This function assumes the "LIST MEASUREMENTS" tokens have already been consumed. -/
def parseListMeasurementsStatement (go : Stdlib) (fuel : Nat) (p : Parser) : Result ListMeasurementsStatement :=
  -- Parse condition: "WHERE EXPR".
  (parseCondition go fuel p).bind fun condition p =>
  -- Parse sort: "ORDER BY FIELD+".
  (parseOrderBy fuel p).bind fun sortFields p =>
  -- Parse limit: "LIMIT INT".
  (parseLimit p).bind fun limit p =>
  .ok { Condition := condition, SortFields := sortFields, Limit := limit } p

/-- The method parseListTagKeysStatement parses a string and returns a ListTagKeysStatement.
This function assumes the "LIST TAG KEYS" tokens have already been consumed. -/
def parseListTagKeysStatement (go : Stdlib) (fuel : Nat) (p : Parser) : Result ListTagKeysStatement :=
  -- Parse source.
  let t := (p.scanIgnoreWhitespace).1
  let p := (p.scanIgnoreWhitespace).2
  if t.tok ≠ .FROM then .error (newParseError (tokstr t.tok t.lit) ["FROM"] t.pos)
  else
  (parseSource fuel p).bind fun source p =>
  -- Parse condition: "WHERE EXPR".
  (parseCondition go fuel p).bind fun condition p =>
  -- Parse sort: "ORDER BY FIELD+".
  (parseOrderBy fuel p).bind fun sortFields p =>
  -- Parse limit: "LIMIT INT".
  (parseLimit p).bind fun limit p =>
  .ok { Source := source, Condition := condition, SortFields := sortFields, Limit := limit } p

/-- The method parseListTagValuesStatement parses a string and returns a ListTagValuesStatement.
This function assumes the "LIST TAG VALUES" tokens have already been consumed. -/
def parseListTagValuesStatement (go : Stdlib) (fuel : Nat) (p : Parser) : Result ListTagValuesStatement :=
  -- Parse source.
  let t := (p.scanIgnoreWhitespace).1
  let p := (p.scanIgnoreWhitespace).2
  if t.tok ≠ .FROM then .error (newParseError (tokstr t.tok t.lit) ["FROM"] t.pos)
  else
  (parseSource fuel p).bind fun source p =>
  -- Parse condition: "WHERE EXPR".
  (parseCondition go fuel p).bind fun condition p =>
  -- Parse sort: "ORDER BY FIELD+".
  (parseOrderBy fuel p).bind fun sortFields p =>
  -- Parse limit: "LIMIT INT".
  (parseLimit p).bind fun limit p =>
  .ok { Source := source, Condition := condition, SortFields := sortFields, Limit := limit } p

/-- The method parseListFieldKeysStatement parses a string and returns a ListFieldKeysStatement.
This function assumes the "LIST FIELD KEYS" tokens have already been consumed. -/
def parseListFieldKeysStatement (go : Stdlib) (fuel : Nat) (p : Parser) : Result ListFieldKeysStatement :=
  -- Parse source.
  let t := (p.scanIgnoreWhitespace).1
  let p := (p.scanIgnoreWhitespace).2
  if t.tok ≠ .FROM then .error (newParseError (tokstr t.tok t.lit) ["FROM"] t.pos)
  else
  (parseSource fuel p).bind fun source p =>
  -- Parse condition: "WHERE EXPR".
  (parseCondition go fuel p).bind fun condition p =>
  -- Parse sort: "ORDER BY FIELD+".
  (parseOrderBy fuel p).bind fun sortFields p =>
  -- Parse limit: "LIMIT INT".
  (parseLimit p).bind fun limit p =>
  .ok { Source := source, Condition := condition, SortFields := sortFields, Limit := limit } p

/-- The method parseListFieldValuesStatement parses a string and returns a ListFieldValuesStatement.
This function assumes the "LIST FIELD VALUES" tokens have already been consumed. -/
def parseListFieldValuesStatement (go : Stdlib) (fuel : Nat) (p : Parser) : Result ListFieldValuesStatement :=
  -- Parse source.
  let t := (p.scanIgnoreWhitespace).1
  let p := (p.scanIgnoreWhitespace).2
  if t.tok ≠ .FROM then .error (newParseError (tokstr t.tok t.lit) ["FROM"] t.pos)
  else
  (parseSource fuel p).bind fun source p =>
  -- Parse condition: "WHERE EXPR".
  (parseCondition go fuel p).bind fun condition p =>
  -- Parse sort: "ORDER BY FIELD+".
  (parseOrderBy fuel p).bind fun sortFields p =>
  -- Parse limit: "LIMIT INT".
  (parseLimit p).bind fun limit p =>
  .ok { Source := source, Condition := condition, SortFields := sortFields, Limit := limit } p

/-- The method parseDropSeriesStatement parses a string and returns a DropSeriesStatement.
This function assumes the "DROP SERIES" tokens have already been consumed. -/
def parseDropSeriesStatement (p : Parser) : Result DropSeriesStatement :=
  let t := (p.scanIgnoreWhitespace).1
  let p := (p.scanIgnoreWhitespace).2
  if t.tok ≠ .IDENT ∧ t.tok ≠ .STRING then
    .error (newParseError (tokstr t.tok t.lit) ["identifier", "string"] t.pos)
  else .ok { Name := t.lit } p

/-- The method parseListContinuousQueriesStatement parses a string and returns
a ListContinuousQueriesStatement.  This function assumes the "LIST CONTINUOUS"
tokens have already been consumed. -/
def parseListContinuousQueriesStatement (p : Parser) : Result ListContinuousQueriesStatement :=
  -- Expect a "QUERIES" token.
  let t := (p.scanIgnoreWhitespace).1
  let p := (p.scanIgnoreWhitespace).2
  if t.tok ≠ .QUERIES then .error (newParseError (tokstr t.tok t.lit) ["QUERIES"] t.pos)
  else .ok {} p

/-- The method parseListDatabasesStatement parses a string and returns a
ListDatabasesStatement.  This function assumes the "LIST DATABASE" tokens have
already been consumed. -/
def parseListDatabasesStatement (p : Parser) : Result ListDatabasesStatement :=
  .ok {} p

/-- The method parseCreateContinuousQueryStatement parses a string and returns
a CreateContinuousQueryStatement.  This function assumes the "CREATE
CONTINUOUS" tokens have already been consumed. -/
def parseCreateContinuousQueryStatement (go : Stdlib) (fuel : Nat) (p : Parser) :
    Result CreateContinuousQueryStatement :=
  -- Expect a "QUERY" token.
  let t := (p.scanIgnoreWhitespace).1
  let p := (p.scanIgnoreWhitespace).2
  if t.tok ≠ .QUERY then .error (newParseError (tokstr t.tok t.lit) ["QUERY"] t.pos)
  else
  -- Read the id of the query to create.
  (parseIdentifier p).bind fun name p =>
  -- Expect an "ON" keyword.
  let t := (p.scanIgnoreWhitespace).1
  let p := (p.scanIgnoreWhitespace).2
  if t.tok ≠ .ON then .error (newParseError (tokstr t.tok t.lit) ["ON"] t.pos)
  else
  -- Read the name of the database to create the query on.
  (parseIdentifier p).bind fun db p =>
  -- Expect a "BEGIN SELECT" tokens.
  (parseTokens [.BEGIN, .SELECT] p).bind fun _ p =>
  -- Read the select statement to be used as the source.
  (parseSelectStatement go fuel .targetRequired p).bind fun source p =>
  -- Expect a "END" keyword.
  let t := (p.scanIgnoreWhitespace).1
  let p := (p.scanIgnoreWhitespace).2
  if t.tok ≠ .END then .error (newParseError (tokstr t.tok t.lit) ["END"] t.pos)
  else .ok { Name := name, DB := db, Source := source } p

/-- The method parseCreateDatabaseStatement parses a string and returns a CreateDatabaseStatement.
This function assumes the "CREATE DATABASE" tokens have already been consumed. -/
def parseCreateDatabaseStatement (p : Parser) : Result CreateDatabaseStatement :=
  let t := (p.scanIgnoreWhitespace).1
  let p := (p.scanIgnoreWhitespace).2
  if t.tok ≠ .IDENT ∧ t.tok ≠ .STRING then
    .error (newParseError (tokstr t.tok t.lit) ["identifier"] t.pos)
  else .ok { Name := t.lit } p

/-- The method parseDropDatabaseStatement parses a string and returns a DropDatabaseStatement.
This function assumes the "DROP DATABASE" tokens have already been consumed. -/
def parseDropDatabaseStatement (p : Parser) : Result DropDatabaseStatement :=
  let t := (p.scanIgnoreWhitespace).1
  let p := (p.scanIgnoreWhitespace).2
  if t.tok ≠ .IDENT ∧ t.tok ≠ .STRING then
    .error (newParseError (tokstr t.tok t.lit) ["identifier"] t.pos)
  else .ok { Name := t.lit } p

/-- The method parseCreateUserStatement parses a string and returns a
CreateUserStatement.  This function assumes the "CREATE USER" tokens have
already been consumed. -/
def parseCreateUserStatement (p : Parser) : Result CreateUserStatement :=
  -- Parse name of the user to be created.
  let t := (p.scanIgnoreWhitespace).1
  let p := (p.scanIgnoreWhitespace).2
  if t.tok ≠ .IDENT ∧ t.tok ≠ .STRING then
    .error (newParseError (tokstr t.tok t.lit) ["identifier", "string"] t.pos)
  else
  -- Consume "WITH PASSWORD" tokens
  (parseTokens [.WITH, .PASSWORD] p).bind fun _ p =>
  -- Parse new user's password
  let u := (p.scanIgnoreWhitespace).1
  let p := (p.scanIgnoreWhitespace).2
  if u.tok ≠ .IDENT ∧ u.tok ≠ .STRING then
    .error (newParseError (tokstr u.tok u.lit) ["identifier", "string"] u.pos)
  else .ok { Name := t.lit, Password := u.lit } p

/-- The method parseDropUserStatement parses a string and returns a DropUserStatement.
This function assumes the "DROP USER" tokens have already been consumed. -/
def parseDropUserStatement (p : Parser) : Result DropUserStatement :=
  let t := (p.scanIgnoreWhitespace).1
  let p := (p.scanIgnoreWhitespace).2
  if t.tok ≠ .IDENT ∧ t.tok ≠ .STRING then
    .error (newParseError (tokstr t.tok t.lit) ["identifier"] t.pos)
  else .ok { Name := t.lit } p

/-- The method parseRetentionPolicy parses a string and returns a retention
policy name.  This function assumes the "WITH" token has already been
consumed. -/
def parseRetentionPolicy (p : Parser) : Result (String × Bool) :=
  -- Check for optional DEFAULT token.
  let t0 := (p.scanIgnoreWhitespace).1
  let p0 := (p.scanIgnoreWhitespace).2
  let dfault := decide (t0.tok = .DEFAULT)
  let t := if t0.tok = .DEFAULT then (p0.scanIgnoreWhitespace).1 else t0
  let p := if t0.tok = .DEFAULT then (p0.scanIgnoreWhitespace).2 else p0
  -- Check for required RETENTION token.
  if t.tok ≠ .RETENTION then .error (newParseError (tokstr t.tok t.lit) ["RETENTION"] t.pos)
  else
  -- Check of required POLICY token.
  let t := (p.scanIgnoreWhitespace).1
  let p := (p.scanIgnoreWhitespace).2
  if t.tok ≠ .POLICY then .error (newParseError (tokstr t.tok t.lit) ["POLICY"] t.pos)
  else
  -- Parse retention policy name.
  let t := (p.scanIgnoreWhitespace).1
  let p := (p.scanIgnoreWhitespace).2
  if t.tok ≠ .IDENT ∧ t.tok ≠ .STRING then
    .error (newParseError (tokstr t.tok t.lit) ["identifier"] t.pos)
  else .ok (t.lit, dfault) p

/-- The method parseDropContinuousQueryStatement parses a string and returns a
DropContinuousQueryStatement.  This function assumes the "DROP CONTINUOUS"
tokens have already been consumed. -/
def parseDropContinuousQueryStatement (p : Parser) : Result DropContinuousQueryStatement :=
  -- Expect a "QUERY" token.
  let t := (p.scanIgnoreWhitespace).1
  let p := (p.scanIgnoreWhitespace).2
  if t.tok ≠ .QUERY then .error (newParseError (tokstr t.tok t.lit) ["QUERY"] t.pos)
  else
  -- Read the id of the query to drop.
  let t := (p.scanIgnoreWhitespace).1
  let p := (p.scanIgnoreWhitespace).2
  if t.tok ≠ .IDENT ∧ t.tok ≠ .STRING then
    .error (newParseError (tokstr t.tok t.lit) ["identifier", "string"] t.pos)
  else .ok { Name := t.lit } p

/-- The method parseListStatement parses a string and returns a list statement.
This function assumes the LIST token has already been consumed. -/
def parseListStatement (go : Stdlib) (fuel : Nat) (p : Parser) : Result Statement :=
  let t := (p.scanIgnoreWhitespace).1
  let p := (p.scanIgnoreWhitespace).2
  if t.tok = .SERIES then (parseListSeriesStatement go fuel p).map .ListSeries
  else if t.tok = .CONTINUOUS then
    (parseListContinuousQueriesStatement p).map .ListContinuousQueries
  else if t.tok = .DATABASES then (parseListDatabasesStatement p).map .ListDatabases
  else if t.tok = .MEASUREMENTS then
    (parseListMeasurementsStatement go fuel p).map .ListMeasurements
  else if t.tok = .TAG then
    let u := (p.scanIgnoreWhitespace).1
    let p := (p.scanIgnoreWhitespace).2
    if u.tok = .KEYS then (parseListTagKeysStatement go fuel p).map .ListTagKeys
    else if u.tok = .VALUES then (parseListTagValuesStatement go fuel p).map .ListTagValues
    else .error (newParseError (tokstr u.tok u.lit) ["KEYS", "VALUES"] u.pos)
  else if t.tok = .FIELD then
    let u := (p.scanIgnoreWhitespace).1
    let p := (p.scanIgnoreWhitespace).2
    if u.tok = .KEYS then (parseListFieldKeysStatement go fuel p).map .ListFieldKeys
    else if u.tok = .VALUES then
      (parseListFieldValuesStatement go fuel p).map .ListFieldValues
    else .error (newParseError (tokstr u.tok u.lit) ["KEYS", "VALUES"] u.pos)
  else
    .error (newParseError (tokstr t.tok t.lit)
      ["SERIES", "CONTINUOUS", "MEASUREMENTS", "TAG", "FIELD"] t.pos)

/-- The method parseCreateStatement parses a string and returns a create
statement.  This function assumes the CREATE token has already been consumed. -/
def parseCreateStatement (go : Stdlib) (fuel : Nat) (p : Parser) : Result Statement :=
  let t := (p.scanIgnoreWhitespace).1
  let p := (p.scanIgnoreWhitespace).2
  if t.tok = .CONTINUOUS then
    (parseCreateContinuousQueryStatement go fuel p).map .CreateContinuousQuery
  else if t.tok = .DATABASE then (parseCreateDatabaseStatement p).map .CreateDatabase
  else if t.tok = .USER then (parseCreateUserStatement p).map .CreateUser
  else if t.tok = .RETENTION then
    let u := (p.scanIgnoreWhitespace).1
    let p := (p.scanIgnoreWhitespace).2
    if u.tok ≠ .POLICY then .error (newParseError (tokstr u.tok u.lit) ["POLICY"] u.pos)
    else (parseCreateRetentionPolicyStatement go p).map .CreateRetentionPolicy
  else
    .error (newParseError (tokstr t.tok t.lit)
      ["CONTINUOUS", "DATABASE", "USER", "RETENTION"] t.pos)

/-- The method parseDropStatement parses a string and returns a drop statement.
This function assumes the DROP token has already been consumed. -/
def parseDropStatement (p : Parser) : Result Statement :=
  let t := (p.scanIgnoreWhitespace).1
  let p := (p.scanIgnoreWhitespace).2
  if t.tok = .SERIES then (parseDropSeriesStatement p).map .DropSeries
  else if t.tok = .CONTINUOUS then
    (parseDropContinuousQueryStatement p).map .DropContinuousQuery
  else if t.tok = .DATABASE then (parseDropDatabaseStatement p).map .DropDatabase
  else if t.tok = .USER then (parseDropUserStatement p).map .DropUser
  else .error (newParseError (tokstr t.tok t.lit) ["SERIES", "CONTINUOUS"] t.pos)

/-- The method parseAlterStatement parses a string and returns an alter
statement.  This function assumes the ALTER token has already been consumed. -/
def parseAlterStatement (go : Stdlib) (p : Parser) : Result Statement :=
  let t := (p.scanIgnoreWhitespace).1
  let p := (p.scanIgnoreWhitespace).2
  if t.tok = .RETENTION then
    let u := (p.scanIgnoreWhitespace).1
    let p := (p.scanIgnoreWhitespace).2
    if u.tok ≠ .POLICY then .error (newParseError (tokstr u.tok u.lit) ["POLICY"] u.pos)
    else (parseAlterRetentionPolicyStatement go p).map .AlterRetentionPolicy
  else .error (newParseError (tokstr t.tok t.lit) ["RETENTION"] t.pos)

/-- ParseStatement parses an InfluxQL string and returns a Statement AST
object. -/
def ParseStatement (go : Stdlib) (fuel : Nat) (p : Parser) : Result Statement :=
  -- Inspect the first token.
  let t := (p.scanIgnoreWhitespace).1
  let p := (p.scanIgnoreWhitespace).2
  match t.tok with
  | .SELECT => (parseSelectStatement go fuel .targetNotRequired p).map .Select
  | .DELETE => (parseDeleteStatement go fuel p).map .Delete
  | .LIST => parseListStatement go fuel p
  | .CREATE => parseCreateStatement go fuel p
  | .DROP => parseDropStatement p
  | .GRANT => (parseGrantStatement p).map .Grant
  | .REVOKE => (parseRevokeStatement p).map .Revoke
  | .ALTER => parseAlterStatement go p
  | _ => .error (newParseError (tokstr t.tok t.lit) ["SELECT"] t.pos)

/-- The loop of ParseQuery that parses statements until EOF, `statements` being
the statements parsed so far. -/
def ParseQueryLoop (go : Stdlib) : Nat → List Statement → Parser → Result Query
  | 0, _, _ => .outOfFuel
  | fuel + 1, statements, p =>
    -- Read the next statement.
    (ParseStatement go fuel p).bind fun s p =>
    -- Expect a semicolon or EOF after the statement.
    let t := (p.scanIgnoreWhitespace).1
    let p := (p.scanIgnoreWhitespace).2
    if t.tok ≠ .SEMICOLON ∧ t.tok ≠ .EOF then
      .error (newParseError (tokstr t.tok t.lit) [";", "EOF"] t.pos)
    else if t.tok = .EOF then .ok { Statements := statements ++ [s] } p
    else ParseQueryLoop go fuel (statements ++ [s]) p

/-- ParseQuery parses an InfluxQL string and returns a Query AST object. -/
def ParseQuery (go : Stdlib) (fuel : Nat) (p : Parser) : Result Query :=
  -- If there's only whitespace then return no statements.
  if (p.scanIgnoreWhitespace).1.tok = .EOF then
    .ok { Statements := [] } (p.scanIgnoreWhitespace).2
  -- Otherwise parse statements until EOF.
  else ParseQueryLoop go fuel [] (p.scanIgnoreWhitespace).2.unscan

/-! ## Specification vocabulary -/

/-- The parser method `f`, as a function of its bound, returns `r`: `r` is a
result or an error, and every large enough bound gives `r`. -/
def Returns {α : Type} (f : Nat → Result α) (r : Result α) : Prop :=
  r ≠ .outOfFuel ∧ ∃ n, ∀ m, n ≤ m → f m = r

/-- The token sequence `op1 x1 ... opn xn` read from state `p`: from `p` the
parser scans, in turn, an operator token `op_i` and then an operand that
parseUnaryExpr returns as `x_i`, and is left in state `r` after the last
operand. -/
inductive Operands (go : Stdlib) : Parser → List (Token × Expr) → Parser → Prop
  | nil (p : Parser) : Operands go p [] p
  | cons (p q r : Parser) (x : Expr) (rest : List (Token × Expr)) :
      (p.scanIgnoreWhitespace).1.tok.isOperator = true →
      Returns (fun n => parseUnaryExpr go n (p.scanIgnoreWhitespace).2) (.ok x q) →
      Operands go q rest r →
      Operands go p (((p.scanIgnoreWhitespace).1.tok, x) :: rest) r

/-- The argument list `e1 , e2 , ... , ek` read from state `p`: from `p`
ParseExpr returns `e1`, the next raw token is a comma after which ParseExpr
returns `e2`, and so on; the raw token after the last argument, read in state
`r`, is not a comma. -/
inductive Arguments (go : Stdlib) : Parser → List Expr → Parser → Prop
  | last (p r : Parser) (e : Expr) :
      Returns (fun n => ParseExpr go n p) (.ok e r) →
      (r.scan).1.tok ≠ .COMMA →
      Arguments go p [e] r
  | more (p q r : Parser) (e : Expr) (es : List Expr) :
      Returns (fun n => ParseExpr go n p) (.ok e q) →
      (q.scan).1.tok = .COMMA →
      Arguments go (q.scan).2 es r →
      Arguments go p (e :: es) r

/-- The expression `child` is a BinaryExpr whose operator has strictly lower
precedence than `op`. -/
def lowerBinaryChild (op : Token) : Expr → Bool
  | .BinaryExpr cop _ _ => decide (cop.Precedence < op.Precedence)
  | _ => false

mutual
/-- No BinaryExpr node of the tree has a direct BinaryExpr child (one not
wrapped in a ParenExpr) whose operator has strictly lower precedence than the
node's own operator. -/
def respectsPrecedence : Expr → Bool
  | .BinaryExpr op l r =>
    !lowerBinaryChild op l && !lowerBinaryChild op r && respectsPrecedence l
      && respectsPrecedence r
  | .ParenExpr e => respectsPrecedence e
  | .Call _ args => respectsPrecedenceAll args
  | _ => true
/-- Every tree of the list respects the precedence table. -/
def respectsPrecedenceAll : List Expr → Bool
  | [] => true
  | e :: es => respectsPrecedence e && respectsPrecedenceAll es
end

/-- The value of a sequence of decimal digits. -/
def digitsValue (ds : List Char) : Nat :=
  ds.foldl (fun n c => 10 * n + digitVal c) 0

/-- The text is a base-10 integer: an optional sign followed by one or more
decimal digits. -/
def isBase10Integer : List Char → Bool
  | '+' :: ds => !ds.isEmpty && ds.all isDigit
  | '-' :: ds => !ds.isEmpty && ds.all isDigit
  | ds => !ds.isEmpty && ds.all isDigit

/-- The units of a duration text with their suffixes; the empty suffix is the
implicit microsecond of a text that ends in a digit. -/
def durationUnits : List (String × Int) :=
  [("", Microsecond), ("u", Microsecond), ("µ", Microsecond), ("ms", Millisecond),
   ("s", Second), ("m", Minute), ("h", Hour), ("d", 24 * Hour), ("w", 7 * 24 * Hour)]

/-- The units FormatDuration chooses from, with their suffixes. -/
def formatUnits : List (Int × String) :=
  [(7 * 24 * Hour, "w"), (24 * Hour, "d"), (Hour, "h"), (Minute, "m"), (Second, "s"),
   (Millisecond, "ms")]

/-- The result `r'` of a larger bound agrees with the result `r` of a smaller
one: it is the same, unless the smaller bound was reached. -/
def Result.le {α : Type} (r r' : Result α) : Prop :=
  r = .outOfFuel ∨ r' = r

/-- The statements `S1 ; S2 ; ... ; Sk ;` read from state `p`: from `p`
ParseStatement returns `S1`, the next token is a semicolon after which
ParseStatement returns `S2`, and so on; `r` is the state after the semicolon
that follows `Sk`. -/
inductive StatementsThen (go : Stdlib) : Parser → List Statement → Parser → Prop
  | nil (p : Parser) : StatementsThen go p [] p
  | cons (p q r : Parser) (s : Statement) (rest : List Statement) :
      Returns (fun n => ParseStatement go n p) (.ok s q) →
      (q.scanIgnoreWhitespace).1.tok = .SEMICOLON →
      StatementsThen go (q.scanIgnoreWhitespace).2 rest r →
      StatementsThen go p (s :: rest) r

/-- The letters of ASCII. -/
def isAsciiLetter (c : Char) : Bool :=
  (decide ('a' ≤ c) && decide (c ≤ 'z')) || (decide ('A' ≤ c) && decide (c ≤ 'Z'))

/-- The two strings are equal up to the case of ASCII letters. -/
def equalFold (s t : String) : Bool :=
  s.data.map Char.toLower == t.data.map Char.toLower

/-- The clauses of a SELECT statement before LIMIT, read from state `p`: the
fields, the target, the FROM token and the source, the condition, the
dimensions and the sort fields; `q` is the state they leave, in which
parseLimit is called. -/
def SelectClauses (go : Stdlib) (tr : targetRequirement) (p : Parser) (fields : List Field)
    (target : Option Target) (source : Source) (condition : Option Expr)
    (dimensions : List Dimension) (sortFields : List SortField) (q : Parser) : Prop :=
  ∃ p1 p2 p3 p4 p5,
    Returns (fun n => parseFields go n p) (.ok fields p1)
    ∧ parseTarget tr p1 = .ok target p2
    ∧ (p2.scanIgnoreWhitespace).1.tok = .FROM
    ∧ Returns (fun n => parseSource n (p2.scanIgnoreWhitespace).2) (.ok source p3)
    ∧ Returns (fun n => parseCondition go n p3) (.ok condition p4)
    ∧ Returns (fun n => parseDimensions go n p4) (.ok dimensions p5)
    ∧ Returns (fun n => parseOrderBy n p5) (.ok sortFields q)

/-- The clauses of a LIST SERIES or LIST MEASUREMENTS statement before LIMIT,
read from state `p`: the condition and the sort fields; `q` is the state they
leave, in which parseLimit is called. -/
def ListClauses (go : Stdlib) (p : Parser) (condition : Option Expr)
    (sortFields : List SortField) (q : Parser) : Prop :=
  ∃ p1,
    Returns (fun n => parseCondition go n p) (.ok condition p1)
    ∧ Returns (fun n => parseOrderBy n p1) (.ok sortFields q)

/-- The clauses of a LIST TAG KEYS, TAG VALUES, FIELD KEYS or FIELD VALUES
statement before LIMIT, read from state `p`: the FROM token and the source, the
condition and the sort fields; `q` is the state they leave, in which parseLimit
is called. -/
def ListFromClauses (go : Stdlib) (p : Parser) (source : Source) (condition : Option Expr)
    (sortFields : List SortField) (q : Parser) : Prop :=
  (p.scanIgnoreWhitespace).1.tok = .FROM
  ∧ ∃ p1 p2,
    Returns (fun n => parseSource n (p.scanIgnoreWhitespace).2) (.ok source p1)
    ∧ Returns (fun n => parseCondition go n p1) (.ok condition p2)
    ∧ Returns (fun n => parseOrderBy n p2) (.ok sortFields q)

/-- A token list that is empty or one whitespace token. -/
def OptionalWS (w : List Lexeme) : Prop :=
  w = [] ∨ ∃ pos lit, w = [⟨.WS, pos, lit⟩]


/-- Reading from state `p`, the parser scans, ignoring whitespace, the tokens
`ts` in turn and is left in state `q`. -/
def Reads : Parser → List Lexeme → Parser → Prop
  | p, [], q => q = p
  | p, t :: ts, q => (p.scanIgnoreWhitespace).1 = t ∧ Reads (p.scanIgnoreWhitespace).2 ts q

instance Reads.decidable : (p : Parser) → (ts : List Lexeme) → (q : Parser) →
    Decidable (Reads p ts q)
  | p, [], q => inferInstanceAs (Decidable (q = p))
  | p, t :: ts, q =>
    have := Reads.decidable (p.scanIgnoreWhitespace).2 ts q
    inferInstanceAs (Decidable ((p.scanIgnoreWhitespace).1 = t
      ∧ Reads (p.scanIgnoreWhitespace).2 ts q))

/-- An option of ALTER RETENTION POLICY as it is written: the keyword token
and, for DURATION and REPLICATION, the token of the value. -/
inductive AlterOption
  | duration (kw d : Lexeme)
  | replication (kw n : Lexeme)
  | default (kw : Lexeme)
  deriving DecidableEq, Repr

/-- The tokens of an option. -/
def AlterOption.tokens : AlterOption → List Lexeme
  | .duration kw d => [kw, d]
  | .replication kw n => [kw, n]
  | .default kw => [kw]

/-- The option is well formed: the keyword is DURATION, REPLICATION or DEFAULT,
a duration is a DURATION_VAL token that ParseDuration accepts, and a replication
is a NUMBER token without a `.` that denotes an integer from 1 to 2^31-1. -/
def AlterOption.valid : AlterOption → Prop
  | .duration kw d =>
    kw.tok = .DURATION ∧ d.tok = .DURATION_VAL ∧ (ParseDuration d.lit).2 = none
  | .replication kw n =>
    kw.tok = .REPLICATION ∧ n.tok = .NUMBER ∧ '.' ∉ n.lit.data ∧ (Atoi n.lit).2 = none
      ∧ 1 ≤ (Atoi n.lit).1 ∧ (Atoi n.lit).1 ≤ MaxInt32
  | .default kw => kw.tok = .DEFAULT

/-- The statement after an option has been read. -/
def AlterOption.apply (stmt : AlterRetentionPolicyStatement) :
    AlterOption → AlterRetentionPolicyStatement
  | .duration _ d => { stmt with Duration := some (ParseDuration d.lit).1 }
  | .replication _ n => { stmt with Replication := some (Atoi n.lit).1 }
  | .default _ => { stmt with Default := true }

/-- A set of distinct options: at most one DURATION, one REPLICATION and one
DEFAULT, listed in that order. -/
def optionSet (dur rep : Option (Lexeme × Lexeme)) (dflt : Option Lexeme) : List AlterOption :=
  (dur.map fun x => AlterOption.duration x.1 x.2).toList
    ++ (rep.map fun x => AlterOption.replication x.1 x.2).toList
    ++ (dflt.map AlterOption.default).toList

/-- The measurement names of a join or merge call read from state `p`: each
name is an IDENT or STRING token, a comma right after a name continues the list,
and `q` is the state after the last name, the token after it pushed back. -/
inductive MeasurementNames : Parser → List String → Parser → Prop
  | last (p : Parser) :
      ((p.scanIgnoreWhitespace).1.tok = .IDENT ∨ (p.scanIgnoreWhitespace).1.tok = .STRING) →
      ((p.scanIgnoreWhitespace).2.scan).1.tok ≠ .COMMA →
      MeasurementNames p [(p.scanIgnoreWhitespace).1.lit]
        ((p.scanIgnoreWhitespace).2.scan).2.unscan
  | more (p q : Parser) (names : List String) :
      ((p.scanIgnoreWhitespace).1.tok = .IDENT ∨ (p.scanIgnoreWhitespace).1.tok = .STRING) →
      ((p.scanIgnoreWhitespace).2.scan).1.tok = .COMMA →
      MeasurementNames ((p.scanIgnoreWhitespace).2.scan).2 names q →
      MeasurementNames p ((p.scanIgnoreWhitespace).1.lit :: names) q

/-- The number of backslashes at the end of `l`. -/
def trailingBackslashes (l : List Char) : Nat :=
  (l.reverse.takeWhile (fun c => c == Char.ofNat 92)).length

/-! ## Closed examples -/

/-- The number of binary digits of `n`, for `n` below 2^k. -/
def bitLength : Nat → Nat → Nat
  | 0, _ => 0
  | k + 1, n => if n = 0 then 0 else bitLength k (n / 2) + 1

/-- The float64 equal to a natural number below 2^53. -/
def float64OfNat (n : Nat) : Float64 :=
  if n = 0 then ⟨0⟩
  else ⟨(bitLength 64 n - 1 + 1023) * 2 ^ 52
    + (n - 2 ^ (bitLength 64 n - 1)) * 2 ^ (52 - (bitLength 64 n - 1))⟩

/-- The library instance of the closed examples: ParseFloat converts an
unsigned decimal integer below 2^53 exactly and accepts no other text;
TimeParse accepts no text; the error text of Atoi is the text of Go's
strconv.NumError, `strconv.ParseInt: parsing "<text>": <cause>` (exact for a
rejected text of printable characters). -/
def demoLib : Stdlib where
  ParseFloat := fun s =>
    match ParseUint s.data with
    | (n, none) => if n < 2 ^ 53 then some (float64OfNat n) else none
    | _ => none
  TimeParse := fun _ _ => none
  AtoiErrorText := fun s =>
    "strconv.ParseInt: parsing " ++ Quote s ++ ": "
      ++ (if (ParseInt s).2 = some .ErrRange then "value out of range" else "invalid syntax")

/-- The tokens of `1 * 2 + 3`. -/
def tokens_1_mul_2_add_3 : List Lexeme :=
  [⟨.NUMBER, ⟨0, 0⟩, "1"⟩, ⟨.WS, ⟨0, 1⟩, " "⟩, ⟨.MUL, ⟨0, 2⟩, ""⟩, ⟨.WS, ⟨0, 3⟩, " "⟩,
   ⟨.NUMBER, ⟨0, 4⟩, "2"⟩, ⟨.WS, ⟨0, 5⟩, " "⟩, ⟨.ADD, ⟨0, 6⟩, ""⟩, ⟨.WS, ⟨0, 7⟩, " "⟩,
   ⟨.NUMBER, ⟨0, 8⟩, "3"⟩]

/-- The tokens of `1 * 2 * 3 * 4`. -/
def tokens_1_mul_2_mul_3_mul_4 : List Lexeme :=
  [⟨.NUMBER, ⟨0, 0⟩, "1"⟩, ⟨.WS, ⟨0, 1⟩, " "⟩, ⟨.MUL, ⟨0, 2⟩, ""⟩, ⟨.WS, ⟨0, 3⟩, " "⟩,
   ⟨.NUMBER, ⟨0, 4⟩, "2"⟩, ⟨.WS, ⟨0, 5⟩, " "⟩, ⟨.MUL, ⟨0, 6⟩, ""⟩, ⟨.WS, ⟨0, 7⟩, " "⟩,
   ⟨.NUMBER, ⟨0, 8⟩, "3"⟩, ⟨.WS, ⟨0, 9⟩, " "⟩, ⟨.MUL, ⟨0, 10⟩, ""⟩, ⟨.WS, ⟨0, 11⟩, " "⟩,
   ⟨.NUMBER, ⟨0, 12⟩, "4"⟩]

/-- The tokens of `a = 1 + 2 * 3`. -/
def tokens_a_eq_1_add_2_mul_3 : List Lexeme :=
  [⟨.IDENT, ⟨0, 0⟩, "a"⟩, ⟨.WS, ⟨0, 1⟩, " "⟩, ⟨.EQ, ⟨0, 2⟩, ""⟩, ⟨.WS, ⟨0, 3⟩, " "⟩,
   ⟨.NUMBER, ⟨0, 4⟩, "1"⟩, ⟨.WS, ⟨0, 5⟩, " "⟩, ⟨.ADD, ⟨0, 6⟩, ""⟩, ⟨.WS, ⟨0, 7⟩, " "⟩,
   ⟨.NUMBER, ⟨0, 8⟩, "2"⟩, ⟨.WS, ⟨0, 9⟩, " "⟩, ⟨.MUL, ⟨0, 10⟩, ""⟩, ⟨.WS, ⟨0, 11⟩, " "⟩,
   ⟨.NUMBER, ⟨0, 12⟩, "3"⟩]

/-- The tokens of `(1 + 2) * 3`. -/
def tokens_paren_1_add_2_mul_3 : List Lexeme :=
  [⟨.LPAREN, ⟨0, 0⟩, ""⟩, ⟨.NUMBER, ⟨0, 1⟩, "1"⟩, ⟨.WS, ⟨0, 2⟩, " "⟩, ⟨.ADD, ⟨0, 3⟩, ""⟩,
   ⟨.WS, ⟨0, 4⟩, " "⟩, ⟨.NUMBER, ⟨0, 5⟩, "2"⟩, ⟨.RPAREN, ⟨0, 6⟩, ""⟩, ⟨.WS, ⟨0, 7⟩, " "⟩,
   ⟨.MUL, ⟨0, 8⟩, ""⟩, ⟨.WS, ⟨0, 9⟩, " "⟩, ⟨.NUMBER, ⟨0, 10⟩, "3"⟩]

/-- The tokens of `my_func(1, 2 + 3)`. -/
def tokens_my_func_call : List Lexeme :=
  [⟨.IDENT, ⟨0, 0⟩, "my_func"⟩, ⟨.LPAREN, ⟨0, 7⟩, ""⟩, ⟨.NUMBER, ⟨0, 8⟩, "1"⟩,
   ⟨.COMMA, ⟨0, 9⟩, ""⟩, ⟨.WS, ⟨0, 10⟩, " "⟩, ⟨.NUMBER, ⟨0, 11⟩, "2"⟩, ⟨.WS, ⟨0, 12⟩, " "⟩,
   ⟨.ADD, ⟨0, 13⟩, ""⟩, ⟨.WS, ⟨0, 14⟩, " "⟩, ⟨.NUMBER, ⟨0, 15⟩, "3"⟩, ⟨.RPAREN, ⟨0, 16⟩, ""⟩]

/-- The tokens of `SELECT a FROM b; SELECT c FROM d`. -/
def tokens_two_selects : List Lexeme :=
  [⟨.SELECT, ⟨0, 0⟩, ""⟩, ⟨.WS, ⟨0, 6⟩, " "⟩, ⟨.IDENT, ⟨0, 7⟩, "a"⟩, ⟨.WS, ⟨0, 8⟩, " "⟩,
   ⟨.FROM, ⟨0, 9⟩, ""⟩, ⟨.WS, ⟨0, 13⟩, " "⟩, ⟨.IDENT, ⟨0, 14⟩, "b"⟩, ⟨.SEMICOLON, ⟨0, 15⟩, ""⟩,
   ⟨.WS, ⟨0, 16⟩, " "⟩, ⟨.SELECT, ⟨0, 17⟩, ""⟩, ⟨.WS, ⟨0, 23⟩, " "⟩, ⟨.IDENT, ⟨0, 24⟩, "c"⟩,
   ⟨.WS, ⟨0, 25⟩, " "⟩, ⟨.FROM, ⟨0, 26⟩, ""⟩, ⟨.WS, ⟨0, 30⟩, " "⟩, ⟨.IDENT, ⟨0, 31⟩, "d"⟩]

/-- The statement `SELECT x FROM y`. -/
def selectFrom (x y : String) : Statement :=
  .Select { Fields := [{ Expr := .VarRef x, Alias := "" }], Target := none,
            Source := .measurement { Name := y }, Condition := none, Dimensions := [],
            SortFields := [], Limit := 0 }

/-- The tokens of `SELECT a FROM b; SELECT`. -/
def tokens_select_then_bare_select : List Lexeme :=
  [⟨.SELECT, ⟨0, 0⟩, ""⟩, ⟨.WS, ⟨0, 6⟩, " "⟩, ⟨.IDENT, ⟨0, 7⟩, "a"⟩, ⟨.WS, ⟨0, 8⟩, " "⟩,
   ⟨.FROM, ⟨0, 9⟩, ""⟩, ⟨.WS, ⟨0, 13⟩, " "⟩, ⟨.IDENT, ⟨0, 14⟩, "b"⟩, ⟨.SEMICOLON, ⟨0, 15⟩, ""⟩,
   ⟨.WS, ⟨0, 16⟩, " "⟩, ⟨.SELECT, ⟨0, 17⟩, ""⟩]

/-- The tokens of `SELECT a FROM b c`. -/
def tokens_select_then_ident : List Lexeme :=
  [⟨.SELECT, ⟨0, 0⟩, ""⟩, ⟨.WS, ⟨0, 6⟩, " "⟩, ⟨.IDENT, ⟨0, 7⟩, "a"⟩, ⟨.WS, ⟨0, 8⟩, " "⟩,
   ⟨.FROM, ⟨0, 9⟩, ""⟩, ⟨.WS, ⟨0, 13⟩, " "⟩, ⟨.IDENT, ⟨0, 14⟩, "b"⟩, ⟨.WS, ⟨0, 15⟩, " "⟩,
   ⟨.IDENT, ⟨0, 16⟩, "c"⟩]

/-- The tokens of `SELECT field1 FROM myseries LIMIT` followed by the NUMBER
token with the literal `lit`. -/
def tokens_select_limit (lit : String) : List Lexeme :=
  [⟨.SELECT, ⟨0, 0⟩, ""⟩, ⟨.WS, ⟨0, 6⟩, " "⟩, ⟨.IDENT, ⟨0, 7⟩, "field1"⟩, ⟨.WS, ⟨0, 13⟩, " "⟩,
   ⟨.FROM, ⟨0, 14⟩, ""⟩, ⟨.WS, ⟨0, 18⟩, " "⟩, ⟨.IDENT, ⟨0, 19⟩, "myseries"⟩,
   ⟨.WS, ⟨0, 27⟩, " "⟩, ⟨.LIMIT, ⟨0, 28⟩, ""⟩, ⟨.WS, ⟨0, 33⟩, " "⟩, ⟨.NUMBER, ⟨0, 34⟩, lit⟩]

/-- The tokens of `CREATE RETENTION POLICY policy1 ON testdb DURATION 1h
REPLICATION 2`. -/
def tokens_create_retention_policy : List Lexeme :=
  [⟨.CREATE, ⟨0, 0⟩, ""⟩, ⟨.WS, ⟨0, 6⟩, " "⟩, ⟨.RETENTION, ⟨0, 7⟩, ""⟩, ⟨.WS, ⟨0, 16⟩, " "⟩,
   ⟨.POLICY, ⟨0, 17⟩, ""⟩, ⟨.WS, ⟨0, 23⟩, " "⟩, ⟨.IDENT, ⟨0, 24⟩, "policy1"⟩,
   ⟨.WS, ⟨0, 31⟩, " "⟩, ⟨.ON, ⟨0, 32⟩, ""⟩, ⟨.WS, ⟨0, 34⟩, " "⟩, ⟨.IDENT, ⟨0, 35⟩, "testdb"⟩,
   ⟨.WS, ⟨0, 41⟩, " "⟩, ⟨.DURATION, ⟨0, 42⟩, ""⟩, ⟨.WS, ⟨0, 50⟩, " "⟩,
   ⟨.DURATION_VAL, ⟨0, 51⟩, "1h"⟩, ⟨.WS, ⟨0, 53⟩, " "⟩, ⟨.REPLICATION, ⟨0, 54⟩, ""⟩,
   ⟨.WS, ⟨0, 65⟩, " "⟩, ⟨.NUMBER, ⟨0, 66⟩, "2"⟩]

instance AlterOption.valid.decidable : (o : AlterOption) → Decidable o.valid
  | .duration kw d =>
    inferInstanceAs (Decidable (kw.tok = .DURATION ∧ d.tok = .DURATION_VAL
      ∧ (ParseDuration d.lit).2 = none))
  | .replication kw n =>
    inferInstanceAs (Decidable (kw.tok = .REPLICATION ∧ n.tok = .NUMBER ∧ '.' ∉ n.lit.data
      ∧ (Atoi n.lit).2 = none ∧ 1 ≤ (Atoi n.lit).1 ∧ (Atoi n.lit).1 ≤ MaxInt32))
  | .default kw => inferInstanceAs (Decidable (kw.tok = .DEFAULT))

/-- The tokens of `ALTER RETENTION POLICY policy1 ON testdb DURATION 1m
REPLICATION 4 DEFAULT`. -/
def tokens_alter_retention_policy : List Lexeme :=
  [⟨.ALTER, ⟨0, 0⟩, ""⟩, ⟨.WS, ⟨0, 5⟩, " "⟩, ⟨.RETENTION, ⟨0, 6⟩, ""⟩, ⟨.WS, ⟨0, 15⟩, " "⟩,
   ⟨.POLICY, ⟨0, 16⟩, ""⟩, ⟨.WS, ⟨0, 22⟩, " "⟩, ⟨.IDENT, ⟨0, 23⟩, "policy1"⟩,
   ⟨.WS, ⟨0, 30⟩, " "⟩, ⟨.ON, ⟨0, 31⟩, ""⟩, ⟨.WS, ⟨0, 33⟩, " "⟩, ⟨.IDENT, ⟨0, 34⟩, "testdb"⟩,
   ⟨.WS, ⟨0, 40⟩, " "⟩, ⟨.DURATION, ⟨0, 41⟩, ""⟩, ⟨.WS, ⟨0, 49⟩, " "⟩,
   ⟨.DURATION_VAL, ⟨0, 50⟩, "1m"⟩, ⟨.WS, ⟨0, 52⟩, " "⟩, ⟨.REPLICATION, ⟨0, 53⟩, ""⟩,
   ⟨.WS, ⟨0, 64⟩, " "⟩, ⟨.NUMBER, ⟨0, 65⟩, "4"⟩, ⟨.WS, ⟨0, 66⟩, " "⟩,
   ⟨.DEFAULT, ⟨0, 67⟩, ""⟩]

/-- The tokens of `ALTER RETENTION POLICY policy1 ON testdb DEFAULT REPLICATION
4 DURATION 1m`. -/
def tokens_alter_retention_policy_reversed : List Lexeme :=
  [⟨.ALTER, ⟨0, 0⟩, ""⟩, ⟨.WS, ⟨0, 5⟩, " "⟩, ⟨.RETENTION, ⟨0, 6⟩, ""⟩, ⟨.WS, ⟨0, 15⟩, " "⟩,
   ⟨.POLICY, ⟨0, 16⟩, ""⟩, ⟨.WS, ⟨0, 22⟩, " "⟩, ⟨.IDENT, ⟨0, 23⟩, "policy1"⟩,
   ⟨.WS, ⟨0, 30⟩, " "⟩, ⟨.ON, ⟨0, 31⟩, ""⟩, ⟨.WS, ⟨0, 33⟩, " "⟩, ⟨.IDENT, ⟨0, 34⟩, "testdb"⟩,
   ⟨.WS, ⟨0, 40⟩, " "⟩, ⟨.DEFAULT, ⟨0, 41⟩, ""⟩, ⟨.WS, ⟨0, 48⟩, " "⟩,
   ⟨.REPLICATION, ⟨0, 49⟩, ""⟩, ⟨.WS, ⟨0, 60⟩, " "⟩, ⟨.NUMBER, ⟨0, 61⟩, "4"⟩,
   ⟨.WS, ⟨0, 62⟩, " "⟩, ⟨.DURATION, ⟨0, 63⟩, ""⟩, ⟨.WS, ⟨0, 71⟩, " "⟩,
   ⟨.DURATION_VAL, ⟨0, 72⟩, "1m"⟩]

/-- The tokens of `join(aa,"bb", cc)`. -/
def tokens_join : List Lexeme :=
  [⟨.IDENT, ⟨0, 19⟩, "join"⟩, ⟨.LPAREN, ⟨0, 23⟩, ""⟩, ⟨.IDENT, ⟨0, 24⟩, "aa"⟩,
   ⟨.COMMA, ⟨0, 26⟩, ""⟩, ⟨.STRING, ⟨0, 27⟩, "bb"⟩, ⟨.COMMA, ⟨0, 31⟩, ""⟩,
   ⟨.WS, ⟨0, 32⟩, " "⟩, ⟨.IDENT, ⟨0, 33⟩, "cc"⟩, ⟨.RPAREN, ⟨0, 35⟩, ""⟩]

/-- The tokens of `ORDER BY field1`. -/
def tokens_order_by_field1 : List Lexeme :=
  [⟨.ORDER, ⟨0, 28⟩, ""⟩, ⟨.WS, ⟨0, 33⟩, " "⟩, ⟨.BY, ⟨0, 34⟩, ""⟩, ⟨.WS, ⟨0, 36⟩, " "⟩,
   ⟨.IDENT, ⟨0, 37⟩, "field1"⟩]

/-- The tokens of `SELECT a FROM b;`. -/
def tokens_select_semicolon : List Lexeme :=
  [⟨.SELECT, ⟨0, 0⟩, ""⟩, ⟨.WS, ⟨0, 6⟩, " "⟩, ⟨.IDENT, ⟨0, 7⟩, "a"⟩, ⟨.WS, ⟨0, 8⟩, " "⟩,
   ⟨.FROM, ⟨0, 9⟩, ""⟩, ⟨.WS, ⟨0, 13⟩, " "⟩, ⟨.IDENT, ⟨0, 14⟩, "b"⟩, ⟨.SEMICOLON, ⟨0, 15⟩, ""⟩]

/-- The tokens of `SELECT a FROM b; SELECT c FROM d ; `. -/
def tokens_two_selects_semicolon : List Lexeme :=
  tokens_two_selects
    ++ [⟨.WS, ⟨0, 32⟩, " "⟩, ⟨.SEMICOLON, ⟨0, 33⟩, ""⟩, ⟨.WS, ⟨0, 34⟩, " "⟩]

/-- The tokens of `CREATE RETENTION POLICY policy1 ON testdb DURATION
99999999999999999999h REPLICATION 2`. -/
def tokens_create_retention_policy_overflow : List Lexeme :=
  [⟨.CREATE, ⟨0, 0⟩, ""⟩, ⟨.WS, ⟨0, 6⟩, " "⟩, ⟨.RETENTION, ⟨0, 7⟩, ""⟩, ⟨.WS, ⟨0, 16⟩, " "⟩,
   ⟨.POLICY, ⟨0, 17⟩, ""⟩, ⟨.WS, ⟨0, 23⟩, " "⟩, ⟨.IDENT, ⟨0, 24⟩, "policy1"⟩,
   ⟨.WS, ⟨0, 31⟩, " "⟩, ⟨.ON, ⟨0, 32⟩, ""⟩, ⟨.WS, ⟨0, 34⟩, " "⟩, ⟨.IDENT, ⟨0, 35⟩, "testdb"⟩,
   ⟨.WS, ⟨0, 41⟩, " "⟩, ⟨.DURATION, ⟨0, 42⟩, ""⟩, ⟨.WS, ⟨0, 50⟩, " "⟩,
   ⟨.DURATION_VAL, ⟨0, 51⟩, "99999999999999999999h"⟩, ⟨.WS, ⟨0, 72⟩, " "⟩,
   ⟨.REPLICATION, ⟨0, 73⟩, ""⟩, ⟨.WS, ⟨0, 84⟩, " "⟩, ⟨.NUMBER, ⟨0, 85⟩, "2"⟩]

/-! ## Specification vocabulary: sort fields, traversal order, pending tokens -/

/-- A sort field as it is written in an ORDER BY clause: an identifier (an
IDENT or STRING token) alone, an identifier followed by a direction (an ASC or
DESC token), or a direction alone. -/
inductive WrittenSortField
  | named (name : Lexeme)
  | namedDir (name dir : Lexeme)
  | bare (dir : Lexeme)
  deriving DecidableEq, Repr

/-- The tokens of a written sort field. -/
def WrittenSortField.tokens : WrittenSortField → List Lexeme
  | .named name => [name]
  | .namedDir name dir => [name, dir]
  | .bare dir => [dir]

/-- The kinds of the tokens of a written sort field. -/
def WrittenSortField.valid : WrittenSortField → Prop
  | .named name => name.tok = .IDENT ∨ name.tok = .STRING
  | .namedDir name dir =>
    (name.tok = .IDENT ∨ name.tok = .STRING) ∧ (dir.tok = .ASC ∨ dir.tok = .DESC)
  | .bare dir => dir.tok = .ASC ∨ dir.tok = .DESC

/-- The SortField a written sort field stands for: Name is the identifier,
empty for a direction alone, and Ascending tells whether an ASC token is
written. -/
def WrittenSortField.value : WrittenSortField → SortField
  | .named name => { Name := name.lit, Ascending := false }
  | .namedDir name dir => { Name := name.lit, Ascending := decide (dir.tok = .ASC) }
  | .bare dir => { Name := "", Ascending := decide (dir.tok = .ASC) }

/-- The token `t` after a written sort field is not read as a part of it: after
an identifier alone, `t` is no direction (and no second whitespace token). -/
def WrittenSortField.endsAt : WrittenSortField → Token → Prop
  | .named _, t => t ≠ .ASC ∧ t ≠ .DESC ∧ t ≠ .WS
  | .namedDir _ _, _ => True
  | .bare _, _ => True

/-- The tokens of the sort fields that follow the first one, each after its
comma. -/
def sortFieldsTail : List (Lexeme × WrittenSortField) → List Lexeme
  | [] => []
  | cf :: rest => cf.1 :: cf.2.tokens ++ sortFieldsTail rest

/-- The last of the sort fields `f , f1 , ... , fk`. -/
def lastSortField : WrittenSortField → List (Lexeme × WrittenSortField) → WrittenSortField
  | f, [] => f
  | _, cf :: rest => lastSortField cf.2 rest

instance WrittenSortField.valid.decidable : (f : WrittenSortField) → Decidable f.valid
  | .named name => inferInstanceAs (Decidable (name.tok = .IDENT ∨ name.tok = .STRING))
  | .namedDir name dir =>
    inferInstanceAs (Decidable ((name.tok = .IDENT ∨ name.tok = .STRING)
      ∧ (dir.tok = .ASC ∨ dir.tok = .DESC)))
  | .bare dir => inferInstanceAs (Decidable (dir.tok = .ASC ∨ dir.tok = .DESC))

instance WrittenSortField.endsAt.decidable :
    (f : WrittenSortField) → (t : Token) → Decidable (f.endsAt t)
  | .named _, t => inferInstanceAs (Decidable (t ≠ .ASC ∧ t ≠ .DESC ∧ t ≠ .WS))
  | .namedDir _ _, _ => inferInstanceAs (Decidable True)
  | .bare _, _ => inferInstanceAs (Decidable True)

/-- The tokens of `ASC, field1, field2 DESC`. -/
def tokens_sort_fields : List Lexeme :=
  [⟨.ASC, ⟨0, 37⟩, ""⟩, ⟨.COMMA, ⟨0, 40⟩, ""⟩, ⟨.WS, ⟨0, 41⟩, " "⟩,
   ⟨.IDENT, ⟨0, 42⟩, "field1"⟩, ⟨.COMMA, ⟨0, 48⟩, ""⟩, ⟨.WS, ⟨0, 49⟩, " "⟩,
   ⟨.IDENT, ⟨0, 50⟩, "field2"⟩, ⟨.WS, ⟨0, 56⟩, " "⟩, ⟨.DESC, ⟨0, 57⟩, ""⟩]

/-- One item of the in-order traversal of an expression tree: an operand (a
subtree that is not a BinaryExpr) or the operator of a BinaryExpr. -/
inductive ExprItem
  | operand (e : Expr)
  | operator (op : Token)

/-- The in-order (left-to-right) traversal of the BinaryExpr nodes of a tree:
left side, operator, right side. -/
def inorder : Expr → List ExprItem
  | .BinaryExpr op l r => inorder l ++ [.operator op] ++ inorder r
  | e => [.operand e]

/-- The number of BinaryExpr nodes of a tree, outside of its operands. -/
def countBinary : Expr → Nat
  | .BinaryExpr _ l r => countBinary l + 1 + countBinary r
  | _ => 0

/-- The operators and operands `op1 x1 ... opn xn`, in the order in which they
are scanned. -/
def scannedItems : List (Token × Expr) → List ExprItem
  | [] => []
  | ox :: rest => .operator ox.1 :: .operand ox.2 :: scannedItems rest

/-- The number of tokens a parser state has yet to deliver before the end of
its input: the tokens not scanned yet and the token that is pushed back, unless
that is EOF. -/
def pending (p : Parser) : Nat :=
  p.s.input.length + (if p.s.n = true ∧ p.s.buf.tok ≠ .EOF then 1 else 0)

/-- A result leaves at most `m` tokens pending. -/
def Result.within {α : Type} (m : Nat) (r : Result α) : Prop :=
  ∀ v q, r = .ok v q → pending q ≤ m

/-- A result that is a value or an error and leaves at most `m` tokens
pending. -/
def Result.settled {α : Type} (m : Nat) (r : Result α) : Prop :=
  r ≠ .outOfFuel ∧ r.within m

/-- The parser method `f`, as a function of its bound, returns. -/
def Terminates {α : Type} (f : Nat → Result α) : Prop :=
  ∃ r, Returns f r

/-! # Properties -/

/-! ## The scanner -/

theorem scan_unscan_scan (p : Parser) : ((p.scan).2.unscan).scan = p.scan := by
  rcases p with ⟨⟨input, eof, buf, n⟩⟩
  cases n <;> cases input <;> rfl

theorem scanIgnoreWhitespace_unscan (p : Parser)
    (h : (p.scanIgnoreWhitespace).1.tok ≠ .WS) :
    ((p.scanIgnoreWhitespace).2.unscan).scanIgnoreWhitespace = p.scanIgnoreWhitespace := by
  unfold Parser.scanIgnoreWhitespace at h ⊢
  by_cases h1 : (p.scan).1.tok = .WS
  · simp only [h1, if_true] at h ⊢
    rw [scan_unscan_scan]
    simp [h]
  · simp only [h1, if_false] at h ⊢
    rw [scan_unscan_scan]
    simp [h1]

theorem fuel_succ (go : Stdlib) : ∀ n : Nat,
    (∀ p r, ParseExpr go n p = r → r ≠ .outOfFuel → ParseExpr go (n + 1) p = r) ∧
    (∀ e p r, ParseExprLoop go n e p = r → r ≠ .outOfFuel → ParseExprLoop go (n + 1) e p = r) ∧
    (∀ p r, parseUnaryExpr go n p = r → r ≠ .outOfFuel → parseUnaryExpr go (n + 1) p = r) ∧
    (∀ name p r, parseCall go n name p = r → r ≠ .outOfFuel → parseCall go (n + 1) name p = r) ∧
    (∀ name args p r, parseCallArgs go n name args p = r → r ≠ .outOfFuel →
      parseCallArgs go (n + 1) name args p = r) := by
  intro n
  induction n with
  | zero =>
    refine ⟨?_, ?_, ?_, ?_, ?_⟩ <;> intros <;> simp_all [ParseExpr, ParseExprLoop, parseUnaryExpr, parseCall, parseCallArgs]
  | succ n ih =>
    obtain ⟨ih1, ih2, ih3, ih4, ih5⟩ := ih
    refine ⟨?_, ?_, ?_, ?_, ?_⟩
    · intro p r h hr
      rw [ParseExpr] at h ⊢
      cases hu : parseUnaryExpr go n p with
      | ok e q =>
        rw [hu] at h
        rw [ih3 p _ hu (by simp)]
        exact ih2 _ _ _ h hr
      | error e =>
        rw [hu] at h
        rw [ih3 p _ hu (by simp)]
        exact h
      | outOfFuel =>
        rw [hu] at h
        exact absurd h.symm hr
    · intro e p r h hr
      rw [ParseExprLoop] at h ⊢
      try dsimp only at h ⊢
      split
      · rename_i hop
        rw [if_pos hop] at h
        exact h
      · rename_i hop
        rw [if_neg hop] at h
        cases hu : parseUnaryExpr go n (p.scanIgnoreWhitespace).2 with
        | ok x q =>
          rw [hu] at h
          rw [ih3 _ _ hu (by simp)]
          exact ih2 _ _ _ h hr
        | error x =>
          rw [hu] at h
          rw [ih3 _ _ hu (by simp)]
          exact h
        | outOfFuel =>
          rw [hu] at h
          exact absurd h.symm hr
    · intro p r h hr
      rw [parseUnaryExpr] at h ⊢
      try dsimp only at h ⊢
      split
      · rename_i hlp
        rw [if_pos hlp] at h
        cases hu : ParseExpr go n (p.scanIgnoreWhitespace).2 with
        | ok x q =>
          rw [hu] at h
          rw [ih1 _ _ hu (by simp)]
          exact h
        | error x =>
          rw [hu] at h
          rw [ih1 _ _ hu (by simp)]
          exact h
        | outOfFuel =>
          rw [hu] at h
          exact absurd h.symm hr
      · rename_i hlp
        rw [if_neg hlp] at h
        split
        · rename_i hid
          rw [hid] at h
          try dsimp only at h
          split
          · rename_i hc
            rw [if_pos hc] at h
            exact ih4 _ _ _ h hr
          · rename_i hc
            rw [if_neg hc] at h
            exact h
        all_goals (rename_i hid; first | (rw [hid] at h; exact h) | skip)
        split at h <;> first | exact h | (exfalso; simp_all)
    · intro name p r h hr
      rw [parseCall] at h ⊢
      split
      · rename_i hc
        rw [if_pos hc] at h
        exact h
      · rename_i hc
        rw [if_neg hc] at h
        exact ih5 _ _ _ _ h hr
    · intro name args p r h hr
      rw [parseCallArgs] at h ⊢
      cases hu : ParseExpr go n p with
      | ok x q =>
        rw [hu] at h
        rw [ih1 _ _ hu (by simp)]
        try dsimp only at h ⊢
        split
        · rename_i hc
          rw [if_pos hc] at h
          exact h
        · rename_i hc
          rw [if_neg hc] at h
          exact ih5 _ _ _ _ h hr
      | error x =>
        rw [hu] at h
        rw [ih1 _ _ hu (by simp)]
        exact h
      | outOfFuel =>
        rw [hu] at h
        exact absurd h.symm hr

theorem ParseExpr_fuel_le (go : Stdlib) {n m : Nat} (hnm : n ≤ m) {p : Parser} {r : Result Expr}
    (h : ParseExpr go n p = r) (hr : r ≠ .outOfFuel) : ParseExpr go m p = r := by
  induction hnm with
  | refl => exact h
  | step _ ih => exact (fuel_succ go _).1 _ _ ih hr

theorem ParseExprLoop_fuel_le (go : Stdlib) {n m : Nat} (hnm : n ≤ m) {e : Expr} {p : Parser}
    {r : Result Expr} (h : ParseExprLoop go n e p = r) (hr : r ≠ .outOfFuel) :
    ParseExprLoop go m e p = r := by
  induction hnm with
  | refl => exact h
  | step _ ih => exact (fuel_succ go _).2.1 _ _ _ ih hr

theorem parseUnaryExpr_fuel_le (go : Stdlib) {n m : Nat} (hnm : n ≤ m) {p : Parser}
    {r : Result Expr} (h : parseUnaryExpr go n p = r) (hr : r ≠ .outOfFuel) :
    parseUnaryExpr go m p = r := by
  induction hnm with
  | refl => exact h
  | step _ ih => exact (fuel_succ go _).2.2.1 _ _ ih hr

theorem parseCall_fuel_le (go : Stdlib) {n m : Nat} (hnm : n ≤ m) {name : String} {p : Parser}
    {r : Result Expr} (h : parseCall go n name p = r) (hr : r ≠ .outOfFuel) :
    parseCall go m name p = r := by
  induction hnm with
  | refl => exact h
  | step _ ih => exact (fuel_succ go _).2.2.2.1 _ _ _ ih hr

theorem parseCallArgs_fuel_le (go : Stdlib) {n m : Nat} (hnm : n ≤ m) {name : String}
    {args : List Expr} {p : Parser} {r : Result Expr}
    (h : parseCallArgs go n name args p = r) (hr : r ≠ .outOfFuel) :
    parseCallArgs go m name args p = r := by
  induction hnm with
  | refl => exact h
  | step _ ih => exact (fuel_succ go _).2.2.2.2 _ _ _ _ ih hr

/-! ## Results that hold for every large enough bound -/

theorem ParseExpr_returns (go : Stdlib) {n : Nat} {p : Parser} {r : Result Expr}
    (h : ParseExpr go n p = r) (hr : r ≠ .outOfFuel) : Returns (fun k => ParseExpr go k p) r :=
  ⟨hr, n, fun _ hm => ParseExpr_fuel_le go hm h hr⟩

theorem ParseExprLoop_returns (go : Stdlib) {n : Nat} {e : Expr} {p : Parser} {r : Result Expr}
    (h : ParseExprLoop go n e p = r) (hr : r ≠ .outOfFuel) :
    Returns (fun k => ParseExprLoop go k e p) r :=
  ⟨hr, n, fun _ hm => ParseExprLoop_fuel_le go hm h hr⟩

theorem parseUnaryExpr_returns (go : Stdlib) {n : Nat} {p : Parser} {r : Result Expr}
    (h : parseUnaryExpr go n p = r) (hr : r ≠ .outOfFuel) :
    Returns (fun k => parseUnaryExpr go k p) r :=
  ⟨hr, n, fun _ hm => parseUnaryExpr_fuel_le go hm h hr⟩

theorem parseCall_returns (go : Stdlib) {n : Nat} {name : String} {p : Parser} {r : Result Expr}
    (h : parseCall go n name p = r) (hr : r ≠ .outOfFuel) :
    Returns (fun k => parseCall go k name p) r :=
  ⟨hr, n, fun _ hm => parseCall_fuel_le go hm h hr⟩

theorem parseCallArgs_returns (go : Stdlib) {n : Nat} {name : String} {args : List Expr}
    {p : Parser} {r : Result Expr}
    (h : parseCallArgs go n name args p = r) (hr : r ≠ .outOfFuel) :
    Returns (fun k => parseCallArgs go k name args p) r :=
  ⟨hr, n, fun _ hm => parseCallArgs_fuel_le go hm h hr⟩

/-- A method returns at most one result. -/
theorem Returns.unique {α : Type} {f : Nat → Result α} {r r' : Result α}
    (h : Returns f r) (h' : Returns f r') : r = r' := by
  obtain ⟨_, n, hn⟩ := h
  obtain ⟨_, n', hn'⟩ := h'
  rw [← hn (max n n') (le_max_left _ _), ← hn' (max n n') (le_max_right _ _)]

/-! ## The loop of ParseExpr -/

/-- The loop stops at a token that is not an operator and pushes it back. -/
theorem ParseExprLoop_stop (go : Stdlib) (e : Expr) (p : Parser)
    (h : (p.scanIgnoreWhitespace).1.tok.isOperator = false) :
    Returns (fun n => ParseExprLoop go n e p) (.ok e (p.scanIgnoreWhitespace).2.unscan) := by
  apply ParseExprLoop_returns go (n := 1) _ (by simp)
  rw [ParseExprLoop]
  simp [h]

/-- One iteration of the loop: an operator, an operand, and the new root. -/
theorem ParseExprLoop_step (go : Stdlib) (e x : Expr) (p q : Parser) (r : Result Expr)
    (hop : (p.scanIgnoreWhitespace).1.tok.isOperator = true)
    (hx : Returns (fun n => parseUnaryExpr go n (p.scanIgnoreWhitespace).2) (.ok x q))
    (hr : Returns (fun n => ParseExprLoop go n
      (assignRoot e (p.scanIgnoreWhitespace).1.tok x) q) r) :
    Returns (fun n => ParseExprLoop go n e p) r := by
  obtain ⟨_, n1, h1⟩ := hx
  obtain ⟨hne, n2, h2⟩ := hr
  apply ParseExprLoop_returns go (n := max n1 n2 + 1) _ hne
  rw [ParseExprLoop]
  simp only [hop, Bool.not_true, Bool.false_eq_true, if_false]
  have h1' : parseUnaryExpr go (max n1 n2) (p.scanIgnoreWhitespace).2 = .ok x q :=
    h1 _ (le_max_left _ _)
  rw [h1']
  exact h2 _ (le_max_right _ _)

/-- ParseExpr is its first operand followed by the loop. -/
theorem ParseExpr_of_loop (go : Stdlib) (x : Expr) (p q : Parser) (r : Result Expr)
    (hx : Returns (fun n => parseUnaryExpr go n p) (.ok x q))
    (hr : Returns (fun n => ParseExprLoop go n x q) r) :
    Returns (fun n => ParseExpr go n p) r := by
  obtain ⟨_, n1, h1⟩ := hx
  obtain ⟨hne, n2, h2⟩ := hr
  apply ParseExpr_returns go (n := max n1 n2 + 1) _ hne
  have h1' : parseUnaryExpr go (max n1 n2) p = .ok x q := h1 _ (le_max_left _ _)
  rw [ParseExpr, h1']
  exact h2 _ (le_max_right _ _)

/-- The loop folds the operators and operands it reads into the tree with
assignRoot, from left to right. -/
theorem ParseExprLoop_fold (go : Stdlib) (p r : Parser) (rest : List (Token × Expr))
    (h : Operands go p rest r)
    (hend : (r.scanIgnoreWhitespace).1.tok.isOperator = false) (e : Expr) :
    Returns (fun n => ParseExprLoop go n e p)
      (.ok (rest.foldl (fun t ox => assignRoot t ox.1 ox.2) e)
        (r.scanIgnoreWhitespace).2.unscan) := by
  induction h generalizing e with
  | nil p => exact ParseExprLoop_stop go e p hend
  | cons p q r x rest hop hx _ ih =>
    exact ParseExprLoop_step go e x p q _ hop hx (ih hend _)

/-- The argument loop returns nothing but a Call with the given name. -/
theorem parseCallArgs_ok_call (go : Stdlib) (n : Nat) (name : String) (args : List Expr)
    (p q : Parser) (e : Expr) (h : parseCallArgs go n name args p = .ok e q) :
    ∃ es, e = .Call name es := by
  induction n generalizing args p with
  | zero => simp [parseCallArgs] at h
  | succ n ih =>
    rw [parseCallArgs] at h
    split at h
    · dsimp only at h
      split at h
      · split at h
        · simp at h
        · simp only [Result.ok.injEq] at h
          exact ⟨_, h.1.symm⟩
      · exact ih _ _ h
    · simp at h
    · simp at h

/-- The method parseCall returns nothing but a Call with the given name. -/
theorem parseCall_ok_call (go : Stdlib) (n : Nat) (name : String) (p q : Parser) (e : Expr)
    (h : parseCall go n name p = .ok e q) : ∃ es, e = .Call name es := by
  cases n with
  | zero => simp [parseCall] at h
  | succ n =>
    rw [parseCall] at h
    split at h
    · simp only [Result.ok.injEq] at h
      exact ⟨_, h.1.symm⟩
    · exact parseCallArgs_ok_call go _ _ _ _ _ _ h

/-- The method parseUnaryExpr never returns a BinaryExpr. -/
theorem parseUnaryExpr_not_binary (go : Stdlib) (n : Nat) (p q : Parser) (e : Expr)
    (h : parseUnaryExpr go n p = .ok e q) : ∀ op l r, e ≠ .BinaryExpr op l r := by
  intro op l r he
  subst he
  cases n with
  | zero => simp [parseUnaryExpr] at h
  | succ n =>
    rw [parseUnaryExpr] at h
    split at h
    · split at h
      · dsimp only at h
        split at h <;> simp at h
      · simp at h
      · simp at h
    · dsimp only at h
      split at h
      · split at h
        · obtain ⟨es, hes⟩ := parseCall_ok_call go _ _ _ _ _ h
          simp at hes
        · simp at h
      · split at h
        · split at h <;> simp at h
        · split at h
          · split at h <;> simp at h
          · simp at h
      · split at h <;> simp at h
      · simp at h
      · simp at h
      · simp at h
      · simp at h

/-- The new root over a tree that is not a BinaryExpr. -/
theorem assignRoot_of_not_binary (e x : Expr) (op : Token)
    (h : ∀ o l r, e ≠ .BinaryExpr o l r) : assignRoot e op x = .BinaryExpr op e x := by
  cases e <;> first | rfl | exact absurd rfl (h _ _ _)

/-- With operators of one precedence the new root is always the new operator
over the whole previous tree. -/
theorem foldl_assignRoot_same_precedence (k : Int) (rest : List (Token × Expr))
    (hprec : ∀ ox ∈ rest, ox.1.Precedence = k) (e : Expr)
    (he : (∀ o l r, e ≠ .BinaryExpr o l r) ∨ ∃ o l r, e = .BinaryExpr o l r ∧ o.Precedence = k) :
    rest.foldl (fun t ox => assignRoot t ox.1 ox.2) e
      = rest.foldl (fun t ox => .BinaryExpr ox.1 t ox.2) e := by
  induction rest generalizing e with
  | nil => rfl
  | cons ox rest ih =>
    have hk : ox.1.Precedence = k := hprec ox (List.mem_cons_self _ _)
    have hstep : assignRoot e ox.1 ox.2 = .BinaryExpr ox.1 e ox.2 := by
      rcases he with he | ⟨o, l, r, rfl, ho⟩
      · exact assignRoot_of_not_binary e ox.2 ox.1 he
      · simp [assignRoot, ho, hk]
    simp only [List.foldl_cons, hstep]
    exact ih (fun y hy => hprec y (List.mem_cons_of_mem _ hy)) _ (Or.inr ⟨_, _, _, rfl, hk⟩)

/-- What parseUnaryExpr does at a token that is neither `(` nor whitespace:
the token is pushed back and read again. -/
theorem scanIgnoreWhitespace_again (p : Parser)
    (h : (p.scanIgnoreWhitespace).1.tok ≠ .WS) :
    ((p.scanIgnoreWhitespace).2.unscan.scanIgnoreWhitespace).1 = (p.scanIgnoreWhitespace).1
    ∧ ((p.scanIgnoreWhitespace).2.unscan.scanIgnoreWhitespace).2 = (p.scanIgnoreWhitespace).2 := by
  rw [scanIgnoreWhitespace_unscan p h]
  exact ⟨rfl, rfl⟩

/-- The method parseUnaryExpr at an identifier. -/
theorem parseUnaryExpr_ident_eq (go : Stdlib) (n : Nat) (p : Parser)
    (hid : (p.scanIgnoreWhitespace).1.tok = .IDENT) :
    parseUnaryExpr go (n + 1) p =
      if ((p.scanIgnoreWhitespace).2.scan).1.tok = .LPAREN then
        parseCall go n (p.scanIgnoreWhitespace).1.lit ((p.scanIgnoreWhitespace).2.scan).2
      else .ok (.VarRef (p.scanIgnoreWhitespace).1.lit)
        ((p.scanIgnoreWhitespace).2.scan).2.unscan := by
  have hws : (p.scanIgnoreWhitespace).1.tok ≠ .WS := by rw [hid]; decide
  obtain ⟨e1, e2⟩ := scanIgnoreWhitespace_again p hws
  rw [parseUnaryExpr]
  simp only [hid, e1, e2]
  simp

/-- The argument loop on a well-formed argument list closed by `)`. -/
theorem parseCallArgs_of_arguments (go : Stdlib) (name : String) (p r : Parser)
    (es : List Expr) (h : Arguments go p es r) (hr : (r.scan).1.tok = .RPAREN)
    (acc : List Expr) :
    Returns (fun n => parseCallArgs go n name acc p)
      (.ok (.Call name (acc ++ es)) (r.scan).2) := by
  induction h generalizing acc with
  | last p r e he hc =>
    obtain ⟨_, n, hn⟩ := he
    have hn' : ParseExpr go n p = .ok e r := hn n le_rfl
    apply parseCallArgs_returns go (n := n + 1) _ (by simp)
    rw [parseCallArgs, hn']
    simp [hc, scan_unscan_scan, hr]
  | more p q r e es he hc _ ih =>
    obtain ⟨_, n1, h1⟩ := he
    obtain ⟨hne, n2, h2⟩ := ih hr (acc ++ [e])
    apply parseCallArgs_returns go (n := max n1 n2 + 1) _ (by simp)
    have h1' : ParseExpr go (max n1 n2) p = .ok e q := h1 _ (le_max_left _ _)
    have h2' := h2 _ (le_max_right n1 n2)
    rw [parseCallArgs, h1']
    simp only [hc, ne_eq, not_true_eq_false, if_false]
    simpa using h2'

/-! ## Claims -/

/-- C1: for operands `a`, `b`, `c` (whatever parseUnaryExpr returns, never a
BinaryExpr) and operator tokens `op1`, `op2`, ParseExpr on `a op1 b op2 c`
returns `BinaryExpr(a, op1, BinaryExpr(b, op2, c))` when
`Precedence(op1) < Precedence(op2)` and `BinaryExpr(BinaryExpr(a, op1, b), op2, c)`
otherwise, leaving the token after `c` pushed back. -/
theorem ParseExpr_two_operators (go : Stdlib) (p pa pb pc : Parser) (a b c : Expr)
    (op1 op2 : Token)
    (ha : Returns (fun n => parseUnaryExpr go n p) (.ok a pa))
    (h1 : (pa.scanIgnoreWhitespace).1.tok = op1) (hop1 : op1.isOperator = true)
    (hb : Returns (fun n => parseUnaryExpr go n (pa.scanIgnoreWhitespace).2) (.ok b pb))
    (h2 : (pb.scanIgnoreWhitespace).1.tok = op2) (hop2 : op2.isOperator = true)
    (hc : Returns (fun n => parseUnaryExpr go n (pb.scanIgnoreWhitespace).2) (.ok c pc))
    (hend : (pc.scanIgnoreWhitespace).1.tok.isOperator = false) :
    Returns (fun n => ParseExpr go n p)
      (.ok (if op1.Precedence < op2.Precedence
            then .BinaryExpr op1 a (.BinaryExpr op2 b c)
            else .BinaryExpr op2 (.BinaryExpr op1 a b) c)
        (pc.scanIgnoreWhitespace).2.unscan) := by
  subst h1 h2
  have hchain : Operands go pa
      [((pa.scanIgnoreWhitespace).1.tok, b), ((pb.scanIgnoreWhitespace).1.tok, c)] pc :=
    .cons pa pb pc b _ hop1 hb (.cons pb pc pc c _ hop2 hc (.nil pc))
  have hfold := ParseExprLoop_fold go pa pc _ hchain hend a
  have hna : ∀ o l r, a ≠ .BinaryExpr o l r := by
    obtain ⟨_, n, hn⟩ := ha
    exact parseUnaryExpr_not_binary go n p pa a (hn n le_rfl)
  simp only [List.foldl_cons, List.foldl_nil, assignRoot_of_not_binary a b _ hna] at hfold
  have hroot : assignRoot (.BinaryExpr (pa.scanIgnoreWhitespace).1.tok a b)
      (pb.scanIgnoreWhitespace).1.tok c
      = (if (pa.scanIgnoreWhitespace).1.tok.Precedence < (pb.scanIgnoreWhitespace).1.tok.Precedence
          then .BinaryExpr (pa.scanIgnoreWhitespace).1.tok a
            (.BinaryExpr (pb.scanIgnoreWhitespace).1.tok b c)
          else .BinaryExpr (pb.scanIgnoreWhitespace).1.tok
            (.BinaryExpr (pa.scanIgnoreWhitespace).1.tok a b) c) := rfl
  rw [hroot] at hfold
  exact ParseExpr_of_loop go a p pa _ ha hfold

/-- C1 at `1 * 2 + 3`: the tree is `(1 * 2) + 3`. -/
theorem ParseExpr_two_operators_witness :
    Returns (fun n => ParseExpr demoLib n (NewParser tokens_1_mul_2_add_3 ⟨0, 9⟩))
      (.ok (.BinaryExpr .ADD
          (.BinaryExpr .MUL (.NumberLiteral ⟨0x3FF0000000000000⟩)
            (.NumberLiteral ⟨0x4000000000000000⟩))
          (.NumberLiteral ⟨0x4008000000000000⟩))
        ⟨⟨[], ⟨0, 9⟩, ⟨.EOF, ⟨0, 9⟩, ""⟩, true⟩⟩) :=
  ParseExpr_two_operators demoLib (NewParser tokens_1_mul_2_add_3 ⟨0, 9⟩) _ _ _ _ _ _
    .MUL .ADD
    (parseUnaryExpr_returns demoLib (n := 1) rfl (by simp))
    rfl rfl
    (parseUnaryExpr_returns demoLib (n := 1) rfl (by simp))
    rfl rfl
    (parseUnaryExpr_returns demoLib (n := 1) rfl (by simp))
    rfl

/-- C2 (the code at the failing input): on `a = 1 + 2 * 3` ParseExpr returns
`a = ((1 + 2) * 3)`, not `a = (1 + (2 * 3))`: the rotation looks at the root
only, so the `*` node gets the `+` node, of strictly lower precedence, as its
direct left child, and the tree does not respect the precedence table. -/
theorem ParseExpr_ignores_precedence_below_root :
    Returns (fun n => ParseExpr demoLib n (NewParser tokens_a_eq_1_add_2_mul_3 ⟨0, 13⟩))
      (.ok (.BinaryExpr .EQ (.VarRef "a")
          (.BinaryExpr .MUL
            (.BinaryExpr .ADD (.NumberLiteral ⟨0x3FF0000000000000⟩)
              (.NumberLiteral ⟨0x4000000000000000⟩))
            (.NumberLiteral ⟨0x4008000000000000⟩)))
        ⟨⟨[], ⟨0, 13⟩, ⟨.EOF, ⟨0, 13⟩, ""⟩, true⟩⟩)
    ∧ respectsPrecedence (.BinaryExpr .EQ (.VarRef "a")
          (.BinaryExpr .MUL
            (.BinaryExpr .ADD (.NumberLiteral ⟨0x3FF0000000000000⟩)
              (.NumberLiteral ⟨0x4000000000000000⟩))
            (.NumberLiteral ⟨0x4008000000000000⟩))) = false :=
  ⟨ParseExpr_returns demoLib (n := 5) rfl (by simp), rfl⟩

/-- C3: for a token sequence `x0 op1 x1 ... opn xn` whose operators all have
the same precedence, ParseExpr returns the left fold
`((x0 op1 x1) op2 x2) ... opn xn`: each new operator becomes the root with the
whole previous tree as its left side. -/
theorem ParseExpr_left_fold (go : Stdlib) (p q r : Parser) (x0 : Expr)
    (rest : List (Token × Expr)) (k : Int)
    (h0 : Returns (fun n => parseUnaryExpr go n p) (.ok x0 q))
    (hrest : Operands go q rest r)
    (hprec : ∀ ox ∈ rest, ox.1.Precedence = k)
    (hend : (r.scanIgnoreWhitespace).1.tok.isOperator = false) :
    Returns (fun n => ParseExpr go n p)
      (.ok (rest.foldl (fun t ox => .BinaryExpr ox.1 t ox.2) x0)
        (r.scanIgnoreWhitespace).2.unscan) := by
  have hfold := ParseExprLoop_fold go q r rest hrest hend x0
  have hx0 : ∀ o l r, x0 ≠ .BinaryExpr o l r := by
    obtain ⟨_, n, hn⟩ := h0
    exact parseUnaryExpr_not_binary go n p q x0 (hn n le_rfl)
  rw [foldl_assignRoot_same_precedence k rest hprec x0 (Or.inl hx0)] at hfold
  exact ParseExpr_of_loop go x0 p q _ h0 hfold

/-- C3 at `1 * 2 * 3 * 4`: the tree is `((1 * 2) * 3) * 4`. -/
theorem ParseExpr_left_fold_witness :
    Returns (fun n => ParseExpr demoLib n (NewParser tokens_1_mul_2_mul_3_mul_4 ⟨0, 13⟩))
      (.ok (.BinaryExpr .MUL
          (.BinaryExpr .MUL
            (.BinaryExpr .MUL (.NumberLiteral ⟨0x3FF0000000000000⟩)
              (.NumberLiteral ⟨0x4000000000000000⟩))
            (.NumberLiteral ⟨0x4008000000000000⟩))
          (.NumberLiteral ⟨0x4010000000000000⟩))
        ⟨⟨[], ⟨0, 13⟩, ⟨.EOF, ⟨0, 13⟩, ""⟩, true⟩⟩) :=
  ParseExpr_left_fold demoLib (NewParser tokens_1_mul_2_mul_3_mul_4 ⟨0, 13⟩) _ _ _
    [(.MUL, .NumberLiteral ⟨0x4000000000000000⟩), (.MUL, .NumberLiteral ⟨0x4008000000000000⟩),
      (.MUL, .NumberLiteral ⟨0x4010000000000000⟩)] 5
    (parseUnaryExpr_returns demoLib (n := 1) rfl (by simp))
    (.cons _ _ _ _ _ rfl (parseUnaryExpr_returns demoLib (n := 1) rfl (by simp))
      (.cons _ _ _ _ _ rfl (parseUnaryExpr_returns demoLib (n := 1) rfl (by simp))
        (.cons _ _ _ _ _ rfl (parseUnaryExpr_returns demoLib (n := 1) rfl (by simp))
          (.nil _))))
    (by decide)
    rfl

/-- C4: parenthesization is preserved.  When the token at `p` is `(`, ParseExpr
on what follows returns `e` and the next token is `)`, then parseUnaryExpr at
`p` returns `ParenExpr(e)`; and for every operator `op` and operand `x` that
follow, whatever the precedence of `op`, ParseExpr at `p` returns
`BinaryExpr(ParenExpr(e), op, x)`. -/
theorem ParseExpr_paren_preserved (go : Stdlib) (p q : Parser) (e : Expr)
    (hl : (p.scanIgnoreWhitespace).1.tok = .LPAREN)
    (he : Returns (fun n => ParseExpr go n (p.scanIgnoreWhitespace).2) (.ok e q))
    (hr : (q.scanIgnoreWhitespace).1.tok = .RPAREN) :
    Returns (fun n => parseUnaryExpr go n p) (.ok (.ParenExpr e) (q.scanIgnoreWhitespace).2)
    ∧ ∀ (op : Token) (x : Expr) (r : Parser),
        ((q.scanIgnoreWhitespace).2.scanIgnoreWhitespace).1.tok = op →
        op.isOperator = true →
        Returns (fun n => parseUnaryExpr go n
          ((q.scanIgnoreWhitespace).2.scanIgnoreWhitespace).2) (.ok x r) →
        (r.scanIgnoreWhitespace).1.tok.isOperator = false →
        Returns (fun n => ParseExpr go n p)
          (.ok (.BinaryExpr op (.ParenExpr e) x) (r.scanIgnoreWhitespace).2.unscan) := by
  have hparen : Returns (fun n => parseUnaryExpr go n p)
      (.ok (.ParenExpr e) (q.scanIgnoreWhitespace).2) := by
    obtain ⟨_, n, hn⟩ := he
    apply parseUnaryExpr_returns go (n := n + 1) _ (by simp)
    have hn' : ParseExpr go n (p.scanIgnoreWhitespace).2 = .ok e q := hn n le_rfl
    rw [parseUnaryExpr]
    simp [hl, hn', hr]
  refine ⟨hparen, ?_⟩
  intro op x r hop hisop hx hend
  subst hop
  have hchain : Operands go (q.scanIgnoreWhitespace).2
      [(((q.scanIgnoreWhitespace).2.scanIgnoreWhitespace).1.tok, x)] r :=
    .cons _ r r x _ hisop hx (.nil r)
  have hfold := ParseExprLoop_fold go _ r _ hchain hend (.ParenExpr e)
  exact ParseExpr_of_loop go _ p _ _ hparen hfold

/-- C4 at `(1 + 2) * 3`: the tree is the product of the group `(1 + 2)` and 3. -/
theorem ParseExpr_paren_preserved_witness :
    Returns (fun n => ParseExpr demoLib n (NewParser tokens_paren_1_add_2_mul_3 ⟨0, 11⟩))
      (.ok (.BinaryExpr .MUL
          (.ParenExpr (.BinaryExpr .ADD (.NumberLiteral ⟨0x3FF0000000000000⟩)
            (.NumberLiteral ⟨0x4000000000000000⟩)))
          (.NumberLiteral ⟨0x4008000000000000⟩))
        ⟨⟨[], ⟨0, 11⟩, ⟨.EOF, ⟨0, 11⟩, ""⟩, true⟩⟩) :=
  (ParseExpr_paren_preserved demoLib (NewParser tokens_paren_1_add_2_mul_3 ⟨0, 11⟩) _ _
    rfl (ParseExpr_returns demoLib (n := 4) rfl (by simp)) rfl).2
    .MUL _ _ rfl rfl (parseUnaryExpr_returns demoLib (n := 1) rfl (by simp)) rfl

/-- C5: Precedence is 1 for OR, 2 for AND, 3 for the six comparison operators,
4 for ADD and SUB, 5 for MUL and DIV, and 0 for every other token. -/
theorem Precedence_table (tok : Token) :
    tok.Precedence =
      if tok = .OR then 1
      else if tok = .AND then 2
      else if tok = .EQ ∨ tok = .NEQ ∨ tok = .LT ∨ tok = .LTE ∨ tok = .GT ∨ tok = .GTE then 3
      else if tok = .ADD ∨ tok = .SUB then 4
      else if tok = .MUL ∨ tok = .DIV then 5
      else 0 := by
  cases tok <;> rfl

/-- C6: parseUnaryExpr at an IDENT token with literal `name`.  When the very
next raw token is LPAREN: a directly following RPAREN gives `Call(name)` with no
arguments; otherwise an argument list `e1, ..., ek` closed by RPAREN gives
`Call(name, [e1, ..., ek])`, the arguments in source order; and whatever is
returned with success is a Call named `name`.  When the next raw token is
anything else (a whitespace token included) the result is `VarRef(name)` and
that token is pushed back: the next scan returns it again. -/
theorem parseUnaryExpr_ident (go : Stdlib) (p p1 p2 : Parser) (name : String)
    (hid : (p.scanIgnoreWhitespace).1.tok = .IDENT)
    (hname : (p.scanIgnoreWhitespace).1.lit = name)
    (hp1 : (p.scanIgnoreWhitespace).2 = p1) (hp2 : (p1.scan).2 = p2) :
    ((p1.scan).1.tok = .LPAREN → (p2.scan).1.tok = .RPAREN →
      Returns (fun n => parseUnaryExpr go n p) (.ok (.Call name []) (p2.scan).2))
    ∧ (∀ (args : List Expr) (r : Parser),
        (p1.scan).1.tok = .LPAREN → (p2.scan).1.tok ≠ .RPAREN →
        Arguments go (p2.scan).2.unscan args r → (r.scan).1.tok = .RPAREN →
        Returns (fun n => parseUnaryExpr go n p) (.ok (.Call name args) (r.scan).2))
    ∧ (∀ (e : Expr) (q : Parser), (p1.scan).1.tok = .LPAREN →
        Returns (fun n => parseUnaryExpr go n p) (.ok e q) → ∃ args, e = .Call name args)
    ∧ ((p1.scan).1.tok ≠ .LPAREN →
        Returns (fun n => parseUnaryExpr go n p) (.ok (.VarRef name) p2.unscan)
        ∧ (p2.unscan.scan).1 = (p1.scan).1) := by
  subst hname hp1 hp2
  refine ⟨?_, ?_, ?_, ?_⟩
  · intro hl hr
    apply parseUnaryExpr_returns go (n := 2) _ (by simp)
    rw [parseUnaryExpr_ident_eq go 1 p hid, if_pos hl, parseCall, if_pos hr]
  · intro args r hl hr hargs hclose
    obtain ⟨_, n, hn⟩ := parseCallArgs_of_arguments go (p.scanIgnoreWhitespace).1.lit _ r args
      hargs hclose []
    have hn' := hn n le_rfl
    simp only [List.nil_append] at hn'
    apply parseUnaryExpr_returns go (n := n + 2) _ (by simp)
    rw [parseUnaryExpr_ident_eq go (n + 1) p hid, if_pos hl, parseCall, if_neg hr]
    exact hn'
  · intro e q hl he
    obtain ⟨_, n, hn⟩ := he
    have hn' : parseUnaryExpr go (n + 1) p = .ok e q := hn (n + 1) (Nat.le_succ n)
    rw [parseUnaryExpr_ident_eq go n p hid, if_pos hl] at hn'
    exact parseCall_ok_call go _ _ _ _ _ hn'
  · intro hl
    refine ⟨?_, ?_⟩
    · apply parseUnaryExpr_returns go (n := 1) _ (by simp)
      rw [parseUnaryExpr_ident_eq go 0 p hid, if_neg hl]
    · rw [scan_unscan_scan]

/-- C6 at `my_func(1, 2 + 3)`: a Call with the two arguments in source order. -/
theorem parseUnaryExpr_ident_witness :
    Returns (fun n => parseUnaryExpr demoLib n (NewParser tokens_my_func_call ⟨0, 17⟩))
      (.ok (.Call "my_func" [.NumberLiteral ⟨0x3FF0000000000000⟩,
          .BinaryExpr .ADD (.NumberLiteral ⟨0x4000000000000000⟩)
            (.NumberLiteral ⟨0x4008000000000000⟩)])
        ⟨⟨[], ⟨0, 17⟩, ⟨.RPAREN, ⟨0, 16⟩, ""⟩, false⟩⟩) :=
  (parseUnaryExpr_ident demoLib (NewParser tokens_my_func_call ⟨0, 17⟩) _ _ "my_func"
    rfl rfl rfl rfl).2.1 _ _ rfl (by decide)
    (.more _ _ _ _ _ (ParseExpr_returns demoLib (n := 3) rfl (by simp)) rfl
      (.last _ _ _ (ParseExpr_returns demoLib (n := 4) rfl (by simp)) (by decide)))
    rfl

/-- C7: when the token `t` at the start of an operand (the first token that is
not whitespace) is none of LPAREN, IDENT, STRING, NUMBER, TRUE, FALSE,
DURATION_VAL, parseUnaryExpr and hence ParseExpr fail with the syntax error
whose expected list is [identifier, string, number, bool], whose found text is
the literal of `t`, or the name of its token when the literal is empty, and
whose position is the position of `t`. -/
theorem parseUnaryExpr_unexpected_token (go : Stdlib) (p : Parser) (t : Lexeme)
    (ht : (p.scanIgnoreWhitespace).1 = t) (hws : t.tok ≠ .WS)
    (hnot : t.tok ∉ [Token.LPAREN, .IDENT, .STRING, .NUMBER, .TRUE, .FALSE, .DURATION_VAL]) :
    Returns (fun n => parseUnaryExpr go n p)
      (.error { Message := "", Found := if t.lit = "" then t.tok.String else t.lit,
                Expected := ["identifier", "string", "number", "bool"], Pos := t.pos })
    ∧ Returns (fun n => ParseExpr go n p)
      (.error { Message := "", Found := if t.lit = "" then t.tok.String else t.lit,
                Expected := ["identifier", "string", "number", "bool"], Pos := t.pos }) := by
  subst ht
  obtain ⟨e1, e2⟩ := scanIgnoreWhitespace_again p hws
  simp only [List.mem_cons, List.mem_singleton, List.not_mem_nil, not_or, or_false] at hnot
  obtain ⟨h1, h2, h3, h4, h5, h6, h7⟩ := hnot
  have hu : parseUnaryExpr go 1 p =
      .error { Message := "", Found := if (p.scanIgnoreWhitespace).1.lit = ""
                  then (p.scanIgnoreWhitespace).1.tok.String else (p.scanIgnoreWhitespace).1.lit,
                Expected := ["identifier", "string", "number", "bool"],
                Pos := (p.scanIgnoreWhitespace).1.pos } := by
    have hfound : (if (p.scanIgnoreWhitespace).1.lit = ""
        then (p.scanIgnoreWhitespace).1.tok.String else (p.scanIgnoreWhitespace).1.lit)
        = tokstr (p.scanIgnoreWhitespace).1.tok (p.scanIgnoreWhitespace).1.lit := by
      unfold tokstr
      by_cases hl : (p.scanIgnoreWhitespace).1.lit = "" <;> simp [hl]
    rw [hfound, parseUnaryExpr, if_neg h1]
    simp only [e1, e2]
    rfl
  refine ⟨parseUnaryExpr_returns go hu (by simp), ?_⟩
  apply ParseExpr_returns go (n := 2) _ (by simp)
  rw [ParseExpr, hu]

/-- C7 at the single token `*`: found `*`, at the position of the token. -/
theorem parseUnaryExpr_unexpected_token_witness :
    Returns (fun n => ParseExpr demoLib n (NewParser [⟨.MUL, ⟨0, 37⟩, ""⟩] ⟨0, 38⟩))
      (.error { Message := "", Found := "*",
                Expected := ["identifier", "string", "number", "bool"], Pos := ⟨0, 37⟩ }) :=
  (parseUnaryExpr_unexpected_token demoLib (NewParser [⟨.MUL, ⟨0, 37⟩, ""⟩] ⟨0, 38⟩)
    ⟨.MUL, ⟨0, 37⟩, ""⟩ rfl (by decide) (by decide)).2

/-! ## Go library functions: text length and ParseInt -/

theorem utf8ByteSize_go_ge (l : List Char) : l.length ≤ String.utf8ByteSize.go l := by
  induction l with
  | nil => simp [String.utf8ByteSize.go]
  | cons c cs ih =>
    have := Char.utf8Size_pos c
    simp only [String.utf8ByteSize.go, List.length_cons]
    omega

theorem utf8ByteSize_mk_ge (l : List Char) : l.length ≤ (String.mk l).utf8ByteSize :=
  utf8ByteSize_go_ge l

theorem foldl_digits_ge (ds : List Char) (n : Nat) :
    n ≤ ds.foldl (fun n c => 10 * n + digitVal c) n := by
  induction ds generalizing n with
  | nil => simp
  | cons c cs ih =>
    simp only [List.foldl_cons]
    exact le_trans (by omega) (ih _)

theorem ParseUintLoop_digits (ds : List Char) (n : Nat) (hd : ∀ c ∈ ds, isDigit c = true)
    (hmax : ds.foldl (fun n c => 10 * n + digitVal c) n < 2 ^ 64) :
    ParseUintLoop ds n = (ds.foldl (fun n c => 10 * n + digitVal c) n, none) := by
  induction ds generalizing n with
  | nil => simp [ParseUintLoop]
  | cons c cs ih =>
    have hc : isDigit c = true := hd c (List.mem_cons_self _ _)
    simp only [List.foldl_cons] at hmax ⊢
    have hge := foldl_digits_ge cs (10 * n + digitVal c)
    have h1 : ¬ (n ≥ (2 ^ 64 - 1) / 10 + 1) := by
      norm_num at hmax ⊢
      omega
    have h2 : ¬ (n * 10 + digitVal c > 2 ^ 64 - 1) := by
      norm_num at hmax ⊢
      omega
    rw [ParseUintLoop]
    simp only [hc, Bool.not_true, Bool.false_eq_true, if_false, h1, h2]
    rw [Nat.mul_comm n 10]
    exact ih _ (fun c hc => hd c (List.mem_cons_of_mem _ hc)) hmax

theorem ParseUint_digits (ds : List Char) (hne : ds ≠ []) (hd : ∀ c ∈ ds, isDigit c = true)
    (hmax : digitsValue ds < 2 ^ 64) : ParseUint ds = (digitsValue ds, none) := by
  unfold ParseUint
  rw [if_neg hne]
  exact ParseUintLoop_digits ds 0 hd hmax

theorem ParseUintLoop_ok_digits (ds : List Char) (n v : Nat)
    (h : ParseUintLoop ds n = (v, none)) : ds.all isDigit = true := by
  induction ds generalizing n with
  | nil => rfl
  | cons c cs ih =>
    rw [ParseUintLoop] at h
    split at h
    · simp at h
    · rename_i hc
      split at h
      · simp at h
      · split at h
        · simp at h
        · have hc' : isDigit c = true := by
            cases hx : isDigit c
            · simp [hx] at hc
            · rfl
          simp only [List.all_cons, hc', Bool.true_and]
          exact ih _ h

theorem ParseUint_ok_digits (ds : List Char) (v : Nat) (h : ParseUint ds = (v, none)) :
    (!ds.isEmpty && ds.all isDigit) = true := by
  unfold ParseUint at h
  split at h
  · simp at h
  · rename_i hne
    have := ParseUintLoop_ok_digits ds 0 v h
    cases ds with
    | nil => exact absurd rfl hne
    | cons c cs => simpa using this

theorem ParseUintLoop_range (ds : List Char) (n v : Nat)
    (h : ParseUintLoop ds n = (v, some .ErrRange)) : v = 2 ^ 64 - 1 := by
  induction ds generalizing n with
  | nil => simp [ParseUintLoop] at h
  | cons c cs ih =>
    rw [ParseUintLoop] at h
    split at h
    · simp at h
    · split at h
      · simp only [Prod.mk.injEq] at h
        exact h.1.symm
      · split at h
        · simp only [Prod.mk.injEq] at h
          exact h.1.symm
        · exact ih _ h

theorem ParseIntSigned_ok_digits (neg : Bool) (ds : List Char) (n : Int)
    (h : ParseIntSigned neg ds = (n, none)) : (!ds.isEmpty && ds.all isDigit) = true := by
  unfold ParseIntSigned at h
  split at h
  · simp at h
  · simp at h
  · rename_i un e h1 h2 heq
    cases e with
    | none => exact ParseUint_ok_digits ds un heq
    | some err =>
      cases err with
      | ErrInvalidDuration => exact (h2 rfl).elim
      | ErrSyntax => exact (h1 rfl).elim
      | ErrRange =>
        have hun : un = 2 ^ 64 - 1 := by
          unfold ParseUint at heq
          split at heq
          · simp at heq
          · exact ParseUintLoop_range ds 0 un heq
        subst hun
        cases neg <;> simp at h

/-- A text that ParseInt accepts is a base-10 integer. -/
theorem ParseInt_ok_base10 (l : List Char) (n : Int) (h : ParseInt (String.mk l) = (n, none)) :
    isBase10Integer l = true := by
  unfold ParseInt at h
  simp only at h
  split at h
  · simp at h
  · exact ParseIntSigned_ok_digits _ _ _ h
  · exact ParseIntSigned_ok_digits _ _ _ h
  · rename_i cs h1 h2 h3
    have := ParseIntSigned_ok_digits _ _ _ h
    unfold isBase10Integer
    split
    · exact (h2 _ rfl).elim
    · exact (h3 _ rfl).elim
    · exact this

/-- ParseInt on an optional sign followed by digits, in the range of int64. -/
theorem ParseInt_digits (ds : List Char) (hne : ds ≠ []) (hd : ∀ c ∈ ds, isDigit c = true) :
    (digitsValue ds < 2 ^ 63 → ParseInt (String.mk ds) = ((digitsValue ds : Int), none))
    ∧ (digitsValue ds < 2 ^ 63 →
        ParseInt (String.mk ('+' :: ds)) = ((digitsValue ds : Int), none))
    ∧ (digitsValue ds ≤ 2 ^ 63 →
        ParseInt (String.mk ('-' :: ds)) = (-(digitsValue ds : Int), none)) := by
  have hpos : ∀ (hv : digitsValue ds < 2 ^ 63),
      ParseIntSigned false ds = ((digitsValue ds : Int), none) := by
    intro hv
    unfold ParseIntSigned
    rw [ParseUint_digits ds hne hd (lt_trans hv (by norm_num))]
    have : ¬ (digitsValue ds ≥ 2 ^ 63) := not_le.mpr hv
    norm_num at hv
    simp [hv]
  refine ⟨?_, ?_, ?_⟩
  · intro hv
    cases ds with
    | nil => exact absurd rfl hne
    | cons c cs =>
      have hc : isDigit c = true := hd c (List.mem_cons_self _ _)
      have h1 : c ≠ '+' := by rintro rfl; exact absurd hc (by decide)
      have h2 : c ≠ '-' := by rintro rfl; exact absurd hc (by decide)
      unfold ParseInt
      simp only
      split
      · rename_i heq; simp at heq
      · rename_i heq; simp only [List.cons.injEq] at heq; exact absurd heq.1 h1
      · rename_i heq; simp only [List.cons.injEq] at heq; exact absurd heq.1 h2
      · exact hpos hv
  · intro hv
    show ParseIntSigned false ds = _
    exact hpos hv
  · intro hv
    show ParseIntSigned true ds = _
    unfold ParseIntSigned
    rw [ParseUint_digits ds hne hd (lt_of_le_of_lt hv (by norm_num))]
    norm_num at hv
    simp [hv]

/-! ## ParseDuration, by the shape of the text -/

/-- A text that ends in a digit is parsed whole, as microseconds. -/
theorem ParseDuration_digit_end (init : List Char) (d : Char) (hd : isDigit d = true) :
    ParseDuration (String.mk (init ++ [d])) =
      match ParseInt (String.mk (init ++ [d])) with
      | (_, some _) => (0, some .ErrInvalidDuration)
      | (n, none) => (int64 (n * Microsecond), none) := by
  have hsz := utf8ByteSize_mk_ge (init ++ [d])
  simp only [List.length_append, List.length_singleton] at hsz
  unfold ParseDuration
  rw [if_neg (by omega)]
  split
  · rfl
  · have hlast : (init ++ [d]).getLast? = some d := by simp
    simp only [split, hlast, hd, if_true]
    split <;> simp_all

/-- A text `num c` whose last character `c` is not a digit, and which does not
end in `ms`, is split into the number `num` and the unit `c`. -/
theorem ParseDuration_unit_char (init : List Char) (d c : Char) (hc : isDigit c = false)
    (hms : ¬ (d = 'm' ∧ c = 's')) :
    ParseDuration (String.mk (init ++ [d] ++ [c])) =
      match ParseInt (String.mk (init ++ [d])) with
      | (_, some _) => (0, some .ErrInvalidDuration)
      | (n, none) =>
        if String.mk [c] = "u" ∨ String.mk [c] = "µ" then (int64 (n * Microsecond), none)
        else if String.mk [c] = "ms" then (int64 (n * Millisecond), none)
        else if String.mk [c] = "s" then (int64 (n * Second), none)
        else if String.mk [c] = "m" then (int64 (n * Minute), none)
        else if String.mk [c] = "h" then (int64 (n * Hour), none)
        else if String.mk [c] = "d" then (int64 (int64 (n * 24) * Hour), none)
        else if String.mk [c] = "w" then (int64 (int64 (int64 (n * 7) * 24) * Hour), none)
        else (0, some .ErrInvalidDuration) := by
  have hsz := utf8ByteSize_mk_ge (init ++ [d] ++ [c])
  simp only [List.length_append, List.length_singleton] at hsz
  have hdrop2 : (init ++ [d] ++ [c]).drop ((init ++ [d] ++ [c]).length - 2) = [d, c] := by
    have h1 : (init ++ [d] ++ [c]) = init ++ [d, c] := by simp
    have h2 : (init ++ [d, c]).length - 2 = init.length := by simp
    rw [h1, h2]
    exact List.drop_left _ _
  have hlen : (init ++ [d] ++ [c]).length - 1 = (init ++ [d]).length := by simp
  have hdrop1 : (init ++ [d] ++ [c]).drop ((init ++ [d] ++ [c]).length - 1) = [c] := by
    rw [hlen]
    exact List.drop_left _ _
  have htake1 : (init ++ [d] ++ [c]).take ((init ++ [d] ++ [c]).length - 1) = init ++ [d] := by
    rw [hlen]
    exact List.take_left _ _
  have hlast : (init ++ [d] ++ [c]).getLast? = some c := by simp
  have hne : ([d, c] == ['m', 's']) = false := by
    simp only [beq_eq_false_iff_ne, ne_eq, List.cons.injEq, and_true]
    exact hms
  unfold ParseDuration
  rw [if_neg (by omega), if_neg (by omega)]
  simp only [split, hlast, hc, Bool.false_eq_true, if_false, hdrop2, hne, Bool.and_false,
    hdrop1, htake1]

/-- A text `num ms` with a non-empty `num` is split into `num` and the unit
`ms`. -/
theorem ParseDuration_ms (init : List Char) (d : Char) :
    ParseDuration (String.mk (init ++ [d] ++ ['m', 's'])) =
      match ParseInt (String.mk (init ++ [d])) with
      | (_, some _) => (0, some .ErrInvalidDuration)
      | (n, none) => (int64 (n * Millisecond), none) := by
  have hsz := utf8ByteSize_mk_ge (init ++ [d] ++ ['m', 's'])
  simp only [List.length_append, List.length_singleton, List.length_cons, List.length_nil]
    at hsz
  have hlen : (init ++ [d] ++ ['m', 's']).length - 2 = (init ++ [d]).length := by simp
  have hdrop2 : (init ++ [d] ++ ['m', 's']).drop ((init ++ [d] ++ ['m', 's']).length - 2)
      = ['m', 's'] := by
    rw [hlen]
    exact List.drop_left _ _
  have htake2 : (init ++ [d] ++ ['m', 's']).take ((init ++ [d] ++ ['m', 's']).length - 2)
      = init ++ [d] := by
    rw [hlen]
    exact List.take_left _ _
  have hlast : (init ++ [d] ++ ['m', 's']).getLast? = some 's' := by simp
  have hgt : decide ((String.mk (init ++ [d] ++ ['m', 's'])).utf8ByteSize > 2) = true := by
    simp only [decide_eq_true_eq]
    omega
  have hs : isDigit 's' = false := by decide
  unfold ParseDuration
  rw [if_neg (by omega), if_neg (by omega)]
  simp only [split, hlast, hs, Bool.false_eq_true, if_false, hdrop2, htake2, hgt, beq_self_eq_true,
    Bool.and_self, if_true]
  split <;> simp_all

/-- A text of one character that is not a digit is no duration. -/
theorem ParseDuration_single_nondigit (c : Char) (hc : isDigit c = false) :
    ParseDuration (String.mk [c]) = (0, some .ErrInvalidDuration) := by
  have hsz := utf8ByteSize_mk_ge [c]
  simp only [List.length_singleton] at hsz
  have hint : ∀ n, ParseInt (String.mk [c]) ≠ (n, none) := by
    intro n h
    have hb := ParseInt_ok_base10 [c] n h
    unfold isBase10Integer at hb
    split at hb
    · rename_i heq
      simp only [List.cons.injEq] at heq
      simp [← heq.2] at hb
    · rename_i heq
      simp only [List.cons.injEq] at heq
      simp [← heq.2] at hb
    · simp [hc] at hb
  unfold ParseDuration
  rw [if_neg (by omega)]
  split
  · split
    · rfl
    · rename_i n heq
      exact absurd heq (hint n)
  · simp [split, hc, ParseInt, ParseIntSigned, ParseUint]

theorem int64_of_fits (x : Int) (h : -(2 ^ 63) ≤ x ∧ x < 2 ^ 63) : int64 x = x := by
  unfold int64
  omega

theorem Microsecond_eq : Microsecond = 1000 := rfl
theorem Millisecond_eq : Millisecond = 1000000 := rfl
theorem Second_eq : Second = 1000000000 := rfl
theorem Minute_eq : Minute = 60000000000 := rfl
theorem Hour_eq : Hour = 3600000000000 := rfl

/-- ParseDuration on a number that ends in a digit, alone or followed by a
unit. -/
theorem ParseDuration_number_unit (init : List Char) (d : Char) (hd : isDigit d = true)
    (n : Int) (hn : ParseInt (String.mk (init ++ [d])) = (n, none)) :
    ParseDuration (String.mk (init ++ [d])) = (int64 (n * Microsecond), none)
    ∧ ParseDuration (String.mk (init ++ [d] ++ ['u'])) = (int64 (n * Microsecond), none)
    ∧ ParseDuration (String.mk (init ++ [d] ++ ['µ'])) = (int64 (n * Microsecond), none)
    ∧ ParseDuration (String.mk (init ++ [d] ++ ['m', 's'])) = (int64 (n * Millisecond), none)
    ∧ ParseDuration (String.mk (init ++ [d] ++ ['s'])) = (int64 (n * Second), none)
    ∧ ParseDuration (String.mk (init ++ [d] ++ ['m'])) = (int64 (n * Minute), none)
    ∧ ParseDuration (String.mk (init ++ [d] ++ ['h'])) = (int64 (n * Hour), none)
    ∧ ParseDuration (String.mk (init ++ [d] ++ ['d'])) = (int64 (int64 (n * 24) * Hour), none)
    ∧ ParseDuration (String.mk (init ++ [d] ++ ['w']))
        = (int64 (int64 (int64 (n * 7) * 24) * Hour), none) := by
  have hdm : d ≠ 'm' := by rintro rfl; exact absurd hd (by decide)
  have hms : ∀ c, ¬ (d = 'm' ∧ c = 's') := fun c h => hdm h.1
  refine ⟨?_, ?_, ?_, ?_, ?_, ?_, ?_, ?_, ?_⟩
  · rw [ParseDuration_digit_end init d hd, hn]
  · rw [ParseDuration_unit_char init d 'u' (by decide) (hms _), hn]; rfl
  · rw [ParseDuration_unit_char init d 'µ' (by decide) (hms _), hn]; rfl
  · rw [ParseDuration_ms init d, hn]
  · rw [ParseDuration_unit_char init d 's' (by decide) (hms _), hn]; rfl
  · rw [ParseDuration_unit_char init d 'm' (by decide) (hms _), hn]; rfl
  · rw [ParseDuration_unit_char init d 'h' (by decide) (hms _), hn]; rfl
  · rw [ParseDuration_unit_char init d 'd' (by decide) (hms _), hn]; rfl
  · rw [ParseDuration_unit_char init d 'w' (by decide) (hms _), hn]; rfl

/-- ParseInt on a sign and digits whose value fits in 64 bits. -/
theorem ParseInt_sign_digits (sign ds : List Char) (n : Int)
    (hsign : sign = [] ∨ sign = ['+'] ∨ sign = ['-'])
    (hne : ds ≠ []) (hd : ∀ c ∈ ds, isDigit c = true)
    (hn : n = if sign = ['-'] then -(digitsValue ds : Int) else (digitsValue ds : Int))
    (hfit : -(2 ^ 63) ≤ n ∧ n < 2 ^ 63) :
    ParseInt (String.mk (sign ++ ds)) = (n, none) := by
  obtain ⟨h1, h2, h3⟩ := ParseInt_digits ds hne hd
  rcases hsign with rfl | rfl | rfl
  · rw [if_neg (by decide)] at hn
    subst hn
    exact h1 (by omega)
  · rw [if_neg (by decide)] at hn
    subst hn
    exact h2 (by omega)
  · rw [if_pos rfl] at hn
    subst hn
    exact h3 (by omega)

/-! ## Claims on the duration codec -/

/-- C8: for every decimal integer `n` (an optional sign and the digits `ds`)
and every unit, ParseDuration succeeds with `n` times the unit whenever the
product fits in a signed 64-bit nanosecond count: no suffix (a text ending in a
digit, of any length) is microseconds, `u` and the micro sign are microseconds,
`ms` is milliseconds (not minutes followed by `s`), `s` seconds, `m` minutes,
`h` hours, `d` 24 hours and `w` 7 * 24 hours. -/
theorem ParseDuration_integer_unit (sign ds : List Char) (suffix : String) (U n : Int)
    (hsign : sign = [] ∨ sign = ['+'] ∨ sign = ['-'])
    (hne : ds ≠ []) (hd : ∀ c ∈ ds, isDigit c = true)
    (hn : n = if sign = ['-'] then -(digitsValue ds : Int) else (digitsValue ds : Int))
    (hu : (suffix, U) ∈ durationUnits)
    (hfit : -(2 ^ 63) ≤ n * U ∧ n * U < 2 ^ 63) :
    ParseDuration (String.mk (sign ++ ds ++ suffix.data)) = (n * U, none) := by
  obtain ⟨init, d, rfl⟩ : ∃ init d, ds = init ++ [d] :=
    ⟨ds.dropLast, ds.getLast hne, (List.dropLast_append_getLast hne).symm⟩
  have hdd : isDigit d = true := hd d (by simp)
  have hU : 1000 ≤ U := by
    simp only [durationUnits, List.mem_cons, Prod.mk.injEq, List.mem_singleton,
      List.not_mem_nil, or_false] at hu
    rcases hu with ⟨_, rfl⟩ | ⟨_, rfl⟩ | ⟨_, rfl⟩ | ⟨_, rfl⟩ | ⟨_, rfl⟩ | ⟨_, rfl⟩ | ⟨_, rfl⟩
      | ⟨_, rfl⟩ | ⟨_, rfl⟩ <;> decide
  have hnfit : -(2 ^ 63) ≤ n ∧ n < 2 ^ 63 := by
    constructor
    · by_contra hlt
      have : n * U ≤ n * 1 := by
        apply Int.mul_le_mul_of_nonpos_left (by omega) (by omega)
      omega
    · by_contra hge
      have : n * 1 ≤ n * U := by
        apply Int.mul_le_mul_of_nonneg_left (by omega) (by omega)
      omega
  have hint : ParseInt (String.mk (sign ++ init ++ [d])) = (n, none) := by
    rw [List.append_assoc]
    exact ParseInt_sign_digits sign (init ++ [d]) n hsign hne hd hn hnfit
  obtain ⟨p0, p1, p2, p3, p4, p5, p6, p7, p8⟩ :=
    ParseDuration_number_unit (sign ++ init) d hdd n hint
  simp only [durationUnits, List.mem_cons, Prod.mk.injEq, List.mem_singleton,
    List.not_mem_nil, or_false] at hu
  rcases hu with ⟨rfl, rfl⟩ | ⟨rfl, rfl⟩ | ⟨rfl, rfl⟩ | ⟨rfl, rfl⟩ | ⟨rfl, rfl⟩ | ⟨rfl, rfl⟩
    | ⟨rfl, rfl⟩ | ⟨rfl, rfl⟩ | ⟨rfl, rfl⟩
  · have e : sign ++ (init ++ [d]) ++ ("" : String).data = sign ++ init ++ [d] := by simp
    rw [e, p0, int64_of_fits _ hfit]
  · have e : sign ++ (init ++ [d]) ++ ("u" : String).data = sign ++ init ++ [d] ++ ['u'] := by
      simp
    rw [e, p1, int64_of_fits _ hfit]
  · have e : sign ++ (init ++ [d]) ++ ("µ" : String).data = sign ++ init ++ [d] ++ ['µ'] := by
      simp
    rw [e, p2, int64_of_fits _ hfit]
  · have e : sign ++ (init ++ [d]) ++ ("ms" : String).data
        = sign ++ init ++ [d] ++ ['m', 's'] := by simp
    rw [e, p3, int64_of_fits _ hfit]
  · have e : sign ++ (init ++ [d]) ++ ("s" : String).data = sign ++ init ++ [d] ++ ['s'] := by
      simp
    rw [e, p4, int64_of_fits _ hfit]
  · have e : sign ++ (init ++ [d]) ++ ("m" : String).data = sign ++ init ++ [d] ++ ['m'] := by
      simp
    rw [e, p5, int64_of_fits _ hfit]
  · have e : sign ++ (init ++ [d]) ++ ("h" : String).data = sign ++ init ++ [d] ++ ['h'] := by
      simp
    rw [e, p6, int64_of_fits _ hfit]
  · have e : sign ++ (init ++ [d]) ++ ("d" : String).data = sign ++ init ++ [d] ++ ['d'] := by
      simp
    rw [e, p7]
    rw [Hour_eq] at hfit ⊢
    have h24 : int64 (n * 24) = n * 24 := int64_of_fits _ (by omega)
    rw [h24]
    have hall : n * 24 * 3600000000000 = n * (24 * 3600000000000) := by ring
    rw [hall, int64_of_fits _ hfit]
  · have e : sign ++ (init ++ [d]) ++ ("w" : String).data = sign ++ init ++ [d] ++ ['w'] := by
      simp
    rw [e, p8]
    rw [Hour_eq] at hfit ⊢
    have h7 : int64 (n * 7) = n * 7 := int64_of_fits _ (by omega)
    have h24 : int64 (n * 7 * 24) = n * 7 * 24 := int64_of_fits _ (by omega)
    rw [h7, h24]
    have hall : n * 7 * 24 * 3600000000000 = n * (7 * 24 * 3600000000000) := by ring
    rw [hall, int64_of_fits _ hfit]

/-- C8 at `15ms`: 15 milliseconds. -/
theorem ParseDuration_integer_unit_witness :
    ParseDuration "15ms" = (15 * Millisecond, none) :=
  ParseDuration_integer_unit [] ['1', '5'] "ms" Millisecond 15 (by decide) (by decide)
    (by decide) (by decide) (by decide) (by decide)

/-- A text that is no base-10 integer is rejected by ParseInt. -/
theorem ParseInt_error_of_not_base10 (l : List Char) (h : isBase10Integer l = false) :
    ∃ v e, ParseInt (String.mk l) = (v, some e) := by
  rcases hp : ParseInt (String.mk l) with ⟨v, _ | e⟩
  · rw [ParseInt_ok_base10 l v hp] at h
    exact absurd h (by decide)
  · exact ⟨v, e, rfl⟩

theorem mk_singleton_ne (c d : Char) (h : c ≠ d) : String.mk [c] ≠ String.mk [d] := by
  intro he
  have := congrArg String.data he
  simp only [List.cons.injEq, and_true] at this
  exact h this

/-- C9: ParseDuration returns ErrInvalidDuration and the duration 0 for the
empty string; for every text whose last character is neither a digit nor a
unit; for every text made of a prefix that is not a base-10 integer followed by
a unit (the unit of a text ending in `ms` being `ms`), an empty prefix
included; and for every text ending in a digit that is not a base-10 integer. -/
theorem ParseDuration_invalid :
    ParseDuration "" = (0, some .ErrInvalidDuration)
    ∧ (∀ (init : List Char) (c : Char), isDigit c = false →
        c ∉ ['u', 'µ', 's', 'm', 'h', 'd', 'w'] →
        ParseDuration (String.mk (init ++ [c])) = (0, some .ErrInvalidDuration))
    ∧ (∀ (num : List Char) (c : Char), c ∈ ['u', 'µ', 's', 'm', 'h', 'd', 'w'] →
        isBase10Integer num = false → ¬ (c = 's' ∧ num.getLast? = some 'm') →
        ParseDuration (String.mk (num ++ [c])) = (0, some .ErrInvalidDuration))
    ∧ (∀ (num : List Char), isBase10Integer num = false →
        ParseDuration (String.mk (num ++ ['m', 's'])) = (0, some .ErrInvalidDuration))
    ∧ (∀ (init : List Char) (d : Char), isDigit d = true →
        isBase10Integer (init ++ [d]) = false →
        ParseDuration (String.mk (init ++ [d])) = (0, some .ErrInvalidDuration)) := by
  refine ⟨by decide, ?_, ?_, ?_, ?_⟩
  · intro init c hc hunit
    simp only [List.mem_cons, List.mem_singleton, List.not_mem_nil, or_false, not_or] at hunit
    obtain ⟨hu, hmu, hs, hm, hh, hd, hw⟩ := hunit
    rcases List.eq_nil_or_concat init with rfl | ⟨init', d, rfl⟩
    · exact ParseDuration_single_nondigit c hc
    · rw [List.concat_eq_append, ParseDuration_unit_char init' d c hc (fun h => hs h.2)]
      rcases ParseInt (String.mk (init' ++ [d])) with ⟨n, _ | e⟩
      · have e1 : String.mk [c] ≠ "u" := mk_singleton_ne c 'u' hu
        have e2 : String.mk [c] ≠ "µ" := mk_singleton_ne c 'µ' hmu
        have e3 : String.mk [c] ≠ "ms" := by
          intro he
          have := congrArg String.data he
          simp at this
        have e4 : String.mk [c] ≠ "s" := mk_singleton_ne c 's' hs
        have e5 : String.mk [c] ≠ "m" := mk_singleton_ne c 'm' hm
        have e6 : String.mk [c] ≠ "h" := mk_singleton_ne c 'h' hh
        have e7 : String.mk [c] ≠ "d" := mk_singleton_ne c 'd' hd
        have e8 : String.mk [c] ≠ "w" := mk_singleton_ne c 'w' hw
        simp only [e1, e2, e3, e4, e5, e6, e7, e8, or_self, if_false]
      · rfl
  · intro num c hunit hnum hms
    have hc : isDigit c = false := by
      simp only [List.mem_cons, List.mem_singleton, List.not_mem_nil, or_false] at hunit
      rcases hunit with rfl | rfl | rfl | rfl | rfl | rfl | rfl <;> decide
    rcases List.eq_nil_or_concat num with rfl | ⟨init', d, rfl⟩
    · exact ParseDuration_single_nondigit c hc
    · rw [List.concat_eq_append] at hnum hms ⊢
      have hms' : ¬ (d = 'm' ∧ c = 's') := by
        rintro ⟨rfl, rfl⟩
        exact hms ⟨rfl, by simp⟩
      obtain ⟨v, e, he⟩ := ParseInt_error_of_not_base10 _ hnum
      rw [ParseDuration_unit_char init' d c hc hms', he]
  · intro num hnum
    rcases List.eq_nil_or_concat num with rfl | ⟨init', d, rfl⟩
    · decide
    · rw [List.concat_eq_append] at hnum ⊢
      obtain ⟨v, e, he⟩ := ParseInt_error_of_not_base10 _ hnum
      rw [ParseDuration_ms init' d, he]
  · intro init d hd hnum
    obtain ⟨v, e, he⟩ := ParseInt_error_of_not_base10 _ hnum
    rw [ParseDuration_digit_end init d hd, he]

/-- C9 at `10x`, `1.2w`, `w`, `1.5ms` and `1.5`. -/
theorem ParseDuration_invalid_witness :
    ParseDuration "10x" = (0, some .ErrInvalidDuration)
    ∧ ParseDuration "1.2w" = (0, some .ErrInvalidDuration)
    ∧ ParseDuration "w" = (0, some .ErrInvalidDuration)
    ∧ ParseDuration "1.5ms" = (0, some .ErrInvalidDuration)
    ∧ ParseDuration "1.5" = (0, some .ErrInvalidDuration) :=
  ⟨ParseDuration_invalid.2.1 ['1', '0'] 'x' (by decide) (by decide),
   ParseDuration_invalid.2.2.1 ['1', '.', '2'] 'w' (by decide) (by decide) (by decide),
   ParseDuration_invalid.2.2.1 [] 'w' (by decide) (by decide) (by decide),
   ParseDuration_invalid.2.2.2.1 ['1', '.'] (by decide),
   ParseDuration_invalid.2.2.2.2 ['1', '.'] '5' (by decide) (by decide)⟩

/-- C10: FormatDuration(0) is `0s`; for a non-zero duration `d` and the largest
unit `U` among week, day, hour, minute, second and millisecond that divides `d`,
FormatDuration(d) is the decimal quotient `d / U` followed by the suffix of
`U`; when no unit divides `d` it is the decimal of `d` divided by one
microsecond (truncated), with no suffix. -/
theorem FormatDuration_largest_unit :
    FormatDuration 0 = "0s"
    ∧ (∀ (d U : Int) (suffix : String), d ≠ 0 → (U, suffix) ∈ formatUnits → U ∣ d →
        (∀ u ∈ formatUnits, u.1 ∣ d → u.1 ≤ U) →
        FormatDuration d = toString (d / U) ++ suffix)
    ∧ (∀ (d : Int), d ≠ 0 → (∀ u ∈ formatUnits, ¬ u.1 ∣ d) →
        FormatDuration d = toString (d.tdiv Microsecond)) := by
  refine ⟨by decide, ?_, ?_⟩
  · intro d U suffix hd hU hdvd hmax
    have hw := hmax (7 * 24 * Hour, "w") (by simp [formatUnits])
    have hdy := hmax (24 * Hour, "d") (by simp [formatUnits])
    have hh := hmax (Hour, "h") (by simp [formatUnits])
    have hm := hmax (Minute, "m") (by simp [formatUnits])
    have hs := hmax (Second, "s") (by simp [formatUnits])
    simp only [Int.dvd_iff_tmod_eq_zero] at hw hdy hh hm hs hdvd
    simp only [formatUnits, List.mem_cons, Prod.mk.injEq, List.mem_singleton,
      List.not_mem_nil, or_false] at hU
    unfold FormatDuration
    rw [if_neg hd]
    rcases hU with ⟨rfl, rfl⟩ | ⟨rfl, rfl⟩ | ⟨rfl, rfl⟩ | ⟨rfl, rfl⟩ | ⟨rfl, rfl⟩ | ⟨rfl, rfl⟩
    · rw [if_pos hdvd, Int.tdiv_eq_ediv_of_dvd (Int.dvd_of_tmod_eq_zero hdvd)]
    · have n1 : ¬ d.tmod (7 * 24 * Hour) = 0 := fun h => absurd (hw h) (by decide)
      rw [if_neg n1, if_pos hdvd, Int.tdiv_eq_ediv_of_dvd (Int.dvd_of_tmod_eq_zero hdvd)]
    · have n1 : ¬ d.tmod (7 * 24 * Hour) = 0 := fun h => absurd (hw h) (by decide)
      have n2 : ¬ d.tmod (24 * Hour) = 0 := fun h => absurd (hdy h) (by decide)
      rw [if_neg n1, if_neg n2, if_pos hdvd,
        Int.tdiv_eq_ediv_of_dvd (Int.dvd_of_tmod_eq_zero hdvd)]
    · have n1 : ¬ d.tmod (7 * 24 * Hour) = 0 := fun h => absurd (hw h) (by decide)
      have n2 : ¬ d.tmod (24 * Hour) = 0 := fun h => absurd (hdy h) (by decide)
      have n3 : ¬ d.tmod Hour = 0 := fun h => absurd (hh h) (by decide)
      rw [if_neg n1, if_neg n2, if_neg n3, if_pos hdvd,
        Int.tdiv_eq_ediv_of_dvd (Int.dvd_of_tmod_eq_zero hdvd)]
    · have n1 : ¬ d.tmod (7 * 24 * Hour) = 0 := fun h => absurd (hw h) (by decide)
      have n2 : ¬ d.tmod (24 * Hour) = 0 := fun h => absurd (hdy h) (by decide)
      have n3 : ¬ d.tmod Hour = 0 := fun h => absurd (hh h) (by decide)
      have n4 : ¬ d.tmod Minute = 0 := fun h => absurd (hm h) (by decide)
      rw [if_neg n1, if_neg n2, if_neg n3, if_neg n4, if_pos hdvd,
        Int.tdiv_eq_ediv_of_dvd (Int.dvd_of_tmod_eq_zero hdvd)]
    · have n1 : ¬ d.tmod (7 * 24 * Hour) = 0 := fun h => absurd (hw h) (by decide)
      have n2 : ¬ d.tmod (24 * Hour) = 0 := fun h => absurd (hdy h) (by decide)
      have n3 : ¬ d.tmod Hour = 0 := fun h => absurd (hh h) (by decide)
      have n4 : ¬ d.tmod Minute = 0 := fun h => absurd (hm h) (by decide)
      have n5 : ¬ d.tmod Second = 0 := fun h => absurd (hs h) (by decide)
      rw [if_neg n1, if_neg n2, if_neg n3, if_neg n4, if_neg n5, if_pos hdvd,
        Int.tdiv_eq_ediv_of_dvd (Int.dvd_of_tmod_eq_zero hdvd)]
  · intro d hd hnone
    have n1 := hnone (7 * 24 * Hour, "w") (by simp [formatUnits])
    have n2 := hnone (24 * Hour, "d") (by simp [formatUnits])
    have n3 := hnone (Hour, "h") (by simp [formatUnits])
    have n4 := hnone (Minute, "m") (by simp [formatUnits])
    have n5 := hnone (Second, "s") (by simp [formatUnits])
    have n6 := hnone (Millisecond, "ms") (by simp [formatUnits])
    simp only [Int.dvd_iff_tmod_eq_zero] at n1 n2 n3 n4 n5 n6
    unfold FormatDuration
    rw [if_neg hd, if_neg n1, if_neg n2, if_neg n3, if_neg n4, if_neg n5, if_neg n6]

/-- C10 at 48 hours (`2d`, the day being the largest unit that divides it) and
at 1001 microseconds (`1001`, no unit divides it). -/
theorem FormatDuration_largest_unit_witness :
    FormatDuration (2 * 24 * Hour) = "2d" ∧ FormatDuration (1001 * Microsecond) = "1001" :=
  ⟨(FormatDuration_largest_unit.2.1 (2 * 24 * Hour) (24 * Hour) "d" (by decide) (by decide)
      (by decide) (by decide)).trans (by decide),
   (FormatDuration_largest_unit.2.2 (1001 * Microsecond) (by decide) (by decide)).trans
      (by decide)⟩

/-! ## Bounds of the statement parser -/

theorem Result.le_refl {α : Type} (r : Result α) : r.le r := Or.inr rfl

theorem Result.le_of_eq {α : Type} {r r' : Result α} (h : r' = r) : r.le r' := Or.inr h

theorem Result.bind_le {α β : Type} {r r' : Result α} {k k' : α → Parser → Result β}
    (h : r.le r') (hk : ∀ v p, (k v p).le (k' v p)) : (r.bind k).le (r'.bind k') := by
  rcases h with h | h
  · left; rw [h]; rfl
  · rw [h]
    cases r with
    | ok v p => exact hk v p
    | error e => exact Or.inr rfl
    | outOfFuel => exact Or.inl rfl

theorem Result.map_le {α β : Type} {r r' : Result α} (f : α → β) (h : r.le r') :
    (Result.map f r).le (Result.map f r') :=
  Result.bind_le h fun _ _ => Result.le_refl _

theorem Result.ite_le {α : Type} {c : Prop} [Decidable c] {a a' b b' : Result α}
    (ha : a.le a') (hb : b.le b') : (if c then a else b).le (if c then a' else b') := by
  split
  · exact ha
  · exact hb

/-- A method whose results agree from each bound to the next returns the result
that one bound gives. -/
theorem Returns.of_le {α : Type} {f : Nat → Result α} (hmono : ∀ n, (f n).le (f (n + 1)))
    {n : Nat} {r : Result α} (h : f n = r) (hr : r ≠ .outOfFuel) : Returns f r := by
  refine ⟨hr, n, fun m hm => ?_⟩
  induction hm with
  | refl => exact h
  | step _ ih =>
    rcases hmono _ with h1 | h1
    · rw [ih] at h1; exact absurd h1 hr
    · rw [h1, ih]

theorem ParseExpr_le (go : Stdlib) (n : Nat) (p : Parser) :
    (ParseExpr go n p).le (ParseExpr go (n + 1) p) := by
  by_cases h : ParseExpr go n p = .outOfFuel
  · exact Or.inl h
  · exact Or.inr ((fuel_succ go n).1 p _ rfl h)

theorem parseField_le (go : Stdlib) (n : Nat) (p : Parser) :
    (parseField go n p).le (parseField go (n + 1) p) :=
  Result.bind_le (ParseExpr_le go n p) fun _ _ => Result.le_refl _

theorem parseFieldsLoop_le (go : Stdlib) (n : Nat) (fields : List Field) (p : Parser) :
    (parseFieldsLoop go n fields p).le (parseFieldsLoop go (n + 1) fields p) := by
  induction n generalizing fields p with
  | zero => exact Or.inl rfl
  | succ n ih =>
    rw [parseFieldsLoop, parseFieldsLoop]
    exact Result.bind_le (parseField_le go n p) fun _ _ =>
      Result.ite_le (Result.le_refl _) (ih _ _)

theorem parseFields_le (go : Stdlib) (n : Nat) (p : Parser) :
    (parseFields go n p).le (parseFields go (n + 1) p) :=
  Result.ite_le (Result.le_refl _) (parseFieldsLoop_le go n _ _)

theorem parseSourceMeasurements_le (n : Nat) (ms : List Measurement) (p : Parser) :
    (parseSourceMeasurements n ms p).le (parseSourceMeasurements (n + 1) ms p) := by
  induction n generalizing ms p with
  | zero => exact Or.inl rfl
  | succ n ih =>
    rw [parseSourceMeasurements, parseSourceMeasurements]
    exact Result.ite_le (Result.le_refl _) (Result.ite_le (Result.le_refl _) (ih _ _))

theorem parseSource_le (n : Nat) (p : Parser) :
    (parseSource n p).le (parseSource (n + 1) p) :=
  Result.ite_le (Result.le_refl _) (Result.ite_le (Result.le_refl _)
    (Result.ite_le (Result.le_refl _)
      (Result.bind_le (parseSourceMeasurements_le n _ _) fun _ _ => Result.le_refl _)))

theorem parseCondition_le (go : Stdlib) (n : Nat) (p : Parser) :
    (parseCondition go n p).le (parseCondition go (n + 1) p) :=
  Result.ite_le (Result.le_refl _)
    (Result.bind_le (ParseExpr_le go n _) fun _ _ => Result.le_refl _)

theorem parseDimension_le (go : Stdlib) (n : Nat) (p : Parser) :
    (parseDimension go n p).le (parseDimension go (n + 1) p) :=
  Result.bind_le (ParseExpr_le go n p) fun _ _ => Result.le_refl _

theorem parseDimensionsLoop_le (go : Stdlib) (n : Nat) (ds : List Dimension) (p : Parser) :
    (parseDimensionsLoop go n ds p).le (parseDimensionsLoop go (n + 1) ds p) := by
  induction n generalizing ds p with
  | zero => exact Or.inl rfl
  | succ n ih =>
    rw [parseDimensionsLoop, parseDimensionsLoop]
    exact Result.bind_le (parseDimension_le go n p) fun _ _ =>
      Result.ite_le (Result.le_refl _) (ih _ _)

theorem parseDimensions_le (go : Stdlib) (n : Nat) (p : Parser) :
    (parseDimensions go n p).le (parseDimensions go (n + 1) p) :=
  Result.ite_le (Result.le_refl _)
    (Result.ite_le (Result.le_refl _) (parseDimensionsLoop_le go n _ _))

theorem parseSortFieldsLoop_le (n : Nat) (fields : List SortField) (p : Parser) :
    (parseSortFieldsLoop n fields p).le (parseSortFieldsLoop (n + 1) fields p) := by
  induction n generalizing fields p with
  | zero => exact Or.inl rfl
  | succ n ih =>
    rw [parseSortFieldsLoop, parseSortFieldsLoop]
    exact Result.ite_le (Result.le_refl _)
      (Result.bind_le (Result.le_refl _) fun _ _ => ih _ _)

theorem parseSortFields_le (n : Nat) (p : Parser) :
    (parseSortFields n p).le (parseSortFields (n + 1) p) :=
  Result.bind_le (Result.le_refl _) fun _ _ => parseSortFieldsLoop_le n _ _

theorem parseOrderBy_le (n : Nat) (p : Parser) :
    (parseOrderBy n p).le (parseOrderBy (n + 1) p) :=
  Result.ite_le (Result.le_refl _)
    (Result.ite_le (Result.le_refl _) (parseSortFields_le n _))

theorem parseSelectStatement_le (go : Stdlib) (n : Nat) (tr : targetRequirement) (p : Parser) :
    (parseSelectStatement go n tr p).le (parseSelectStatement go (n + 1) tr p) :=
  Result.bind_le (parseFields_le go n p) fun _ _ =>
  Result.bind_le (Result.le_refl _) fun _ _ =>
  Result.ite_le (Result.le_refl _) <|
  Result.bind_le (parseSource_le n _) fun _ _ =>
  Result.bind_le (parseCondition_le go n _) fun _ _ =>
  Result.bind_le (parseDimensions_le go n _) fun _ _ =>
  Result.bind_le (parseOrderBy_le n _) fun _ _ => Result.le_refl _

theorem parseDeleteStatement_le (go : Stdlib) (n : Nat) (p : Parser) :
    (parseDeleteStatement go n p).le (parseDeleteStatement go (n + 1) p) :=
  Result.ite_le (Result.le_refl _) <|
  Result.bind_le (parseSource_le n _) fun _ _ =>
  Result.bind_le (parseCondition_le go n _) fun _ _ => Result.le_refl _

theorem parseListSeriesStatement_le (go : Stdlib) (n : Nat) (p : Parser) :
    (parseListSeriesStatement go n p).le (parseListSeriesStatement go (n + 1) p) :=
  Result.bind_le (parseCondition_le go n _) fun _ _ =>
  Result.bind_le (parseOrderBy_le n _) fun _ _ => Result.le_refl _

theorem parseListMeasurementsStatement_le (go : Stdlib) (n : Nat) (p : Parser) :
    (parseListMeasurementsStatement go n p).le (parseListMeasurementsStatement go (n + 1) p) :=
  Result.bind_le (parseCondition_le go n _) fun _ _ =>
  Result.bind_le (parseOrderBy_le n _) fun _ _ => Result.le_refl _

theorem parseListTagKeysStatement_le (go : Stdlib) (n : Nat) (p : Parser) :
    (parseListTagKeysStatement go n p).le (parseListTagKeysStatement go (n + 1) p) :=
  Result.ite_le (Result.le_refl _) <|
  Result.bind_le (parseSource_le n _) fun _ _ =>
  Result.bind_le (parseCondition_le go n _) fun _ _ =>
  Result.bind_le (parseOrderBy_le n _) fun _ _ => Result.le_refl _

theorem parseListTagValuesStatement_le (go : Stdlib) (n : Nat) (p : Parser) :
    (parseListTagValuesStatement go n p).le (parseListTagValuesStatement go (n + 1) p) :=
  Result.ite_le (Result.le_refl _) <|
  Result.bind_le (parseSource_le n _) fun _ _ =>
  Result.bind_le (parseCondition_le go n _) fun _ _ =>
  Result.bind_le (parseOrderBy_le n _) fun _ _ => Result.le_refl _

theorem parseListFieldKeysStatement_le (go : Stdlib) (n : Nat) (p : Parser) :
    (parseListFieldKeysStatement go n p).le (parseListFieldKeysStatement go (n + 1) p) :=
  Result.ite_le (Result.le_refl _) <|
  Result.bind_le (parseSource_le n _) fun _ _ =>
  Result.bind_le (parseCondition_le go n _) fun _ _ =>
  Result.bind_le (parseOrderBy_le n _) fun _ _ => Result.le_refl _

theorem parseListFieldValuesStatement_le (go : Stdlib) (n : Nat) (p : Parser) :
    (parseListFieldValuesStatement go n p).le (parseListFieldValuesStatement go (n + 1) p) :=
  Result.ite_le (Result.le_refl _) <|
  Result.bind_le (parseSource_le n _) fun _ _ =>
  Result.bind_le (parseCondition_le go n _) fun _ _ =>
  Result.bind_le (parseOrderBy_le n _) fun _ _ => Result.le_refl _

theorem parseCreateContinuousQueryStatement_le (go : Stdlib) (n : Nat) (p : Parser) :
    (parseCreateContinuousQueryStatement go n p).le
      (parseCreateContinuousQueryStatement go (n + 1) p) :=
  Result.ite_le (Result.le_refl _) <|
  Result.bind_le (Result.le_refl _) fun _ _ =>
  Result.ite_le (Result.le_refl _) <|
  Result.bind_le (Result.le_refl _) fun _ _ =>
  Result.bind_le (Result.le_refl _) fun _ _ =>
  Result.bind_le (parseSelectStatement_le go n _ _) fun _ _ => Result.le_refl _

theorem parseListStatement_le (go : Stdlib) (n : Nat) (p : Parser) :
    (parseListStatement go n p).le (parseListStatement go (n + 1) p) :=
  Result.ite_le (Result.map_le _ (parseListSeriesStatement_le go n _)) <|
  Result.ite_le (Result.le_refl _) <|
  Result.ite_le (Result.le_refl _) <|
  Result.ite_le (Result.map_le _ (parseListMeasurementsStatement_le go n _)) <|
  Result.ite_le
    (Result.ite_le (Result.map_le _ (parseListTagKeysStatement_le go n _)) <|
      Result.ite_le (Result.map_le _ (parseListTagValuesStatement_le go n _))
        (Result.le_refl _)) <|
  Result.ite_le
    (Result.ite_le (Result.map_le _ (parseListFieldKeysStatement_le go n _)) <|
      Result.ite_le (Result.map_le _ (parseListFieldValuesStatement_le go n _))
        (Result.le_refl _))
    (Result.le_refl _)

theorem parseCreateStatement_le (go : Stdlib) (n : Nat) (p : Parser) :
    (parseCreateStatement go n p).le (parseCreateStatement go (n + 1) p) :=
  Result.ite_le (Result.map_le _ (parseCreateContinuousQueryStatement_le go n _)) <|
  Result.le_refl _

theorem ParseStatement_le (go : Stdlib) (n : Nat) (p : Parser) :
    (ParseStatement go n p).le (ParseStatement go (n + 1) p) := by
  unfold ParseStatement
  dsimp only
  split
  · exact Result.map_le _ (parseSelectStatement_le go n _ _)
  · exact Result.map_le _ (parseDeleteStatement_le go n _)
  · exact parseListStatement_le go n _
  · exact parseCreateStatement_le go n _
  all_goals exact Result.le_refl _

theorem ParseQueryLoop_le (go : Stdlib) (n : Nat) (ss : List Statement) (p : Parser) :
    (ParseQueryLoop go n ss p).le (ParseQueryLoop go (n + 1) ss p) := by
  induction n generalizing ss p with
  | zero => exact Or.inl rfl
  | succ n ih =>
    rw [ParseQueryLoop, ParseQueryLoop]
    exact Result.bind_le (ParseStatement_le go n p) fun _ _ =>
      Result.ite_le (Result.le_refl _) (Result.ite_le (Result.le_refl _) (ih _ _))

theorem ParseQuery_le (go : Stdlib) (n : Nat) (p : Parser) :
    (ParseQuery go n p).le (ParseQuery go (n + 1) p) :=
  Result.ite_le (Result.le_refl _) (ParseQueryLoop_le go n _ _)

/-! ## The decimal numeral of an integer -/

theorem digitChar_digit :
    ∀ k, k < 10 → isDigit (Nat.digitChar k) = true ∧ digitVal (Nat.digitChar k) = k := by
  decide

theorem digitsValue_append_singleton (l : List Char) (c : Char) :
    digitsValue (l ++ [c]) = 10 * digitsValue l + digitVal c := by
  simp [digitsValue, List.foldl_append]

/-- The digits that Nat.toDigitsCore puts before the accumulator are decimal
digits with the value of the number. -/
theorem toDigitsCore_digits (fuel n : Nat) (acc : List Char) (h : n < fuel) :
    ∃ l, Nat.toDigitsCore 10 fuel n acc = l ++ acc ∧ l ≠ []
      ∧ (∀ c ∈ l, isDigit c = true) ∧ digitsValue l = n := by
  induction fuel generalizing n acc with
  | zero => exact absurd h (Nat.not_lt_zero n)
  | succ fuel ih =>
    obtain ⟨hdig, hval⟩ := digitChar_digit (n % 10) (Nat.mod_lt n (by decide))
    rw [Nat.toDigitsCore]
    by_cases h0 : n / 10 = 0
    · simp only [h0, if_true]
      refine ⟨[Nat.digitChar (n % 10)], rfl, by simp, ?_, ?_⟩
      · intro c hc
        rw [List.mem_singleton] at hc
        rw [hc]; exact hdig
      · have : digitsValue [Nat.digitChar (n % 10)] = digitVal (Nat.digitChar (n % 10)) := by
          simp [digitsValue]
        rw [this, hval]
        omega
    · simp only [h0, if_false]
      obtain ⟨l, hl, _, hld, hlv⟩ := ih (n / 10) (Nat.digitChar (n % 10) :: acc) (by omega)
      refine ⟨l ++ [Nat.digitChar (n % 10)], ?_, by simp, ?_, ?_⟩
      · rw [hl]; simp
      · intro c hc
        rw [List.mem_append, List.mem_singleton] at hc
        rcases hc with hc | hc
        · exact hld c hc
        · rw [hc]; exact hdig
      · rw [digitsValue_append_singleton, hlv, hval]
        omega

/-- The decimal numeral of a natural number. -/
theorem toDigits_digits (n : Nat) :
    Nat.toDigits 10 n ≠ [] ∧ (∀ c ∈ Nat.toDigits 10 n, isDigit c = true)
      ∧ digitsValue (Nat.toDigits 10 n) = n := by
  obtain ⟨l, hl, hne, hd, hv⟩ := toDigitsCore_digits (n + 1) n [] (Nat.lt_succ_self n)
  have : Nat.toDigits 10 n = l := by
    unfold Nat.toDigits
    rw [hl, List.append_nil]
  rw [this]
  exact ⟨hne, hd, hv⟩

/-- The text of `%d`: an optional minus sign and the decimal digits of the
absolute value. -/
theorem toString_int_data (q : Int) :
    ∃ sign ds, (toString q).data = sign ++ ds ∧ (sign = [] ∨ sign = ['+'] ∨ sign = ['-'])
      ∧ ds ≠ [] ∧ (∀ c ∈ ds, isDigit c = true)
      ∧ q = if sign = ['-'] then -(digitsValue ds : Int) else (digitsValue ds : Int) := by
  cases q with
  | ofNat m =>
    obtain ⟨hne, hd, hv⟩ := toDigits_digits m
    refine ⟨[], Nat.toDigits 10 m, rfl, Or.inl rfl, hne, hd, ?_⟩
    rw [if_neg (by decide), hv]
    rfl
  | negSucc m =>
    obtain ⟨hne, hd, hv⟩ := toDigits_digits (m + 1)
    refine ⟨['-'], Nat.toDigits 10 (m + 1), rfl, Or.inr (Or.inr rfl), hne, hd, ?_⟩
    rw [if_pos rfl, hv]
    rfl

/-- ParseDuration on the decimal numeral of a 64-bit integer, alone or followed
by a unit of FormatDuration: the number times the unit, with wrap-around. -/
theorem ParseDuration_toString_unit (q : Int) (hq : -(2 ^ 63) ≤ q ∧ q < 2 ^ 63) :
    ParseDuration (toString q) = (int64 (q * Microsecond), none)
    ∧ ParseDuration (toString q ++ "ms") = (int64 (q * Millisecond), none)
    ∧ ParseDuration (toString q ++ "s") = (int64 (q * Second), none)
    ∧ ParseDuration (toString q ++ "m") = (int64 (q * Minute), none)
    ∧ ParseDuration (toString q ++ "h") = (int64 (q * Hour), none)
    ∧ ParseDuration (toString q ++ "d") = (int64 (int64 (q * 24) * Hour), none)
    ∧ ParseDuration (toString q ++ "w")
        = (int64 (int64 (int64 (q * 7) * 24) * Hour), none) := by
  obtain ⟨sign, ds, hdata, hsign, hne, hd, hval⟩ := toString_int_data q
  obtain ⟨init, d, rfl⟩ : ∃ init d, ds = init ++ [d] :=
    ⟨ds.dropLast, ds.getLast hne, (List.dropLast_append_getLast hne).symm⟩
  have hdd : isDigit d = true := hd d (by simp)
  have hint : ParseInt (String.mk (sign ++ init ++ [d])) = (q, none) := by
    rw [List.append_assoc]
    exact ParseInt_sign_digits sign (init ++ [d]) q hsign hne hd hval hq
  have hs : toString q = String.mk (sign ++ init ++ [d]) := by
    apply String.ext
    rw [hdata, List.append_assoc]
  obtain ⟨p0, _, _, p3, p4, p5, p6, p7, p8⟩ :=
    ParseDuration_number_unit (sign ++ init) d hdd q hint
  rw [hs]
  exact ⟨p0, p3, p4, p5, p6, p7, p8⟩

/-- ParseDuration reads back what FormatDuration writes for a 64-bit duration
of whole microseconds. -/
theorem ParseDuration_FormatDuration_microseconds (d : Int)
    (hd : -(2 ^ 63) ≤ d ∧ d < 2 ^ 63) (hmul : Microsecond ∣ d) :
    ParseDuration (FormatDuration d) = (d, none) := by
  unfold FormatDuration
  split
  · rename_i h0
    rw [h0]
    decide
  split
  · rename_i h
    have he := Int.tdiv_mul_cancel (Int.dvd_of_tmod_eq_zero h)
    generalize d.tdiv (7 * 24 * Hour) = q at he ⊢
    rw [Hour_eq] at he
    have hq : -(2 ^ 63) ≤ q ∧ q < 2 ^ 63 := by omega
    rw [(ParseDuration_toString_unit q hq).2.2.2.2.2.2, Hour_eq,
      int64_of_fits (q * 7) (by omega), int64_of_fits (q * 7 * 24) (by omega),
      int64_of_fits _ (by omega)]
    congr 1
    omega
  split
  · rename_i h
    have he := Int.tdiv_mul_cancel (Int.dvd_of_tmod_eq_zero h)
    generalize d.tdiv (24 * Hour) = q at he ⊢
    rw [Hour_eq] at he
    have hq : -(2 ^ 63) ≤ q ∧ q < 2 ^ 63 := by omega
    rw [(ParseDuration_toString_unit q hq).2.2.2.2.2.1, Hour_eq,
      int64_of_fits (q * 24) (by omega), int64_of_fits _ (by omega)]
    congr 1
    omega
  split
  · rename_i h
    have he := Int.tdiv_mul_cancel (Int.dvd_of_tmod_eq_zero h)
    generalize d.tdiv Hour = q at he ⊢
    rw [Hour_eq] at he
    have hq : -(2 ^ 63) ≤ q ∧ q < 2 ^ 63 := by omega
    rw [(ParseDuration_toString_unit q hq).2.2.2.2.1, Hour_eq, int64_of_fits _ (by omega)]
    congr 1
  split
  · rename_i h
    have he := Int.tdiv_mul_cancel (Int.dvd_of_tmod_eq_zero h)
    generalize d.tdiv Minute = q at he ⊢
    rw [Minute_eq] at he
    have hq : -(2 ^ 63) ≤ q ∧ q < 2 ^ 63 := by omega
    rw [(ParseDuration_toString_unit q hq).2.2.2.1, Minute_eq, int64_of_fits _ (by omega)]
    congr 1
  split
  · rename_i h
    have he := Int.tdiv_mul_cancel (Int.dvd_of_tmod_eq_zero h)
    generalize d.tdiv Second = q at he ⊢
    rw [Second_eq] at he
    have hq : -(2 ^ 63) ≤ q ∧ q < 2 ^ 63 := by omega
    rw [(ParseDuration_toString_unit q hq).2.2.1, Second_eq, int64_of_fits _ (by omega)]
    congr 1
  split
  · rename_i h
    have he := Int.tdiv_mul_cancel (Int.dvd_of_tmod_eq_zero h)
    generalize d.tdiv Millisecond = q at he ⊢
    rw [Millisecond_eq] at he
    have hq : -(2 ^ 63) ≤ q ∧ q < 2 ^ 63 := by omega
    rw [(ParseDuration_toString_unit q hq).2.1, Millisecond_eq, int64_of_fits _ (by omega)]
    congr 1
  · have he := Int.tdiv_mul_cancel hmul
    generalize d.tdiv Microsecond = q at he ⊢
    rw [Microsecond_eq] at he
    have hq : -(2 ^ 63) ≤ q ∧ q < 2 ^ 63 := by omega
    rw [(ParseDuration_toString_unit q hq).1, Microsecond_eq, int64_of_fits _ (by omega)]
    congr 1

/-- ParseDuration on an optional sign, digits and a unit, when the product fits
in 64 bits. -/
theorem ParseDuration_sign_digits_unit (sign ds : List Char) (suffix : String) (U n : Int)
    (hsign : sign = [] ∨ sign = ['+'] ∨ sign = ['-'])
    (hne : ds ≠ []) (hd : ∀ c ∈ ds, isDigit c = true)
    (hn : n = if sign = ['-'] then -(digitsValue ds : Int) else (digitsValue ds : Int))
    (hu : (suffix, U) ∈ durationUnits)
    (hfit : -(2 ^ 63) ≤ n * U ∧ n * U < 2 ^ 63) :
    ParseDuration (String.mk (sign ++ ds ++ suffix.data)) = (n * U, none) := by
  obtain ⟨init, d, rfl⟩ : ∃ init d, ds = init ++ [d] :=
    ⟨ds.dropLast, ds.getLast hne, (List.dropLast_append_getLast hne).symm⟩
  have hdd : isDigit d = true := hd d (by simp)
  have hU : 1000 ≤ U := by
    simp only [durationUnits, List.mem_cons, Prod.mk.injEq, List.mem_singleton,
      List.not_mem_nil, or_false] at hu
    rcases hu with ⟨_, rfl⟩ | ⟨_, rfl⟩ | ⟨_, rfl⟩ | ⟨_, rfl⟩ | ⟨_, rfl⟩ | ⟨_, rfl⟩ | ⟨_, rfl⟩
      | ⟨_, rfl⟩ | ⟨_, rfl⟩ <;> decide
  have hnfit : -(2 ^ 63) ≤ n ∧ n < 2 ^ 63 := by
    constructor
    · by_contra hlt
      have : n * U ≤ n * 1 := by
        apply Int.mul_le_mul_of_nonpos_left (by omega) (by omega)
      omega
    · by_contra hge
      have : n * 1 ≤ n * U := by
        apply Int.mul_le_mul_of_nonneg_left (by omega) (by omega)
      omega
  have hint : ParseInt (String.mk (sign ++ init ++ [d])) = (n, none) := by
    rw [List.append_assoc]
    exact ParseInt_sign_digits sign (init ++ [d]) n hsign hne hd hn hnfit
  obtain ⟨p0, p1, p2, p3, p4, p5, p6, p7, p8⟩ :=
    ParseDuration_number_unit (sign ++ init) d hdd n hint
  simp only [durationUnits, List.mem_cons, Prod.mk.injEq, List.mem_singleton,
    List.not_mem_nil, or_false] at hu
  rcases hu with ⟨rfl, rfl⟩ | ⟨rfl, rfl⟩ | ⟨rfl, rfl⟩ | ⟨rfl, rfl⟩ | ⟨rfl, rfl⟩ | ⟨rfl, rfl⟩
    | ⟨rfl, rfl⟩ | ⟨rfl, rfl⟩ | ⟨rfl, rfl⟩
  · have e : sign ++ (init ++ [d]) ++ ("" : String).data = sign ++ init ++ [d] := by simp
    rw [e, p0, int64_of_fits _ hfit]
  · have e : sign ++ (init ++ [d]) ++ ("u" : String).data = sign ++ init ++ [d] ++ ['u'] := by
      simp
    rw [e, p1, int64_of_fits _ hfit]
  · have e : sign ++ (init ++ [d]) ++ ("µ" : String).data = sign ++ init ++ [d] ++ ['µ'] := by
      simp
    rw [e, p2, int64_of_fits _ hfit]
  · have e : sign ++ (init ++ [d]) ++ ("ms" : String).data
        = sign ++ init ++ [d] ++ ['m', 's'] := by simp
    rw [e, p3, int64_of_fits _ hfit]
  · have e : sign ++ (init ++ [d]) ++ ("s" : String).data = sign ++ init ++ [d] ++ ['s'] := by
      simp
    rw [e, p4, int64_of_fits _ hfit]
  · have e : sign ++ (init ++ [d]) ++ ("m" : String).data = sign ++ init ++ [d] ++ ['m'] := by
      simp
    rw [e, p5, int64_of_fits _ hfit]
  · have e : sign ++ (init ++ [d]) ++ ("h" : String).data = sign ++ init ++ [d] ++ ['h'] := by
      simp
    rw [e, p6, int64_of_fits _ hfit]
  · have e : sign ++ (init ++ [d]) ++ ("d" : String).data = sign ++ init ++ [d] ++ ['d'] := by
      simp
    rw [e, p7]
    rw [Hour_eq] at hfit ⊢
    have h24 : int64 (n * 24) = n * 24 := int64_of_fits _ (by omega)
    rw [h24]
    have hall : n * 24 * 3600000000000 = n * (24 * 3600000000000) := by ring
    rw [hall, int64_of_fits _ hfit]
  · have e : sign ++ (init ++ [d]) ++ ("w" : String).data = sign ++ init ++ [d] ++ ['w'] := by
      simp
    rw [e, p8]
    rw [Hour_eq] at hfit ⊢
    have h7 : int64 (n * 7) = n * 7 := int64_of_fits _ (by omega)
    have h24 : int64 (n * 7 * 24) = n * 7 * 24 := int64_of_fits _ (by omega)
    rw [h7, h24]
    have hall : n * 7 * 24 * 3600000000000 = n * (7 * 24 * 3600000000000) := by ring
    rw [hall, int64_of_fits _ hfit]

/-- C11 (the claim as stated fails): `9223372036854776u` is accepted, the
product 9223372036854776 * 1000 wraps around to -9223372036854775616, which is
no whole number of microseconds; FormatDuration writes `-9223372036854775`,
which parses to -9223372036854775000, another value. -/
theorem ParseDuration_FormatDuration_wraps :
    ParseDuration "9223372036854776u" = (-9223372036854775616, none)
    ∧ FormatDuration (-9223372036854775616) = "-9223372036854775"
    ∧ ParseDuration (FormatDuration (-9223372036854775616))
        ≠ (-9223372036854775616, none) := by
  decide

/-- The round trip without overflow: for every string of the form <int><unit>
(an optional sign, digits, and a unit or none) whose product `n * unit` fits in
a signed 64-bit nanosecond count, ParseDuration accepts it with the value
`d = n * unit`, and the formatted text parses again to the same value. -/
theorem ParseDuration_FormatDuration_fixed_point (sign ds : List Char) (suffix : String)
    (U n : Int)
    (hsign : sign = [] ∨ sign = ['+'] ∨ sign = ['-'])
    (hne : ds ≠ []) (hd : ∀ c ∈ ds, isDigit c = true)
    (hn : n = if sign = ['-'] then -(digitsValue ds : Int) else (digitsValue ds : Int))
    (hu : (suffix, U) ∈ durationUnits)
    (hfit : -(2 ^ 63) ≤ n * U ∧ n * U < 2 ^ 63) :
    ParseDuration (String.mk (sign ++ ds ++ suffix.data)) = (n * U, none)
      ∧ ParseDuration (FormatDuration (n * U)) = (n * U, none) := by
  refine ⟨ParseDuration_sign_digits_unit sign ds suffix U n hsign hne hd hn hu hfit, ?_⟩
  apply ParseDuration_FormatDuration_microseconds (n * U) hfit
  have hU : Microsecond ∣ U := by
    simp only [durationUnits, List.mem_cons, Prod.mk.injEq, List.mem_singleton,
      List.not_mem_nil, or_false] at hu
    rcases hu with ⟨_, rfl⟩ | ⟨_, rfl⟩ | ⟨_, rfl⟩ | ⟨_, rfl⟩ | ⟨_, rfl⟩ | ⟨_, rfl⟩ | ⟨_, rfl⟩
      | ⟨_, rfl⟩ | ⟨_, rfl⟩ <;> decide
  exact Dvd.dvd.mul_left hU n

/-- The round trip without overflow at `100s`: the value is 100 seconds, written
`100s` again. -/
theorem ParseDuration_FormatDuration_fixed_point_witness :
    ParseDuration "100s" = (100 * Second, none)
      ∧ ParseDuration (FormatDuration (100 * Second)) = (100 * Second, none) :=
  ParseDuration_FormatDuration_fixed_point [] ['1', '0', '0'] "s" Second 100 (by decide)
    (by decide) (by decide) (by decide) (by decide) (by decide)

/-! ## The exact round trip of the duration codec -/

theorem int64_range (x : Int) : -(2 ^ 63) ≤ int64 x ∧ int64 x < 2 ^ 63 := by
  unfold int64
  omega

/-- A duration that ParseDuration returns is a 64-bit value. -/
theorem ParseDuration_ok_range (s : String) (d : Int) (h : ParseDuration s = (d, none)) :
    -(2 ^ 63) ≤ d ∧ d < 2 ^ 63 := by
  have key : (ParseDuration s).2 ≠ none ∨ ∃ x, (ParseDuration s).1 = int64 x := by
    unfold ParseDuration
    by_cases h0 : s.utf8ByteSize = 0
    · rw [if_pos h0]
      exact Or.inl (by simp)
    · rw [if_neg h0]
      by_cases h1 : s.utf8ByteSize = 1
      · rw [if_pos h1]
        split
        · exact Or.inl (by simp)
        · exact Or.inr ⟨_, rfl⟩
      · rw [if_neg h1]
        lift_lets
        intro a numuom
        clear_value numuom
        split
        · exact Or.inl (by simp)
        · split_ifs <;> first | exact Or.inr ⟨_, rfl⟩ | exact Or.inl (by simp)
  rw [h] at key
  rcases key with hk | ⟨x, hx⟩
  · exact absurd rfl hk
  · have hx' : d = int64 x := hx
    rw [hx']
    exact int64_range x

/-- Go's truncated division by 1000, by the sign of the dividend. -/
theorem tdiv_1000 (d : Int) :
    d.tdiv 1000 = if 0 ≤ d then d / 1000 else -((-d) / 1000) := by
  by_cases h : 0 ≤ d
  · rw [if_pos h, Int.tdiv_eq_ediv h (by decide)]
  · rw [if_neg h]
    have : d = -(-d) := by omega
    rw [this, Int.neg_tdiv, Int.tdiv_eq_ediv (by omega) (by decide)]
    simp

/-- A 64-bit duration that is no whole number of microseconds is written
truncated to whole microseconds, and read back as that other value. -/
theorem ParseDuration_FormatDuration_truncates (d : Int)
    (hd : -(2 ^ 63) ≤ d ∧ d < 2 ^ 63) (hmul : ¬ Microsecond ∣ d) :
    FormatDuration d = toString (d.tdiv Microsecond)
    ∧ ParseDuration (FormatDuration d) = (d.tdiv Microsecond * Microsecond, none)
    ∧ d.tdiv Microsecond * Microsecond ≠ d := by
  have hnot : ∀ U : Int, Microsecond ∣ U → d.tmod U ≠ 0 := by
    intro U hU h
    exact hmul (dvd_trans hU (Int.dvd_of_tmod_eq_zero h))
  have hfmt : FormatDuration d = toString (d.tdiv Microsecond) := by
    unfold FormatDuration
    rw [if_neg (by rintro rfl; exact hmul (dvd_zero _)),
      if_neg (hnot _ (by decide)), if_neg (hnot _ (by decide)), if_neg (hnot _ (by decide)),
      if_neg (hnot _ (by decide)), if_neg (hnot _ (by decide)), if_neg (hnot _ (by decide))]
  have hq := tdiv_1000 d
  rw [Microsecond_eq] at hmul ⊢
  have hne : d.tdiv 1000 * 1000 ≠ d := fun h => hmul (Dvd.intro_left _ h)
  have hq1 : -(2 ^ 63) ≤ d.tdiv 1000 ∧ d.tdiv 1000 < 2 ^ 63 := by
    rw [hq]
    split <;> omega
  have hq2 : -(2 ^ 63) ≤ d.tdiv 1000 * 1000 ∧ d.tdiv 1000 * 1000 < 2 ^ 63 := by
    rw [hq]
    split <;> omega
  refine ⟨by rw [hfmt, Microsecond_eq], ?_, hne⟩
  rw [hfmt, Microsecond_eq, (ParseDuration_toString_unit (d.tdiv 1000) hq1).1, Microsecond_eq,
    int64_of_fits _ hq2]

/-- C11 (amended): for every string that ParseDuration accepts, with value `d`
(a 64-bit nanosecond count, after Go's wrap-around multiplication), the
formatted text parses again to the same value, ParseDuration(FormatDuration(d))
succeeds and equals `d`, exactly when `d` is a whole number of microseconds. -/
theorem ParseDuration_FormatDuration_round_trip_iff (s : String) (d : Int)
    (h : ParseDuration s = (d, none)) :
    ParseDuration (FormatDuration d) = (d, none) ↔ Microsecond ∣ d := by
  have hd := ParseDuration_ok_range s d h
  refine ⟨fun hrt => ?_, fun hmul => ParseDuration_FormatDuration_microseconds d hd hmul⟩
  by_contra hmul
  obtain ⟨_, h2, h3⟩ := ParseDuration_FormatDuration_truncates d hd hmul
  rw [h2] at hrt
  exact h3 (congrArg Prod.fst hrt)

/-- C11 (amended) at `640500000h`, whose product overflows to
-43009213693952000, a whole number of microseconds that is read back; at
`18446744073709552s`, whose product overflows to 384000000, written `384ms`
and read back; at `100s`, which does not overflow; and at `9223372036854776u`,
whose product overflows to -9223372036854775616, no whole number of
microseconds, which is not read back. -/
theorem ParseDuration_FormatDuration_round_trip_iff_witness :
    (ParseDuration "640500000h" = (-43009213693952000, none)
      ∧ (ParseDuration (FormatDuration (-43009213693952000)) = (-43009213693952000, none)
          ↔ Microsecond ∣ (-43009213693952000 : Int)))
    ∧ (ParseDuration "18446744073709552s" = (384000000, none)
      ∧ FormatDuration 384000000 = "384ms"
      ∧ ParseDuration (FormatDuration 384000000) = (384000000, none))
    ∧ (ParseDuration "100s" = (100000000000, none)
      ∧ ParseDuration (FormatDuration 100000000000) = (100000000000, none))
    ∧ (ParseDuration "9223372036854776u" = (-9223372036854775616, none)
      ∧ ¬ Microsecond ∣ (-9223372036854775616 : Int)
      ∧ ¬ ParseDuration (FormatDuration (-9223372036854775616))
          = (-9223372036854775616, none)) :=
  ⟨⟨by decide,
      ParseDuration_FormatDuration_round_trip_iff "640500000h" (-43009213693952000)
        (by decide)⟩,
   ⟨by decide, by decide,
      (ParseDuration_FormatDuration_round_trip_iff "18446744073709552s" 384000000
        (by decide)).mpr (by decide)⟩,
   ⟨by decide,
      (ParseDuration_FormatDuration_round_trip_iff "100s" 100000000000
        (by decide)).mpr (by decide)⟩,
   ⟨by decide, by decide,
      fun hrt => absurd ((ParseDuration_FormatDuration_round_trip_iff "9223372036854776u"
        (-9223372036854775616) (by decide)).mp hrt) (by decide)⟩⟩

/-! ## Quoting -/

theorem quoteReplace_length (l : List Char) : l.length ≤ (quoteReplace l).length := by
  induction l with
  | nil => simp [quoteReplace]
  | cons c cs ih =>
    rw [quoteReplace, List.length_append, List.length_cons]
    have : 1 ≤ (if c = Char.ofNat 10 then [Char.ofNat 92, 'n']
        else if c = Char.ofNat 92 then [Char.ofNat 92, Char.ofNat 92]
        else if c = Char.ofNat 34 then [Char.ofNat 92, Char.ofNat 34] else [c]).length := by
      split
      · simp
      · split
        · simp
        · split <;> simp
    omega

/-- Quote adds at least the two delimiters to the text. -/
theorem Quote_length (s : String) : s.data.length + 2 ≤ (Quote s).data.length := by
  have := quoteReplace_length s.data
  simp only [Quote, List.length_append, List.length_singleton, List.length_cons,
    List.length_nil]
  omega

theorem Quote_ne_self (s : String) : Quote s ≠ s := by
  intro h
  have := Quote_length s
  rw [h] at this
  omega

theorem isIdentClass_iff (c : Char) :
    isIdentClass c = true ↔ (isAsciiLetter c = true ∨ c = '_' ∨ c = '.') := by
  simp [isIdentClass, isAsciiLetter, or_assoc]

/-- C12: for every string `s`, QuoteIdent(s) = s if and only if `s` is non-empty
and every character of `s` is an ASCII letter, underscore or dot; in every
other case QuoteIdent(s) = Quote(s); and Quote(s) always differs from `s`. -/
theorem QuoteIdent_unchanged_iff (s : String) :
    (QuoteIdent s = s ↔
      (s ≠ "" ∧ ∀ c ∈ s.data, isAsciiLetter c = true ∨ c = '_' ∨ c = '.'))
    ∧ (¬ (s ≠ "" ∧ ∀ c ∈ s.data, isAsciiLetter c = true ∨ c = '_' ∨ c = '.') →
        QuoteIdent s = Quote s)
    ∧ Quote s ≠ s := by
  have hcond : (s = "" ∨ s.data.any (fun c => !isIdentClass c) = true) ↔
      ¬ (s ≠ "" ∧ ∀ c ∈ s.data, isAsciiLetter c = true ∨ c = '_' ∨ c = '.') := by
    simp only [List.any_eq_true, Bool.not_eq_true', ne_eq, not_and, not_forall]
    constructor
    · rintro (h | ⟨c, hc, hcl⟩) hne
      · exact absurd h hne
      · refine ⟨c, hc, fun hok => ?_⟩
        rw [(isIdentClass_iff c).mpr hok] at hcl
        exact absurd hcl (by decide)
    · intro h
      by_cases hne : s = ""
      · exact Or.inl hne
      · obtain ⟨c, hc, hnot⟩ := h hne
        refine Or.inr ⟨c, hc, ?_⟩
        cases hcl : isIdentClass c
        · rfl
        · exact absurd ((isIdentClass_iff c).mp hcl) hnot
  refine ⟨?_, ?_, Quote_ne_self s⟩
  · constructor
    · intro h
      by_contra hn
      have : QuoteIdent s = Quote s := by
        unfold QuoteIdent
        rw [if_pos (hcond.mpr hn)]
      rw [this] at h
      exact Quote_ne_self s h
    · intro h
      unfold QuoteIdent
      rw [if_neg (fun hc => hcond.mp hc h)]
  · intro hn
    unfold QuoteIdent
    rw [if_pos (hcond.mpr hn)]

/-- C12 at `foo.bar.baz`, which stays, and at `my-var`, which is quoted. -/
theorem QuoteIdent_unchanged_iff_witness :
    QuoteIdent "foo.bar.baz" = "foo.bar.baz" ∧ QuoteIdent "my-var" = Quote "my-var" :=
  ⟨(QuoteIdent_unchanged_iff "foo.bar.baz").1.mpr (by decide),
   (QuoteIdent_unchanged_iff "my-var").2.1 (by decide)⟩

/-! ## The keyword table -/

theorem lookup_none_of_not_key (m : List (String × Token)) (s : String)
    (h : s ∉ m.map Prod.fst) : m.lookup s = none := by
  induction m with
  | nil => rfl
  | cons e m ih =>
    obtain ⟨k, v⟩ := e
    simp only [List.map_cons, List.mem_cons, not_or] at h
    have hk : (s == k) = false := by
      rw [beq_eq_false_iff_ne]
      exact h.1
    simp only [List.lookup, hk]
    exact ih h.2

/-- C13 (the code at failing inputs): `SELECT` and `select` are keys of the
table, and so is `true`, but the spellings `Select` and `TRUE`, equal to an
entry up to letter case, are not: Lookup returns IDENT for them. -/
theorem Lookup_misses_other_casings :
    Lookup "SELECT" = .SELECT ∧ Lookup "select" = .SELECT
    ∧ equalFold "Select" "SELECT" = true ∧ Lookup "Select" = .IDENT
    ∧ Lookup "true" = .TRUE
    ∧ equalFold "TRUE" "true" = true ∧ Lookup "TRUE" = .IDENT := by
  decide

/-- C14: for every keyword token `t` (between keyword_beg and keyword_end) and
for AND and OR, Lookup of the spelling of `t` and Lookup of the lower-cased
spelling return `t`; distinct such tokens have distinct spellings; and Lookup
returns IDENT for every string that is not a key of the table. -/
theorem Lookup_reverses_String :
    (∀ t : Token,
      (Token.keyword_beg.toInt < t.toInt ∧ t.toInt < Token.keyword_end.toInt)
        ∨ t = .AND ∨ t = .OR →
      Lookup t.String = t ∧ Lookup (ToLower t.String) = t)
    ∧ (∀ t u : Token,
      ((Token.keyword_beg.toInt < t.toInt ∧ t.toInt < Token.keyword_end.toInt)
        ∨ t = .AND ∨ t = .OR) →
      ((Token.keyword_beg.toInt < u.toInt ∧ u.toInt < Token.keyword_end.toInt)
        ∨ u = .AND ∨ u = .OR) →
      t ≠ u → t.String ≠ u.String)
    ∧ (∀ s : String, s ∉ keywords.map Prod.fst → Lookup s = .IDENT) := by
  have h1 : ∀ t : Token,
      (Token.keyword_beg.toInt < t.toInt ∧ t.toInt < Token.keyword_end.toInt)
        ∨ t = .AND ∨ t = .OR →
      Lookup t.String = t ∧ Lookup (ToLower t.String) = t := by
    intro t
    cases t <;> decide
  refine ⟨h1, ?_, ?_⟩
  · intro t u ht hu hne heq
    apply hne
    rw [← (h1 t ht).1, ← (h1 u hu).1, heq]
  · intro s hs
    unfold Lookup
    rw [lookup_none_of_not_key keywords s hs]

/-- C14 at the token SELECT and at the string `myseries`. -/
theorem Lookup_reverses_String_witness :
    (Lookup "SELECT" = .SELECT ∧ Lookup "select" = .SELECT)
    ∧ Lookup "myseries" = .IDENT :=
  ⟨Lookup_reverses_String.1 .SELECT (by decide),
   Lookup_reverses_String.2.2 "myseries" (by decide)⟩

/-! ## ParseStatement and ParseQuery -/

/-- ParseStatement looks at the parser only through its first token. -/
theorem ParseStatement_congr (go : Stdlib) (n : Nat) (p p' : Parser)
    (h : p.scanIgnoreWhitespace = p'.scanIgnoreWhitespace) :
    ParseStatement go n p = ParseStatement go n p' := by
  unfold ParseStatement
  rw [h]

/-- ParseStatement succeeds only at one of the eight statement keywords. -/
theorem ParseStatement_ok_keyword (go : Stdlib) (n : Nat) (p q : Parser) (s : Statement)
    (h : ParseStatement go n p = .ok s q) :
    (p.scanIgnoreWhitespace).1.tok ∈
      [Token.SELECT, .DELETE, .LIST, .CREATE, .DROP, .GRANT, .REVOKE, .ALTER] := by
  unfold ParseStatement at h
  dsimp only at h
  split at h
  all_goals first
    | (rename_i heq; rw [heq]; decide)
    | (exact absurd h (by simp))

/-- The loop of ParseQuery looks at the parser only through its first token. -/
theorem ParseQueryLoop_congr (go : Stdlib) (n : Nat) (ss : List Statement) (p p' : Parser)
    (h : p.scanIgnoreWhitespace = p'.scanIgnoreWhitespace) :
    ParseQueryLoop go n ss p = ParseQueryLoop go n ss p' := by
  cases n with
  | zero => rfl
  | succ n => rw [ParseQueryLoop, ParseQueryLoop, ParseStatement_congr go n p p' h]

/-- One iteration of the loop of ParseQuery: a statement followed by a
semicolon. -/
theorem ParseQueryLoop_step (go : Stdlib) (acc : List Statement) (p q : Parser) (s : Statement)
    (res : Result Query)
    (hs : Returns (fun n => ParseStatement go n p) (.ok s q))
    (hsemi : (q.scanIgnoreWhitespace).1.tok = .SEMICOLON)
    (hrest : Returns (fun n => ParseQueryLoop go n (acc ++ [s]) (q.scanIgnoreWhitespace).2) res) :
    Returns (fun n => ParseQueryLoop go n acc p) res := by
  obtain ⟨_, n1, h1⟩ := hs
  obtain ⟨hne, n2, h2⟩ := hrest
  apply Returns.of_le (fun n => ParseQueryLoop_le go n acc p) (n := max n1 n2 + 1) _ hne
  have h1' : ParseStatement go (max n1 n2) p = .ok s q := h1 _ (le_max_left _ _)
  have h2' : ParseQueryLoop go (max n1 n2) (acc ++ [s]) (q.scanIgnoreWhitespace).2 = res :=
    h2 _ (le_max_right _ _)
  rw [ParseQueryLoop, h1']
  simp only [Result.bind, hsemi]
  simpa using h2'

/-- The loop of ParseQuery over statements that are each followed by a
semicolon. -/
theorem ParseQueryLoop_statements (go : Stdlib) (p q : Parser) (ss : List Statement)
    (hss : StatementsThen go p ss q) (acc : List Statement) (res : Result Query)
    (hrest : Returns (fun n => ParseQueryLoop go n (acc ++ ss) q) res) :
    Returns (fun n => ParseQueryLoop go n acc p) res := by
  induction hss generalizing acc with
  | nil p => simpa using hrest
  | cons p q r s rest hs hsemi _ ih =>
    apply ParseQueryLoop_step go acc p q s res hs hsemi
    apply ih
    simpa using hrest

/-- The last iteration of the loop of ParseQuery: a statement followed by
EOF. -/
theorem ParseQueryLoop_last (go : Stdlib) (acc : List Statement) (p q : Parser) (s : Statement)
    (hs : Returns (fun n => ParseStatement go n p) (.ok s q))
    (heof : (q.scanIgnoreWhitespace).1.tok = .EOF) :
    Returns (fun n => ParseQueryLoop go n acc p)
      (.ok { Statements := acc ++ [s] } (q.scanIgnoreWhitespace).2) := by
  obtain ⟨_, n1, h1⟩ := hs
  apply Returns.of_le (fun n => ParseQueryLoop_le go n acc p) (n := n1 + 1) _ (by simp)
  have h1' : ParseStatement go n1 p = .ok s q := h1 _ le_rfl
  rw [ParseQueryLoop, h1']
  simp [Result.bind, heof]

/-- An iteration of the loop of ParseQuery in which ParseStatement fails. -/
theorem ParseQueryLoop_error (go : Stdlib) (acc : List Statement) (p : Parser) (e : ParseError)
    (hs : Returns (fun n => ParseStatement go n p) (.error e)) :
    Returns (fun n => ParseQueryLoop go n acc p) (.error e) := by
  obtain ⟨_, n1, h1⟩ := hs
  apply Returns.of_le (fun n => ParseQueryLoop_le go n acc p) (n := n1 + 1) _ (by simp)
  have h1' : ParseStatement go n1 p = .error e := h1 _ le_rfl
  rw [ParseQueryLoop, h1']
  rfl

/-- An iteration of the loop of ParseQuery in which the statement is followed
by a token that is neither a semicolon nor EOF. -/
theorem ParseQueryLoop_unexpected (go : Stdlib) (acc : List Statement) (p q : Parser)
    (s : Statement)
    (hs : Returns (fun n => ParseStatement go n p) (.ok s q))
    (h1 : (q.scanIgnoreWhitespace).1.tok ≠ .SEMICOLON)
    (h2 : (q.scanIgnoreWhitespace).1.tok ≠ .EOF) :
    Returns (fun n => ParseQueryLoop go n acc p)
      (.error (newParseError
        (tokstr (q.scanIgnoreWhitespace).1.tok (q.scanIgnoreWhitespace).1.lit) [";", "EOF"]
        (q.scanIgnoreWhitespace).1.pos)) := by
  obtain ⟨_, n1, hn⟩ := hs
  apply Returns.of_le (fun n => ParseQueryLoop_le go n acc p) (n := n1 + 1) _ (by simp)
  have h1' : ParseStatement go n1 p = .ok s q := hn _ le_rfl
  rw [ParseQueryLoop, h1']
  simp [Result.bind, h1, h2]

/-- ParseQuery on an input that does not start with EOF or whitespace is the
loop over its statements. -/
theorem ParseQuery_of_loop (go : Stdlib) (p : Parser) (res : Result Query)
    (heof : (p.scanIgnoreWhitespace).1.tok ≠ .EOF)
    (hws : (p.scanIgnoreWhitespace).1.tok ≠ .WS)
    (h : Returns (fun n => ParseQueryLoop go n [] p) res) :
    Returns (fun n => ParseQuery go n p) res := by
  obtain ⟨hne, n, hn⟩ := h
  refine ⟨hne, n, fun m hm => ?_⟩
  have hm' : ParseQueryLoop go m [] p = res := hn m hm
  show ParseQuery go m p = res
  unfold ParseQuery
  rw [if_neg heof, ParseQueryLoop_congr go m [] _ p (scanIgnoreWhitespace_unscan p hws)]
  exact hm'

/-- The function tokstr as a choice between the literal and the token name. -/
theorem tokstr_eq (tok : Token) (lit : String) :
    tokstr tok lit = if lit = "" then tok.String else lit := by
  unfold tokstr
  by_cases h : lit = "" <;> simp [h]

/-- A successful ParseStatement starts at a token that is neither EOF nor
whitespace. -/
theorem ParseStatement_returns_first (go : Stdlib) (p q : Parser) (s : Statement)
    (h : Returns (fun n => ParseStatement go n p) (.ok s q)) :
    (p.scanIgnoreWhitespace).1.tok ≠ .EOF ∧ (p.scanIgnoreWhitespace).1.tok ≠ .WS := by
  obtain ⟨_, n, hn⟩ := h
  have h' : ParseStatement go n p = .ok s q := hn n le_rfl
  have hk := ParseStatement_ok_keyword go n p q s h'
  simp only [List.mem_cons, List.mem_singleton, List.not_mem_nil, or_false] at hk
  rcases hk with hk | hk | hk | hk | hk | hk | hk | hk <;> rw [hk] <;> decide

/-- C15: if ParseStatement returns S1 at the start of the input, then after
each following semicolon the next statement S2, ..., Sk (k at least 1), and the
token after Sk is EOF, then ParseQuery returns the Query whose Statements are
exactly [S1, ..., Sk], in source order. -/
theorem ParseQuery_statements_in_order (go : Stdlib) (p q r : Parser) (ss : List Statement)
    (s : Statement)
    (hss : StatementsThen go p ss q)
    (hs : Returns (fun n => ParseStatement go n q) (.ok s r))
    (heof : (r.scanIgnoreWhitespace).1.tok = .EOF) :
    Returns (fun n => ParseQuery go n p)
      (.ok { Statements := ss ++ [s] } (r.scanIgnoreWhitespace).2) := by
  have hfirst : (p.scanIgnoreWhitespace).1.tok ≠ .EOF ∧ (p.scanIgnoreWhitespace).1.tok ≠ .WS := by
    cases hss with
    | nil => exact ParseStatement_returns_first go _ _ _ hs
    | cons _ q1 _ s1 rest h1 _ _ => exact ParseStatement_returns_first go _ _ _ h1
  apply ParseQuery_of_loop go p _ hfirst.1 hfirst.2
  apply ParseQueryLoop_statements go p q ss hss []
  simpa using ParseQueryLoop_last go ([] ++ ss) q r s hs heof

/-- C15 at `SELECT a FROM b; SELECT c FROM d`: two statements, in order. -/
theorem ParseQuery_statements_in_order_witness :
    Returns (fun n => ParseQuery demoLib n (NewParser tokens_two_selects ⟨0, 32⟩))
      (.ok { Statements := [selectFrom "a" "b", selectFrom "c" "d"] }
        { s := { input := [], eof := ⟨0, 32⟩, buf := ⟨.EOF, ⟨0, 32⟩, ""⟩, n := false } }) :=
  ParseQuery_statements_in_order demoLib (NewParser tokens_two_selects ⟨0, 32⟩) _ _
    [selectFrom "a" "b"] (selectFrom "c" "d")
    (.cons _ _ _ _ _
      (Returns.of_le (fun n => ParseStatement_le demoLib n _) (n := 10) rfl (by simp))
      rfl (.nil _))
    (Returns.of_le (fun n => ParseStatement_le demoLib n _) (n := 10) rfl (by simp))
    rfl

/-- C16: on a token stream that is EOF alone, or one whitespace token followed
by EOF, ParseQuery returns (whatever the bound) a Query with no statements and
no error. -/
theorem ParseQuery_empty_input (go : Stdlib) (n : Nat) (eof pos : Pos) (lit : String) :
    ParseQuery go n (NewParser [] eof)
        = .ok { Statements := [] }
            { s := { input := [], eof := eof, buf := ⟨.EOF, eof, ""⟩, n := false } }
    ∧ ParseQuery go n (NewParser [⟨.WS, pos, lit⟩] eof)
        = .ok { Statements := [] }
            { s := { input := [], eof := eof, buf := ⟨.EOF, eof, ""⟩, n := false } } :=
  ⟨rfl, rfl⟩

/-- C17: on an input that does not start with EOF, in which ParseStatement
returns S1, ..., Sk (k may be 0), each followed by a semicolon: if ParseStatement
fails on the next statement, ParseQuery returns that very error and no Query;
and if ParseStatement returns a statement there and the token after it is neither
a semicolon nor EOF, ParseQuery returns the syntax error whose expected list is
[;, EOF], whose found text is that token's literal (or token name) and whose
position is that token's position. -/
theorem ParseQuery_first_error (go : Stdlib) (p q : Parser) (ss : List Statement)
    (heof : (p.scanIgnoreWhitespace).1.tok ≠ .EOF)
    (hws : (p.scanIgnoreWhitespace).1.tok ≠ .WS)
    (hss : StatementsThen go p ss q) :
    (∀ e, Returns (fun n => ParseStatement go n q) (.error e) →
      Returns (fun n => ParseQuery go n p) (.error e))
    ∧ (∀ s r, Returns (fun n => ParseStatement go n q) (.ok s r) →
        (r.scanIgnoreWhitespace).1.tok ≠ .SEMICOLON →
        (r.scanIgnoreWhitespace).1.tok ≠ .EOF →
        Returns (fun n => ParseQuery go n p)
          (.error { Message := ""
                    Found := if (r.scanIgnoreWhitespace).1.lit = ""
                      then (r.scanIgnoreWhitespace).1.tok.String
                      else (r.scanIgnoreWhitespace).1.lit
                    Expected := [";", "EOF"]
                    Pos := (r.scanIgnoreWhitespace).1.pos })) := by
  refine ⟨fun e he => ?_, fun s r hs h1 h2 => ?_⟩
  · apply ParseQuery_of_loop go p _ heof hws
    apply ParseQueryLoop_statements go p q ss hss []
    exact ParseQueryLoop_error go _ q e he
  · apply ParseQuery_of_loop go p _ heof hws
    apply ParseQueryLoop_statements go p q ss hss []
    have h := ParseQueryLoop_unexpected go ([] ++ ss) q r s hs h1 h2
    rw [tokstr_eq] at h
    exact h

/-- C17 at `SELECT a FROM b; SELECT`, where the second statement fails, and at
`SELECT a FROM b c`, where `c` follows the statement. -/
theorem ParseQuery_first_error_witness :
    Returns (fun n => ParseQuery demoLib n (NewParser tokens_select_then_bare_select ⟨0, 23⟩))
      (.error { Message := "", Found := "EOF", Expected := ["identifier", "string", "number", "bool"],
                Pos := ⟨0, 23⟩ })
    ∧ Returns (fun n => ParseQuery demoLib n (NewParser tokens_select_then_ident ⟨0, 17⟩))
      (.error { Message := "", Found := "c", Expected := [";", "EOF"], Pos := ⟨0, 16⟩ }) :=
  ⟨(ParseQuery_first_error demoLib (NewParser tokens_select_then_bare_select ⟨0, 23⟩) _
      [selectFrom "a" "b"] (by decide) (by decide)
      (.cons _ _ _ _ _
        (Returns.of_le (fun n => ParseStatement_le demoLib n _) (n := 10) rfl (by simp))
        rfl (.nil _))).1 _
      (Returns.of_le (fun n => ParseStatement_le demoLib n _) (n := 10) rfl (by simp)),
   (ParseQuery_first_error demoLib (NewParser tokens_select_then_ident ⟨0, 17⟩) _
      [] (by decide) (by decide) (.nil _)).2 (selectFrom "a" "b") _
      (Returns.of_le (fun n => ParseStatement_le demoLib n _) (n := 10) rfl (by simp))
      (by decide) (by decide)⟩

/-! ## ParseStatement -/

/-- C18: when the first token after optional whitespace is none of SELECT,
DELETE, LIST, CREATE, DROP, GRANT, REVOKE, ALTER, ParseStatement fails (whatever
the bound) with the syntax error whose expected list is exactly [SELECT], whose
found text is the token's literal, or the token's name when the literal is
empty, and whose position is the token's; at each of the eight keywords it is
the matching statement parser, run after the keyword. -/
theorem ParseStatement_dispatch (go : Stdlib) (n : Nat) (p : Parser) :
    ((p.scanIgnoreWhitespace).1.tok ∉
        [Token.SELECT, .DELETE, .LIST, .CREATE, .DROP, .GRANT, .REVOKE, .ALTER] →
      ParseStatement go n p
        = .error { Message := ""
                   Found := if (p.scanIgnoreWhitespace).1.lit = ""
                     then (p.scanIgnoreWhitespace).1.tok.String
                     else (p.scanIgnoreWhitespace).1.lit
                   Expected := ["SELECT"]
                   Pos := (p.scanIgnoreWhitespace).1.pos })
    ∧ ((p.scanIgnoreWhitespace).1.tok = .SELECT →
        ParseStatement go n p
          = (parseSelectStatement go n .targetNotRequired (p.scanIgnoreWhitespace).2).map
              .Select)
    ∧ ((p.scanIgnoreWhitespace).1.tok = .DELETE →
        ParseStatement go n p
          = (parseDeleteStatement go n (p.scanIgnoreWhitespace).2).map .Delete)
    ∧ ((p.scanIgnoreWhitespace).1.tok = .LIST →
        ParseStatement go n p = parseListStatement go n (p.scanIgnoreWhitespace).2)
    ∧ ((p.scanIgnoreWhitespace).1.tok = .CREATE →
        ParseStatement go n p = parseCreateStatement go n (p.scanIgnoreWhitespace).2)
    ∧ ((p.scanIgnoreWhitespace).1.tok = .DROP →
        ParseStatement go n p = parseDropStatement (p.scanIgnoreWhitespace).2)
    ∧ ((p.scanIgnoreWhitespace).1.tok = .GRANT →
        ParseStatement go n p = (parseGrantStatement (p.scanIgnoreWhitespace).2).map .Grant)
    ∧ ((p.scanIgnoreWhitespace).1.tok = .REVOKE →
        ParseStatement go n p = (parseRevokeStatement (p.scanIgnoreWhitespace).2).map .Revoke)
    ∧ ((p.scanIgnoreWhitespace).1.tok = .ALTER →
        ParseStatement go n p = parseAlterStatement go (p.scanIgnoreWhitespace).2) := by
  refine ⟨fun h => ?_, fun h => ?_, fun h => ?_, fun h => ?_, fun h => ?_, fun h => ?_,
    fun h => ?_, fun h => ?_, fun h => ?_⟩
  · simp only [List.mem_cons, List.mem_singleton, List.not_mem_nil, or_false, not_or] at h
    obtain ⟨h1, h2, h3, h4, h5, h6, h7, h8⟩ := h
    unfold ParseStatement
    dsimp only
    rw [← tokstr_eq]
    split <;> first | rfl | (rename_i heq; simp [heq] at h1 h2 h3 h4 h5 h6 h7 h8)
  all_goals (unfold ParseStatement; dsimp only; rw [h])

/-- C18 at the empty input, at `blah blah` and at a SELECT statement. -/
theorem ParseStatement_dispatch_witness :
    ParseStatement demoLib 0 (NewParser [] ⟨0, 0⟩)
        = .error { Message := "", Found := "EOF", Expected := ["SELECT"], Pos := ⟨0, 0⟩ }
    ∧ ParseStatement demoLib 0
          (NewParser [⟨.IDENT, ⟨0, 0⟩, "blah"⟩, ⟨.WS, ⟨0, 4⟩, " "⟩, ⟨.IDENT, ⟨0, 5⟩, "blah"⟩]
            ⟨0, 9⟩)
        = .error { Message := "", Found := "blah", Expected := ["SELECT"], Pos := ⟨0, 0⟩ }
    ∧ ParseStatement demoLib 10 (NewParser tokens_two_selects ⟨0, 32⟩)
        = (parseSelectStatement demoLib 10 .targetNotRequired
            ((NewParser tokens_two_selects ⟨0, 32⟩).scanIgnoreWhitespace).2).map .Select :=
  ⟨(ParseStatement_dispatch demoLib 0 (NewParser [] ⟨0, 0⟩)).1 (by decide),
   (ParseStatement_dispatch demoLib 0
      (NewParser [⟨.IDENT, ⟨0, 0⟩, "blah"⟩, ⟨.WS, ⟨0, 4⟩, " "⟩, ⟨.IDENT, ⟨0, 5⟩, "blah"⟩]
        ⟨0, 9⟩)).1 (by decide),
   (ParseStatement_dispatch demoLib 10 (NewParser tokens_two_selects ⟨0, 32⟩)).2.1 rfl⟩

/-- C19: on the tokens SELECT, `*`, FROM and a measurement name m (an IDENT or
STRING token), with optional whitespace between them and EOF after them,
ParseStatement returns the SelectStatement whose Fields is exactly one Field
holding a Wildcard with an empty alias, whose Source is Measurement{Name: m},
whose Target and Condition are absent, whose Dimensions and SortFields are empty
and whose Limit is 0. -/
theorem ParseStatement_select_wildcard (go : Stdlib) (w1 w2 w3 : List Lexeme)
    (pos0 pos1 pos2 pos3 eof : Pos) (lit0 lit1 lit2 m : String) (tok : Token)
    (hw1 : OptionalWS w1) (hw2 : OptionalWS w2) (hw3 : OptionalWS w3)
    (htok : tok = .IDENT ∨ tok = .STRING) :
    Returns
      (fun n => ParseStatement go n
        (NewParser ([⟨.SELECT, pos0, lit0⟩] ++ w1 ++ [⟨.MUL, pos1, lit1⟩] ++ w2
          ++ [⟨.FROM, pos2, lit2⟩] ++ w3 ++ [⟨tok, pos3, m⟩]) eof))
      (.ok (.Select { Fields := [{ Expr := .Wildcard, Alias := "" }], Target := none,
                      Source := .measurement { Name := m }, Condition := none,
                      Dimensions := [], SortFields := [], Limit := 0 })
        { s := { input := [], eof := eof, buf := ⟨.EOF, eof, ""⟩, n := true } }) := by
  apply Returns.of_le (fun n => ParseStatement_le go n _) (n := 0) _ (by simp)
  rcases hw1 with rfl | ⟨a1, b1, rfl⟩ <;> rcases hw2 with rfl | ⟨a2, b2, rfl⟩ <;>
    rcases hw3 with rfl | ⟨a3, b3, rfl⟩ <;> rcases htok with rfl | rfl <;>
    simp [ParseStatement, parseSelectStatement, parseFields, parseTarget, parseSource,
      parseCondition, parseDimensions, parseOrderBy, parseLimit, Parser.scanIgnoreWhitespace,
      Parser.scan, Parser.unscan, bufScanner.Scan, bufScanner.Unscan, NewParser, newBufScanner,
      Result.bind, Result.map]

/-- C19 at `SELECT * FROM myseries`. -/
theorem ParseStatement_select_wildcard_witness :
    Returns
      (fun n => ParseStatement demoLib n
        (NewParser [⟨.SELECT, ⟨0, 0⟩, ""⟩, ⟨.WS, ⟨0, 6⟩, " "⟩, ⟨.MUL, ⟨0, 7⟩, ""⟩,
          ⟨.WS, ⟨0, 8⟩, " "⟩, ⟨.FROM, ⟨0, 9⟩, ""⟩, ⟨.WS, ⟨0, 13⟩, " "⟩,
          ⟨.IDENT, ⟨0, 14⟩, "myseries"⟩] ⟨0, 22⟩))
      (.ok (.Select { Fields := [{ Expr := .Wildcard, Alias := "" }], Target := none,
                      Source := .measurement { Name := "myseries" }, Condition := none,
                      Dimensions := [], SortFields := [], Limit := 0 })
        { s := { input := [], eof := ⟨0, 22⟩, buf := ⟨.EOF, ⟨0, 22⟩, ""⟩, n := true } }) :=
  ParseStatement_select_wildcard demoLib [⟨.WS, ⟨0, 6⟩, " "⟩] [⟨.WS, ⟨0, 8⟩, " "⟩]
    [⟨.WS, ⟨0, 13⟩, " "⟩] ⟨0, 0⟩ ⟨0, 7⟩ ⟨0, 9⟩ ⟨0, 14⟩ ⟨0, 22⟩ "" "" "" "myseries" .IDENT
    (Or.inr ⟨_, _, rfl⟩) (Or.inr ⟨_, _, rfl⟩) (Or.inr ⟨_, _, rfl⟩) (Or.inl rfl)

/-! ## The LIMIT clause -/

/-- A result that does not depend on the bound is returned. -/
theorem Returns.const {α : Type} {r : Result α} (hr : r ≠ .outOfFuel) :
    Returns (fun _ => r) r :=
  ⟨hr, 0, fun _ _ => rfl⟩

/-- The Go idiom of Result.bind, for results that are returned: when `f`
returns a value and `g` on that value returns `r`, the two in sequence return
`r`. -/
theorem Returns.bind {α β : Type} {f : Nat → Result α} {g : Nat → α → Parser → Result β}
    {a : α} {q : Parser} {r : Result β}
    (hf : Returns f (.ok a q)) (hg : Returns (fun n => g n a q) r) :
    Returns (fun n => (f n).bind (g n)) r := by
  obtain ⟨_, n1, h1⟩ := hf
  obtain ⟨hr, n2, h2⟩ := hg
  refine ⟨hr, max n1 n2, fun m hm => ?_⟩
  have h1' : f m = .ok a q := h1 m (le_trans (le_max_left _ _) hm)
  have h2' : g m a q = r := h2 m (le_trans (le_max_right _ _) hm)
  show (f m).bind (g m) = r
  rw [h1']
  exact h2'

/-- A failing parseLimit after the other clauses makes parseSelectStatement
fail with the same error. -/
theorem parseSelectStatement_limit_error (go : Stdlib) (tr : targetRequirement) (p q : Parser)
    (fields : List Field) (target : Option Target) (source : Source)
    (condition : Option Expr) (dimensions : List Dimension) (sortFields : List SortField)
    (e : ParseError)
    (hc : SelectClauses go tr p fields target source condition dimensions sortFields q)
    (he : parseLimit q = .error e) :
    Returns (fun n => parseSelectStatement go n tr p) (.error e) := by
  obtain ⟨p1, p2, p3, p4, p5, h1, h2, h3, h4, h5, h6, h7⟩ := hc
  unfold parseSelectStatement
  apply Returns.bind h1
  rw [h2]
  simp only [Result.bind, h3, ne_eq, not_true_eq_false, if_false]
  apply Returns.bind h4
  apply Returns.bind h5
  apply Returns.bind h6
  apply Returns.bind h7
  rw [he]
  exact Returns.const (by simp)

/-- A failing parseLimit after the other clauses of a SELECT statement makes
ParseStatement fail with the same error. -/
theorem ParseStatement_select_limit_error (go : Stdlib) (p q : Parser)
    (fields : List Field) (target : Option Target) (source : Source)
    (condition : Option Expr) (dimensions : List Dimension) (sortFields : List SortField)
    (e : ParseError)
    (hsel : (p.scanIgnoreWhitespace).1.tok = .SELECT)
    (hc : SelectClauses go .targetNotRequired (p.scanIgnoreWhitespace).2 fields target source
      condition dimensions sortFields q)
    (he : parseLimit q = .error e) :
    Returns (fun n => ParseStatement go n p) (.error e) := by
  obtain ⟨_, n, hn⟩ := parseSelectStatement_limit_error go _ _ q fields target source
    condition dimensions sortFields e hc he
  refine ⟨by simp, n, fun m hm => ?_⟩
  have hm' : parseSelectStatement go m .targetNotRequired (p.scanIgnoreWhitespace).2
      = .error e := hn m hm
  show ParseStatement go m p = .error e
  unfold ParseStatement
  dsimp only
  rw [hsel]
  dsimp only
  rw [hm']
  rfl

/-- A failing parseLimit after the other clauses makes the parsers of LIST
SERIES and LIST MEASUREMENTS fail with the same error. -/
theorem parseList_limit_error (go : Stdlib) (p q : Parser) (condition : Option Expr)
    (sortFields : List SortField) (e : ParseError)
    (hc : ListClauses go p condition sortFields q) (he : parseLimit q = .error e) :
    Returns (fun n => parseListSeriesStatement go n p) (.error e)
    ∧ Returns (fun n => parseListMeasurementsStatement go n p) (.error e) := by
  obtain ⟨p1, h1, h2⟩ := hc
  constructor
  · unfold parseListSeriesStatement
    apply Returns.bind h1
    apply Returns.bind h2
    rw [he]
    exact ⟨by simp, 0, fun _ _ => rfl⟩
  · unfold parseListMeasurementsStatement
    apply Returns.bind h1
    apply Returns.bind h2
    rw [he]
    exact ⟨by simp, 0, fun _ _ => rfl⟩

/-- A failing parseLimit after the other clauses makes the parsers of LIST TAG
KEYS, LIST TAG VALUES, LIST FIELD KEYS and LIST FIELD VALUES fail with the same
error. -/
theorem parseListFrom_limit_error (go : Stdlib) (p q : Parser) (source : Source)
    (condition : Option Expr) (sortFields : List SortField) (e : ParseError)
    (hc : ListFromClauses go p source condition sortFields q) (he : parseLimit q = .error e) :
    Returns (fun n => parseListTagKeysStatement go n p) (.error e)
    ∧ Returns (fun n => parseListTagValuesStatement go n p) (.error e)
    ∧ Returns (fun n => parseListFieldKeysStatement go n p) (.error e)
    ∧ Returns (fun n => parseListFieldValuesStatement go n p) (.error e) := by
  obtain ⟨h0, p1, p2, h1, h2, h3⟩ := hc
  refine ⟨?_, ?_, ?_, ?_⟩
  · unfold parseListTagKeysStatement
    simp only [h0, ne_eq, not_true_eq_false, if_false]
    apply Returns.bind h1
    apply Returns.bind h2
    apply Returns.bind h3
    rw [he]
    exact ⟨by simp, 0, fun _ _ => rfl⟩
  · unfold parseListTagValuesStatement
    simp only [h0, ne_eq, not_true_eq_false, if_false]
    apply Returns.bind h1
    apply Returns.bind h2
    apply Returns.bind h3
    rw [he]
    exact ⟨by simp, 0, fun _ _ => rfl⟩
  · unfold parseListFieldKeysStatement
    simp only [h0, ne_eq, not_true_eq_false, if_false]
    apply Returns.bind h1
    apply Returns.bind h2
    apply Returns.bind h3
    rw [he]
    exact ⟨by simp, 0, fun _ _ => rfl⟩
  · unfold parseListFieldValuesStatement
    simp only [h0, ne_eq, not_true_eq_false, if_false]
    apply Returns.bind h1
    apply Returns.bind h2
    apply Returns.bind h3
    rw [he]
    exact ⟨by simp, 0, fun _ _ => rfl⟩

/-- C20: when the token at `q` is LIMIT and `t` is the token after it,
parseLimit fails with the syntax error expecting [number] when `t` is not a
NUMBER, with the message `fractional parts not allowed in limit` when `t` is a
NUMBER whose literal contains a `.`, and with the message `LIMIT must be > 0`
when the literal has no `.` and strconv.ParseInt reads a value below 1 from it
(in particular for decimal digits of value 0); each error carries the position
of `t`.  And whenever parseLimit fails so, the SELECT parser, ParseStatement on
a SELECT statement and the six LIST parsers that reach the LIMIT clause at `q`
return that error and no statement. -/
theorem parseLimit_rejects (go : Stdlib) (q : Parser)
    (hlimit : (q.scanIgnoreWhitespace).1.tok = .LIMIT) :
    (((q.scanIgnoreWhitespace).2.scanIgnoreWhitespace).1.tok ≠ .NUMBER →
      parseLimit q
        = .error { Message := ""
                   Found := if ((q.scanIgnoreWhitespace).2.scanIgnoreWhitespace).1.lit = ""
                     then ((q.scanIgnoreWhitespace).2.scanIgnoreWhitespace).1.tok.String
                     else ((q.scanIgnoreWhitespace).2.scanIgnoreWhitespace).1.lit
                   Expected := ["number"]
                   Pos := ((q.scanIgnoreWhitespace).2.scanIgnoreWhitespace).1.pos })
    ∧ (((q.scanIgnoreWhitespace).2.scanIgnoreWhitespace).1.tok = .NUMBER →
        '.' ∈ ((q.scanIgnoreWhitespace).2.scanIgnoreWhitespace).1.lit.data →
        parseLimit q
          = .error { Message := "fractional parts not allowed in limit", Found := "",
                     Expected := []
                     Pos := ((q.scanIgnoreWhitespace).2.scanIgnoreWhitespace).1.pos })
    ∧ (((q.scanIgnoreWhitespace).2.scanIgnoreWhitespace).1.tok = .NUMBER →
        '.' ∉ ((q.scanIgnoreWhitespace).2.scanIgnoreWhitespace).1.lit.data →
        (ParseInt ((q.scanIgnoreWhitespace).2.scanIgnoreWhitespace).1.lit).1 < 1 →
        parseLimit q
          = .error { Message := "LIMIT must be > 0", Found := "", Expected := []
                     Pos := ((q.scanIgnoreWhitespace).2.scanIgnoreWhitespace).1.pos })
    ∧ (((q.scanIgnoreWhitespace).2.scanIgnoreWhitespace).1.tok = .NUMBER →
        ∀ ds : List Char, ((q.scanIgnoreWhitespace).2.scanIgnoreWhitespace).1.lit = String.mk ds →
        ds ≠ [] → (∀ c ∈ ds, isDigit c = true) → digitsValue ds < 1 →
        parseLimit q
          = .error { Message := "LIMIT must be > 0", Found := "", Expected := []
                     Pos := ((q.scanIgnoreWhitespace).2.scanIgnoreWhitespace).1.pos })
    ∧ (∀ e, parseLimit q = .error e →
        (∀ tr p fields target source condition dimensions sortFields,
          SelectClauses go tr p fields target source condition dimensions sortFields q →
          Returns (fun n => parseSelectStatement go n tr p) (.error e))
        ∧ (∀ p fields target source condition dimensions sortFields,
            (p.scanIgnoreWhitespace).1.tok = .SELECT →
            SelectClauses go .targetNotRequired (p.scanIgnoreWhitespace).2 fields target source
              condition dimensions sortFields q →
            Returns (fun n => ParseStatement go n p) (.error e))
        ∧ (∀ p condition sortFields, ListClauses go p condition sortFields q →
            Returns (fun n => parseListSeriesStatement go n p) (.error e)
            ∧ Returns (fun n => parseListMeasurementsStatement go n p) (.error e))
        ∧ (∀ p source condition sortFields,
            ListFromClauses go p source condition sortFields q →
            Returns (fun n => parseListTagKeysStatement go n p) (.error e)
            ∧ Returns (fun n => parseListTagValuesStatement go n p) (.error e)
            ∧ Returns (fun n => parseListFieldKeysStatement go n p) (.error e)
            ∧ Returns (fun n => parseListFieldValuesStatement go n p) (.error e))) := by
  have h3 : ((q.scanIgnoreWhitespace).2.scanIgnoreWhitespace).1.tok = .NUMBER →
      '.' ∉ ((q.scanIgnoreWhitespace).2.scanIgnoreWhitespace).1.lit.data →
      (ParseInt ((q.scanIgnoreWhitespace).2.scanIgnoreWhitespace).1.lit).1 < 1 →
      parseLimit q
        = .error { Message := "LIMIT must be > 0", Found := "", Expected := []
                   Pos := ((q.scanIgnoreWhitespace).2.scanIgnoreWhitespace).1.pos } := by
    intro h hdot hlt
    unfold parseLimit
    simp [hlimit, h, hdot, hlt, messageError]
  refine ⟨fun h => ?_, fun h hdot => ?_, h3, fun h ds hds hne hd hv => ?_, fun e he => ?_⟩
  · unfold parseLimit
    simp [hlimit, h, newParseError, tokstr_eq]
  · unfold parseLimit
    simp [hlimit, h, hdot, messageError]
  · apply h3 h
    · rw [hds]
      intro hmem
      exact absurd (hd _ hmem) (by decide)
    · rw [hds, (ParseInt_digits ds hne hd).1 (lt_trans hv (by norm_num))]
      show (digitsValue ds : Int) < 1
      exact_mod_cast hv
  · exact ⟨fun tr p fields target source condition dimensions sortFields hc =>
        parseSelectStatement_limit_error go tr p q fields target source condition dimensions
          sortFields e hc he,
      fun p fields target source condition dimensions sortFields hsel hc =>
        ParseStatement_select_limit_error go p q fields target source condition dimensions
          sortFields e hsel hc he,
      fun p condition sortFields hc => parseList_limit_error go p q condition sortFields e hc he,
      fun p source condition sortFields hc =>
        parseListFrom_limit_error go p q source condition sortFields e hc he⟩

/-- C20 at `SELECT field1 FROM myseries LIMIT 0`: the error is at the position
of the number. -/
theorem parseLimit_rejects_witness :
    parseLimit { s := { input := [⟨.WS, ⟨0, 33⟩, " "⟩, ⟨.NUMBER, ⟨0, 34⟩, "0"⟩], eof := ⟨0, 35⟩,
                        buf := ⟨.LIMIT, ⟨0, 28⟩, ""⟩, n := true } }
        = .error { Message := "LIMIT must be > 0", Found := "", Expected := [], Pos := ⟨0, 34⟩ }
    ∧ Returns
        (fun n => ParseStatement demoLib n (NewParser (tokens_select_limit "0") ⟨0, 35⟩))
        (.error { Message := "LIMIT must be > 0", Found := "", Expected := [],
                  Pos := ⟨0, 34⟩ }) :=
  ⟨(parseLimit_rejects demoLib
      { s := { input := [⟨.WS, ⟨0, 33⟩, " "⟩, ⟨.NUMBER, ⟨0, 34⟩, "0"⟩], eof := ⟨0, 35⟩,
               buf := ⟨.LIMIT, ⟨0, 28⟩, ""⟩, n := true } } rfl).2.2.1
      rfl (by decide) (by decide),
   ((parseLimit_rejects demoLib
      { s := { input := [⟨.WS, ⟨0, 33⟩, " "⟩, ⟨.NUMBER, ⟨0, 34⟩, "0"⟩], eof := ⟨0, 35⟩,
               buf := ⟨.LIMIT, ⟨0, 28⟩, ""⟩, n := true } } rfl).2.2.2.2 _ rfl).2.1
      (NewParser (tokens_select_limit "0") ⟨0, 35⟩) _ _ _ _ _ _ rfl
      ⟨_, _, _, _, _,
        Returns.of_le (fun n => parseFields_le demoLib n _) (n := 5) rfl (by simp),
        rfl, rfl,
        Returns.of_le (fun n => parseSource_le n _) (n := 5) rfl (by simp),
        Returns.of_le (fun n => parseCondition_le demoLib n _) (n := 5) rfl (by simp),
        Returns.of_le (fun n => parseDimensions_le demoLib n _) (n := 5) rfl (by simp),
        Returns.of_le (fun n => parseOrderBy_le n _) (n := 5) rfl (by simp)⟩⟩

/-! ## Steps of the statement parsers -/

/-- A token that scanIgnoreWhitespace returned and that is pushed back is the
next token scanned, and scanning it leaves the state that followed it. -/
theorem scanIgnoreWhitespace_unscan_scan (p : Parser) :
    ((p.scanIgnoreWhitespace).2.unscan).scan = p.scanIgnoreWhitespace := by
  unfold Parser.scanIgnoreWhitespace
  split
  · exact scan_unscan_scan _
  · exact scan_unscan_scan _

/-- The method parseIdentifier at an IDENT or STRING token. -/
theorem parseIdentifier_ok (p : Parser)
    (h : (p.scanIgnoreWhitespace).1.tok = .IDENT ∨ (p.scanIgnoreWhitespace).1.tok = .STRING) :
    parseIdentifier p = .ok (p.scanIgnoreWhitespace).1.lit (p.scanIgnoreWhitespace).2 := by
  unfold parseIdentifier
  rcases h with h | h <;> simp [h]

/-- The method parseDuration at a DURATION_VAL token that ParseDuration
accepts. -/
theorem parseDuration_ok (p : Parser) (h1 : (p.scanIgnoreWhitespace).1.tok = .DURATION_VAL)
    (h2 : (ParseDuration (p.scanIgnoreWhitespace).1.lit).2 = none) :
    parseDuration p
      = .ok (ParseDuration (p.scanIgnoreWhitespace).1.lit).1 (p.scanIgnoreWhitespace).2 := by
  unfold parseDuration
  have e : ParseDuration (p.scanIgnoreWhitespace).1.lit
      = ((ParseDuration (p.scanIgnoreWhitespace).1.lit).1, none) := by
    rw [← h2]
  simp only [h1, ne_eq, not_true_eq_false, if_false]
  rw [e]

/-- The method parseInt at a NUMBER token without a `.` that Atoi accepts with
a value inside the bounds. -/
theorem parseInt_ok (go : Stdlib) (min max : Int) (p : Parser)
    (h1 : (p.scanIgnoreWhitespace).1.tok = .NUMBER)
    (h2 : '.' ∉ (p.scanIgnoreWhitespace).1.lit.data)
    (h3 : (Atoi (p.scanIgnoreWhitespace).1.lit).2 = none)
    (h4 : min ≤ (Atoi (p.scanIgnoreWhitespace).1.lit).1)
    (h5 : (Atoi (p.scanIgnoreWhitespace).1.lit).1 ≤ max) :
    parseInt go min max p
      = .ok (Atoi (p.scanIgnoreWhitespace).1.lit).1 (p.scanIgnoreWhitespace).2 := by
  unfold parseInt
  have e : Atoi (p.scanIgnoreWhitespace).1.lit
      = ((Atoi (p.scanIgnoreWhitespace).1.lit).1, none) := by
    rw [← h3]
  simp only [h1, ne_eq, not_true_eq_false, if_false, h2]
  rw [e]
  simp only [gt_iff_lt, not_lt.mpr h4, not_lt.mpr h5, or_self, if_false]

/-- Atoi on decimal digits of a value below 2^63. -/
theorem Atoi_digits (ds : List Char) (hne : ds ≠ []) (hd : ∀ c ∈ ds, isDigit c = true)
    (hv : digitsValue ds < 2 ^ 63) : Atoi (String.mk ds) = ((digitsValue ds : Int), none) :=
  (ParseInt_digits ds hne hd).1 hv

/-- Decimal digits hold no `.`. -/
theorem dot_not_mem_digits (ds : List Char) (hd : ∀ c ∈ ds, isDigit c = true) : '.' ∉ ds :=
  fun hmem => absurd (hd _ hmem) (by decide)

/-! ## The LIMIT clause of a statement -/

theorem parseLimit_ne_outOfFuel (q : Parser) : parseLimit q ≠ .outOfFuel := by
  unfold parseLimit
  dsimp only
  split_ifs <;> simp

/-- The LIMIT clause followed by the construction of the statement returns a
result. -/
theorem Returns.parseLimit_bind {α : Type} (q : Parser) (k : Int → α) :
    Returns (fun _ : Nat => (parseLimit q).bind fun limit p => .ok (k limit) p)
      ((parseLimit q).bind fun limit p => .ok (k limit) p) := by
  refine ⟨?_, 0, fun _ _ => rfl⟩
  have := parseLimit_ne_outOfFuel q
  cases h : parseLimit q <;> simp_all [Result.bind]

/-- When the LIMIT clause followed by the construction of the statement gives
a statement, its limit is the one parseLimit returned. -/
theorem parseLimit_of_bind {α : Type} (q r : Parser) (k : Int → α) (lim : α → Int)
    (hk : ∀ n, lim (k n) = n) (stmt : α)
    (h : ((parseLimit q).bind fun limit p => .ok (k limit) p) = .ok stmt r) :
    parseLimit q = .ok (lim stmt) r := by
  cases hq : parseLimit q with
  | ok limit p =>
    rw [hq] at h
    simp only [Result.bind, Result.ok.injEq] at h
    rw [← h.1, hk, h.2]
  | error e => rw [hq] at h; simp [Result.bind] at h
  | outOfFuel => rw [hq] at h; simp [Result.bind] at h

/-- After its other clauses, parseSelectStatement returns what parseLimit
returns, as the Limit of the statement. -/
theorem parseSelectStatement_clauses (go : Stdlib) (tr : targetRequirement) (p q : Parser)
    (fields : List Field) (target : Option Target) (source : Source)
    (condition : Option Expr) (dimensions : List Dimension) (sortFields : List SortField)
    (hc : SelectClauses go tr p fields target source condition dimensions sortFields q) :
    Returns (fun n => parseSelectStatement go n tr p)
      ((parseLimit q).bind fun limit p =>
        .ok { Fields := fields, Target := target, Source := source, Condition := condition,
              Dimensions := dimensions, SortFields := sortFields, Limit := limit } p) := by
  obtain ⟨p1, p2, p3, p4, p5, h1, h2, h3, h4, h5, h6, h7⟩ := hc
  unfold parseSelectStatement
  apply Returns.bind h1
  rw [h2]
  simp only [Result.bind, h3, ne_eq, not_true_eq_false, if_false]
  apply Returns.bind h4
  apply Returns.bind h5
  apply Returns.bind h6
  apply Returns.bind h7
  exact Returns.parseLimit_bind q _

/-- C21: at the state `q` in which a statement parser reaches its LIMIT clause,
a limit that parseLimit returns is 0 exactly when the token at `q` is not LIMIT
and is at least 1 when it is LIMIT; when it is not LIMIT the token is pushed
back: the next scan returns it again.  And the Limit of a statement that the
SELECT parser or one of the six LIST parsers returns is the limit parseLimit
returned at `q`, with the state parseLimit left. -/
theorem Limit_zero_iff_no_clause (go : Stdlib) (q : Parser) :
    (∀ limit r, parseLimit q = .ok limit r →
        (limit = 0 ↔ (q.scanIgnoreWhitespace).1.tok ≠ .LIMIT)
        ∧ ((q.scanIgnoreWhitespace).1.tok = .LIMIT → 1 ≤ limit)
        ∧ ((q.scanIgnoreWhitespace).1.tok ≠ .LIMIT →
            r = (q.scanIgnoreWhitespace).2.unscan ∧ r.scan = q.scanIgnoreWhitespace))
    ∧ (∀ tr p fields target source condition dimensions sortFields stmt r,
        SelectClauses go tr p fields target source condition dimensions sortFields q →
        Returns (fun n => parseSelectStatement go n tr p) (.ok stmt r) →
        parseLimit q = .ok stmt.Limit r)
    ∧ (∀ p condition sortFields, ListClauses go p condition sortFields q →
        (∀ stmt r, Returns (fun n => parseListSeriesStatement go n p) (.ok stmt r) →
          parseLimit q = .ok stmt.Limit r)
        ∧ (∀ stmt r, Returns (fun n => parseListMeasurementsStatement go n p) (.ok stmt r) →
          parseLimit q = .ok stmt.Limit r))
    ∧ (∀ p source condition sortFields, ListFromClauses go p source condition sortFields q →
        (∀ stmt r, Returns (fun n => parseListTagKeysStatement go n p) (.ok stmt r) →
          parseLimit q = .ok stmt.Limit r)
        ∧ (∀ stmt r, Returns (fun n => parseListTagValuesStatement go n p) (.ok stmt r) →
          parseLimit q = .ok stmt.Limit r)
        ∧ (∀ stmt r, Returns (fun n => parseListFieldKeysStatement go n p) (.ok stmt r) →
          parseLimit q = .ok stmt.Limit r)
        ∧ (∀ stmt r, Returns (fun n => parseListFieldValuesStatement go n p) (.ok stmt r) →
          parseLimit q = .ok stmt.Limit r)) := by
  refine ⟨fun limit r h => ?_, ?_, ?_, ?_⟩
  · unfold parseLimit at h
    by_cases hl : (q.scanIgnoreWhitespace).1.tok = .LIMIT
    · simp only [hl, ne_eq, not_true_eq_false, if_false] at h
      split_ifs at h with h1 h2 h3
      simp only [Result.ok.injEq] at h
      have hge : 1 ≤ limit := by rw [← h.1]; exact not_lt.mp h3
      refine ⟨⟨fun h0 => ?_, fun hne => absurd hl hne⟩, fun _ => hge, fun hne => absurd hl hne⟩
      omega
    · simp only [ne_eq, hl, not_false_eq_true, if_true, Result.ok.injEq] at h
      exact ⟨⟨fun _ => hl, fun _ => h.1.symm⟩, fun h' => absurd h' hl,
        fun _ => ⟨h.2.symm, by rw [← h.2]; exact scanIgnoreWhitespace_unscan_scan q⟩⟩
  · intro tr p fields target source condition dimensions sortFields stmt r hc h
    have h' := parseSelectStatement_clauses go tr p q fields target source condition
      dimensions sortFields hc
    exact parseLimit_of_bind q r _ SelectStatement.Limit (fun _ => rfl) stmt
      (Returns.unique h' h)
  · intro p condition sortFields hc
    obtain ⟨p1, h1, h2⟩ := hc
    constructor
    · intro stmt r h
      have h' : Returns (fun n => parseListSeriesStatement go n p)
          ((parseLimit q).bind fun limit p =>
            .ok ({ Condition := condition, SortFields := sortFields,
                   Limit := limit } : ListSeriesStatement) p) := by
        unfold parseListSeriesStatement
        exact Returns.bind h1 (Returns.bind h2 (Returns.parseLimit_bind q _))
      exact parseLimit_of_bind q r _ ListSeriesStatement.Limit (fun _ => rfl) stmt
        (Returns.unique h' h)
    · intro stmt r h
      have h' : Returns (fun n => parseListMeasurementsStatement go n p)
          ((parseLimit q).bind fun limit p =>
            .ok ({ Condition := condition, SortFields := sortFields,
                   Limit := limit } : ListMeasurementsStatement) p) := by
        unfold parseListMeasurementsStatement
        exact Returns.bind h1 (Returns.bind h2 (Returns.parseLimit_bind q _))
      exact parseLimit_of_bind q r _ ListMeasurementsStatement.Limit (fun _ => rfl) stmt
        (Returns.unique h' h)
  · intro p source condition sortFields hc
    obtain ⟨h0, p1, p2, h1, h2, h3⟩ := hc
    refine ⟨?_, ?_, ?_, ?_⟩
    · intro stmt r h
      have h' : Returns (fun n => parseListTagKeysStatement go n p)
          ((parseLimit q).bind fun limit p =>
            .ok ({ Source := source, Condition := condition, SortFields := sortFields,
                   Limit := limit } : ListTagKeysStatement) p) := by
        unfold parseListTagKeysStatement
        simp only [h0, ne_eq, not_true_eq_false, if_false]
        exact Returns.bind h1 (Returns.bind h2 (Returns.bind h3 (Returns.parseLimit_bind q _)))
      exact parseLimit_of_bind q r _ ListTagKeysStatement.Limit (fun _ => rfl) stmt
        (Returns.unique h' h)
    · intro stmt r h
      have h' : Returns (fun n => parseListTagValuesStatement go n p)
          ((parseLimit q).bind fun limit p =>
            .ok ({ Source := source, Condition := condition, SortFields := sortFields,
                   Limit := limit } : ListTagValuesStatement) p) := by
        unfold parseListTagValuesStatement
        simp only [h0, ne_eq, not_true_eq_false, if_false]
        exact Returns.bind h1 (Returns.bind h2 (Returns.bind h3 (Returns.parseLimit_bind q _)))
      exact parseLimit_of_bind q r _ ListTagValuesStatement.Limit (fun _ => rfl) stmt
        (Returns.unique h' h)
    · intro stmt r h
      have h' : Returns (fun n => parseListFieldKeysStatement go n p)
          ((parseLimit q).bind fun limit p =>
            .ok ({ Source := source, Condition := condition, SortFields := sortFields,
                   Limit := limit } : ListFieldKeysStatement) p) := by
        unfold parseListFieldKeysStatement
        simp only [h0, ne_eq, not_true_eq_false, if_false]
        exact Returns.bind h1 (Returns.bind h2 (Returns.bind h3 (Returns.parseLimit_bind q _)))
      exact parseLimit_of_bind q r _ ListFieldKeysStatement.Limit (fun _ => rfl) stmt
        (Returns.unique h' h)
    · intro stmt r h
      have h' : Returns (fun n => parseListFieldValuesStatement go n p)
          ((parseLimit q).bind fun limit p =>
            .ok ({ Source := source, Condition := condition, SortFields := sortFields,
                   Limit := limit } : ListFieldValuesStatement) p) := by
        unfold parseListFieldValuesStatement
        simp only [h0, ne_eq, not_true_eq_false, if_false]
        exact Returns.bind h1 (Returns.bind h2 (Returns.bind h3 (Returns.parseLimit_bind q _)))
      exact parseLimit_of_bind q r _ ListFieldValuesStatement.Limit (fun _ => rfl) stmt
        (Returns.unique h' h)

/-- C21 at the end of `SELECT * FROM myseries`, where the limit 0 tells that no
LIMIT follows, and at `SELECT field1 FROM myseries LIMIT 10`, where the Limit of
the statement is the 10 of parseLimit. -/
theorem Limit_zero_iff_no_clause_witness :
    (({ s := { input := [], eof := ⟨0, 22⟩, buf := ⟨.EOF, ⟨0, 22⟩, ""⟩, n := true } }
        : Parser).scanIgnoreWhitespace).1.tok ≠ .LIMIT
    ∧ parseLimit { s := { input := [⟨.WS, ⟨0, 33⟩, " "⟩, ⟨.NUMBER, ⟨0, 34⟩, "10"⟩],
                          eof := ⟨0, 36⟩, buf := ⟨.LIMIT, ⟨0, 28⟩, ""⟩, n := true } }
        = .ok 10 { s := { input := [], eof := ⟨0, 36⟩, buf := ⟨.NUMBER, ⟨0, 34⟩, "10"⟩,
                          n := false } } :=
  ⟨(((Limit_zero_iff_no_clause demoLib
        { s := { input := [], eof := ⟨0, 22⟩, buf := ⟨.EOF, ⟨0, 22⟩, ""⟩, n := true } }).1
      0 _ rfl).1).mp rfl,
   (Limit_zero_iff_no_clause demoLib
      { s := { input := [⟨.WS, ⟨0, 33⟩, " "⟩, ⟨.NUMBER, ⟨0, 34⟩, "10"⟩], eof := ⟨0, 36⟩,
               buf := ⟨.LIMIT, ⟨0, 28⟩, ""⟩, n := true } }).2.1
      .targetNotRequired ((NewParser (tokens_select_limit "10") ⟨0, 36⟩).scanIgnoreWhitespace).2
      _ _ _ _ _ _
      { Fields := [{ Expr := .VarRef "field1", Alias := "" }], Target := none,
        Source := .measurement { Name := "myseries" }, Condition := none, Dimensions := [],
        SortFields := [], Limit := 10 }
      _
      ⟨_, _, _, _, _,
        Returns.of_le (fun n => parseFields_le demoLib n _) (n := 5) rfl (by simp),
        rfl, rfl,
        Returns.of_le (fun n => parseSource_le n _) (n := 5) rfl (by simp),
        Returns.of_le (fun n => parseCondition_le demoLib n _) (n := 5) rfl (by simp),
        Returns.of_le (fun n => parseDimensions_le demoLib n _) (n := 5) rfl (by simp),
        Returns.of_le (fun n => parseOrderBy_le n _) (n := 5) rfl (by simp)⟩
      (Returns.of_le (fun n => parseSelectStatement_le demoLib n _ _) (n := 5) rfl
        (by simp))⟩

theorem Result.bind_ok {α β : Type} (v : α) (p : Parser) (k : α → Parser → Result β) :
    (Result.ok v p).bind k = k v p := rfl

theorem Result.bind_error {α β : Type} (e : ParseError) (k : α → Parser → Result β) :
    (Result.error e : Result α).bind k = .error e := rfl

theorem Reads_nil (p q : Parser) : Reads p [] q ↔ q = p := Iff.rfl

theorem Reads_cons (p q : Parser) (t : Lexeme) (ts : List Lexeme) :
    Reads p (t :: ts) q
      ↔ (p.scanIgnoreWhitespace).1 = t ∧ Reads (p.scanIgnoreWhitespace).2 ts q := Iff.rfl

/-! ## CREATE RETENTION POLICY -/

/-- What parseCreateRetentionPolicyStatement does after the name of the
database: the rest of the function. -/
theorem ParseStatement_create_retention_policy_prefix (go : Stdlib) (fuel : Nat) (p r : Parser)
    (k1 k2 k3 name k4 db : Lexeme)
    (hkw : [k1, k2, k3, k4].map Lexeme.tok = [.CREATE, .RETENTION, .POLICY, .ON])
    (hname : name.tok = .IDENT ∨ name.tok = .STRING)
    (hdb : db.tok = .IDENT ∨ db.tok = .STRING)
    (hread : Reads p [k1, k2, k3, name, k4, db] r) :
    ParseStatement go fuel p =
      (((if (r.scanIgnoreWhitespace).1.tok ≠ .DURATION then
          .error (newParseError
            (tokstr (r.scanIgnoreWhitespace).1.tok (r.scanIgnoreWhitespace).1.lit)
            ["DURATION"] (r.scanIgnoreWhitespace).1.pos)
        else
        (parseDuration (r.scanIgnoreWhitespace).2).bind fun d p =>
        if (p.scanIgnoreWhitespace).1.tok ≠ .REPLICATION then
          .error (newParseError
            (tokstr (p.scanIgnoreWhitespace).1.tok (p.scanIgnoreWhitespace).1.lit)
            ["REPLICATION"] (p.scanIgnoreWhitespace).1.pos)
        else
        (parseInt go 1 MaxInt32 (p.scanIgnoreWhitespace).2).bind fun n p =>
        if (p.scanIgnoreWhitespace).1.tok = .DEFAULT then
          .ok { Name := name.lit, DB := db.lit, Duration := d, Replication := n,
                Default := true } (p.scanIgnoreWhitespace).2
        else
          .ok { Name := name.lit, DB := db.lit, Duration := d, Replication := n,
                Default := false } (p.scanIgnoreWhitespace).2.unscan) :
        Result CreateRetentionPolicyStatement).map .CreateRetentionPolicy) := by
  simp only [List.map_cons, List.map_nil, List.cons.injEq, and_true] at hkw
  obtain ⟨t1, t2, t3, t4⟩ := hkw
  simp only [Reads_cons, Reads_nil] at hread
  obtain ⟨e1, e2, e3, e4, e5, e6, e7⟩ := hread
  subst e7
  rw [← e1] at t1
  rw [← e2] at t2
  rw [← e3] at t3
  rw [← e4] at hname
  rw [← e5] at t4
  rw [← e6] at hdb
  unfold ParseStatement
  simp only [t1]
  unfold parseCreateStatement
  simp only [t2, t3, reduceCtorEq, if_false, if_true, ne_eq, not_true_eq_false]
  unfold parseCreateRetentionPolicyStatement
  rw [parseIdentifier_ok _ hname, Result.bind_ok]
  simp only [t4, ne_eq, not_true_eq_false, if_false]
  rw [parseIdentifier_ok _ hdb, Result.bind_ok]
  simp only [e4, e6]

/-- C22: after the tokens CREATE RETENTION POLICY name ON db (name and db each
an IDENT or STRING token): when the tokens DURATION d REPLICATION n follow, d a
DURATION_VAL token that ParseDuration accepts and n a NUMBER token of decimal
digits with a value from 1 to 2147483647, ParseStatement returns
CreateRetentionPolicyStatement{Name: name, DB: db, Duration: ParseDuration(d),
Replication: n} with Default false when the next token is not DEFAULT (that
token is pushed back) and Default true when it is DEFAULT.  When the token
after db is not DURATION (REPLICATION, say) ParseStatement fails expecting
[DURATION], and when the token after the duration is not REPLICATION it fails
expecting [REPLICATION]. -/
theorem ParseStatement_create_retention_policy (go : Stdlib) (fuel : Nat) (p r : Parser)
    (k1 k2 k3 name k4 db : Lexeme)
    (hkw : [k1, k2, k3, k4].map Lexeme.tok = [.CREATE, .RETENTION, .POLICY, .ON])
    (hname : name.tok = .IDENT ∨ name.tok = .STRING)
    (hdb : db.tok = .IDENT ∨ db.tok = .STRING)
    (hread : Reads p [k1, k2, k3, name, k4, db] r) :
    (∀ (k5 d k6 n : Lexeme) (ds : List Char) (q : Parser),
        Reads r [k5, d, k6, n] q → k5.tok = .DURATION → d.tok = .DURATION_VAL →
        (ParseDuration d.lit).2 = none → k6.tok = .REPLICATION → n.tok = .NUMBER →
        n.lit = String.mk ds → ds ≠ [] → (∀ c ∈ ds, isDigit c = true) →
        1 ≤ digitsValue ds → digitsValue ds ≤ 2147483647 →
        ((q.scanIgnoreWhitespace).1.tok ≠ .DEFAULT →
          ParseStatement go fuel p
            = .ok (.CreateRetentionPolicy
                { Name := name.lit, DB := db.lit, Duration := (ParseDuration d.lit).1,
                  Replication := digitsValue ds, Default := false })
                (q.scanIgnoreWhitespace).2.unscan)
        ∧ ((q.scanIgnoreWhitespace).1.tok = .DEFAULT →
          ParseStatement go fuel p
            = .ok (.CreateRetentionPolicy
                { Name := name.lit, DB := db.lit, Duration := (ParseDuration d.lit).1,
                  Replication := digitsValue ds, Default := true })
                (q.scanIgnoreWhitespace).2))
    ∧ ((r.scanIgnoreWhitespace).1.tok ≠ .DURATION →
        ParseStatement go fuel p
          = .error { Message := ""
                     Found := if (r.scanIgnoreWhitespace).1.lit = ""
                       then (r.scanIgnoreWhitespace).1.tok.String
                       else (r.scanIgnoreWhitespace).1.lit
                     Expected := ["DURATION"]
                     Pos := (r.scanIgnoreWhitespace).1.pos })
    ∧ (∀ (k5 d : Lexeme) (s : Parser),
        Reads r [k5, d] s → k5.tok = .DURATION → d.tok = .DURATION_VAL →
        (ParseDuration d.lit).2 = none → (s.scanIgnoreWhitespace).1.tok ≠ .REPLICATION →
        ParseStatement go fuel p
          = .error { Message := ""
                     Found := if (s.scanIgnoreWhitespace).1.lit = ""
                       then (s.scanIgnoreWhitespace).1.tok.String
                       else (s.scanIgnoreWhitespace).1.lit
                     Expected := ["REPLICATION"]
                     Pos := (s.scanIgnoreWhitespace).1.pos }) := by
  have hpre := ParseStatement_create_retention_policy_prefix go fuel p r k1 k2 k3 name k4 db
    hkw hname hdb hread
  refine ⟨?_, ?_, ?_⟩
  · intro k5 d k6 n ds q hq t5 td hd t6 tn hds hne hdig h1 h2
    simp only [Reads_cons, Reads_nil] at hq
    obtain ⟨e5, ed, e6, en, eq⟩ := hq
    subst eq
    rw [← e5] at t5
    rw [← ed] at td hd
    rw [← e6] at t6
    rw [← en] at tn hds
    have hv : digitsValue ds < 2 ^ 63 := lt_of_le_of_lt h2 (by norm_num)
    have hA := Atoi_digits ds hne hdig hv
    rw [← hds] at hA
    have hint := parseInt_ok go 1 MaxInt32 _ tn
      (by rw [hds]; exact dot_not_mem_digits ds hdig) (by rw [hA])
      (by rw [hA]; show (1 : Int) ≤ (digitsValue ds : Int); exact_mod_cast h1)
      (by rw [hA]; show (digitsValue ds : Int) ≤ 2147483647; exact_mod_cast h2)
    rw [hA] at hint
    rw [hpre]
    simp only [t5, ne_eq, not_true_eq_false, if_false]
    rw [parseDuration_ok _ td hd, Result.bind_ok]
    simp only [t6, ne_eq, not_true_eq_false, if_false]
    rw [hint, Result.bind_ok, ed]
    constructor
    · intro hdef
      rw [if_neg hdef]
      rfl
    · intro hdef
      rw [if_pos hdef]
      rfl
  · intro hdur
    rw [hpre, if_pos hdur, tokstr_eq]
    rfl
  · intro k5 d s hs t5 td hd hrep
    simp only [Reads_cons, Reads_nil] at hs
    obtain ⟨e5, ed, es⟩ := hs
    subst es
    rw [← e5] at t5
    rw [← ed] at td hd
    rw [hpre]
    simp only [t5, ne_eq, not_true_eq_false, if_false]
    rw [parseDuration_ok _ td hd, Result.bind_ok, if_pos hrep, tokstr_eq]
    rfl

/-- C22 at `CREATE RETENTION POLICY policy1 ON testdb DURATION 1h REPLICATION
2`, and at the same text followed by DEFAULT. -/
theorem ParseStatement_create_retention_policy_witness :
    ParseStatement demoLib 0 (NewParser tokens_create_retention_policy ⟨0, 67⟩)
        = .ok (.CreateRetentionPolicy
            { Name := "policy1", DB := "testdb", Duration := 3600000000000, Replication := 2,
              Default := false })
            { s := { input := [], eof := ⟨0, 67⟩, buf := ⟨.EOF, ⟨0, 67⟩, ""⟩, n := true } }
    ∧ ParseStatement demoLib 0
          (NewParser (tokens_create_retention_policy
            ++ [⟨.WS, ⟨0, 67⟩, " "⟩, ⟨.DEFAULT, ⟨0, 68⟩, ""⟩]) ⟨0, 75⟩)
        = .ok (.CreateRetentionPolicy
            { Name := "policy1", DB := "testdb", Duration := 3600000000000, Replication := 2,
              Default := true })
            { s := { input := [], eof := ⟨0, 75⟩, buf := ⟨.DEFAULT, ⟨0, 68⟩, ""⟩,
                     n := false } } :=
  ⟨((ParseStatement_create_retention_policy demoLib 0
        (NewParser tokens_create_retention_policy ⟨0, 67⟩)
        { s := { input := tokens_create_retention_policy.drop 11, eof := ⟨0, 67⟩,
                 buf := ⟨.IDENT, ⟨0, 35⟩, "testdb"⟩, n := false } }
        ⟨.CREATE, ⟨0, 0⟩, ""⟩ ⟨.RETENTION, ⟨0, 7⟩, ""⟩ ⟨.POLICY, ⟨0, 17⟩, ""⟩
        ⟨.IDENT, ⟨0, 24⟩, "policy1"⟩ ⟨.ON, ⟨0, 32⟩, ""⟩ ⟨.IDENT, ⟨0, 35⟩, "testdb"⟩
        rfl (by decide) (by decide) (by decide)).1
      ⟨.DURATION, ⟨0, 42⟩, ""⟩ ⟨.DURATION_VAL, ⟨0, 51⟩, "1h"⟩ ⟨.REPLICATION, ⟨0, 54⟩, ""⟩
      ⟨.NUMBER, ⟨0, 66⟩, "2"⟩ ['2']
      { s := { input := [], eof := ⟨0, 67⟩, buf := ⟨.NUMBER, ⟨0, 66⟩, "2"⟩, n := false } }
      (by decide) rfl rfl (by decide) rfl rfl rfl (by decide) (by decide) (by decide)
      (by decide)).1 (by decide),
   ((ParseStatement_create_retention_policy demoLib 0
        (NewParser (tokens_create_retention_policy
          ++ [⟨.WS, ⟨0, 67⟩, " "⟩, ⟨.DEFAULT, ⟨0, 68⟩, ""⟩]) ⟨0, 75⟩)
        { s := { input := List.drop 11 (tokens_create_retention_policy
                   ++ ([⟨.WS, ⟨0, 67⟩, " "⟩, ⟨.DEFAULT, ⟨0, 68⟩, ""⟩] : List Lexeme)),
                 eof := ⟨0, 75⟩, buf := ⟨.IDENT, ⟨0, 35⟩, "testdb"⟩, n := false } }
        ⟨.CREATE, ⟨0, 0⟩, ""⟩ ⟨.RETENTION, ⟨0, 7⟩, ""⟩ ⟨.POLICY, ⟨0, 17⟩, ""⟩
        ⟨.IDENT, ⟨0, 24⟩, "policy1"⟩ ⟨.ON, ⟨0, 32⟩, ""⟩ ⟨.IDENT, ⟨0, 35⟩, "testdb"⟩
        rfl (by decide) (by decide) (by decide)).1
      ⟨.DURATION, ⟨0, 42⟩, ""⟩ ⟨.DURATION_VAL, ⟨0, 51⟩, "1h"⟩ ⟨.REPLICATION, ⟨0, 54⟩, ""⟩
      ⟨.NUMBER, ⟨0, 66⟩, "2"⟩ ['2']
      { s := { input := [⟨.WS, ⟨0, 67⟩, " "⟩, ⟨.DEFAULT, ⟨0, 68⟩, ""⟩], eof := ⟨0, 75⟩,
               buf := ⟨.NUMBER, ⟨0, 66⟩, "2"⟩, n := false } }
      (by decide) rfl rfl (by decide) rfl rfl rfl (by decide) (by decide) (by decide)
      (by decide)).2 rfl⟩

/-! ## The replication value -/

/-- The message of parseInt for a value outside 1 to MaxInt32. -/
theorem invalid_value_message (n : Int) :
    "invalid value " ++ toString n ++ ": must be " ++ toString (1 : Int) ++ " <= n <= "
        ++ toString MaxInt32
      = "invalid value " ++ toString n ++ ": must be 1 <= n <= 2147483647" := by
  have h1 : toString (1 : Int) = "1" := by decide
  have h2 : toString MaxInt32 = "2147483647" := by decide
  rw [h1, h2]
  simp only [String.append_assoc]
  rfl

/-- C23 (the claim as stated fails): the NUMBER literal `9223372036854775808`
denotes an integer outside 1 to 2147483647, and parseInt(1, MaxInt32) fails on
it with the text of the error of strconv.Atoi, not with `invalid value n: must
be 1 <= n <= 2147483647`. -/
theorem parseInt_beyond_int64 :
    isBase10Integer "9223372036854775808".data = true
    ∧ digitsValue "9223372036854775808".data = 9223372036854775808
    ∧ parseInt demoLib 1 MaxInt32 (NewParser [⟨.NUMBER, ⟨0, 66⟩, "9223372036854775808"⟩] ⟨0, 85⟩)
        = .error { Message := "strconv.ParseInt: parsing " ++ Quote "9223372036854775808"
                     ++ ": value out of range"
                   Found := "", Expected := [], Pos := ⟨0, 66⟩ }
    ∧ parseInt demoLib 1 MaxInt32 (NewParser [⟨.NUMBER, ⟨0, 66⟩, "9223372036854775808"⟩] ⟨0, 85⟩)
        ≠ .error { Message := "invalid value 9223372036854775808: must be 1 <= n <= 2147483647"
                   Found := "", Expected := [], Pos := ⟨0, 66⟩ } := by
  have h : parseInt demoLib 1 MaxInt32
      (NewParser [⟨.NUMBER, ⟨0, 66⟩, "9223372036854775808"⟩] ⟨0, 85⟩)
        = .error { Message := "strconv.ParseInt: parsing " ++ Quote "9223372036854775808"
                     ++ ": value out of range"
                   Found := "", Expected := [], Pos := ⟨0, 66⟩ } := rfl
  refine ⟨by decide, by decide, h, ?_⟩
  rw [h]
  simp only [ne_eq, Result.error.injEq]
  decide

/-- C23 (amended): with `t` the next token, parseInt(1, MaxInt32) returns n
exactly when `t` is a NUMBER whose literal has no `.`, strconv.Atoi reads n
from it without error and 1 <= n <= 2147483647 (so for decimal digits of such a
value); a literal with a `.` fails with `number must be an integer`; a literal
from which Atoi reads a value n below 1 or above 2147483647 fails with `invalid
value n: must be 1 <= n <= 2147483647`; a literal that Atoi rejects (an integer
that does not fit in 64 bits) fails with the text of Atoi's error; and a token
that is not a NUMBER fails expecting [number].  Every error is at the position
of `t`. -/
theorem parseInt_replication (go : Stdlib) (p : Parser) :
    (∀ n r, parseInt go 1 MaxInt32 p = .ok n r
        ↔ (p.scanIgnoreWhitespace).1.tok = .NUMBER
          ∧ '.' ∉ (p.scanIgnoreWhitespace).1.lit.data
          ∧ Atoi (p.scanIgnoreWhitespace).1.lit = (n, none)
          ∧ 1 ≤ n ∧ n ≤ 2147483647 ∧ r = (p.scanIgnoreWhitespace).2)
    ∧ (∀ ds : List Char, (p.scanIgnoreWhitespace).1.tok = .NUMBER →
        (p.scanIgnoreWhitespace).1.lit = String.mk ds → ds ≠ [] →
        (∀ c ∈ ds, isDigit c = true) → 1 ≤ digitsValue ds → digitsValue ds ≤ 2147483647 →
        parseInt go 1 MaxInt32 p = .ok (digitsValue ds) (p.scanIgnoreWhitespace).2)
    ∧ ((p.scanIgnoreWhitespace).1.tok = .NUMBER → '.' ∈ (p.scanIgnoreWhitespace).1.lit.data →
        parseInt go 1 MaxInt32 p
          = .error { Message := "number must be an integer", Found := "", Expected := []
                     Pos := (p.scanIgnoreWhitespace).1.pos })
    ∧ (∀ n, (p.scanIgnoreWhitespace).1.tok = .NUMBER →
        '.' ∉ (p.scanIgnoreWhitespace).1.lit.data →
        Atoi (p.scanIgnoreWhitespace).1.lit = (n, none) → (n < 1 ∨ 2147483647 < n) →
        parseInt go 1 MaxInt32 p
          = .error { Message := "invalid value " ++ toString n
                       ++ ": must be 1 <= n <= 2147483647"
                     Found := "", Expected := []
                     Pos := (p.scanIgnoreWhitespace).1.pos })
    ∧ ((p.scanIgnoreWhitespace).1.tok = .NUMBER →
        '.' ∉ (p.scanIgnoreWhitespace).1.lit.data →
        (Atoi (p.scanIgnoreWhitespace).1.lit).2 ≠ none →
        parseInt go 1 MaxInt32 p
          = .error { Message := go.AtoiErrorText (p.scanIgnoreWhitespace).1.lit
                     Found := "", Expected := []
                     Pos := (p.scanIgnoreWhitespace).1.pos })
    ∧ ((p.scanIgnoreWhitespace).1.tok ≠ .NUMBER →
        parseInt go 1 MaxInt32 p
          = .error { Message := ""
                     Found := if (p.scanIgnoreWhitespace).1.lit = ""
                       then (p.scanIgnoreWhitespace).1.tok.String
                       else (p.scanIgnoreWhitespace).1.lit
                     Expected := ["number"]
                     Pos := (p.scanIgnoreWhitespace).1.pos }) := by
  have hok : ∀ n, (p.scanIgnoreWhitespace).1.tok = .NUMBER →
      '.' ∉ (p.scanIgnoreWhitespace).1.lit.data →
      Atoi (p.scanIgnoreWhitespace).1.lit = (n, none) → 1 ≤ n → n ≤ 2147483647 →
      parseInt go 1 MaxInt32 p = .ok n (p.scanIgnoreWhitespace).2 := by
    intro n h1 h2 h3 h4 h5
    unfold parseInt
    simp only [h1, ne_eq, not_true_eq_false, if_false, h2]
    rw [h3]
    have h5' : ¬ n > MaxInt32 := not_lt.mpr h5
    simp only [gt_iff_lt, not_lt.mpr h4, h5', or_self, if_false]
  have hbad : ∀ n, (p.scanIgnoreWhitespace).1.tok = .NUMBER →
      '.' ∉ (p.scanIgnoreWhitespace).1.lit.data →
      Atoi (p.scanIgnoreWhitespace).1.lit = (n, none) → (n < 1 ∨ 2147483647 < n) →
      parseInt go 1 MaxInt32 p
        = .error { Message := "invalid value " ++ toString n
                     ++ ": must be 1 <= n <= 2147483647"
                   Found := "", Expected := []
                   Pos := (p.scanIgnoreWhitespace).1.pos } := by
    intro n h1 h2 h3 h4
    unfold parseInt
    simp only [h1, ne_eq, not_true_eq_false, if_false, h2]
    rw [h3]
    have h4' : 1 > n ∨ n > MaxInt32 := h4
    simp only [h4', if_true, messageError, invalid_value_message]
  have hdot : (p.scanIgnoreWhitespace).1.tok = .NUMBER →
      '.' ∈ (p.scanIgnoreWhitespace).1.lit.data →
      parseInt go 1 MaxInt32 p
        = .error { Message := "number must be an integer", Found := "", Expected := []
                   Pos := (p.scanIgnoreWhitespace).1.pos } := by
    intro h1 h2
    unfold parseInt
    simp [h1, h2, messageError]
  have hrej : (p.scanIgnoreWhitespace).1.tok = .NUMBER →
      '.' ∉ (p.scanIgnoreWhitespace).1.lit.data →
      (Atoi (p.scanIgnoreWhitespace).1.lit).2 ≠ none →
      parseInt go 1 MaxInt32 p
        = .error { Message := go.AtoiErrorText (p.scanIgnoreWhitespace).1.lit
                   Found := "", Expected := []
                   Pos := (p.scanIgnoreWhitespace).1.pos } := by
    intro h1 h2 h3
    unfold parseInt
    simp only [h1, ne_eq, not_true_eq_false, if_false, h2]
    rcases hA : Atoi (p.scanIgnoreWhitespace).1.lit with ⟨v, _ | err⟩
    · rw [hA] at h3; exact absurd rfl h3
    · rfl
  have hnot : (p.scanIgnoreWhitespace).1.tok ≠ .NUMBER →
      parseInt go 1 MaxInt32 p
        = .error { Message := ""
                   Found := if (p.scanIgnoreWhitespace).1.lit = ""
                     then (p.scanIgnoreWhitespace).1.tok.String
                     else (p.scanIgnoreWhitespace).1.lit
                   Expected := ["number"]
                   Pos := (p.scanIgnoreWhitespace).1.pos } := by
    intro h1
    unfold parseInt
    simp only [h1, ne_eq, not_false_eq_true, if_true, tokstr_eq]
    rfl
  refine ⟨fun n r => ⟨fun h => ?_, fun h => ?_⟩, ?_, hdot, hbad, hrej, hnot⟩
  · by_cases h1 : (p.scanIgnoreWhitespace).1.tok = .NUMBER
    · by_cases h2 : '.' ∈ (p.scanIgnoreWhitespace).1.lit.data
      · rw [hdot h1 h2] at h; simp at h
      · rcases hA : Atoi (p.scanIgnoreWhitespace).1.lit with ⟨v, _ | err⟩
        · by_cases h4 : v < 1 ∨ 2147483647 < v
          · rw [hbad v h1 h2 hA h4] at h; simp at h
          · rw [not_or, not_lt, not_lt] at h4
            rw [hok v h1 h2 hA h4.1 h4.2] at h
            simp only [Result.ok.injEq] at h
            rw [← h.1, ← h.2]
            exact ⟨h1, h2, rfl, h4.1, h4.2, rfl⟩
        · rw [hrej h1 h2 (by rw [hA]; simp)] at h; simp at h
    · rw [hnot h1] at h; simp at h
  · obtain ⟨h1, h2, h3, h4, h5, rfl⟩ := h
    exact hok n h1 h2 h3 h4 h5
  · intro ds h1 hds hne hdig hlo hhi
    have hA := Atoi_digits ds hne hdig (lt_of_le_of_lt hhi (by norm_num))
    rw [← hds] at hA
    exact hok _ h1 (by rw [hds]; exact dot_not_mem_digits ds hdig) hA
      (by exact_mod_cast hlo) (by exact_mod_cast hhi)

/-- C23 (amended) at the NUMBER literals `2`, which is returned, and `0`, which
is outside the bounds. -/
theorem parseInt_replication_witness :
    parseInt demoLib 1 MaxInt32 (NewParser [⟨.NUMBER, ⟨0, 66⟩, "2"⟩] ⟨0, 67⟩)
        = .ok 2 { s := { input := [], eof := ⟨0, 67⟩, buf := ⟨.NUMBER, ⟨0, 66⟩, "2"⟩,
                         n := false } }
    ∧ parseInt demoLib 1 MaxInt32 (NewParser [⟨.NUMBER, ⟨0, 66⟩, "0"⟩] ⟨0, 67⟩)
        = .error { Message := "invalid value 0: must be 1 <= n <= 2147483647", Found := "",
                   Expected := [], Pos := ⟨0, 66⟩ } :=
  ⟨(parseInt_replication demoLib (NewParser [⟨.NUMBER, ⟨0, 66⟩, "2"⟩] ⟨0, 67⟩)).2.1
      ['2'] rfl rfl (by decide) (by decide) (by decide) (by decide),
   (parseInt_replication demoLib (NewParser [⟨.NUMBER, ⟨0, 66⟩, "0"⟩] ⟨0, 67⟩)).2.2.2.1
      0 rfl (by decide) (by decide) (by decide)⟩

/-! ## ALTER RETENTION POLICY -/

/-- The loop of parseAlterRetentionPolicyStatement over well-formed options:
each option updates the statement, and the loop ends after `k` options or at the
first token that is no option, which is pushed back. -/
theorem parseAlterOptions_options (go : Stdlib) (opts : List AlterOption) :
    ∀ (k i : Nat) (stmt : AlterRetentionPolicyStatement) (p q : Parser),
      opts.length ≤ k → (∀ o ∈ opts, o.valid) →
      Reads p (opts.flatMap AlterOption.tokens) q →
      (opts.length < k → 1 ≤ i + opts.length
        ∧ (q.scanIgnoreWhitespace).1.tok ≠ .DURATION
        ∧ (q.scanIgnoreWhitespace).1.tok ≠ .REPLICATION
        ∧ (q.scanIgnoreWhitespace).1.tok ≠ .DEFAULT) →
      parseAlterOptions go k i stmt p
        = .ok (opts.foldl AlterOption.apply stmt)
            (if opts.length < k then (q.scanIgnoreWhitespace).2.unscan else q) := by
  induction opts with
  | nil =>
    intro k i stmt p q _ _ hread hend
    simp only [List.flatMap_nil, Reads_nil] at hread
    subst hread
    cases k with
    | zero => simp [parseAlterOptions]
    | succ k =>
      obtain ⟨hi, h1, h2, h3⟩ := hend (by simp)
      simp only [List.length_nil, add_zero] at hi
      rw [parseAlterOptions]
      split
      · rename_i heq; exact absurd heq h1
      · rename_i heq; exact absurd heq h2
      · rename_i heq; exact absurd heq h3
      · have : ¬ i < 1 := by omega
        simp [this]
  | cons o opts ih =>
    intro k i stmt p q hlen hvalid hread hend
    cases k with
    | zero => simp at hlen
    | succ k =>
      have hlen' : opts.length ≤ k := by simpa using hlen
      have hvalid' : ∀ o ∈ opts, o.valid := fun o ho => hvalid o (List.mem_cons_of_mem _ ho)
      have hend' : opts.length < k → 1 ≤ (i + 1) + opts.length
          ∧ (q.scanIgnoreWhitespace).1.tok ≠ .DURATION
          ∧ (q.scanIgnoreWhitespace).1.tok ≠ .REPLICATION
          ∧ (q.scanIgnoreWhitespace).1.tok ≠ .DEFAULT := fun h => by
        obtain ⟨_, h1, h2, h3⟩ := hend (by simpa using h)
        exact ⟨by omega, h1, h2, h3⟩
      have hv := hvalid o (List.mem_cons_self _ _)
      have hif : ∀ a b : Parser, (if (o :: opts).length < k + 1 then a else b)
          = if opts.length < k then a else b := by
        intro a b
        simp only [List.length_cons, Nat.add_lt_add_iff_right]
      rw [hif]
      cases o with
      | duration kw d =>
        obtain ⟨t1, t2, t3⟩ := hv
        simp only [List.flatMap_cons, AlterOption.tokens, List.cons_append, List.nil_append,
          Reads_cons] at hread
        obtain ⟨e1, e2, hrest⟩ := hread
        rw [← e1] at t1
        rw [← e2] at t2 t3
        rw [parseAlterOptions]
        simp only [t1]
        rw [parseDuration_ok _ t2 t3, Result.bind_ok,
          ih k (i + 1) _ _ q hlen' hvalid' hrest hend', e2]
        rfl
      | replication kw n =>
        obtain ⟨t1, t2, t3, t4, t5, t6⟩ := hv
        simp only [List.flatMap_cons, AlterOption.tokens, List.cons_append, List.nil_append,
          Reads_cons] at hread
        obtain ⟨e1, e2, hrest⟩ := hread
        rw [← e1] at t1
        rw [← e2] at t2 t3 t4 t5 t6
        rw [parseAlterOptions]
        simp only [t1]
        rw [parseInt_ok go 1 MaxInt32 _ t2 t3 t4 t5 t6, Result.bind_ok,
          ih k (i + 1) _ _ q hlen' hvalid' hrest hend', e2]
        rfl
      | default kw =>
        have t1 : kw.tok = .DEFAULT := hv
        simp only [List.flatMap_cons, AlterOption.tokens, List.cons_append, List.nil_append,
          Reads_cons] at hread
        obtain ⟨e1, hrest⟩ := hread
        rw [← e1] at t1
        rw [parseAlterOptions]
        simp only [t1]
        rw [ih k (i + 1) _ _ q hlen' hvalid' hrest hend']
        rfl

/-- Two options of a set of distinct options may be applied in either order. -/
theorem optionSet_apply_comm (dur rep : Option (Lexeme × Lexeme)) (dflt : Option Lexeme) :
    ∀ x ∈ optionSet dur rep dflt, ∀ y ∈ optionSet dur rep dflt,
      ∀ z, AlterOption.apply (AlterOption.apply z x) y
        = AlterOption.apply (AlterOption.apply z y) x := by
  intro x hx y hy z
  cases dur <;> cases rep <;> cases dflt <;>
    simp only [optionSet, Option.map, Option.toList, List.append_nil, List.nil_append,
      List.cons_append, List.mem_cons, List.mem_singleton, List.not_mem_nil, or_false] at hx hy <;>
    first
      | exact hx.elim
      | (rcases hx with rfl | rfl | rfl <;> rcases hy with rfl | rfl | rfl <;> rfl)

/-- The statement after the options of a set, applied to a statement without
options. -/
theorem foldl_optionSet (name db : String) (dur rep : Option (Lexeme × Lexeme))
    (dflt : Option Lexeme) :
    (optionSet dur rep dflt).foldl AlterOption.apply
        { Name := name, DB := db, Duration := none, Replication := none, Default := false }
      = { Name := name, DB := db
          Duration := dur.map fun x => (ParseDuration x.2.lit).1
          Replication := rep.map fun x => (Atoi x.2.lit).1
          Default := dflt.isSome } := by
  cases dur <;> cases rep <;> cases dflt <;> rfl

theorem optionSet_length (dur rep : Option (Lexeme × Lexeme)) (dflt : Option Lexeme) :
    (optionSet dur rep dflt).length ≤ 3 := by
  cases dur <;> cases rep <;> cases dflt <;> simp [optionSet]

/-- C24: after the tokens ALTER RETENTION POLICY name ON db, let `opts` be any
ordering of a non-empty set of distinct well-formed options (at most one
DURATION d, one REPLICATION n and one DEFAULT), followed, when fewer than three
options are given, by a token that starts no option.  ParseStatement returns
the AlterRetentionPolicyStatement with that name and database in which Duration
is set (to the value of d) exactly when DURATION is in the set, Replication is
set (to n) exactly when REPLICATION is in the set, and Default is true exactly
when DEFAULT is in the set: the statement depends on the set only, not on the
ordering. -/
theorem ParseStatement_alter_retention_policy (go : Stdlib) (fuel : Nat) (p r q : Parser)
    (k1 k2 k3 name k4 db : Lexeme) (opts : List AlterOption)
    (dur rep : Option (Lexeme × Lexeme)) (dflt : Option Lexeme)
    (hkw : [k1, k2, k3, k4].map Lexeme.tok = [.ALTER, .RETENTION, .POLICY, .ON])
    (hname : name.tok = .IDENT ∨ name.tok = .STRING)
    (hdb : db.tok = .IDENT ∨ db.tok = .STRING)
    (hread : Reads p [k1, k2, k3, name, k4, db] r)
    (hset : opts.Perm (optionSet dur rep dflt)) (hne : opts ≠ [])
    (hvalid : ∀ o ∈ opts, o.valid)
    (hopts : Reads r (opts.flatMap AlterOption.tokens) q)
    (hend : opts.length < 3 → (q.scanIgnoreWhitespace).1.tok ≠ .DURATION
      ∧ (q.scanIgnoreWhitespace).1.tok ≠ .REPLICATION
      ∧ (q.scanIgnoreWhitespace).1.tok ≠ .DEFAULT) :
    ParseStatement go fuel p
      = .ok (.AlterRetentionPolicy
          { Name := name.lit, DB := db.lit
            Duration := dur.map fun x => (ParseDuration x.2.lit).1
            Replication := rep.map fun x => (Atoi x.2.lit).1
            Default := dflt.isSome })
          (if opts.length < 3 then (q.scanIgnoreWhitespace).2.unscan else q) := by
  simp only [List.map_cons, List.map_nil, List.cons.injEq, and_true] at hkw
  obtain ⟨t1, t2, t3, t4⟩ := hkw
  simp only [Reads_cons, Reads_nil] at hread
  obtain ⟨e1, e2, e3, e4, e5, e6, e7⟩ := hread
  subst e7
  rw [← e1] at t1
  rw [← e2] at t2
  rw [← e3] at t3
  rw [← e4] at hname
  rw [← e5] at t4
  rw [← e6] at hdb
  have hlen : opts.length ≤ 3 := by
    rw [hset.length_eq]
    exact optionSet_length dur rep dflt
  have hpos : 0 < opts.length := List.length_pos.mpr hne
  have hloop := parseAlterOptions_options go opts 3 0
    { Name := name.lit, DB := db.lit, Duration := none, Replication := none, Default := false }
    _ q hlen hvalid hopts (fun h => ⟨by omega, hend h⟩)
  have hcomm : ∀ x ∈ opts, ∀ y ∈ opts, ∀ z,
      AlterOption.apply (AlterOption.apply z x) y
        = AlterOption.apply (AlterOption.apply z y) x :=
    fun x hx y hy => optionSet_apply_comm dur rep dflt x (hset.mem_iff.mp hx) y
      (hset.mem_iff.mp hy)
  rw [hset.foldl_eq' hcomm, foldl_optionSet] at hloop
  unfold ParseStatement
  simp only [t1]
  unfold parseAlterStatement
  simp only [t2, t3, if_true, ne_eq, not_true_eq_false, if_false]
  unfold parseAlterRetentionPolicyStatement
  rw [parseIdentifier_ok _ hname, Result.bind_ok]
  simp only [t4, ne_eq, not_true_eq_false, if_false]
  rw [parseIdentifier_ok _ hdb, Result.bind_ok, e4, e6, hloop]
  rfl

/-- C24 at `ALTER RETENTION POLICY policy1 ON testdb DURATION 1m REPLICATION 4
DEFAULT` and at the same options in reverse order: the same statement. -/
theorem ParseStatement_alter_retention_policy_witness :
    ParseStatement demoLib 0 (NewParser tokens_alter_retention_policy ⟨0, 74⟩)
        = .ok (.AlterRetentionPolicy
            { Name := "policy1", DB := "testdb", Duration := some 60000000000,
              Replication := some 4, Default := true })
            { s := { input := [], eof := ⟨0, 74⟩, buf := ⟨.DEFAULT, ⟨0, 67⟩, ""⟩,
                     n := false } }
    ∧ ParseStatement demoLib 0 (NewParser tokens_alter_retention_policy_reversed ⟨0, 74⟩)
        = .ok (.AlterRetentionPolicy
            { Name := "policy1", DB := "testdb", Duration := some 60000000000,
              Replication := some 4, Default := true })
            { s := { input := [], eof := ⟨0, 74⟩, buf := ⟨.DURATION_VAL, ⟨0, 72⟩, "1m"⟩,
                     n := false } } :=
  ⟨ParseStatement_alter_retention_policy demoLib 0
      (NewParser tokens_alter_retention_policy ⟨0, 74⟩)
      { s := { input := List.drop 11 tokens_alter_retention_policy, eof := ⟨0, 74⟩,
               buf := ⟨.IDENT, ⟨0, 34⟩, "testdb"⟩, n := false } }
      { s := { input := [], eof := ⟨0, 74⟩, buf := ⟨.DEFAULT, ⟨0, 67⟩, ""⟩, n := false } }
      ⟨.ALTER, ⟨0, 0⟩, ""⟩ ⟨.RETENTION, ⟨0, 6⟩, ""⟩ ⟨.POLICY, ⟨0, 16⟩, ""⟩
      ⟨.IDENT, ⟨0, 23⟩, "policy1"⟩ ⟨.ON, ⟨0, 31⟩, ""⟩ ⟨.IDENT, ⟨0, 34⟩, "testdb"⟩
      [.duration ⟨.DURATION, ⟨0, 41⟩, ""⟩ ⟨.DURATION_VAL, ⟨0, 50⟩, "1m"⟩,
       .replication ⟨.REPLICATION, ⟨0, 53⟩, ""⟩ ⟨.NUMBER, ⟨0, 65⟩, "4"⟩,
       .default ⟨.DEFAULT, ⟨0, 67⟩, ""⟩]
      (some (⟨.DURATION, ⟨0, 41⟩, ""⟩, ⟨.DURATION_VAL, ⟨0, 50⟩, "1m"⟩))
      (some (⟨.REPLICATION, ⟨0, 53⟩, ""⟩, ⟨.NUMBER, ⟨0, 65⟩, "4"⟩))
      (some ⟨.DEFAULT, ⟨0, 67⟩, ""⟩)
      rfl (by decide) (by decide) (by decide) (by decide) (by decide) (by decide) (by decide)
      (by decide),
   ParseStatement_alter_retention_policy demoLib 0
      (NewParser tokens_alter_retention_policy_reversed ⟨0, 74⟩)
      { s := { input := List.drop 11 tokens_alter_retention_policy_reversed, eof := ⟨0, 74⟩,
               buf := ⟨.IDENT, ⟨0, 34⟩, "testdb"⟩, n := false } }
      { s := { input := [], eof := ⟨0, 74⟩, buf := ⟨.DURATION_VAL, ⟨0, 72⟩, "1m"⟩,
               n := false } }
      ⟨.ALTER, ⟨0, 0⟩, ""⟩ ⟨.RETENTION, ⟨0, 6⟩, ""⟩ ⟨.POLICY, ⟨0, 16⟩, ""⟩
      ⟨.IDENT, ⟨0, 23⟩, "policy1"⟩ ⟨.ON, ⟨0, 31⟩, ""⟩ ⟨.IDENT, ⟨0, 34⟩, "testdb"⟩
      [.default ⟨.DEFAULT, ⟨0, 41⟩, ""⟩,
       .replication ⟨.REPLICATION, ⟨0, 49⟩, ""⟩ ⟨.NUMBER, ⟨0, 61⟩, "4"⟩,
       .duration ⟨.DURATION, ⟨0, 63⟩, ""⟩ ⟨.DURATION_VAL, ⟨0, 72⟩, "1m"⟩]
      (some (⟨.DURATION, ⟨0, 63⟩, ""⟩, ⟨.DURATION_VAL, ⟨0, 72⟩, "1m"⟩))
      (some (⟨.REPLICATION, ⟨0, 49⟩, ""⟩, ⟨.NUMBER, ⟨0, 61⟩, "4"⟩))
      (some ⟨.DEFAULT, ⟨0, 41⟩, ""⟩)
      rfl (by decide) (by decide) (by decide) (by decide) (by decide) (by decide) (by decide)
      (by decide)⟩

/-! ## The expected lists of the keyword decision points -/

/-- C25 (the code at failing inputs): `LIST DATABASES`, `DROP DATABASE testdb`,
`DROP USER jdoe` and `ALTER RETENTION POLICY policy1 ON testdb REPLICATION 4`
parse, so DATABASES is accepted after LIST, DATABASE and USER after DROP, and
REPLICATION as an option of ALTER RETENTION POLICY; yet the errors at `LIST
FOO`, `DROP FOO` and `ALTER RETENTION POLICY policy1 ON testdb` expect
[SERIES, CONTINUOUS, MEASUREMENTS, TAG, FIELD], [SERIES, CONTINUOUS] and
[DURATION, RETENTION, DEFAULT], and RETENTION, which the last list names, is
rejected there.  The list at `CREATE FOO` names the four keywords accepted
after CREATE. -/
theorem expected_lists_at_decision_points :
    ParseStatement demoLib 0
        (NewParser [⟨.LIST, ⟨0, 0⟩, ""⟩, ⟨.WS, ⟨0, 4⟩, " "⟩, ⟨.DATABASES, ⟨0, 5⟩, ""⟩] ⟨0, 14⟩)
      = .ok (.ListDatabases {})
          { s := { input := [], eof := ⟨0, 14⟩, buf := ⟨.DATABASES, ⟨0, 5⟩, ""⟩, n := false } }
    ∧ ParseStatement demoLib 0
        (NewParser [⟨.LIST, ⟨0, 0⟩, ""⟩, ⟨.WS, ⟨0, 4⟩, " "⟩, ⟨.IDENT, ⟨0, 5⟩, "FOO"⟩] ⟨0, 8⟩)
      = .error { Message := "", Found := "FOO"
                 Expected := ["SERIES", "CONTINUOUS", "MEASUREMENTS", "TAG", "FIELD"]
                 Pos := ⟨0, 5⟩ }
    ∧ ParseStatement demoLib 0
        (NewParser [⟨.DROP, ⟨0, 0⟩, ""⟩, ⟨.WS, ⟨0, 4⟩, " "⟩, ⟨.DATABASE, ⟨0, 5⟩, ""⟩,
          ⟨.WS, ⟨0, 13⟩, " "⟩, ⟨.IDENT, ⟨0, 14⟩, "testdb"⟩] ⟨0, 20⟩)
      = .ok (.DropDatabase { Name := "testdb" })
          { s := { input := [], eof := ⟨0, 20⟩, buf := ⟨.IDENT, ⟨0, 14⟩, "testdb"⟩,
                   n := false } }
    ∧ ParseStatement demoLib 0
        (NewParser [⟨.DROP, ⟨0, 0⟩, ""⟩, ⟨.WS, ⟨0, 4⟩, " "⟩, ⟨.USER, ⟨0, 5⟩, ""⟩,
          ⟨.WS, ⟨0, 9⟩, " "⟩, ⟨.IDENT, ⟨0, 10⟩, "jdoe"⟩] ⟨0, 14⟩)
      = .ok (.DropUser { Name := "jdoe" })
          { s := { input := [], eof := ⟨0, 14⟩, buf := ⟨.IDENT, ⟨0, 10⟩, "jdoe"⟩,
                   n := false } }
    ∧ ParseStatement demoLib 0
        (NewParser [⟨.DROP, ⟨0, 0⟩, ""⟩, ⟨.WS, ⟨0, 4⟩, " "⟩, ⟨.IDENT, ⟨0, 5⟩, "FOO"⟩] ⟨0, 8⟩)
      = .error { Message := "", Found := "FOO", Expected := ["SERIES", "CONTINUOUS"]
                 Pos := ⟨0, 5⟩ }
    ∧ ParseStatement demoLib 0
        (NewParser (List.take 12 tokens_alter_retention_policy
          ++ [⟨.REPLICATION, ⟨0, 41⟩, ""⟩, ⟨.WS, ⟨0, 52⟩, " "⟩, ⟨.NUMBER, ⟨0, 53⟩, "4"⟩])
          ⟨0, 54⟩)
      = .ok (.AlterRetentionPolicy
            { Name := "policy1", DB := "testdb", Duration := none, Replication := some 4,
              Default := false })
          { s := { input := [], eof := ⟨0, 54⟩, buf := ⟨.EOF, ⟨0, 54⟩, ""⟩, n := true } }
    ∧ ParseStatement demoLib 0 (NewParser (List.take 11 tokens_alter_retention_policy) ⟨0, 40⟩)
      = .error { Message := "", Found := "EOF", Expected := ["DURATION", "RETENTION", "DEFAULT"]
                 Pos := ⟨0, 40⟩ }
    ∧ ParseStatement demoLib 0
        (NewParser (List.take 12 tokens_alter_retention_policy
          ++ [⟨.RETENTION, ⟨0, 41⟩, ""⟩]) ⟨0, 50⟩)
      = .error { Message := "", Found := "RETENTION"
                 Expected := ["DURATION", "RETENTION", "DEFAULT"], Pos := ⟨0, 41⟩ }
    ∧ ParseStatement demoLib 0
        (NewParser [⟨.CREATE, ⟨0, 0⟩, ""⟩, ⟨.WS, ⟨0, 6⟩, " "⟩, ⟨.IDENT, ⟨0, 7⟩, "FOO"⟩] ⟨0, 10⟩)
      = .error { Message := "", Found := "FOO"
                 Expected := ["CONTINUOUS", "DATABASE", "USER", "RETENTION"], Pos := ⟨0, 7⟩ } :=
  ⟨rfl, rfl, rfl, rfl, rfl, rfl, rfl, rfl, rfl⟩

/-! ## GRANT and REVOKE -/

/-- The method parsePrivilege at ALL when PRIVILEGES does not follow: the
token that follows is pushed back. -/
theorem parsePrivilege_all (p : Parser) (h : (p.scanIgnoreWhitespace).1.tok = .ALL)
    (hp : ((p.scanIgnoreWhitespace).2.scanIgnoreWhitespace).1.tok ≠ .PRIVILEGES) :
    parsePrivilege p
      = .ok .AllPrivileges ((p.scanIgnoreWhitespace).2.scanIgnoreWhitespace).2.unscan := by
  unfold parsePrivilege
  simp only [h, hp, ne_eq, not_false_eq_true, if_true]

/-- The method parsePrivilege at ALL PRIVILEGES. -/
theorem parsePrivilege_all_privileges (p : Parser)
    (h : (p.scanIgnoreWhitespace).1.tok = .ALL)
    (hp : ((p.scanIgnoreWhitespace).2.scanIgnoreWhitespace).1.tok = .PRIVILEGES) :
    parsePrivilege p
      = .ok .AllPrivileges ((p.scanIgnoreWhitespace).2.scanIgnoreWhitespace).2 := by
  unfold parsePrivilege
  simp only [h, hp, ne_eq, not_true_eq_false, if_false]

/-- The ON clause looks at the parser only through its first token. -/
theorem parseOnClause_congr (priv : Privilege) (p p' : Parser)
    (h : p.scanIgnoreWhitespace = p'.scanIgnoreWhitespace) :
    parseOnClause priv p = parseOnClause priv p' := by
  unfold parseOnClause
  rw [h]

/-- The ON clause of ALL when the next token is not ON: no name, and that token
is the current one. -/
theorem parseOnClause_all (p : Parser) (h : (p.scanIgnoreWhitespace).1.tok ≠ .ON) :
    parseOnClause .AllPrivileges p
      = .ok ("", (p.scanIgnoreWhitespace).1) (p.scanIgnoreWhitespace).2 := by
  unfold parseOnClause
  simp [h]

/-- The ON clause of READ or WRITE when the next token is not ON. -/
theorem parseOnClause_missing (priv : Privilege) (p : Parser) (hpriv : priv ≠ .AllPrivileges)
    (h : (p.scanIgnoreWhitespace).1.tok ≠ .ON) :
    parseOnClause priv p
      = .error (newParseError
          (tokstr (p.scanIgnoreWhitespace).1.tok (p.scanIgnoreWhitespace).1.lit) ["ON"]
          (p.scanIgnoreWhitespace).1.pos) := by
  unfold parseOnClause
  simp [h, hpriv]

/-- C26: GRANT ALL TO u and GRANT ALL PRIVILEGES TO u (u an IDENT or STRING
token) parse to GrantStatement{Privilege: AllPrivileges, On: empty, User: u};
after GRANT READ or GRANT WRITE a token that is not ON makes ParseStatement fail
with the syntax error expecting [ON], found that token, at that token's
position.  The same holds for REVOKE, with FROM in place of TO and
RevokeStatement in place of GrantStatement. -/
theorem grant_revoke_on_clause (go : Stdlib) (fuel : Nat) (p : Parser) :
    (∀ (g a tk u : Lexeme) (q : Parser), Reads p [g, a, tk, u] q →
        g.tok = .GRANT → a.tok = .ALL → tk.tok = .TO → (u.tok = .IDENT ∨ u.tok = .STRING) →
        ParseStatement go fuel p
          = .ok (.Grant { Privilege := .AllPrivileges, On := "", User := u.lit }) q)
    ∧ (∀ (g a pv tk u : Lexeme) (q : Parser), Reads p [g, a, pv, tk, u] q →
        g.tok = .GRANT → a.tok = .ALL → pv.tok = .PRIVILEGES → tk.tok = .TO →
        (u.tok = .IDENT ∨ u.tok = .STRING) →
        ParseStatement go fuel p
          = .ok (.Grant { Privilege := .AllPrivileges, On := "", User := u.lit }) q)
    ∧ (∀ (g pr x : Lexeme) (q : Parser), Reads p [g, pr, x] q →
        g.tok = .GRANT → (pr.tok = .READ ∨ pr.tok = .WRITE) → x.tok ≠ .ON →
        ParseStatement go fuel p
          = .error { Message := "", Found := if x.lit = "" then x.tok.String else x.lit
                     Expected := ["ON"], Pos := x.pos })
    ∧ (∀ (g a fr u : Lexeme) (q : Parser), Reads p [g, a, fr, u] q →
        g.tok = .REVOKE → a.tok = .ALL → fr.tok = .FROM →
        (u.tok = .IDENT ∨ u.tok = .STRING) →
        ParseStatement go fuel p
          = .ok (.Revoke { Privilege := .AllPrivileges, On := "", User := u.lit }) q)
    ∧ (∀ (g a pv fr u : Lexeme) (q : Parser), Reads p [g, a, pv, fr, u] q →
        g.tok = .REVOKE → a.tok = .ALL → pv.tok = .PRIVILEGES → fr.tok = .FROM →
        (u.tok = .IDENT ∨ u.tok = .STRING) →
        ParseStatement go fuel p
          = .ok (.Revoke { Privilege := .AllPrivileges, On := "", User := u.lit }) q)
    ∧ (∀ (g pr x : Lexeme) (q : Parser), Reads p [g, pr, x] q →
        g.tok = .REVOKE → (pr.tok = .READ ∨ pr.tok = .WRITE) → x.tok ≠ .ON →
        ParseStatement go fuel p
          = .error { Message := "", Found := if x.lit = "" then x.tok.String else x.lit
                     Expected := ["ON"], Pos := x.pos }) := by
  refine ⟨?_, ?_, ?_, ?_, ?_, ?_⟩
  · intro g a tk u q hr tg ta tt tu
    simp only [Reads_cons, Reads_nil] at hr
    obtain ⟨e1, e2, e3, e4, rfl⟩ := hr
    rw [← e1] at tg
    rw [← e2] at ta
    rw [← e3] at tt
    have tu0 := tu
    rw [← e4] at tu
    have hnp : ((p.scanIgnoreWhitespace).2.scanIgnoreWhitespace.2.scanIgnoreWhitespace).1.tok
        ≠ .PRIVILEGES := by rw [tt]; decide
    have hws : ((p.scanIgnoreWhitespace).2.scanIgnoreWhitespace.2.scanIgnoreWhitespace).1.tok
        ≠ .WS := by rw [tt]; decide
    have hon : ((p.scanIgnoreWhitespace).2.scanIgnoreWhitespace.2.scanIgnoreWhitespace).1.tok
        ≠ .ON := by rw [tt]; decide
    unfold ParseStatement
    simp only [tg]
    unfold parseGrantStatement
    rw [parsePrivilege_all _ ta hnp, Result.bind_ok,
      parseOnClause_congr _ _ _ (scanIgnoreWhitespace_unscan _ hws),
      parseOnClause_all _ hon, Result.bind_ok]
    rcases tu0 with tu0 | tu0 <;> simp [tt, tu0, e4, Result.map, Result.bind]
  · intro g a pv tk u q hr tg ta tp tt tu
    simp only [Reads_cons, Reads_nil] at hr
    obtain ⟨e1, e2, e3, e4, e5, rfl⟩ := hr
    rw [← e1] at tg
    rw [← e2] at ta
    rw [← e3] at tp
    rw [← e4] at tt
    have tu0 := tu
    rw [← e5] at tu
    have hon : ((p.scanIgnoreWhitespace).2.scanIgnoreWhitespace.2.scanIgnoreWhitespace.2.scanIgnoreWhitespace).1.tok
        ≠ .ON := by rw [tt]; decide
    unfold ParseStatement
    simp only [tg]
    unfold parseGrantStatement
    rw [parsePrivilege_all_privileges _ ta tp, Result.bind_ok,
      parseOnClause_all _ hon, Result.bind_ok]
    rcases tu0 with tu0 | tu0 <;> simp [tt, tu0, e5, Result.map, Result.bind]
  · intro g pr x q hr tg tpr tx
    simp only [Reads_cons, Reads_nil] at hr
    obtain ⟨e1, e2, e3, rfl⟩ := hr
    rw [← e1] at tg
    rw [← e2] at tpr
    rw [← e3] at tx
    unfold ParseStatement
    simp only [tg]
    unfold parseGrantStatement parsePrivilege
    rcases tpr with tpr | tpr <;>
      simp only [tpr, Result.bind_ok] <;>
      rw [parseOnClause_missing _ _ (by decide) tx, Result.bind_error, tokstr_eq, e3] <;> rfl
  · intro g a tk u q hr tg ta tt tu
    simp only [Reads_cons, Reads_nil] at hr
    obtain ⟨e1, e2, e3, e4, rfl⟩ := hr
    rw [← e1] at tg
    rw [← e2] at ta
    rw [← e3] at tt
    have tu0 := tu
    rw [← e4] at tu
    have hnp : ((p.scanIgnoreWhitespace).2.scanIgnoreWhitespace.2.scanIgnoreWhitespace).1.tok
        ≠ .PRIVILEGES := by rw [tt]; decide
    have hws : ((p.scanIgnoreWhitespace).2.scanIgnoreWhitespace.2.scanIgnoreWhitespace).1.tok
        ≠ .WS := by rw [tt]; decide
    have hon : ((p.scanIgnoreWhitespace).2.scanIgnoreWhitespace.2.scanIgnoreWhitespace).1.tok
        ≠ .ON := by rw [tt]; decide
    unfold ParseStatement
    simp only [tg]
    unfold parseRevokeStatement
    rw [parsePrivilege_all _ ta hnp, Result.bind_ok,
      parseOnClause_congr _ _ _ (scanIgnoreWhitespace_unscan _ hws),
      parseOnClause_all _ hon, Result.bind_ok]
    rcases tu0 with tu0 | tu0 <;> simp [tt, tu0, e4, Result.map, Result.bind]
  · intro g a pv tk u q hr tg ta tp tt tu
    simp only [Reads_cons, Reads_nil] at hr
    obtain ⟨e1, e2, e3, e4, e5, rfl⟩ := hr
    rw [← e1] at tg
    rw [← e2] at ta
    rw [← e3] at tp
    rw [← e4] at tt
    have tu0 := tu
    rw [← e5] at tu
    have hon : ((p.scanIgnoreWhitespace).2.scanIgnoreWhitespace.2.scanIgnoreWhitespace.2.scanIgnoreWhitespace).1.tok
        ≠ .ON := by rw [tt]; decide
    unfold ParseStatement
    simp only [tg]
    unfold parseRevokeStatement
    rw [parsePrivilege_all_privileges _ ta tp, Result.bind_ok,
      parseOnClause_all _ hon, Result.bind_ok]
    rcases tu0 with tu0 | tu0 <;> simp [tt, tu0, e5, Result.map, Result.bind]
  · intro g pr x q hr tg tpr tx
    simp only [Reads_cons, Reads_nil] at hr
    obtain ⟨e1, e2, e3, rfl⟩ := hr
    rw [← e1] at tg
    rw [← e2] at tpr
    rw [← e3] at tx
    unfold ParseStatement
    simp only [tg]
    unfold parseRevokeStatement parsePrivilege
    rcases tpr with tpr | tpr <;>
      simp only [tpr, Result.bind_ok] <;>
      rw [parseOnClause_missing _ _ (by decide) tx, Result.bind_error, tokstr_eq, e3] <;> rfl

/-- C26 at `GRANT ALL PRIVILEGES TO jdoe`, which parses, at `GRANT READ TO
jdoe`, which fails at TO, and at `REVOKE ALL FROM jdoe`, which parses. -/
theorem grant_revoke_on_clause_witness :
    ParseStatement demoLib 0
        (NewParser [⟨.GRANT, ⟨0, 0⟩, ""⟩, ⟨.WS, ⟨0, 5⟩, " "⟩, ⟨.ALL, ⟨0, 6⟩, ""⟩,
          ⟨.WS, ⟨0, 9⟩, " "⟩, ⟨.PRIVILEGES, ⟨0, 10⟩, ""⟩, ⟨.WS, ⟨0, 20⟩, " "⟩,
          ⟨.TO, ⟨0, 21⟩, ""⟩, ⟨.WS, ⟨0, 23⟩, " "⟩, ⟨.IDENT, ⟨0, 24⟩, "jdoe"⟩] ⟨0, 28⟩)
      = .ok (.Grant { Privilege := .AllPrivileges, On := "", User := "jdoe" })
          { s := { input := [], eof := ⟨0, 28⟩, buf := ⟨.IDENT, ⟨0, 24⟩, "jdoe"⟩,
                   n := false } }
    ∧ ParseStatement demoLib 0
        (NewParser [⟨.GRANT, ⟨0, 0⟩, ""⟩, ⟨.WS, ⟨0, 5⟩, " "⟩, ⟨.READ, ⟨0, 6⟩, ""⟩,
          ⟨.WS, ⟨0, 10⟩, " "⟩, ⟨.TO, ⟨0, 11⟩, ""⟩, ⟨.WS, ⟨0, 13⟩, " "⟩,
          ⟨.IDENT, ⟨0, 14⟩, "jdoe"⟩] ⟨0, 18⟩)
      = .error { Message := "", Found := "TO", Expected := ["ON"], Pos := ⟨0, 11⟩ }
    ∧ ParseStatement demoLib 0
        (NewParser [⟨.REVOKE, ⟨0, 0⟩, ""⟩, ⟨.WS, ⟨0, 6⟩, " "⟩, ⟨.ALL, ⟨0, 7⟩, ""⟩,
          ⟨.WS, ⟨0, 10⟩, " "⟩, ⟨.FROM, ⟨0, 11⟩, ""⟩, ⟨.WS, ⟨0, 15⟩, " "⟩,
          ⟨.IDENT, ⟨0, 16⟩, "jdoe"⟩] ⟨0, 20⟩)
      = .ok (.Revoke { Privilege := .AllPrivileges, On := "", User := "jdoe" })
          { s := { input := [], eof := ⟨0, 20⟩, buf := ⟨.IDENT, ⟨0, 16⟩, "jdoe"⟩,
                   n := false } } :=
  ⟨(grant_revoke_on_clause demoLib 0 _).2.1
      ⟨.GRANT, ⟨0, 0⟩, ""⟩ ⟨.ALL, ⟨0, 6⟩, ""⟩ ⟨.PRIVILEGES, ⟨0, 10⟩, ""⟩ ⟨.TO, ⟨0, 21⟩, ""⟩
      ⟨.IDENT, ⟨0, 24⟩, "jdoe"⟩ _ (by decide) rfl rfl rfl rfl (by decide),
   (grant_revoke_on_clause demoLib 0 _).2.2.1
      ⟨.GRANT, ⟨0, 0⟩, ""⟩ ⟨.READ, ⟨0, 6⟩, ""⟩ ⟨.TO, ⟨0, 11⟩, ""⟩
      { s := { input := [⟨.WS, ⟨0, 13⟩, " "⟩, ⟨.IDENT, ⟨0, 14⟩, "jdoe"⟩], eof := ⟨0, 18⟩,
               buf := ⟨.TO, ⟨0, 11⟩, ""⟩, n := false } }
      (by decide) rfl (by decide) (by decide),
   (grant_revoke_on_clause demoLib 0 _).2.2.2.1
      ⟨.REVOKE, ⟨0, 0⟩, ""⟩ ⟨.ALL, ⟨0, 7⟩, ""⟩ ⟨.FROM, ⟨0, 11⟩, ""⟩
      ⟨.IDENT, ⟨0, 16⟩, "jdoe"⟩ _ (by decide) rfl rfl rfl (by decide)⟩

/-! ## Privileges -/

/-- The token scanned next does not depend on the token scanned last, when the
latter has not been pushed back. -/
theorem scanIgnoreWhitespace_buf (input : List Lexeme) (eof : Pos) (b1 b2 : Lexeme) :
    Parser.scanIgnoreWhitespace { s := { input := input, eof := eof, buf := b1, n := false } }
      = Parser.scanIgnoreWhitespace
          { s := { input := input, eof := eof, buf := b2, n := false } } := by
  cases input <;> rfl

/-- The statements of GRANT and REVOKE after ALL PRIVILEGES and after ALL, with
the same tokens to follow. -/
theorem parseGrantStatement_all_privileges (pA pB : Parser)
    (hA1 : (pA.scanIgnoreWhitespace).1.tok = .ALL)
    (hA2 : ((pA.scanIgnoreWhitespace).2.scanIgnoreWhitespace).1.tok = .PRIVILEGES)
    (hB1 : (pB.scanIgnoreWhitespace).1.tok = .ALL)
    (hB2 : ((pB.scanIgnoreWhitespace).2.scanIgnoreWhitespace).1.tok ≠ .PRIVILEGES)
    (hB3 : ((pB.scanIgnoreWhitespace).2.scanIgnoreWhitespace).1.tok ≠ .WS)
    (hcont : ((pA.scanIgnoreWhitespace).2.scanIgnoreWhitespace).2.scanIgnoreWhitespace
      = (pB.scanIgnoreWhitespace).2.scanIgnoreWhitespace) :
    parseGrantStatement pA = parseGrantStatement pB
    ∧ parseRevokeStatement pA = parseRevokeStatement pB := by
  have h : parseOnClause .AllPrivileges ((pA.scanIgnoreWhitespace).2.scanIgnoreWhitespace).2
      = parseOnClause .AllPrivileges
          ((pB.scanIgnoreWhitespace).2.scanIgnoreWhitespace).2.unscan :=
    parseOnClause_congr _ _ _ (by rw [hcont, scanIgnoreWhitespace_unscan _ hB3])
  constructor
  · unfold parseGrantStatement
    rw [parsePrivilege_all_privileges _ hA1 hA2, parsePrivilege_all _ hB1 hB2,
      Result.bind_ok, Result.bind_ok, h]
  · unfold parseRevokeStatement
    rw [parsePrivilege_all_privileges _ hA1 hA2, parsePrivilege_all _ hB1 hB2,
      Result.bind_ok, Result.bind_ok, h]

/-- C27: parsePrivilege returns ReadPrivilege at READ, WritePrivilege at WRITE
and AllPrivileges at ALL, consuming a PRIVILEGES token that follows ALL and
pushing back any other token; at any other first token it fails expecting
[READ, WRITE, ALL [PRIVILEGES]].  And for every continuation `rest` of the token
stream (whose first token is not PRIVILEGES), ParseStatement gives the same
result on GRANT ALL PRIVILEGES rest as on GRANT ALL rest, and likewise for
REVOKE. -/
theorem parsePrivilege_privileges_optional (go : Stdlib) (fuel : Nat) (p : Parser) :
    ((p.scanIgnoreWhitespace).1.tok = .READ →
        parsePrivilege p = .ok .ReadPrivilege (p.scanIgnoreWhitespace).2)
    ∧ ((p.scanIgnoreWhitespace).1.tok = .WRITE →
        parsePrivilege p = .ok .WritePrivilege (p.scanIgnoreWhitespace).2)
    ∧ ((p.scanIgnoreWhitespace).1.tok = .ALL →
        ((p.scanIgnoreWhitespace).2.scanIgnoreWhitespace).1.tok = .PRIVILEGES →
        parsePrivilege p
          = .ok .AllPrivileges ((p.scanIgnoreWhitespace).2.scanIgnoreWhitespace).2)
    ∧ ((p.scanIgnoreWhitespace).1.tok = .ALL →
        ((p.scanIgnoreWhitespace).2.scanIgnoreWhitespace).1.tok ≠ .PRIVILEGES →
        parsePrivilege p
          = .ok .AllPrivileges ((p.scanIgnoreWhitespace).2.scanIgnoreWhitespace).2.unscan)
    ∧ ((p.scanIgnoreWhitespace).1.tok ≠ .READ → (p.scanIgnoreWhitespace).1.tok ≠ .WRITE →
        (p.scanIgnoreWhitespace).1.tok ≠ .ALL →
        parsePrivilege p
          = .error { Message := ""
                     Found := if (p.scanIgnoreWhitespace).1.lit = ""
                       then (p.scanIgnoreWhitespace).1.tok.String
                       else (p.scanIgnoreWhitespace).1.lit
                     Expected := ["READ", "WRITE", "ALL [PRIVILEGES]"]
                     Pos := (p.scanIgnoreWhitespace).1.pos })
    ∧ (∀ (g a pv : Lexeme) (w1 w2 rest : List Lexeme) (eof : Pos),
        (g.tok = .GRANT ∨ g.tok = .REVOKE) → a.tok = .ALL → pv.tok = .PRIVILEGES →
        OptionalWS w1 → OptionalWS w2 →
        ((NewParser rest eof).scanIgnoreWhitespace).1.tok ≠ .PRIVILEGES →
        ((NewParser rest eof).scanIgnoreWhitespace).1.tok ≠ .WS →
        ParseStatement go fuel (NewParser ([g] ++ w1 ++ [a] ++ w2 ++ [pv] ++ rest) eof)
          = ParseStatement go fuel (NewParser ([g] ++ w1 ++ [a] ++ rest) eof)) := by
  refine ⟨fun h => ?_, fun h => ?_, fun h hp => parsePrivilege_all_privileges p h hp,
    fun h hp => parsePrivilege_all p h hp, fun h1 h2 h3 => ?_, ?_⟩
  · unfold parsePrivilege
    simp only [h]
  · unfold parsePrivilege
    simp only [h]
  · unfold parsePrivilege
    dsimp only
    rw [← tokstr_eq]
    split <;> first | rfl | (rename_i heq; simp [heq] at h1 h2 h3)
  · intro g a pv w1 w2 rest eof hg ha hpv hw1 hw2 hr1 hr2
    have hbuf : ∀ b : Lexeme,
        Parser.scanIgnoreWhitespace { s := { input := rest, eof := eof, buf := b, n := false } }
          = (NewParser rest eof).scanIgnoreWhitespace :=
      fun b => scanIgnoreWhitespace_buf rest eof b _
    have key : ∀ (pA pB : Parser),
        (pA.scanIgnoreWhitespace).1.tok = .ALL →
        ((pA.scanIgnoreWhitespace).2.scanIgnoreWhitespace).1.tok = .PRIVILEGES →
        (pB.scanIgnoreWhitespace).1.tok = .ALL →
        ((pA.scanIgnoreWhitespace).2.scanIgnoreWhitespace).2
          = { s := { input := rest, eof := eof, buf := pv, n := false } } →
        (pB.scanIgnoreWhitespace).2
          = { s := { input := rest, eof := eof, buf := a, n := false } } →
        parseGrantStatement pA = parseGrantStatement pB
        ∧ parseRevokeStatement pA = parseRevokeStatement pB := by
      intro pA pB hA1 hA2 hB1 hA hB
      apply parseGrantStatement_all_privileges pA pB hA1 hA2 hB1
      · rw [hB, hbuf]; exact hr1
      · rw [hB, hbuf]; exact hr2
      · rw [hA, hB, hbuf, hbuf]
    rcases hw1 with rfl | ⟨x1, y1, rfl⟩ <;> rcases hw2 with rfl | ⟨x2, y2, rfl⟩ <;>
      rcases hg with hg | hg <;>
      (unfold ParseStatement
       simp only [NewParser, newBufScanner, Parser.scanIgnoreWhitespace, Parser.scan,
         bufScanner.Scan, List.cons_append, List.nil_append, List.singleton_append, hg,
         Bool.false_eq_true, if_false, reduceCtorEq]
       first
         | exact congrArg _ (key _ _
             (by simp [Parser.scanIgnoreWhitespace, Parser.scan, bufScanner.Scan, ha])
             (by simp [Parser.scanIgnoreWhitespace, Parser.scan, bufScanner.Scan, ha, hpv])
             (by simp [Parser.scanIgnoreWhitespace, Parser.scan, bufScanner.Scan, ha])
             (by simp [Parser.scanIgnoreWhitespace, Parser.scan, bufScanner.Scan, ha, hpv])
             (by simp [Parser.scanIgnoreWhitespace, Parser.scan, bufScanner.Scan, ha])).1
         | exact congrArg _ (key _ _
             (by simp [Parser.scanIgnoreWhitespace, Parser.scan, bufScanner.Scan, ha])
             (by simp [Parser.scanIgnoreWhitespace, Parser.scan, bufScanner.Scan, ha, hpv])
             (by simp [Parser.scanIgnoreWhitespace, Parser.scan, bufScanner.Scan, ha])
             (by simp [Parser.scanIgnoreWhitespace, Parser.scan, bufScanner.Scan, ha, hpv])
             (by simp [Parser.scanIgnoreWhitespace, Parser.scan, bufScanner.Scan, ha])).2)

/-- C27 at READ, and at `GRANT ALL PRIVILEGES TO jdoe` against `GRANT ALL TO
jdoe`. -/
theorem parsePrivilege_privileges_optional_witness :
    parsePrivilege (NewParser [⟨.READ, ⟨0, 6⟩, ""⟩] ⟨0, 10⟩)
      = .ok .ReadPrivilege
          { s := { input := [], eof := ⟨0, 10⟩, buf := ⟨.READ, ⟨0, 6⟩, ""⟩, n := false } }
    ∧ ParseStatement demoLib 0
        (NewParser ([⟨.GRANT, ⟨0, 0⟩, ""⟩] ++ [⟨.WS, ⟨0, 5⟩, " "⟩] ++ [⟨.ALL, ⟨0, 6⟩, ""⟩]
          ++ [⟨.WS, ⟨0, 9⟩, " "⟩] ++ [⟨.PRIVILEGES, ⟨0, 10⟩, ""⟩]
          ++ [⟨.WS, ⟨0, 20⟩, " "⟩, ⟨.TO, ⟨0, 21⟩, ""⟩, ⟨.WS, ⟨0, 23⟩, " "⟩,
              ⟨.IDENT, ⟨0, 24⟩, "jdoe"⟩]) ⟨0, 28⟩)
      = ParseStatement demoLib 0
        (NewParser ([⟨.GRANT, ⟨0, 0⟩, ""⟩] ++ [⟨.WS, ⟨0, 5⟩, " "⟩] ++ [⟨.ALL, ⟨0, 6⟩, ""⟩]
          ++ [⟨.WS, ⟨0, 20⟩, " "⟩, ⟨.TO, ⟨0, 21⟩, ""⟩, ⟨.WS, ⟨0, 23⟩, " "⟩,
              ⟨.IDENT, ⟨0, 24⟩, "jdoe"⟩]) ⟨0, 28⟩) :=
  ⟨(parsePrivilege_privileges_optional demoLib 0
      (NewParser [⟨.READ, ⟨0, 6⟩, ""⟩] ⟨0, 10⟩)).1 rfl,
   (parsePrivilege_privileges_optional demoLib 0 (NewParser [] ⟨0, 0⟩)).2.2.2.2.2
      ⟨.GRANT, ⟨0, 0⟩, ""⟩ ⟨.ALL, ⟨0, 6⟩, ""⟩ ⟨.PRIVILEGES, ⟨0, 10⟩, ""⟩
      [⟨.WS, ⟨0, 5⟩, " "⟩] [⟨.WS, ⟨0, 9⟩, " "⟩]
      [⟨.WS, ⟨0, 20⟩, " "⟩, ⟨.TO, ⟨0, 21⟩, ""⟩, ⟨.WS, ⟨0, 23⟩, " "⟩,
       ⟨.IDENT, ⟨0, 24⟩, "jdoe"⟩] ⟨0, 28⟩
      (Or.inl rfl) rfl rfl (Or.inr ⟨_, _, rfl⟩) (Or.inr ⟨_, _, rfl⟩) (by decide) (by decide)⟩

/-! ## The FROM clause -/

/-- Equality with `join` or `merge` up to letter case is what the comparison of
the lower-cased name tests. -/
theorem equalFold_iff_ToLower (s t : String) (ht : t.data.map Char.toLower = t.data) :
    equalFold s t = true ↔ ToLower s = t := by
  unfold equalFold ToLower
  rw [ht, beq_iff_eq]
  constructor
  · intro h; rw [h]
  · intro h; rw [← h]

/-- The measurement loop of parseSource over a list of names. -/
theorem parseSourceMeasurements_names (p q : Parser) (names : List String)
    (h : MeasurementNames p names q) (acc : List Measurement) :
    Returns (fun n => parseSourceMeasurements n acc p)
      (.ok (acc ++ names.map fun s => { Name := s }) q) := by
  induction h generalizing acc with
  | last p hid hnc =>
    apply Returns.of_le (fun n => parseSourceMeasurements_le n acc p) (n := 1) _ (by simp)
    rw [parseSourceMeasurements]
    rcases hid with hid | hid <;> simp [hid, hnc]
  | more p q names hid hc _ ih =>
    obtain ⟨_, n, hn⟩ := ih (acc ++ [{ Name := (p.scanIgnoreWhitespace).1.lit }])
    apply Returns.of_le (fun n => parseSourceMeasurements_le n acc p) (n := n + 1) _ (by simp)
    have hn' := hn n le_rfl
    rw [parseSourceMeasurements]
    rcases hid with hid | hid <;> simp [hid, hc, hn']

/-- C28: with `t` the first token (whitespace ignored) and `next` the raw token
after it, parseSource returns Measurement{Name: t.lit} when `t` is a STRING, or
an IDENT and `next` is not LPAREN, and `next` is pushed back; when `t` is an
IDENT, `next` is LPAREN and the name equals `join` (or `merge`) up to letter
case, it returns Join (or Merge) holding the measurement names listed up to the
RPAREN, in source order; when `t` is an IDENT, `next` is LPAREN and the name is
neither, it fails with the message `unknown merge type: ` followed by the
lower-cased name; and when `t` is neither IDENT nor STRING it fails expecting
[identifier, string]. -/
theorem parseSource_classifies (p : Parser) :
    (((p.scanIgnoreWhitespace).1.tok = .STRING
        ∨ ((p.scanIgnoreWhitespace).1.tok = .IDENT
          ∧ ((p.scanIgnoreWhitespace).2.scan).1.tok ≠ .LPAREN)) →
      (∀ n, parseSource n p
        = .ok (.measurement { Name := (p.scanIgnoreWhitespace).1.lit })
            ((p.scanIgnoreWhitespace).2.scan).2.unscan)
      ∧ (((p.scanIgnoreWhitespace).2.scan).2.unscan).scan = (p.scanIgnoreWhitespace).2.scan)
    ∧ ((p.scanIgnoreWhitespace).1.tok = .IDENT →
        ((p.scanIgnoreWhitespace).2.scan).1.tok = .LPAREN →
        equalFold (p.scanIgnoreWhitespace).1.lit "join" = true →
        ∀ names q, MeasurementNames ((p.scanIgnoreWhitespace).2.scan).2 names q →
          (q.scanIgnoreWhitespace).1.tok = .RPAREN →
          Returns (fun n => parseSource n p)
            (.ok (.join { Measurements := names.map fun s => { Name := s } })
              (q.scanIgnoreWhitespace).2))
    ∧ ((p.scanIgnoreWhitespace).1.tok = .IDENT →
        ((p.scanIgnoreWhitespace).2.scan).1.tok = .LPAREN →
        equalFold (p.scanIgnoreWhitespace).1.lit "merge" = true →
        ∀ names q, MeasurementNames ((p.scanIgnoreWhitespace).2.scan).2 names q →
          (q.scanIgnoreWhitespace).1.tok = .RPAREN →
          Returns (fun n => parseSource n p)
            (.ok (.merge { Measurements := names.map fun s => { Name := s } })
              (q.scanIgnoreWhitespace).2))
    ∧ ((p.scanIgnoreWhitespace).1.tok = .IDENT →
        ((p.scanIgnoreWhitespace).2.scan).1.tok = .LPAREN →
        equalFold (p.scanIgnoreWhitespace).1.lit "join" = false →
        equalFold (p.scanIgnoreWhitespace).1.lit "merge" = false →
        ∀ n, parseSource n p
          = .error { Message := "unknown merge type: " ++ ToLower (p.scanIgnoreWhitespace).1.lit
                     Found := "", Expected := []
                     Pos := (p.scanIgnoreWhitespace).1.pos })
    ∧ ((p.scanIgnoreWhitespace).1.tok ≠ .IDENT → (p.scanIgnoreWhitespace).1.tok ≠ .STRING →
        ∀ n, parseSource n p
          = .error { Message := ""
                     Found := if (p.scanIgnoreWhitespace).1.lit = ""
                       then (p.scanIgnoreWhitespace).1.tok.String
                       else (p.scanIgnoreWhitespace).1.lit
                     Expected := ["identifier", "string"]
                     Pos := (p.scanIgnoreWhitespace).1.pos }) := by
  have hj : ∀ s, equalFold s "join" = true ↔ ToLower s = "join" :=
    fun s => equalFold_iff_ToLower s "join" (by decide)
  have hm : ∀ s, equalFold s "merge" = true ↔ ToLower s = "merge" :=
    fun s => equalFold_iff_ToLower s "merge" (by decide)
  refine ⟨fun h => ⟨fun n => ?_, scan_unscan_scan _⟩, ?_, ?_, ?_, ?_⟩
  · unfold parseSource
    rcases h with h | ⟨h, h2⟩
    · simp [h]
    · simp [h, h2]
  · intro hid hlp hjoin names q hnames hrp
    rw [hj] at hjoin
    obtain ⟨_, n, hn⟩ := parseSourceMeasurements_names _ q names hnames []
    apply Returns.of_le (fun n => parseSource_le n p) (n := n) _ (by simp)
    have hn' := hn n le_rfl
    unfold parseSource
    simp [hid, hlp, hjoin, hn', Result.bind, hrp]
  · intro hid hlp hmerge names q hnames hrp
    rw [hm] at hmerge
    obtain ⟨_, n, hn⟩ := parseSourceMeasurements_names _ q names hnames []
    apply Returns.of_le (fun n => parseSource_le n p) (n := n) _ (by simp)
    have hn' := hn n le_rfl
    unfold parseSource
    simp [hid, hlp, hmerge, hn', Result.bind, hrp]
  · intro hid hlp hjoin hmerge n
    have hj' : ToLower (p.scanIgnoreWhitespace).1.lit ≠ "join" := by
      intro h; rw [(hj _).mpr h] at hjoin; simp at hjoin
    have hm' : ToLower (p.scanIgnoreWhitespace).1.lit ≠ "merge" := by
      intro h; rw [(hm _).mpr h] at hmerge; simp at hmerge
    unfold parseSource
    simp [hid, hlp, hj', hm', messageError]
  · intro h1 h2 n
    unfold parseSource
    simp [h1, h2, newParseError, tokstr_eq]

/-- C28 at `myseries`, a measurement, and at `join(aa,"bb", cc)`, a Join of the
three measurements in source order. -/
theorem parseSource_classifies_witness :
    parseSource 0 (NewParser [⟨.IDENT, ⟨0, 19⟩, "myseries"⟩] ⟨0, 27⟩)
      = .ok (.measurement { Name := "myseries" })
          { s := { input := [], eof := ⟨0, 27⟩, buf := ⟨.EOF, ⟨0, 27⟩, ""⟩, n := true } }
    ∧ Returns (fun n => parseSource n (NewParser tokens_join ⟨0, 36⟩))
        (.ok (.join { Measurements := [{ Name := "aa" }, { Name := "bb" }, { Name := "cc" }] })
          { s := { input := [], eof := ⟨0, 36⟩, buf := ⟨.RPAREN, ⟨0, 35⟩, ""⟩, n := false } }) :=
  ⟨((parseSource_classifies (NewParser [⟨.IDENT, ⟨0, 19⟩, "myseries"⟩] ⟨0, 27⟩)).1
      (Or.inr ⟨rfl, by decide⟩)).1 0,
   (parseSource_classifies (NewParser tokens_join ⟨0, 36⟩)).2.1 rfl rfl (by decide)
      ["aa", "bb", "cc"]
      { s := { input := [], eof := ⟨0, 36⟩, buf := ⟨.RPAREN, ⟨0, 35⟩, ""⟩, n := true } }
      (.more { s := { input := List.drop 2 tokens_join, eof := ⟨0, 36⟩,
                      buf := ⟨.LPAREN, ⟨0, 23⟩, ""⟩, n := false } } _ _ (Or.inl rfl) rfl
        (.more { s := { input := List.drop 4 tokens_join, eof := ⟨0, 36⟩,
                        buf := ⟨.COMMA, ⟨0, 26⟩, ""⟩, n := false } } _ _ (Or.inr rfl) rfl
          (.last { s := { input := List.drop 6 tokens_join, eof := ⟨0, 36⟩,
                          buf := ⟨.COMMA, ⟨0, 31⟩, ""⟩, n := false } }
            (Or.inl rfl) (by decide))))
      rfl⟩

/-! ## The INTO clause -/

/-- What parseTarget does after INTO and the first identifier. -/
theorem parseTarget_into (tr : targetRequirement) (p : Parser)
    (h1 : (p.scanIgnoreWhitespace).1.tok = .INTO)
    (h2 : ((p.scanIgnoreWhitespace).2.scanIgnoreWhitespace).1.tok = .IDENT
      ∨ ((p.scanIgnoreWhitespace).2.scanIgnoreWhitespace).1.tok = .STRING) :
    parseTarget tr p
      = ((if (((p.scanIgnoreWhitespace).2.scanIgnoreWhitespace).2.scanIgnoreWhitespace).1.tok
              = .DOT then
            (parseIdentifier
              (((p.scanIgnoreWhitespace).2.scanIgnoreWhitespace).2.scanIgnoreWhitespace).2).bind
              fun measurement r =>
                .ok (((p.scanIgnoreWhitespace).2.scanIgnoreWhitespace).1.lit, measurement) r
          else
            (.ok ("", ((p.scanIgnoreWhitespace).2.scanIgnoreWhitespace).1.lit)
              (((p.scanIgnoreWhitespace).2.scanIgnoreWhitespace).2.scanIgnoreWhitespace).2.unscan
              : Result (String × String))).bind fun names r =>
          if (r.scanIgnoreWhitespace).1.tok ≠ .ON then
            .ok (some { RetentionPolicy := names.1, Measurement := names.2, DB := "" })
              (r.scanIgnoreWhitespace).2.unscan
          else
            (parseIdentifier (r.scanIgnoreWhitespace).2).bind fun db r =>
            .ok (some { RetentionPolicy := names.1, Measurement := names.2, DB := db }) r) := by
  unfold parseTarget
  simp only [h1, ne_eq, not_true_eq_false, if_false]
  rw [parseIdentifier_ok _ h2, Result.bind_ok]

/-- C29: parseTarget at a token that is not INTO fails with the syntax error
expecting [INTO] when the target is required and returns no target, the token
pushed back, when it is not required.  After INTO, `a . b` yields
Target{RetentionPolicy: a, Measurement: b} and a lone identifier `a` yields
Target{Measurement: a} with an empty RetentionPolicy; DB is empty, the next
token pushed back, when that token is not ON, and `ON db` after the names sets
DB to db. -/
theorem parseTarget_cases (p : Parser) :
    ((p.scanIgnoreWhitespace).1.tok ≠ .INTO →
        parseTarget .targetRequired p
          = .error { Message := ""
                     Found := if (p.scanIgnoreWhitespace).1.lit = ""
                       then (p.scanIgnoreWhitespace).1.tok.String
                       else (p.scanIgnoreWhitespace).1.lit
                     Expected := ["INTO"]
                     Pos := (p.scanIgnoreWhitespace).1.pos })
    ∧ ((p.scanIgnoreWhitespace).1.tok ≠ .INTO →
        parseTarget .targetNotRequired p = .ok none (p.scanIgnoreWhitespace).2.unscan
        ∧ ((p.scanIgnoreWhitespace).2.unscan).scan = p.scanIgnoreWhitespace)
    ∧ (∀ (tr : targetRequirement) (i a dot b : Lexeme) (q : Parser),
        Reads p [i, a, dot, b] q → i.tok = .INTO → (a.tok = .IDENT ∨ a.tok = .STRING) →
        dot.tok = .DOT → (b.tok = .IDENT ∨ b.tok = .STRING) →
        (q.scanIgnoreWhitespace).1.tok ≠ .ON →
        parseTarget tr p
          = .ok (some { RetentionPolicy := a.lit, Measurement := b.lit, DB := "" })
              (q.scanIgnoreWhitespace).2.unscan)
    ∧ (∀ (tr : targetRequirement) (i a : Lexeme) (q : Parser),
        Reads p [i, a] q → i.tok = .INTO → (a.tok = .IDENT ∨ a.tok = .STRING) →
        (q.scanIgnoreWhitespace).1.tok ≠ .DOT → (q.scanIgnoreWhitespace).1.tok ≠ .ON →
        (q.scanIgnoreWhitespace).1.tok ≠ .WS →
        parseTarget tr p
          = .ok (some { RetentionPolicy := "", Measurement := a.lit, DB := "" })
              (q.scanIgnoreWhitespace).2.unscan)
    ∧ (∀ (tr : targetRequirement) (i a dot b o db : Lexeme) (q : Parser),
        Reads p [i, a, dot, b, o, db] q → i.tok = .INTO → (a.tok = .IDENT ∨ a.tok = .STRING) →
        dot.tok = .DOT → (b.tok = .IDENT ∨ b.tok = .STRING) → o.tok = .ON →
        (db.tok = .IDENT ∨ db.tok = .STRING) →
        parseTarget tr p
          = .ok (some { RetentionPolicy := a.lit, Measurement := b.lit, DB := db.lit }) q)
    ∧ (∀ (tr : targetRequirement) (i a o db : Lexeme) (q : Parser),
        Reads p [i, a, o, db] q → i.tok = .INTO → (a.tok = .IDENT ∨ a.tok = .STRING) →
        o.tok = .ON → (db.tok = .IDENT ∨ db.tok = .STRING) →
        parseTarget tr p
          = .ok (some { RetentionPolicy := "", Measurement := a.lit, DB := db.lit }) q) := by
  refine ⟨fun h => ?_, fun h => ⟨?_, scanIgnoreWhitespace_unscan_scan p⟩, ?_, ?_, ?_, ?_⟩
  · unfold parseTarget
    simp [h, newParseError, tokstr_eq]
  · unfold parseTarget
    simp [h]
  · intro tr i a dot b q hr ti ta td tb hon
    simp only [Reads_cons, Reads_nil] at hr
    obtain ⟨e1, e2, e3, e4, rfl⟩ := hr
    rw [← e1] at ti
    rw [← e2] at ta
    rw [← e3] at td
    rw [← e4] at tb
    rw [parseTarget_into tr p ti ta, if_pos td, parseIdentifier_ok _ tb, Result.bind_ok,
      Result.bind_ok]
    simp only [hon, ne_eq, not_false_eq_true, if_true, e2, e4]
  · intro tr i a q hr ti ta hd hon hws
    simp only [Reads_cons, Reads_nil] at hr
    obtain ⟨e1, e2, rfl⟩ := hr
    rw [← e1] at ti
    rw [← e2] at ta
    rw [parseTarget_into tr p ti ta, if_neg hd, Result.bind_ok]
    simp only [scanIgnoreWhitespace_unscan _ hws, hon, ne_eq, not_false_eq_true, if_true, e2]
  · intro tr i a dot b o db q hr ti ta td tb to' tdb
    simp only [Reads_cons, Reads_nil] at hr
    obtain ⟨e1, e2, e3, e4, e5, e6, rfl⟩ := hr
    rw [← e1] at ti
    rw [← e2] at ta
    rw [← e3] at td
    rw [← e4] at tb
    rw [← e5] at to'
    rw [← e6] at tdb
    rw [parseTarget_into tr p ti ta, if_pos td, parseIdentifier_ok _ tb, Result.bind_ok,
      Result.bind_ok]
    simp only [to', ne_eq, not_true_eq_false, if_false]
    rw [parseIdentifier_ok _ tdb, Result.bind_ok, e2, e4, e6]
  · intro tr i a o db q hr ti ta to' tdb
    simp only [Reads_cons, Reads_nil] at hr
    obtain ⟨e1, e2, e3, e4, rfl⟩ := hr
    rw [← e1] at ti
    rw [← e2] at ta
    rw [← e3] at to'
    rw [← e4] at tdb
    have hd : (((p.scanIgnoreWhitespace).2.scanIgnoreWhitespace).2.scanIgnoreWhitespace).1.tok
        ≠ .DOT := by rw [to']; decide
    have hws : (((p.scanIgnoreWhitespace).2.scanIgnoreWhitespace).2.scanIgnoreWhitespace).1.tok
        ≠ .WS := by rw [to']; decide
    rw [parseTarget_into tr p ti ta, if_neg hd, Result.bind_ok]
    simp only [scanIgnoreWhitespace_unscan _ hws, to', ne_eq, not_true_eq_false, if_false]
    rw [parseIdentifier_ok _ tdb, Result.bind_ok, e2, e4]

/-- C29 at `FROM` where INTO is required, and at `INTO "1h.policy1"."cpu.load"
FROM`. -/
theorem parseTarget_cases_witness :
    parseTarget .targetRequired (NewParser [⟨.FROM, ⟨0, 15⟩, ""⟩] ⟨0, 19⟩)
      = .error { Message := "", Found := "FROM", Expected := ["INTO"], Pos := ⟨0, 15⟩ }
    ∧ parseTarget .targetRequired
        (NewParser [⟨.INTO, ⟨0, 15⟩, ""⟩, ⟨.WS, ⟨0, 19⟩, " "⟩, ⟨.STRING, ⟨0, 20⟩, "1h.policy1"⟩,
          ⟨.DOT, ⟨0, 32⟩, ""⟩, ⟨.STRING, ⟨0, 33⟩, "cpu.load"⟩, ⟨.WS, ⟨0, 43⟩, " "⟩,
          ⟨.FROM, ⟨0, 44⟩, ""⟩] ⟨0, 48⟩)
      = .ok (some { RetentionPolicy := "1h.policy1", Measurement := "cpu.load", DB := "" })
          { s := { input := [], eof := ⟨0, 48⟩, buf := ⟨.FROM, ⟨0, 44⟩, ""⟩, n := true } } :=
  ⟨(parseTarget_cases (NewParser [⟨.FROM, ⟨0, 15⟩, ""⟩] ⟨0, 19⟩)).1 (by decide),
   (parseTarget_cases _).2.2.1 .targetRequired
      ⟨.INTO, ⟨0, 15⟩, ""⟩ ⟨.STRING, ⟨0, 20⟩, "1h.policy1"⟩ ⟨.DOT, ⟨0, 32⟩, ""⟩
      ⟨.STRING, ⟨0, 33⟩, "cpu.load"⟩
      { s := { input := [⟨.WS, ⟨0, 43⟩, " "⟩, ⟨.FROM, ⟨0, 44⟩, ""⟩], eof := ⟨0, 48⟩,
               buf := ⟨.STRING, ⟨0, 33⟩, "cpu.load"⟩, n := false } }
      (by decide) rfl (Or.inr rfl) rfl (Or.inr rfl) (by decide)⟩

/-! ## ORDER BY -/

/-- C30 (the claim as stated fails): parsing `ORDER BY field1` yields
SortField{Name: field1, Ascending: false}, not Ascending: true. -/
theorem parseOrderBy_bare_identifier_not_ascending :
    parseOrderBy 1 (NewParser tokens_order_by_field1 ⟨0, 43⟩)
      = .ok [{ Name := "field1", Ascending := false }]
          { s := { input := [], eof := ⟨0, 43⟩, buf := ⟨.EOF, ⟨0, 43⟩, ""⟩, n := true } }
    ∧ parseOrderBy 1 (NewParser tokens_order_by_field1 ⟨0, 43⟩)
      ≠ .ok [{ Name := "field1", Ascending := true }]
          { s := { input := [], eof := ⟨0, 43⟩, buf := ⟨.EOF, ⟨0, 43⟩, ""⟩, n := true } } := by
  have h : parseOrderBy 1 (NewParser tokens_order_by_field1 ⟨0, 43⟩)
      = .ok [{ Name := "field1", Ascending := false }]
          { s := { input := [], eof := ⟨0, 43⟩, buf := ⟨.EOF, ⟨0, 43⟩, ""⟩, n := true } } := rfl
  refine ⟨h, ?_⟩
  rw [h]
  simp

/-- C30 (amended): after the tokens ORDER BY x (x an IDENT or STRING token),
with `y` the token that follows: when `y` is neither ASC nor DESC (nor a comma),
parseOrderBy returns the single SortField{Name: x, Ascending: false} and `y` is
pushed back; when `y` is ASC (and no comma follows) it returns SortField{Name:
x, Ascending: true}; and when `y` is DESC it returns SortField{Name: x,
Ascending: false}. -/
theorem parseOrderBy_identifier (p q : Parser) (o b x : Lexeme)
    (hread : Reads p [o, b, x] q) (ho : o.tok = .ORDER) (hb : b.tok = .BY)
    (hx : x.tok = .IDENT ∨ x.tok = .STRING) :
    ((q.scanIgnoreWhitespace).1.tok ≠ .ASC → (q.scanIgnoreWhitespace).1.tok ≠ .DESC →
        (q.scanIgnoreWhitespace).1.tok ≠ .COMMA → (q.scanIgnoreWhitespace).1.tok ≠ .WS →
        Returns (fun n => parseOrderBy n p)
          (.ok [{ Name := x.lit, Ascending := false }] (q.scanIgnoreWhitespace).2.unscan))
    ∧ ((q.scanIgnoreWhitespace).1.tok = .ASC →
        ((q.scanIgnoreWhitespace).2.scanIgnoreWhitespace).1.tok ≠ .COMMA →
        Returns (fun n => parseOrderBy n p)
          (.ok [{ Name := x.lit, Ascending := true }]
            ((q.scanIgnoreWhitespace).2.scanIgnoreWhitespace).2.unscan))
    ∧ ((q.scanIgnoreWhitespace).1.tok = .DESC →
        ((q.scanIgnoreWhitespace).2.scanIgnoreWhitespace).1.tok ≠ .COMMA →
        Returns (fun n => parseOrderBy n p)
          (.ok [{ Name := x.lit, Ascending := false }]
            ((q.scanIgnoreWhitespace).2.scanIgnoreWhitespace).2.unscan)) := by
  simp only [Reads_cons, Reads_nil] at hread
  obtain ⟨e1, e2, e3, rfl⟩ := hread
  rw [← e1] at ho
  rw [← e2] at hb
  have hx0 := hx
  rw [← e3] at hx
  have hpre : ∀ n, parseOrderBy n p
      = (parseSortField ((p.scanIgnoreWhitespace).2.scanIgnoreWhitespace).2).bind
          fun field r => parseSortFieldsLoop n [field] r := by
    intro n
    unfold parseOrderBy parseSortFields
    simp only [ho, hb, ne_eq, not_true_eq_false, if_false]
  refine ⟨fun h1 h2 h3 h4 => ?_, fun h1 h2 => ?_, fun h1 h2 => ?_⟩
  · apply Returns.of_le (fun n => parseOrderBy_le n p) (n := 1) _ (by simp)
    rw [hpre]
    unfold parseSortField
    simp only [hx, h1, h2, ne_eq, not_false_eq_true, and_self, if_true, Result.bind_ok]
    rw [parseSortFieldsLoop]
    simp only [scanIgnoreWhitespace_unscan _ h4, h3, ne_eq, not_false_eq_true, if_true, e3]
  · apply Returns.of_le (fun n => parseOrderBy_le n p) (n := 1) _ (by simp)
    rw [hpre]
    unfold parseSortField
    simp only [hx, h1, ne_eq, not_true_eq_false, false_and, if_false, if_true, Result.bind_ok]
    rw [parseSortFieldsLoop]
    simp only [h2, ne_eq, not_false_eq_true, if_true, e3, decide_True]
  · apply Returns.of_le (fun n => parseOrderBy_le n p) (n := 1) _ (by simp)
    rw [hpre]
    unfold parseSortField
    simp only [hx, h1, ne_eq, not_true_eq_false, and_false, if_false, if_true, Result.bind_ok]
    rw [parseSortFieldsLoop]
    simp only [h2, ne_eq, not_false_eq_true, if_true, e3, reduceCtorEq, decide_False]

/-- C30 (amended) at `ORDER BY field1`. -/
theorem parseOrderBy_identifier_witness :
    Returns (fun n => parseOrderBy n (NewParser tokens_order_by_field1 ⟨0, 43⟩))
      (.ok [{ Name := "field1", Ascending := false }]
        { s := { input := [], eof := ⟨0, 43⟩, buf := ⟨.EOF, ⟨0, 43⟩, ""⟩, n := true } }) :=
  (parseOrderBy_identifier (NewParser tokens_order_by_field1 ⟨0, 43⟩)
    { s := { input := [], eof := ⟨0, 43⟩, buf := ⟨.IDENT, ⟨0, 37⟩, "field1"⟩, n := false } }
    ⟨.ORDER, ⟨0, 28⟩, ""⟩ ⟨.BY, ⟨0, 34⟩, ""⟩ ⟨.IDENT, ⟨0, 37⟩, "field1"⟩
    (by decide) rfl rfl (Or.inl rfl)).1 (by decide) (by decide) (by decide) (by decide)

/-! ## A left inverse of FormatDuration -/

/-- C34: for every 64-bit duration `d` (positive, negative or zero) that is a
multiple of one microsecond, ParseDuration(FormatDuration(d)) succeeds and
returns `d`. -/
theorem ParseDuration_left_inverse (d : Int) (hd : -(2 ^ 63) ≤ d ∧ d < 2 ^ 63)
    (hmul : Microsecond ∣ d) :
    (ParseDuration (FormatDuration d)).2 = none
    ∧ (ParseDuration (FormatDuration d)).1 = d := by
  rw [ParseDuration_FormatDuration_microseconds d hd hmul]
  exact ⟨rfl, rfl⟩

/-- C34 at minus 90 seconds (written `-90s`), at 1500 microseconds (written
`1500`) and at zero. -/
theorem ParseDuration_left_inverse_witness :
    ((ParseDuration (FormatDuration (-90000000000))).2 = none
      ∧ (ParseDuration (FormatDuration (-90000000000))).1 = -90000000000)
    ∧ ((ParseDuration (FormatDuration 1500000)).2 = none
      ∧ (ParseDuration (FormatDuration 1500000)).1 = 1500000)
    ∧ ((ParseDuration (FormatDuration 0)).2 = none
      ∧ (ParseDuration (FormatDuration 0)).1 = 0) :=
  ⟨ParseDuration_left_inverse (-90000000000) (by decide) (by decide),
   ParseDuration_left_inverse 1500000 (by decide) (by decide),
   ParseDuration_left_inverse 0 (by decide) (by decide)⟩

/-! ## Integers beyond 64 bits -/

/-- ParseUint on decimal digits: the value when it fits in 64 bits, else the
range error. -/
theorem ParseUintLoop_digits_cases (ds : List Char) (n : Nat)
    (hd : ∀ c ∈ ds, isDigit c = true) :
    (ds.foldl (fun n c => 10 * n + digitVal c) n < 2 ^ 64
      ∧ ParseUintLoop ds n = (ds.foldl (fun n c => 10 * n + digitVal c) n, none))
    ∨ (2 ^ 64 ≤ ds.foldl (fun n c => 10 * n + digitVal c) n
      ∧ (n < 2 ^ 64 → ParseUintLoop ds n = (2 ^ 64 - 1, some .ErrRange))) := by
  by_cases h : ds.foldl (fun n c => 10 * n + digitVal c) n < 2 ^ 64
  · exact Or.inl ⟨h, ParseUintLoop_digits ds n hd h⟩
  · right
    refine ⟨not_lt.mp h, ?_⟩
    induction ds generalizing n with
    | nil =>
      intro hn
      simp only [List.foldl_nil] at h
      exact absurd hn h
    | cons c cs ih =>
      intro hn
      have hc : isDigit c = true := hd c (List.mem_cons_self _ _)
      simp only [List.foldl_cons] at h
      rw [ParseUintLoop]
      simp only [hc, Bool.not_true, Bool.false_eq_true, if_false]
      split
      · rfl
      · split
        · rfl
        · rename_i h1 h2
          have hlt : 10 * n + digitVal c < 2 ^ 64 := by
            norm_num at h2 ⊢
            omega
          have := ih (10 * n + digitVal c)
            (fun c hc => hd c (List.mem_cons_of_mem _ hc)) h hlt
          rw [Nat.mul_comm n 10]
          exact this

/-- ParseInt on decimal digits of a value that does not fit in an int64:
2^63-1 and the range error. -/
theorem ParseInt_digits_range (ds : List Char) (hne : ds ≠ [])
    (hd : ∀ c ∈ ds, isDigit c = true) (hv : 2 ^ 63 ≤ digitsValue ds) :
    ParseInt (String.mk ds) = (2 ^ 63 - 1, some .ErrRange) := by
  have hU : ParseUint ds = (digitsValue ds, none) ∧ digitsValue ds < 2 ^ 64
      ∨ ParseUint ds = (2 ^ 64 - 1, some .ErrRange) := by
    unfold ParseUint
    rw [if_neg hne]
    rcases ParseUintLoop_digits_cases ds 0 hd with ⟨h1, h2⟩ | ⟨_, h2⟩
    · exact Or.inl ⟨h2, h1⟩
    · exact Or.inr (h2 (by norm_num))
  have hS : ParseIntSigned false ds = (2 ^ 63 - 1, some .ErrRange) := by
    unfold ParseIntSigned
    rcases hU with ⟨h1, _⟩ | h1
    · rw [h1]
      have : 9223372036854775808 ≤ digitsValue ds := by
        norm_num at hv
        exact hv
      simp [this]
    · rw [h1]
      simp
  cases ds with
  | nil => exact absurd rfl hne
  | cons c cs =>
    have hc : isDigit c = true := hd c (List.mem_cons_self _ _)
    have h1 : c ≠ '+' := by rintro rfl; exact absurd hc (by decide)
    have h2 : c ≠ '-' := by rintro rfl; exact absurd hc (by decide)
    unfold ParseInt
    simp only
    split
    · rename_i heq; simp at heq
    · rename_i heq; simp only [List.cons.injEq] at heq; exact absurd heq.1 h1
    · rename_i heq; simp only [List.cons.injEq] at heq; exact absurd heq.1 h2
    · exact hS

/-- C36: at the state `q` in which a statement parser reaches its LIMIT clause,
when the token after LIMIT is a NUMBER whose literal is a non-empty run of
decimal digits with a value above 2^63-1, the integer conversion reports a range
error, yet parseLimit returns 9223372036854775807 and a SELECT statement whose
other clauses were read up to `q` is returned with that Limit, which is not the
number written. -/
theorem parseLimit_ignores_range_error (go : Stdlib) (q : Parser) (ds : List Char)
    (hlimit : (q.scanIgnoreWhitespace).1.tok = .LIMIT)
    (hnum : ((q.scanIgnoreWhitespace).2.scanIgnoreWhitespace).1.tok = .NUMBER)
    (hlit : ((q.scanIgnoreWhitespace).2.scanIgnoreWhitespace).1.lit = String.mk ds)
    (hne : ds ≠ []) (hd : ∀ c ∈ ds, isDigit c = true)
    (hv : 2 ^ 63 - 1 < digitsValue ds) :
    (ParseInt (String.mk ds)).2 = some .ErrRange
    ∧ parseLimit q
        = .ok 9223372036854775807 ((q.scanIgnoreWhitespace).2.scanIgnoreWhitespace).2
    ∧ (∀ tr p fields target source condition dimensions sortFields,
        SelectClauses go tr p fields target source condition dimensions sortFields q →
        Returns (fun n => parseSelectStatement go n tr p)
          (.ok { Fields := fields, Target := target, Source := source, Condition := condition,
                 Dimensions := dimensions, SortFields := sortFields,
                 Limit := 9223372036854775807 }
            ((q.scanIgnoreWhitespace).2.scanIgnoreWhitespace).2))
    ∧ (9223372036854775807 : Int) ≠ digitsValue ds := by
  have hpi : ParseInt (String.mk ds) = (2 ^ 63 - 1, some .ErrRange) :=
    ParseInt_digits_range ds hne hd (by omega)
  have hdot : '.' ∉ (String.mk ds).data := fun h => absurd (hd _ h) (by decide)
  have hl : parseLimit q
      = .ok 9223372036854775807 ((q.scanIgnoreWhitespace).2.scanIgnoreWhitespace).2 := by
    unfold parseLimit
    simp only [hlimit, hnum, hlit, ne_eq, not_true_eq_false, if_false, hdot, hpi]
    norm_num
  refine ⟨by rw [hpi], hl, ?_, ?_⟩
  · intro tr p fields target source condition dimensions sortFields hc
    have h := parseSelectStatement_clauses go tr p q fields target source condition dimensions
      sortFields hc
    rw [hl] at h
    exact h
  · intro h
    have h' : (digitsValue ds : Int) = 9223372036854775807 := h.symm
    have h2 : digitsValue ds = 9223372036854775807 := by exact_mod_cast h'
    omega

/-- C36 at `SELECT field1 FROM myseries LIMIT 9223372036854775808`. -/
theorem parseLimit_ignores_range_error_witness :
    Returns (fun n => parseSelectStatement demoLib n .targetNotRequired
        ((NewParser (tokens_select_limit "9223372036854775808") ⟨0, 53⟩).scanIgnoreWhitespace).2)
      (.ok { Fields := [{ Expr := .VarRef "field1", Alias := "" }], Target := none,
             Source := .measurement { Name := "myseries" }, Condition := none,
             Dimensions := [], SortFields := [], Limit := 9223372036854775807 }
        { s := { input := [], eof := ⟨0, 53⟩,
                 buf := ⟨.NUMBER, ⟨0, 34⟩, "9223372036854775808"⟩, n := false } }) :=
  (parseLimit_ignores_range_error demoLib
      { s := { input := [⟨.WS, ⟨0, 33⟩, " "⟩, ⟨.NUMBER, ⟨0, 34⟩, "9223372036854775808"⟩],
               eof := ⟨0, 53⟩, buf := ⟨.LIMIT, ⟨0, 28⟩, ""⟩, n := true } }
      "9223372036854775808".data rfl rfl rfl (by decide) (by decide) (by decide)).2.2.1
    .targetNotRequired _ _ _ _ _ _ _
    ⟨_, _, _, _, _,
      Returns.of_le (fun n => parseFields_le demoLib n _) (n := 5) rfl (by simp),
      rfl, rfl,
      Returns.of_le (fun n => parseSource_le n _) (n := 5) rfl (by simp),
      Returns.of_le (fun n => parseCondition_le demoLib n _) (n := 5) rfl (by simp),
      Returns.of_le (fun n => parseDimensions_le demoLib n _) (n := 5) rfl (by simp),
      Returns.of_le (fun n => parseOrderBy_le n _) (n := 5) rfl (by simp)⟩

/-! ## A semicolon at the end of the query -/

/-- ParseStatement at the end of the input. -/
theorem ParseStatement_eof (go : Stdlib) (n : Nat) (p : Parser)
    (h : (p.scanIgnoreWhitespace).1.tok = .EOF) :
    ParseStatement go n p
      = .error (newParseError (tokstr .EOF (p.scanIgnoreWhitespace).1.lit) ["SELECT"]
          (p.scanIgnoreWhitespace).1.pos) := by
  unfold ParseStatement
  simp only [h]

/-- C38: on an input in which ParseStatement returns S1, ..., Sk, each
followed by a semicolon (k may be 0), and then returns a last statement that is
followed, after optional whitespace, by a semicolon and then, after optional
whitespace, by EOF, ParseQuery returns the syntax error `found EOF, expected
SELECT` at the position of EOF, and no Query. -/
theorem ParseQuery_trailing_semicolon (go : Stdlib) (p q r : Parser) (ss : List Statement)
    (s : Statement)
    (hss : StatementsThen go p ss q)
    (hs : Returns (fun n => ParseStatement go n q) (.ok s r))
    (hsemi : (r.scanIgnoreWhitespace).1.tok = .SEMICOLON)
    (heof : ((r.scanIgnoreWhitespace).2.scanIgnoreWhitespace).1.tok = .EOF)
    (hlit : ((r.scanIgnoreWhitespace).2.scanIgnoreWhitespace).1.lit = "") :
    Returns (fun n => ParseQuery go n p)
      (.error { Message := "", Found := "EOF", Expected := ["SELECT"],
                Pos := ((r.scanIgnoreWhitespace).2.scanIgnoreWhitespace).1.pos }) := by
  have hfirst : (p.scanIgnoreWhitespace).1.tok ≠ .EOF ∧ (p.scanIgnoreWhitespace).1.tok ≠ .WS := by
    cases hss with
    | nil => exact ParseStatement_returns_first go _ _ _ hs
    | cons _ q1 _ s1 rest h1 _ _ => exact ParseStatement_returns_first go _ _ _ h1
  apply ParseQuery_of_loop go p _ hfirst.1 hfirst.2
  apply ParseQueryLoop_statements go p q ss hss []
  apply ParseQueryLoop_step go _ q r s _ hs hsemi
  apply ParseQueryLoop_error
  refine ⟨by simp, 0, fun m _ => ?_⟩
  show ParseStatement go m _ = _
  rw [ParseStatement_eof go m _ heof, hlit]
  rfl

/-- C38 at `SELECT a FROM b;` and at `SELECT a FROM b; SELECT c FROM d ; `
(whitespace around the last semicolon). -/
theorem ParseQuery_trailing_semicolon_witness :
    Returns (fun n => ParseQuery demoLib n (NewParser tokens_select_semicolon ⟨0, 16⟩))
      (.error { Message := "", Found := "EOF", Expected := ["SELECT"], Pos := ⟨0, 16⟩ })
    ∧ Returns (fun n => ParseQuery demoLib n
        (NewParser tokens_two_selects_semicolon ⟨0, 35⟩))
      (.error { Message := "", Found := "EOF", Expected := ["SELECT"], Pos := ⟨0, 35⟩ }) :=
  ⟨ParseQuery_trailing_semicolon demoLib (NewParser tokens_select_semicolon ⟨0, 16⟩) _ _
      [] (selectFrom "a" "b") (.nil _)
      (Returns.of_le (fun n => ParseStatement_le demoLib n _) (n := 10) rfl (by simp))
      rfl rfl rfl,
   ParseQuery_trailing_semicolon demoLib
      (NewParser tokens_two_selects_semicolon ⟨0, 35⟩) _ _
      [selectFrom "a" "b"] (selectFrom "c" "d")
      (.cons _ _ _ _ _
        (Returns.of_le (fun n => ParseStatement_le demoLib n _) (n := 10) rfl (by simp))
        rfl (.nil _))
      (Returns.of_le (fun n => ParseStatement_le demoLib n _) (n := 10) rfl (by simp))
      rfl rfl rfl⟩

/-! ## Durations that ParseDuration rejects -/

/-- The duration that ParseDuration returns with an error is zero. -/
theorem ParseDuration_error_zero (s : String) (h : (ParseDuration s).2 ≠ none) :
    (ParseDuration s).1 = 0 := by
  have key : (ParseDuration s).2 = none ∨ (ParseDuration s).1 = 0 := by
    unfold ParseDuration
    by_cases h0 : s.utf8ByteSize = 0
    · rw [if_pos h0]
      exact Or.inr rfl
    · rw [if_neg h0]
      by_cases h1 : s.utf8ByteSize = 1
      · rw [if_pos h1]
        split
        · exact Or.inr rfl
        · exact Or.inl rfl
      · rw [if_neg h1]
        lift_lets
        intro a numuom
        clear_value numuom
        split
        · exact Or.inr rfl
        · split_ifs <;> first | exact Or.inl rfl | exact Or.inr rfl
  exact key.resolve_left h

/-- C39: at a DURATION_VAL token whose literal ParseDuration rejects,
parseUnaryExpr returns DurationLiteral{Val: 0} and no error, and so does
ParseExpr when no operator follows, whereas parseDuration, which reads the token
after the DURATION keyword, fails with the message `invalid duration` at the
position of the token, and a CREATE RETENTION POLICY statement with that token
after DURATION fails with the same error. -/
theorem rejected_duration_in_expression (go : Stdlib) (fuel : Nat) (p : Parser)
    (htok : (p.scanIgnoreWhitespace).1.tok = .DURATION_VAL)
    (hrej : (ParseDuration (p.scanIgnoreWhitespace).1.lit).2 ≠ none) :
    parseUnaryExpr go (fuel + 1) p = .ok (.DurationLiteral 0) (p.scanIgnoreWhitespace).2
    ∧ (((p.scanIgnoreWhitespace).2.scanIgnoreWhitespace).1.tok.isOperator = false →
        ParseExpr go (fuel + 2) p
          = .ok (.DurationLiteral 0)
              ((p.scanIgnoreWhitespace).2.scanIgnoreWhitespace).2.unscan)
    ∧ parseDuration p
        = .error { Message := "invalid duration", Found := "", Expected := [],
                   Pos := (p.scanIgnoreWhitespace).1.pos }
    ∧ (∀ p0 r k1 k2 k3 name k4 db,
        [k1, k2, k3, k4].map Lexeme.tok = [.CREATE, .RETENTION, .POLICY, .ON] →
        (name.tok = .IDENT ∨ name.tok = .STRING) →
        (db.tok = .IDENT ∨ db.tok = .STRING) →
        Reads p0 [k1, k2, k3, name, k4, db] r →
        (r.scanIgnoreWhitespace).1.tok = .DURATION →
        (r.scanIgnoreWhitespace).2 = p →
        ParseStatement go fuel p0
          = .error { Message := "invalid duration", Found := "", Expected := [],
                     Pos := (p.scanIgnoreWhitespace).1.pos }) := by
  have hws : (p.scanIgnoreWhitespace).1.tok ≠ .WS := by rw [htok]; decide
  have hlp : (p.scanIgnoreWhitespace).1.tok ≠ .LPAREN := by rw [htok]; decide
  obtain ⟨e1, e2⟩ := scanIgnoreWhitespace_again p hws
  have hz := ParseDuration_error_zero _ hrej
  have hu : ∀ n, parseUnaryExpr go (n + 1) p
      = .ok (.DurationLiteral 0) (p.scanIgnoreWhitespace).2 := by
    intro n
    rw [parseUnaryExpr, if_neg hlp]
    simp only [e1, e2, htok, hz]
  have hd : parseDuration p
      = .error { Message := "invalid duration", Found := "", Expected := [],
                 Pos := (p.scanIgnoreWhitespace).1.pos } := by
    unfold parseDuration
    simp only [htok, ne_eq, not_true_eq_false, if_false]
    split
    · rfl
    · rename_i h
      rw [h] at hrej
      exact absurd rfl hrej
  refine ⟨hu fuel, ?_, hd, ?_⟩
  · intro hop
    rw [ParseExpr, hu fuel]
    simp only
    rw [ParseExprLoop]
    simp [hop]
  · intro p0 r k1 k2 k3 name k4 db hkw hname hdb hread hdur hp
    rw [ ParseStatement_create_retention_policy_prefix go fuel p0 r k1 k2 k3 name k4 db hkw hname
      hdb hread]
    simp only [hdur, ne_eq, not_true_eq_false, if_false, hp, hd]
    rfl

/-- C39 at the token `99999999999999999999h`, whose numeric prefix overflows 64
bits: as an expression it is the duration 0, after DURATION of CREATE RETENTION
POLICY it is an error. -/
theorem rejected_duration_in_expression_witness :
    parseUnaryExpr demoLib 1 (NewParser [⟨.DURATION_VAL, ⟨0, 0⟩, "99999999999999999999h"⟩] ⟨0, 21⟩)
        = .ok (.DurationLiteral 0)
            { s := { input := [], eof := ⟨0, 21⟩,
                     buf := ⟨.DURATION_VAL, ⟨0, 0⟩, "99999999999999999999h"⟩, n := false } }
    ∧ ParseStatement demoLib 0 (NewParser tokens_create_retention_policy_overflow ⟨0, 86⟩)
        = .error { Message := "invalid duration", Found := "", Expected := [], Pos := ⟨0, 51⟩ } :=
  ⟨(rejected_duration_in_expression demoLib 0
      (NewParser [⟨.DURATION_VAL, ⟨0, 0⟩, "99999999999999999999h"⟩] ⟨0, 21⟩) rfl (by decide)).1,
   (rejected_duration_in_expression demoLib 0
      { s := { input := List.drop 13 tokens_create_retention_policy_overflow, eof := ⟨0, 86⟩,
               buf := ⟨.DURATION, ⟨0, 42⟩, ""⟩, n := false } } rfl (by decide)).2.2.2
      (NewParser tokens_create_retention_policy_overflow ⟨0, 86⟩)
      { s := { input := List.drop 11 tokens_create_retention_policy_overflow, eof := ⟨0, 86⟩,
               buf := ⟨.IDENT, ⟨0, 35⟩, "testdb"⟩, n := false } }
      ⟨.CREATE, ⟨0, 0⟩, ""⟩ ⟨.RETENTION, ⟨0, 7⟩, ""⟩ ⟨.POLICY, ⟨0, 17⟩, ""⟩
      ⟨.IDENT, ⟨0, 24⟩, "policy1"⟩ ⟨.ON, ⟨0, 32⟩, ""⟩ ⟨.IDENT, ⟨0, 35⟩, "testdb"⟩
      rfl (by decide) (by decide) (by decide) rfl rfl⟩

/-! ## The text of a ParseError -/

theorem intercalate_go_eq_foldl (sep : String) (rest : List String) (a : String) :
    String.intercalate.go a sep rest = rest.foldl (fun b s => b ++ sep ++ s) a := by
  induction rest generalizing a with
  | nil => rfl
  | cons x xs ih => simp only [String.intercalate.go, List.foldl_cons, ih]

/-- Go's strings.Join is the concatenation with the separator in between. -/
theorem Join_eq_intercalate (elems : List String) (sep : String) :
    strings.Join elems sep = sep.intercalate elems := by
  match elems with
  | [] => rfl
  | [a] => rfl
  | a :: b :: rest =>
    simp only [strings.Join, String.intercalate]
    exact (intercalate_go_eq_foldl sep (b :: rest) a).symm

/-- C32: for an error whose position is one the scanner can give (line and
character from 0, below the largest Go int), the text of ParseError.Error is
`found <Found>, expected <Expected joined by ", "> at line <Pos.Line+1>, char
<Pos.Char+1>` when Message is empty, and `<Message> at line <Pos.Line+1>, char
<Pos.Char+1>`, in which Found and Expected play no part, when Message is not
empty. -/
theorem ParseError_Error_one_based (e : ParseError)
    (hline : 0 ≤ e.Pos.Line ∧ e.Pos.Line < 2 ^ 63 - 1)
    (hchar : 0 ≤ e.Pos.Char ∧ e.Pos.Char < 2 ^ 63 - 1) :
    (e.Message = "" →
      e.Error = "found " ++ e.Found ++ ", expected " ++ ", ".intercalate e.Expected
        ++ " at line " ++ toString (e.Pos.Line + 1) ++ ", char " ++ toString (e.Pos.Char + 1))
    ∧ (e.Message ≠ "" →
      e.Error = e.Message ++ " at line " ++ toString (e.Pos.Line + 1) ++ ", char "
        ++ toString (e.Pos.Char + 1)) := by
  have h1 : int64 (e.Pos.Line + 1) = e.Pos.Line + 1 := int64_of_fits _ (by omega)
  have h2 : int64 (e.Pos.Char + 1) = e.Pos.Char + 1 := int64_of_fits _ (by omega)
  constructor
  · intro h
    unfold ParseError.Error
    rw [if_neg (by simp [h]), h1, h2, Join_eq_intercalate]
  · intro h
    unfold ParseError.Error
    rw [if_pos h, h1, h2]

/-- C32 at the error of the empty query, `found EOF, expected SELECT at line
1, char 1`, at the error of `SELECT`, with four expected items, at char 8, and
at the error of `SELECT field1 FROM myseries LIMIT 0`, which has a message. -/
theorem ParseError_Error_one_based_witness :
    ({ Message := "", Found := "EOF", Expected := ["SELECT"], Pos := ⟨0, 0⟩ } : ParseError).Error
        = "found EOF, expected SELECT at line 1, char 1"
    ∧ ({ Message := "", Found := "EOF", Expected := ["identifier", "string", "number", "bool"],
         Pos := ⟨0, 7⟩ } : ParseError).Error
        = "found EOF, expected identifier, string, number, bool at line 1, char 8"
    ∧ ({ Message := "LIMIT must be > 0", Found := "", Expected := [], Pos := ⟨0, 34⟩ }
          : ParseError).Error
        = "LIMIT must be > 0 at line 1, char 35" :=
  ⟨(ParseError_Error_one_based
      { Message := "", Found := "EOF", Expected := ["SELECT"], Pos := ⟨0, 0⟩ }
      (by decide) (by decide)).1 rfl,
   (ParseError_Error_one_based
      { Message := "", Found := "EOF", Expected := ["identifier", "string", "number", "bool"],
        Pos := ⟨0, 7⟩ } (by decide) (by decide)).1 rfl,
   (ParseError_Error_one_based
      { Message := "LIMIT must be > 0", Found := "", Expected := [], Pos := ⟨0, 34⟩ }
      (by decide) (by decide)).2 (by decide)⟩

/-! ## Quote -/

theorem quoteReplace_cons (c : Char) (cs : List Char) :
    quoteReplace (c :: cs) =
      (if c = Char.ofNat 10 then [Char.ofNat 92, 'n']
       else if c = Char.ofNat 92 then [Char.ofNat 92, Char.ofNat 92]
       else if c = Char.ofNat 34 then [Char.ofNat 92, Char.ofNat 34]
       else [c]) ++ quoteReplace cs := rfl

/-- The four shapes of one step of the replacement. -/
theorem quoteReplace_cons_cases (c : Char) (cs : List Char) :
    (c = Char.ofNat 10 ∧ quoteReplace (c :: cs) = Char.ofNat 92 :: 'n' :: quoteReplace cs)
    ∨ (c = Char.ofNat 92
        ∧ quoteReplace (c :: cs) = Char.ofNat 92 :: Char.ofNat 92 :: quoteReplace cs)
    ∨ (c = Char.ofNat 34
        ∧ quoteReplace (c :: cs) = Char.ofNat 92 :: Char.ofNat 34 :: quoteReplace cs)
    ∨ ((c ≠ Char.ofNat 10 ∧ c ≠ Char.ofNat 92 ∧ c ≠ Char.ofNat 34)
        ∧ quoteReplace (c :: cs) = c :: quoteReplace cs) := by
  rw [quoteReplace_cons]
  by_cases h1 : c = Char.ofNat 10
  · exact Or.inl ⟨h1, by rw [if_pos h1]; rfl⟩
  · by_cases h2 : c = Char.ofNat 92
    · exact Or.inr (Or.inl ⟨h2, by rw [if_neg h1, if_pos h2]; rfl⟩)
    · by_cases h3 : c = Char.ofNat 34
      · exact Or.inr (Or.inr (Or.inl ⟨h3, by rw [if_neg h1, if_neg h2, if_pos h3]; rfl⟩))
      · exact Or.inr (Or.inr (Or.inr ⟨⟨h1, h2, h3⟩,
          by rw [if_neg h1, if_neg h2, if_neg h3]; rfl⟩))

/-- The replacement of Quote is injective. -/
theorem quoteReplace_injective : ∀ cs ds : List Char,
    quoteReplace cs = quoteReplace ds → cs = ds
  | [], [] => fun _ => rfl
  | [], d :: ds => by
    intro h
    exfalso
    rcases quoteReplace_cons_cases d ds with ⟨_, e⟩ | ⟨_, e⟩ | ⟨_, e⟩ | ⟨_, e⟩ <;>
      rw [e] at h <;> simp [quoteReplace] at h
  | c :: cs, [] => by
    intro h
    exfalso
    rcases quoteReplace_cons_cases c cs with ⟨_, e⟩ | ⟨_, e⟩ | ⟨_, e⟩ | ⟨_, e⟩ <;>
      rw [e] at h <;> simp [quoteReplace] at h
  | c :: cs, d :: ds => by
    intro h
    have key : c = d ∧ quoteReplace cs = quoteReplace ds := by
      rcases quoteReplace_cons_cases c cs with ⟨hc, ec⟩ | ⟨hc, ec⟩ | ⟨hc, ec⟩ | ⟨hc, ec⟩ <;>
      rcases quoteReplace_cons_cases d ds with ⟨hd, ed⟩ | ⟨hd, ed⟩ | ⟨hd, ed⟩ | ⟨hd, ed⟩ <;>
      rw [ec, ed] at h <;>
      simp only [List.cons.injEq] at h <;>
      first
      | exact ⟨hc.trans hd.symm, h.2.2⟩
      | exact ⟨h.1, h.2⟩
      | exact absurd h.2.1 (by decide)
      | exact absurd h.1.symm hd.2.1
      | exact absurd h.1 hc.2.1
    rw [key.1, quoteReplace_injective cs ds key.2]

/-- The replacement of Quote leaves no newline. -/
theorem newline_not_mem_quoteReplace (cs : List Char) :
    Char.ofNat 10 ∉ quoteReplace cs := by
  induction cs with
  | nil => simp [quoteReplace]
  | cons c cs ih =>
    rcases quoteReplace_cons_cases c cs with ⟨_, e⟩ | ⟨_, e⟩ | ⟨_, e⟩ | ⟨hc, e⟩ <;>
      rw [e] <;> simp only [List.mem_cons, not_or]
    · exact ⟨by decide, by decide, ih⟩
    · exact ⟨by decide, by decide, ih⟩
    · exact ⟨by decide, by decide, ih⟩
    · exact ⟨fun h => hc.1 h.symm, ih⟩

/-- A longer prefix of the same text extends the shorter one. -/
theorem append_split_of_le {α : Type} (pre0 X pre Y : List α) (h : pre0 ++ X = pre ++ Y)
    (hlen : pre0.length ≤ pre.length) : ∃ a, pre = pre0 ++ a ∧ X = a ++ Y := by
  rcases List.append_eq_append_iff.mp h with ⟨a, h1, h2⟩ | ⟨a, h1, h2⟩
  · exact ⟨a, h1, h2⟩
  · have hl := congrArg List.length h1
    simp only [List.length_append] at hl
    have ha : a = [] := List.length_eq_zero.mp (by omega)
    subst ha
    exact ⟨[], by simpa using h1.symm, by simpa using h2.symm⟩

theorem trailingBackslashes_snoc (l : List Char) (x : Char) :
    trailingBackslashes (l ++ [x])
      = if x = Char.ofNat 92 then trailingBackslashes l + 1 else 0 := by
  unfold trailingBackslashes
  rw [List.reverse_append, List.reverse_singleton, List.singleton_append, List.takeWhile_cons]
  by_cases h : x = Char.ofNat 92
  · simp [h]
  · simp [h]

/-- In the replacement of Quote, written after a text that ends in an even
number of backslashes, every double quote is preceded by an odd number of
backslashes. -/
theorem quoteReplace_quote_odd (cs : List Char) :
    ∀ pre0 : List Char, Even (trailingBackslashes pre0) →
    ∀ pre post : List Char, pre0 ++ quoteReplace cs = pre ++ Char.ofNat 34 :: post →
      pre0.length ≤ pre.length → Odd (trailingBackslashes pre) := by
  induction cs with
  | nil =>
    intro pre0 _ pre post h hlen
    have := congrArg List.length h
    simp [quoteReplace] at this
    omega
  | cons c cs ih =>
    intro pre0 hev pre post h hlen
    have step : ∀ blk : List Char, quoteReplace (c :: cs) = blk ++ quoteReplace cs →
        Even (trailingBackslashes (pre0 ++ blk)) →
        (pre0 ++ blk).length ≤ pre.length → Odd (trailingBackslashes pre) := by
      intro blk e hev' hlen'
      apply ih (pre0 ++ blk) hev' pre post _ hlen'
      rw [← h, e, List.append_assoc]
    rcases quoteReplace_cons_cases c cs with ⟨_, e⟩ | ⟨_, e⟩ | ⟨_, e⟩ | ⟨hc, e⟩
    · -- the block `\n`
      by_cases hl : pre0.length + 2 ≤ pre.length
      · refine step [Char.ofNat 92, 'n'] e ?_ (by simpa using hl)
        have : pre0 ++ [Char.ofNat 92, 'n'] = (pre0 ++ [Char.ofNat 92]) ++ ['n'] := by simp
        rw [this, trailingBackslashes_snoc]
        simp
      · exfalso
        rw [e] at h
        obtain ⟨a, rfl, ha⟩ := append_split_of_le _ _ _ _ h hlen
        simp only [List.length_append] at hl
        match a, ha with
        | [], ha => simp at ha
        | [x], ha => simp at ha
        | x :: y :: a, _ => simp at hl
    · -- the block of two backslashes
      by_cases hl : pre0.length + 2 ≤ pre.length
      · refine step [Char.ofNat 92, Char.ofNat 92] e ?_ (by simpa using hl)
        have : pre0 ++ [Char.ofNat 92, Char.ofNat 92]
            = (pre0 ++ [Char.ofNat 92]) ++ [Char.ofNat 92] := by simp
        rw [this, trailingBackslashes_snoc, trailingBackslashes_snoc]
        simp only [if_true]
        exact (hev.add_one).add_one
      · exfalso
        rw [e] at h
        obtain ⟨a, rfl, ha⟩ := append_split_of_le _ _ _ _ h hlen
        simp only [List.length_append] at hl
        match a, ha with
        | [], ha => simp at ha
        | [x], ha => simp at ha
        | x :: y :: a, _ => simp at hl
    · -- the block of a backslash and a double quote
      by_cases hl : pre0.length + 2 ≤ pre.length
      · refine step [Char.ofNat 92, Char.ofNat 34] e ?_ (by simpa using hl)
        have : pre0 ++ [Char.ofNat 92, Char.ofNat 34]
            = (pre0 ++ [Char.ofNat 92]) ++ [Char.ofNat 34] := by simp
        rw [this, trailingBackslashes_snoc]
        simp
      · rw [e] at h
        obtain ⟨a, rfl, ha⟩ := append_split_of_le _ _ _ _ h hlen
        simp only [List.length_append] at hl
        match a, ha with
        | [], ha => simp at ha
        | [x], ha =>
          simp only [List.singleton_append, List.cons.injEq] at ha
          rw [← ha.1, trailingBackslashes_snoc]
          simp only [if_true]
          exact hev.add_one
        | x :: y :: a, _ => simp at hl
    · -- any other character
      by_cases hl : pre0.length + 1 ≤ pre.length
      · refine step [c] e ?_ (by simpa using hl)
        rw [trailingBackslashes_snoc, if_neg hc.2.1]
        simp
      · exfalso
        rw [e] at h
        obtain ⟨a, rfl, ha⟩ := append_split_of_le _ _ _ _ h hlen
        simp only [List.length_append] at hl
        match a, ha with
        | [], ha =>
          simp only [List.nil_append, List.cons.injEq] at ha
          exact absurd ha.1 hc.2.2
        | x :: a, _ => simp at hl

/-- C35: Quote is injective, and for every string `s` the text Quote(s) starts
and ends with a double quote (two different characters of the text), contains
no newline, and every double quote strictly inside it (one with text before it
and text after it) is preceded by an odd number of backslashes. -/
theorem Quote_injective_delimits (s t : String) :
    (Quote s = Quote t → s = t)
    ∧ (∃ mid : List Char, (Quote s).data = [Char.ofNat 34] ++ mid ++ [Char.ofNat 34])
    ∧ Char.ofNat 10 ∉ (Quote s).data
    ∧ (∀ pre post : List Char, (Quote s).data = pre ++ Char.ofNat 34 :: post →
        pre ≠ [] → post ≠ [] → Odd (trailingBackslashes pre)) := by
  refine ⟨?_, ⟨quoteReplace s.data, rfl⟩, ?_, ?_⟩
  · intro h
    unfold Quote at h
    have h' := congrArg String.data h
    simp only [List.singleton_append, List.cons.injEq, true_and] at h'
    have h2 := List.append_cancel_right h'
    exact String.ext (quoteReplace_injective _ _ (List.cons.inj h2).2)
  · unfold Quote
    simp only [List.singleton_append, List.mem_cons, List.mem_append, List.mem_singleton, not_or]
    exact ⟨⟨by decide, newline_not_mem_quoteReplace _⟩, by decide⟩
  · intro pre post h hpre hpost
    unfold Quote at h
    simp only at h
    -- the last character of the text is the closing quote
    obtain ⟨post0, x, rfl⟩ : ∃ post0 x, post = post0 ++ [x] :=
      ⟨post.dropLast, post.getLast hpost, (List.dropLast_append_getLast hpost).symm⟩
    have h1 : [Char.ofNat 34] ++ quoteReplace s.data ++ [Char.ofNat 34]
        = (pre ++ Char.ofNat 34 :: post0) ++ [x] := by
      rw [h]; simp
    have h2 := List.append_inj' h1 rfl
    exact quoteReplace_quote_odd s.data [Char.ofNat 34] (by decide) pre post0 h2.1
      (by
        cases pre with
        | nil => exact absurd rfl hpre
        | cons a l => simp)

/-- C35 at the text `"foo"` (with its quotes): its quotation is
`"\"foo\""`, the first inner double quote of which is preceded by one
backslash. -/
theorem Quote_injective_delimits_witness :
    ("\"foo\"" = "\"foo\"")
    ∧ Odd (trailingBackslashes [Char.ofNat 34, Char.ofNat 92]) :=
  ⟨(Quote_injective_delimits "\"foo\"" "\"foo\"").1 rfl,
   (Quote_injective_delimits "\"foo\"" "\"foo\"").2.2.2 [Char.ofNat 34, Char.ofNat 92]
      ['f', 'o', 'o', Char.ofNat 92, Char.ofNat 34, Char.ofNat 34] (by decide) (by decide)
      (by decide)⟩

/-! ## Whitespace before a comma -/

/-- C37: the tokens `name ( a WS , b )` with `name` an IDENT that is `join` or
`merge` up to letter case fail in parseSource with found `,` (the literal of the
comma when it has one) expected [)], at the position of the comma; the same
tokens without the whitespace token, with optional whitespace after the comma
and before the closing parenthesis, are the Join (or Merge) of `a` and `b`; and
parseFields reads the fields `a WS , b` followed by whitespace and a token that
ends the list as the two fields `a` and `b`. -/
theorem whitespace_before_comma (go : Stdlib) (eof : Pos)
    (name a b : String) (p1 p2 p3 p4 p5 p6 p7 : Pos) (l2 w l5 l7 : String)
    (rest : List Lexeme) :
    ((ToLower name = "join" ∨ ToLower name = "merge") →
      Returns (fun n => parseSource n
          (NewParser ([⟨.IDENT, p1, name⟩, ⟨.LPAREN, p2, l2⟩, ⟨.IDENT, p3, a⟩, ⟨.WS, p4, w⟩,
            ⟨.COMMA, p5, l5⟩, ⟨.IDENT, p6, b⟩, ⟨.RPAREN, p7, l7⟩] ++ rest) eof))
        (.error { Message := "", Found := if l5 = "" then "," else l5, Expected := [")"],
                  Pos := p5 }))
    ∧ (∀ w1 w2 : List Lexeme, OptionalWS w1 → OptionalWS w2 →
        (ToLower name = "join" →
          Returns (fun n => parseSource n
              (NewParser ([⟨.IDENT, p1, name⟩, ⟨.LPAREN, p2, l2⟩, ⟨.IDENT, p3, a⟩,
                ⟨.COMMA, p5, l5⟩] ++ w1 ++ [⟨.IDENT, p6, b⟩] ++ w2 ++ [⟨.RPAREN, p7, l7⟩]
                ++ rest) eof))
            (.ok (.join { Measurements := [{ Name := a }, { Name := b }] })
                { s := { input := rest, eof := eof, buf := ⟨.RPAREN, p7, l7⟩, n := false } }))
        ∧ (ToLower name = "merge" →
          Returns (fun n => parseSource n
              (NewParser ([⟨.IDENT, p1, name⟩, ⟨.LPAREN, p2, l2⟩, ⟨.IDENT, p3, a⟩,
                ⟨.COMMA, p5, l5⟩] ++ w1 ++ [⟨.IDENT, p6, b⟩] ++ w2 ++ [⟨.RPAREN, p7, l7⟩]
                ++ rest) eof))
            (.ok (.merge { Measurements := [{ Name := a }, { Name := b }] })
                { s := { input := rest, eof := eof, buf := ⟨.RPAREN, p7, l7⟩, n := false } })))
    ∧ (∀ nxt : Lexeme, nxt.tok.isOperator = false → nxt.tok ≠ .AS → nxt.tok ≠ .WS →
        nxt.tok ≠ .COMMA →
        Returns (fun n => parseFields go n
            (NewParser ([⟨.IDENT, p1, a⟩, ⟨.WS, p4, w⟩, ⟨.COMMA, p5, l5⟩, ⟨.IDENT, p6, b⟩,
              ⟨.WS, p7, l7⟩, nxt] ++ rest) eof))
          (.ok [{ Expr := .VarRef a, Alias := "" }, { Expr := .VarRef b, Alias := "" }]
              { s := { input := rest, eof := eof, buf := nxt, n := true } })) := by
  refine ⟨?_, ?_, ?_⟩
  · intro hname
    have hne : ¬ (ToLower name ≠ "join" ∧ ToLower name ≠ "merge") := by
      rcases hname with h | h <;> simp [h]
    apply Returns.of_le (fun n => parseSource_le n _) (n := 1) _ (by simp)
    simp [parseSource, parseSourceMeasurements, Parser.scanIgnoreWhitespace, Parser.scan,
      Parser.unscan, bufScanner.Scan, bufScanner.Unscan, NewParser, newBufScanner, Result.bind,
      hne, newParseError, tokstr_eq, show Token.COMMA.String = "," from rfl]
  · intro w1 w2 hw1 hw2
    constructor
    · intro hname
      apply Returns.of_le (fun n => parseSource_le n _) (n := 2) _ (by simp)
      rcases hw1 with rfl | ⟨q1, s1, rfl⟩ <;> rcases hw2 with rfl | ⟨q2, s2, rfl⟩ <;>
        simp [parseSource, parseSourceMeasurements, Parser.scanIgnoreWhitespace, Parser.scan,
          Parser.unscan, bufScanner.Scan, bufScanner.Unscan, NewParser, newBufScanner,
          Result.bind, hname]
    · intro hname
      apply Returns.of_le (fun n => parseSource_le n _) (n := 2) _ (by simp)
      rcases hw1 with rfl | ⟨q1, s1, rfl⟩ <;> rcases hw2 with rfl | ⟨q2, s2, rfl⟩ <;>
        simp [parseSource, parseSourceMeasurements, Parser.scanIgnoreWhitespace, Parser.scan,
          Parser.unscan, bufScanner.Scan, bufScanner.Unscan, NewParser, newBufScanner,
          Result.bind, hname]
  · intro nxt hop has hws hcomma
    apply Returns.of_le (fun n => parseFields_le go n _) (n := 4) _ (by simp)
    simp [parseFields, parseFieldsLoop, parseField, parseAlias, Parser.consumeWhitespace,
      ParseExpr, ParseExprLoop, parseUnaryExpr, Parser.scanIgnoreWhitespace, Parser.scan,
      Parser.unscan, bufScanner.Scan, bufScanner.Unscan, NewParser, newBufScanner, Result.bind,
      hop, has, hws, hcomma, show Token.COMMA.isOperator = false from rfl]

/-- C37 at `join(a ,b)`, which fails at the comma, at `join(a, b )`, a Join
of `a` and `b`, and at the field list `a ,b FROM`, two fields. -/
theorem whitespace_before_comma_witness :
    Returns (fun n => parseSource n
        (NewParser [⟨.IDENT, ⟨0, 19⟩, "join"⟩, ⟨.LPAREN, ⟨0, 23⟩, ""⟩, ⟨.IDENT, ⟨0, 24⟩, "a"⟩,
          ⟨.WS, ⟨0, 25⟩, " "⟩, ⟨.COMMA, ⟨0, 26⟩, ""⟩, ⟨.IDENT, ⟨0, 27⟩, "b"⟩,
          ⟨.RPAREN, ⟨0, 28⟩, ""⟩] ⟨0, 29⟩))
      (.error { Message := "", Found := ",", Expected := [")"], Pos := ⟨0, 26⟩ })
    ∧ Returns (fun n => parseSource n
        (NewParser [⟨.IDENT, ⟨0, 19⟩, "join"⟩, ⟨.LPAREN, ⟨0, 23⟩, ""⟩, ⟨.IDENT, ⟨0, 24⟩, "a"⟩,
          ⟨.COMMA, ⟨0, 25⟩, ""⟩, ⟨.WS, ⟨0, 26⟩, " "⟩, ⟨.IDENT, ⟨0, 27⟩, "b"⟩,
          ⟨.WS, ⟨0, 28⟩, " "⟩, ⟨.RPAREN, ⟨0, 29⟩, ""⟩] ⟨0, 30⟩))
      (.ok (.join { Measurements := [{ Name := "a" }, { Name := "b" }] })
        { s := { input := [], eof := ⟨0, 30⟩, buf := ⟨.RPAREN, ⟨0, 29⟩, ""⟩, n := false } })
    ∧ Returns (fun n => parseFields demoLib n
        (NewParser [⟨.IDENT, ⟨0, 7⟩, "a"⟩, ⟨.WS, ⟨0, 8⟩, " "⟩, ⟨.COMMA, ⟨0, 9⟩, ""⟩,
          ⟨.IDENT, ⟨0, 10⟩, "b"⟩, ⟨.WS, ⟨0, 11⟩, " "⟩, ⟨.FROM, ⟨0, 12⟩, ""⟩] ⟨0, 16⟩))
      (.ok [{ Expr := .VarRef "a", Alias := "" }, { Expr := .VarRef "b", Alias := "" }]
        { s := { input := [], eof := ⟨0, 16⟩, buf := ⟨.FROM, ⟨0, 12⟩, ""⟩, n := true } }) :=
  ⟨(whitespace_before_comma demoLib ⟨0, 29⟩ "join" "a" "b" ⟨0, 19⟩ ⟨0, 23⟩ ⟨0, 24⟩ ⟨0, 25⟩
      ⟨0, 26⟩ ⟨0, 27⟩ ⟨0, 28⟩ "" " " "" "" []).1 (Or.inl rfl),
   ((whitespace_before_comma demoLib ⟨0, 30⟩ "join" "a" "b" ⟨0, 19⟩ ⟨0, 23⟩ ⟨0, 24⟩ ⟨0, 25⟩
      ⟨0, 25⟩ ⟨0, 27⟩ ⟨0, 29⟩ "" " " "" "" []).2.1 [⟨.WS, ⟨0, 26⟩, " "⟩] [⟨.WS, ⟨0, 28⟩, " "⟩]
      (Or.inr ⟨_, _, rfl⟩) (Or.inr ⟨_, _, rfl⟩)).1 rfl,
   (whitespace_before_comma demoLib ⟨0, 16⟩ "join" "a" "b" ⟨0, 7⟩ ⟨0, 23⟩ ⟨0, 24⟩ ⟨0, 8⟩
      ⟨0, 9⟩ ⟨0, 10⟩ ⟨0, 11⟩ "" " " "" " " []).2.2 ⟨.FROM, ⟨0, 12⟩, ""⟩ rfl (by decide)
      (by decide) (by decide)⟩

/-! ## The fields of ORDER BY -/

theorem Reads_append (ts us : List Lexeme) : ∀ p q : Parser,
    Reads p (ts ++ us) q ↔ ∃ m, Reads p ts m ∧ Reads m us q := by
  induction ts with
  | nil =>
    intro p q
    simp only [List.nil_append, Reads_nil]
    exact ⟨fun h => ⟨p, rfl, h⟩, fun ⟨m, hm, h⟩ => hm ▸ h⟩
  | cons t ts ih =>
    intro p q
    simp only [List.cons_append, Reads_cons, ih]
    constructor
    · rintro ⟨h1, m, h2, h3⟩
      exact ⟨m, ⟨h1, h2⟩, h3⟩
    · rintro ⟨m, ⟨h1, h2⟩, h3⟩
      exact ⟨h1, m, h2, h3⟩

/-- The method parseSortField on a written sort field: its value, and a state
in which the next token is the one after the field. -/
theorem parseSortField_written (f : WrittenSortField) (p m : Parser) (hf : f.valid)
    (hread : Reads p f.tokens m) (hend : f.endsAt (m.scanIgnoreWhitespace).1.tok) :
    ∃ r, parseSortField p = .ok f.value r
      ∧ r.scanIgnoreWhitespace = m.scanIgnoreWhitespace := by
  cases f with
  | named name =>
    simp only [WrittenSortField.tokens, Reads_cons, Reads_nil] at hread
    obtain ⟨rfl, rfl⟩ := hread
    have hf' : (p.scanIgnoreWhitespace).1.tok = .IDENT
        ∨ (p.scanIgnoreWhitespace).1.tok = .STRING := hf
    obtain ⟨h1, h2, h3⟩ := hend
    refine ⟨((p.scanIgnoreWhitespace).2.scanIgnoreWhitespace).2.unscan, ?_,
      scanIgnoreWhitespace_unscan _ h3⟩
    unfold parseSortField
    simp only [hf', h1, h2, ne_eq, not_false_eq_true, and_self, if_true,
      WrittenSortField.value]
  | namedDir name dir =>
    simp only [WrittenSortField.tokens, Reads_cons, Reads_nil] at hread
    obtain ⟨rfl, rfl, rfl⟩ := hread
    have hf' : (p.scanIgnoreWhitespace).1.tok = .IDENT
        ∨ (p.scanIgnoreWhitespace).1.tok = .STRING := hf.1
    have hd : ¬ (((p.scanIgnoreWhitespace).2.scanIgnoreWhitespace).1.tok ≠ .ASC
        ∧ ((p.scanIgnoreWhitespace).2.scanIgnoreWhitespace).1.tok ≠ .DESC) := by
      rcases hf.2 with h | h <;> simp [h]
    refine ⟨_, ?_, rfl⟩
    unfold parseSortField
    simp only [hf', hd, if_true, if_false, WrittenSortField.value]
  | bare dir =>
    simp only [WrittenSortField.tokens, Reads_cons, Reads_nil] at hread
    obtain ⟨rfl, rfl⟩ := hread
    have hd : (p.scanIgnoreWhitespace).1.tok = .ASC
        ∨ (p.scanIgnoreWhitespace).1.tok = .DESC := hf
    have h1 : ¬ ((p.scanIgnoreWhitespace).1.tok = .IDENT
        ∨ (p.scanIgnoreWhitespace).1.tok = .STRING) := by
      rcases hd with h | h <;> simp [h]
    have h2 : ¬ ((p.scanIgnoreWhitespace).1.tok ≠ .ASC
        ∧ (p.scanIgnoreWhitespace).1.tok ≠ .DESC) := by
      rcases hd with h | h <;> simp [h]
    refine ⟨_, ?_, rfl⟩
    unfold parseSortField
    simp only [h1, h2, if_false, WrittenSortField.value]

/-- The token after a sort field that is followed by further fields is a
comma, which ends the field. -/
theorem endsAt_before_tail (f last : WrittenSortField) (rest : List (Lexeme × WrittenSortField))
    (m q : Parser) (hrest : ∀ cf ∈ rest, cf.1.tok = .COMMA ∧ cf.2.valid)
    (hread : Reads m (sortFieldsTail rest) q)
    (hlast : (lastSortField f rest).endsAt (q.scanIgnoreWhitespace).1.tok)
    (hcomma : rest = [] → last = f) :
    f.endsAt (m.scanIgnoreWhitespace).1.tok := by
  cases rest with
  | nil =>
    simp only [sortFieldsTail, Reads_nil] at hread
    rw [hread] at hlast
    exact hlast
  | cons cf rest =>
    simp only [sortFieldsTail, Reads_cons] at hread
    have hc := (hrest cf (List.mem_cons_self _ _)).1
    rw [hread.1, hc]
    cases f <;> simp [WrittenSortField.endsAt]

/-- The loop of parseSortFields over the written fields that follow the first
one; `res` is what the loop returns after them. -/
theorem parseSortFieldsLoop_written (q : Parser) (res : Result (List SortField)) :
    ∀ (rest : List (Lexeme × WrittenSortField)) (acc : List SortField) (r p : Parser)
      (f : WrittenSortField),
      r.scanIgnoreWhitespace = p.scanIgnoreWhitespace →
      (∀ cf ∈ rest, cf.1.tok = .COMMA ∧ cf.2.valid) →
      Reads p (sortFieldsTail rest) q →
      (lastSortField f rest).endsAt (q.scanIgnoreWhitespace).1.tok →
      (∀ r', r'.scanIgnoreWhitespace = q.scanIgnoreWhitespace →
        Returns (fun n => parseSortFieldsLoop n (acc ++ rest.map fun cf => cf.2.value) r') res) →
      Returns (fun n => parseSortFieldsLoop n acc r) res
  | [], acc, r, p, f, hr, _, hread, _, hres => by
    simp only [sortFieldsTail, Reads_nil] at hread
    have := hres r (by rw [hr, hread])
    simpa using this
  | cf :: rest, acc, r, p, f, hr, hrest, hread, hlast, hres => by
    simp only [sortFieldsTail, Reads_cons, Reads_append] at hread
    obtain ⟨m, ⟨e1, hm⟩, hq⟩ := hread
    have hc := hrest cf (List.mem_cons_self _ _)
    have hrest' : ∀ cf ∈ rest, cf.1.tok = .COMMA ∧ cf.2.valid :=
      fun x hx => hrest x (List.mem_cons_of_mem _ hx)
    have hend : cf.2.endsAt (m.scanIgnoreWhitespace).1.tok :=
      endsAt_before_tail cf.2 cf.2 rest m q hrest' hq hlast (fun _ => rfl)
    obtain ⟨r1, hfield, hr1⟩ := parseSortField_written cf.2 _ m hc.2 hm hend
    have ih := parseSortFieldsLoop_written q res rest (acc ++ [cf.2.value]) r1 m cf.2 hr1 hrest'
      hq hlast (fun r' h' => by simpa using hres r' h')
    obtain ⟨hne, n, hn⟩ := ih
    refine ⟨hne, n + 1, fun k hk => ?_⟩
    obtain ⟨k, rfl⟩ : ∃ j, k = j + 1 := ⟨k - 1, by omega⟩
    have hk' : parseSortFieldsLoop k (acc ++ [cf.2.value]) r1 = res := hn k (by omega)
    show parseSortFieldsLoop (k + 1) acc r = res
    rw [parseSortFieldsLoop, hr, e1]
    simp only [hc.1, ne_eq, not_true_eq_false, if_false]
    rw [hfield, Result.bind_ok]
    exact hk'

/-- C31: for the written sort fields `f , f1 , ... , fk` (each an identifier,
an identifier with a direction, or a direction alone; the later ones each after
a comma) read from state `p`: when the token after them is not a comma,
parseSortFields returns one SortField per written field, in source order, with
Name the identifier (empty for a direction alone) and Ascending true exactly
when the field has an ASC token, and the token after them is pushed back; when
the token after them is a comma followed by a token that is none of IDENT,
STRING, ASC, DESC, parseSortFields fails with the syntax error whose expected
list is [identifier, ASC, or DESC]; and so it does when the first field starts
with such a token. -/
theorem parseSortFields_written (p q : Parser) (f : WrittenSortField)
    (rest : List (Lexeme × WrittenSortField))
    (hf : f.valid) (hrest : ∀ cf ∈ rest, cf.1.tok = .COMMA ∧ cf.2.valid)
    (hread : Reads p (f.tokens ++ sortFieldsTail rest) q)
    (hlast : (lastSortField f rest).endsAt (q.scanIgnoreWhitespace).1.tok) :
    ((q.scanIgnoreWhitespace).1.tok ≠ .COMMA →
      Returns (fun n => parseSortFields n p)
        (.ok (f.value :: rest.map fun cf => cf.2.value) (q.scanIgnoreWhitespace).2.unscan))
    ∧ ((q.scanIgnoreWhitespace).1.tok = .COMMA →
        ((q.scanIgnoreWhitespace).2.scanIgnoreWhitespace).1.tok
          ∉ [Token.IDENT, .STRING, .ASC, .DESC] →
        Returns (fun n => parseSortFields n p)
          (.error { Message := ""
                    Found := if ((q.scanIgnoreWhitespace).2.scanIgnoreWhitespace).1.lit = ""
                      then ((q.scanIgnoreWhitespace).2.scanIgnoreWhitespace).1.tok.String
                      else ((q.scanIgnoreWhitespace).2.scanIgnoreWhitespace).1.lit
                    Expected := ["identifier, ASC, or DESC"]
                    Pos := ((q.scanIgnoreWhitespace).2.scanIgnoreWhitespace).1.pos }))
    ∧ (∀ p0 : Parser,
        (p0.scanIgnoreWhitespace).1.tok ∉ [Token.IDENT, .STRING, .ASC, .DESC] →
        ∀ n, parseSortFields n p0
          = .error { Message := ""
                     Found := if (p0.scanIgnoreWhitespace).1.lit = ""
                       then (p0.scanIgnoreWhitespace).1.tok.String
                       else (p0.scanIgnoreWhitespace).1.lit
                     Expected := ["identifier, ASC, or DESC"]
                     Pos := (p0.scanIgnoreWhitespace).1.pos }) := by
  have herr : ∀ p0 : Parser,
      (p0.scanIgnoreWhitespace).1.tok ∉ [Token.IDENT, .STRING, .ASC, .DESC] →
      parseSortField p0
        = .error { Message := ""
                   Found := if (p0.scanIgnoreWhitespace).1.lit = ""
                     then (p0.scanIgnoreWhitespace).1.tok.String
                     else (p0.scanIgnoreWhitespace).1.lit
                   Expected := ["identifier, ASC, or DESC"]
                   Pos := (p0.scanIgnoreWhitespace).1.pos } := by
    intro p0 h
    simp only [List.mem_cons, List.mem_singleton, List.not_mem_nil, or_false, not_or] at h
    unfold parseSortField
    simp only [h.1, h.2.1, h.2.2.1, h.2.2.2, or_self, if_false, ne_eq, not_false_eq_true,
      and_self, if_true, newParseError, tokstr_eq]
  have hloop : ∀ res : Result (List SortField),
      (∀ r', r'.scanIgnoreWhitespace = q.scanIgnoreWhitespace →
        Returns (fun n => parseSortFieldsLoop n (f.value :: rest.map fun cf => cf.2.value) r')
          res) →
      Returns (fun n => parseSortFields n p) res := by
    intro res hres
    obtain ⟨m, hm, hq⟩ := (Reads_append _ _ p q).mp hread
    have hend : f.endsAt (m.scanIgnoreWhitespace).1.tok :=
      endsAt_before_tail f f rest m q hrest hq hlast (fun _ => rfl)
    obtain ⟨r1, hfield, hr1⟩ := parseSortField_written f p m hf hm hend
    have h := parseSortFieldsLoop_written q res rest [f.value] r1 m f hr1 hrest hq hlast
      (fun r' h' => by simpa using hres r' h')
    obtain ⟨hne, n, hn⟩ := h
    refine ⟨hne, n, fun k hk => ?_⟩
    show parseSortFields k p = res
    unfold parseSortFields
    rw [hfield, Result.bind_ok]
    exact hn k hk
  refine ⟨fun hc => ?_, fun hc hbad => ?_, fun p0 h n => ?_⟩
  · apply hloop
    intro r' hr'
    apply Returns.of_le (fun n => parseSortFieldsLoop_le n _ _) (n := 1) _ (by simp)
    rw [parseSortFieldsLoop, hr']
    simp only [hc, ne_eq, not_false_eq_true, if_true]
  · apply hloop
    intro r' hr'
    apply Returns.of_le (fun n => parseSortFieldsLoop_le n _ _) (n := 1) _ (by simp)
    rw [parseSortFieldsLoop, hr']
    simp only [hc, ne_eq, not_true_eq_false, if_false]
    rw [herr _ hbad, Result.bind_error]
  · unfold parseSortFields
    rw [herr p0 h, Result.bind_error]

/-- C31 at `ASC, field1, field2 DESC` (the fields of the repository's test):
three sort fields, of which only the first is ascending. -/
theorem parseSortFields_written_witness :
    Returns (fun n => parseSortFields n
        { s := { input := tokens_sort_fields, eof := ⟨0, 61⟩, buf := ⟨.BY, ⟨0, 34⟩, ""⟩,
                 n := false } })
      (.ok [{ Name := "", Ascending := true }, { Name := "field1", Ascending := false },
            { Name := "field2", Ascending := false }]
        { s := { input := [], eof := ⟨0, 61⟩, buf := ⟨.EOF, ⟨0, 61⟩, ""⟩, n := true } }) :=
  (parseSortFields_written
    { s := { input := tokens_sort_fields, eof := ⟨0, 61⟩, buf := ⟨.BY, ⟨0, 34⟩, ""⟩,
             n := false } }
    { s := { input := [], eof := ⟨0, 61⟩, buf := ⟨.DESC, ⟨0, 57⟩, ""⟩, n := false } }
    (.bare ⟨.ASC, ⟨0, 37⟩, ""⟩)
    [(⟨.COMMA, ⟨0, 40⟩, ""⟩, .named ⟨.IDENT, ⟨0, 42⟩, "field1"⟩),
     (⟨.COMMA, ⟨0, 48⟩, ""⟩, .namedDir ⟨.IDENT, ⟨0, 50⟩, "field2"⟩ ⟨.DESC, ⟨0, 57⟩, ""⟩)]
    (by decide) (by decide) (by decide) (by decide)).1 (by decide)

/-! ## ParseExpr keeps the order of its input -/

theorem inorder_of_not_binary (x : Expr) (h : ∀ o l r, x ≠ .BinaryExpr o l r) :
    inorder x = [.operand x] ∧ countBinary x = 0 := by
  cases x <;> first | exact ⟨rfl, rfl⟩ | exact absurd rfl (h _ _ _)

/-- The new root keeps the in-order traversal of the tree and appends the new
operator and operand. -/
theorem inorder_assignRoot (e x : Expr) (op : Token) (h : ∀ o l r, x ≠ .BinaryExpr o l r) :
    inorder (assignRoot e op x) = inorder e ++ [.operator op, .operand x]
    ∧ countBinary (assignRoot e op x) = countBinary e + 1 := by
  obtain ⟨hx, hc⟩ := inorder_of_not_binary x h
  by_cases hb : ∃ lop l r, e = .BinaryExpr lop l r
  · obtain ⟨lop, l, r, rfl⟩ := hb
    constructor
    · unfold assignRoot
      by_cases hp : lop.Precedence < op.Precedence
      · simp [hp, inorder, hx]
      · simp [hp, inorder, hx]
    · unfold assignRoot
      by_cases hp : lop.Precedence < op.Precedence
      · simp only [hp, if_true, countBinary, hc]
        omega
      · simp only [hp, if_false, countBinary, hc]
  · have hn : ∀ o l r, e ≠ .BinaryExpr o l r := fun o l r he => hb ⟨o, l, r, he⟩
    rw [assignRoot_of_not_binary e x op hn]
    constructor
    · simp [inorder, hx]
    · simp only [countBinary, hc]

theorem inorder_foldl_assignRoot (rest : List (Token × Expr))
    (h : ∀ ox ∈ rest, ∀ o l r, ox.2 ≠ .BinaryExpr o l r) (e : Expr) :
    inorder (rest.foldl (fun t ox => assignRoot t ox.1 ox.2) e) = inorder e ++ scannedItems rest
    ∧ countBinary (rest.foldl (fun t ox => assignRoot t ox.1 ox.2) e)
        = countBinary e + rest.length := by
  induction rest generalizing e with
  | nil => simp [scannedItems]
  | cons ox rest ih =>
    obtain ⟨h1, h2⟩ := inorder_assignRoot e ox.2 ox.1 (h ox (List.mem_cons_self _ _))
    obtain ⟨h3, h4⟩ := ih (fun y hy => h y (List.mem_cons_of_mem _ hy)) (assignRoot e ox.1 ox.2)
    constructor
    · simp [List.foldl_cons, h3, h1, scannedItems]
    · simp only [List.foldl_cons, h4, h2, List.length_cons]
      omega

/-- The operands of a scanned sequence are not BinaryExpr nodes. -/
theorem Operands_not_binary (go : Stdlib) (p r : Parser) (rest : List (Token × Expr))
    (h : Operands go p rest r) : ∀ ox ∈ rest, ∀ o l r, ox.2 ≠ .BinaryExpr o l r := by
  induction h with
  | nil p => intro ox hox; simp at hox
  | cons p q r x rest _ hx _ ih =>
    intro ox hox
    rcases List.mem_cons.mp hox with rfl | hox
    · obtain ⟨_, n, hn⟩ := hx
      exact parseUnaryExpr_not_binary go n _ q x (hn n le_rfl)
    · exact ih ox hox

/-- What the loop of ParseExpr returns is the fold of a scanned sequence. -/
theorem ParseExprLoop_ok_operands (go : Stdlib) : ∀ (n : Nat) (e e' : Expr) (p p' : Parser),
    ParseExprLoop go n e p = .ok e' p' →
    ∃ rest r, Operands go p rest r
      ∧ (r.scanIgnoreWhitespace).1.tok.isOperator = false
      ∧ e' = rest.foldl (fun t ox => assignRoot t ox.1 ox.2) e
      ∧ p' = (r.scanIgnoreWhitespace).2.unscan
  | 0, e, e', p, p', h => by simp [ParseExprLoop] at h
  | n + 1, e, e', p, p', h => by
    rw [ParseExprLoop] at h
    by_cases hop : (p.scanIgnoreWhitespace).1.tok.isOperator = true
    · simp only [hop, Bool.not_true, Bool.false_eq_true, if_false] at h
      cases hu : parseUnaryExpr go n (p.scanIgnoreWhitespace).2 with
      | ok rhs q =>
        rw [hu] at h
        obtain ⟨rest, r, hrest, hend, he, hp⟩ := ParseExprLoop_ok_operands go n _ e' q p' h
        exact ⟨((p.scanIgnoreWhitespace).1.tok, rhs) :: rest, r,
          .cons p q r rhs rest hop (parseUnaryExpr_returns go hu (by simp)) hrest, hend,
          by simpa using he, hp⟩
      | error err => rw [hu] at h; simp at h
      | outOfFuel => rw [hu] at h; simp at h
    · have hop' : (p.scanIgnoreWhitespace).1.tok.isOperator = false := by simpa using hop
      simp only [hop', Bool.not_false, if_true, Result.ok.injEq] at h
      exact ⟨[], p, .nil p, hop', h.1.symm, h.2.symm⟩

/-- C33: when the tokens read from `p` are an operand `x0` followed by
operators and operands `op1 x1 ... opn xn` and a token that is no operator,
ParseExpr returns a tree whose in-order traversal is `x0 op1 x1 ... opn xn`, in
the order scanned, with exactly `n` BinaryExpr nodes, and the token after `xn`
is pushed back: the next scan returns it again.  And every tree that ParseExpr
returns comes from such a sequence. -/
theorem ParseExpr_keeps_order (go : Stdlib) (p : Parser) :
    (∀ (x0 : Expr) (q r : Parser) (rest : List (Token × Expr)),
      Returns (fun n => parseUnaryExpr go n p) (.ok x0 q) →
      Operands go q rest r →
      (r.scanIgnoreWhitespace).1.tok.isOperator = false →
      Returns (fun n => ParseExpr go n p)
          (.ok (rest.foldl (fun t ox => assignRoot t ox.1 ox.2) x0)
            (r.scanIgnoreWhitespace).2.unscan)
        ∧ inorder (rest.foldl (fun t ox => assignRoot t ox.1 ox.2) x0)
            = .operand x0 :: scannedItems rest
        ∧ countBinary (rest.foldl (fun t ox => assignRoot t ox.1 ox.2) x0) = rest.length
        ∧ ((r.scanIgnoreWhitespace).2.unscan).scan = r.scanIgnoreWhitespace)
    ∧ (∀ (n : Nat) (e : Expr) (p' : Parser), ParseExpr go n p = .ok e p' →
      ∃ (x0 : Expr) (q r : Parser) (rest : List (Token × Expr)),
        Returns (fun n => parseUnaryExpr go n p) (.ok x0 q)
        ∧ Operands go q rest r
        ∧ (r.scanIgnoreWhitespace).1.tok.isOperator = false
        ∧ p' = (r.scanIgnoreWhitespace).2.unscan
        ∧ inorder e = .operand x0 :: scannedItems rest
        ∧ countBinary e = rest.length
        ∧ p'.scan = r.scanIgnoreWhitespace) := by
  have key : ∀ (x0 : Expr) (q r : Parser) (rest : List (Token × Expr)),
      Returns (fun n => parseUnaryExpr go n p) (.ok x0 q) → Operands go q rest r →
      inorder (rest.foldl (fun t ox => assignRoot t ox.1 ox.2) x0)
          = .operand x0 :: scannedItems rest
      ∧ countBinary (rest.foldl (fun t ox => assignRoot t ox.1 ox.2) x0) = rest.length := by
    intro x0 q r rest h0 hrest
    have hx0 : ∀ o l r, x0 ≠ .BinaryExpr o l r := by
      obtain ⟨_, n, hn⟩ := h0
      exact parseUnaryExpr_not_binary go n p q x0 (hn n le_rfl)
    obtain ⟨h1, h2⟩ := inorder_foldl_assignRoot rest (Operands_not_binary go q r rest hrest) x0
    obtain ⟨h3, h4⟩ := inorder_of_not_binary x0 hx0
    rw [h1, h2, h3, h4]
    exact ⟨rfl, by omega⟩
  constructor
  · intro x0 q r rest h0 hrest hend
    obtain ⟨h1, h2⟩ := key x0 q r rest h0 hrest
    exact ⟨ParseExpr_of_loop go x0 p q _ h0 (ParseExprLoop_fold go q r rest hrest hend x0),
      h1, h2, scanIgnoreWhitespace_unscan_scan r⟩
  · intro n e p' h
    cases n with
    | zero => simp [ParseExpr] at h
    | succ n =>
      rw [ParseExpr] at h
      cases hu : parseUnaryExpr go n p with
      | ok x0 q =>
        rw [hu] at h
        obtain ⟨rest, r, hrest, hend, he, hp⟩ := ParseExprLoop_ok_operands go n x0 e q p' h
        have h0 := parseUnaryExpr_returns go hu (by simp)
        obtain ⟨h1, h2⟩ := key x0 q r rest h0 hrest
        refine ⟨x0, q, r, rest, h0, hrest, hend, hp, ?_, ?_, ?_⟩
        · rw [he]; exact h1
        · rw [he]; exact h2
        · rw [hp]; exact scanIgnoreWhitespace_unscan_scan r
      | error err => rw [hu] at h; simp at h
      | outOfFuel => rw [hu] at h; simp at h

/-- C33 at `a = 1 + 2 * 3`: the tree `a = ((1 + 2) * 3)` lists `a = 1 + 2 * 3`
in order and has three BinaryExpr nodes; EOF is pushed back. -/
theorem ParseExpr_keeps_order_witness :
    Returns (fun n => ParseExpr demoLib n (NewParser tokens_a_eq_1_add_2_mul_3 ⟨0, 13⟩))
        (.ok (.BinaryExpr .EQ (.VarRef "a")
            (.BinaryExpr .MUL
              (.BinaryExpr .ADD (.NumberLiteral ⟨0x3FF0000000000000⟩)
                (.NumberLiteral ⟨0x4000000000000000⟩))
              (.NumberLiteral ⟨0x4008000000000000⟩)))
          ⟨⟨[], ⟨0, 13⟩, ⟨.EOF, ⟨0, 13⟩, ""⟩, true⟩⟩)
      ∧ inorder (.BinaryExpr .EQ (.VarRef "a")
            (.BinaryExpr .MUL
              (.BinaryExpr .ADD (.NumberLiteral ⟨0x3FF0000000000000⟩)
                (.NumberLiteral ⟨0x4000000000000000⟩))
              (.NumberLiteral ⟨0x4008000000000000⟩)))
          = [.operand (.VarRef "a"), .operator .EQ,
             .operand (.NumberLiteral ⟨0x3FF0000000000000⟩), .operator .ADD,
             .operand (.NumberLiteral ⟨0x4000000000000000⟩), .operator .MUL,
             .operand (.NumberLiteral ⟨0x4008000000000000⟩)]
      ∧ countBinary (.BinaryExpr .EQ (.VarRef "a")
            (.BinaryExpr .MUL
              (.BinaryExpr .ADD (.NumberLiteral ⟨0x3FF0000000000000⟩)
                (.NumberLiteral ⟨0x4000000000000000⟩))
              (.NumberLiteral ⟨0x4008000000000000⟩))) = 3
      ∧ (⟨⟨[], ⟨0, 13⟩, ⟨.EOF, ⟨0, 13⟩, ""⟩, true⟩⟩ : Parser).scan
          = (⟨.EOF, ⟨0, 13⟩, ""⟩, ⟨⟨[], ⟨0, 13⟩, ⟨.EOF, ⟨0, 13⟩, ""⟩, false⟩⟩) :=
  (ParseExpr_keeps_order demoLib (NewParser tokens_a_eq_1_add_2_mul_3 ⟨0, 13⟩)).1
    (.VarRef "a") _ ⟨⟨[], ⟨0, 13⟩, ⟨.NUMBER, ⟨0, 12⟩, "3"⟩, false⟩⟩
    [(.EQ, .NumberLiteral ⟨0x3FF0000000000000⟩), (.ADD, .NumberLiteral ⟨0x4000000000000000⟩),
      (.MUL, .NumberLiteral ⟨0x4008000000000000⟩)]
    (parseUnaryExpr_returns demoLib (n := 1) rfl (by simp))
    (.cons _ _ _ _ _ rfl (parseUnaryExpr_returns demoLib (n := 1) rfl (by simp))
      (.cons _ _ _ _ _ rfl (parseUnaryExpr_returns demoLib (n := 1) rfl (by simp))
        (.cons _ _ _ _ _ rfl (parseUnaryExpr_returns demoLib (n := 1) rfl (by simp))
          (.nil _))))
    rfl

/-! ## Termination: the tokens that are pending -/

theorem pending_scan (p : Parser) : pending (p.scan).2 ≤ pending p := by
  rcases p with ⟨⟨input, eof, buf, n⟩⟩
  cases n <;> cases input <;> simp [pending, Parser.scan, bufScanner.Scan]

theorem pending_scan_lt (p : Parser) (h : (p.scan).1.tok ≠ .EOF) :
    pending (p.scan).2 < pending p := by
  rcases p with ⟨⟨input, eof, buf, n⟩⟩
  cases n <;> cases input <;> simp_all [pending, Parser.scan, bufScanner.Scan]

theorem pending_scan_unscan (p : Parser) : pending (p.scan).2.unscan ≤ pending p := by
  rcases p with ⟨⟨input, eof, buf, n⟩⟩
  cases n <;> cases input <;>
    simp [pending, Parser.scan, Parser.unscan, bufScanner.Scan, bufScanner.Unscan]
  all_goals split <;> omega

theorem pending_scanIgnoreWhitespace (p : Parser) :
    pending (p.scanIgnoreWhitespace).2 ≤ pending p := by
  unfold Parser.scanIgnoreWhitespace
  split
  · exact le_trans (pending_scan _) (pending_scan p)
  · exact pending_scan p

theorem pending_scanIgnoreWhitespace_lt (p : Parser)
    (h : (p.scanIgnoreWhitespace).1.tok ≠ .EOF) :
    pending (p.scanIgnoreWhitespace).2 < pending p := by
  unfold Parser.scanIgnoreWhitespace at h ⊢
  split
  · rename_i hws
    simp only [hws, if_true] at h
    exact lt_of_lt_of_le (pending_scan_lt _ h) (pending_scan p)
  · rename_i hws
    simp only [hws, if_false] at h
    exact pending_scan_lt p h

theorem pending_scanIgnoreWhitespace_unscan (p : Parser) :
    pending (p.scanIgnoreWhitespace).2.unscan ≤ pending p := by
  unfold Parser.scanIgnoreWhitespace
  split
  · exact le_trans (pending_scan_unscan _) (pending_scan p)
  · exact pending_scan_unscan p

theorem pending_consumeWhitespace (p : Parser) : pending p.consumeWhitespace ≤ pending p := by
  unfold Parser.consumeWhitespace
  split
  · exact pending_scan_unscan p
  · exact pending_scan p

/-! The same facts, below a bound. -/

theorem within_scan {m : Nat} {p : Parser} (h : pending p ≤ m) : pending (p.scan).2 ≤ m :=
  le_trans (pending_scan p) h

theorem within_scan_unscan {m : Nat} {p : Parser} (h : pending p ≤ m) :
    pending (p.scan).2.unscan ≤ m :=
  le_trans (pending_scan_unscan p) h

theorem within_scanIgnoreWhitespace {m : Nat} {p : Parser} (h : pending p ≤ m) :
    pending (p.scanIgnoreWhitespace).2 ≤ m :=
  le_trans (pending_scanIgnoreWhitespace p) h

theorem within_scanIgnoreWhitespace_unscan {m : Nat} {p : Parser} (h : pending p ≤ m) :
    pending (p.scanIgnoreWhitespace).2.unscan ≤ m :=
  le_trans (pending_scanIgnoreWhitespace_unscan p) h

theorem within_consumeWhitespace {m : Nat} {p : Parser} (h : pending p ≤ m) :
    pending p.consumeWhitespace ≤ m :=
  le_trans (pending_consumeWhitespace p) h

theorem Result.within_ok {α : Type} {m : Nat} {v : α} {q : Parser} (h : pending q ≤ m) :
    (Result.ok v q).within m := by
  intro v' q' e
  simp only [Result.ok.injEq] at e
  rw [← e.2]
  exact h

theorem Result.within_error {α : Type} {m : Nat} {e : ParseError} :
    (Result.error e : Result α).within m := by
  intro v q h
  simp at h

theorem Result.within_outOfFuel {α : Type} {m : Nat} :
    (Result.outOfFuel : Result α).within m := by
  intro v q h
  simp at h

theorem Result.within_bind {α β : Type} {m : Nat} {r : Result α} {k : α → Parser → Result β}
    (h1 : r.within m) (h2 : ∀ v q, pending q ≤ m → (k v q).within m) :
    (r.bind k).within m := by
  cases r with
  | ok v q => exact h2 v q (h1 v q rfl)
  | error e => exact Result.within_error
  | outOfFuel => exact Result.within_outOfFuel

theorem Result.within_map {α β : Type} {m : Nat} {r : Result α} (f : α → β)
    (h : r.within m) : (r.map f).within m :=
  Result.within_bind h fun _ _ hq => Result.within_ok hq

theorem Result.settled_ok {α : Type} {m : Nat} {v : α} {q : Parser} (h : pending q ≤ m) :
    (Result.ok v q).settled m :=
  ⟨by simp, Result.within_ok h⟩

theorem Result.settled_error {α : Type} {m : Nat} {e : ParseError} :
    (Result.error e : Result α).settled m :=
  ⟨by simp, Result.within_error⟩

theorem Result.settled_bind {α β : Type} {m : Nat} {r : Result α} {k : α → Parser → Result β}
    (h1 : r.settled m) (h2 : ∀ v q, pending q ≤ m → (k v q).settled m) :
    (r.bind k).settled m := by
  cases r with
  | ok v q => exact h2 v q (h1.2 v q rfl)
  | error e => exact Result.settled_error
  | outOfFuel => exact absurd rfl h1.1

theorem Result.settled_map {α β : Type} {m : Nat} {r : Result α} (f : α → β)
    (h : r.settled m) : (r.map f).settled m :=
  Result.settled_bind h fun _ _ hq => Result.settled_ok hq

/-! ## Termination: the statement parsers without a bound -/

set_option linter.unusedTactic false
set_option linter.unreachableTactic false

theorem parseTokens_settled : ∀ (toks : List Token) {m : Nat} {p : Parser}, pending p ≤ m →
    (parseTokens toks p).settled m
  | [], m, p, h => by
    unfold parseTokens
    exact Result.settled_ok h
  | expected :: toks, m, p, h => by
    unfold parseTokens
    repeat' first
      | assumption
      | with_reducible exact Result.settled_error
      | with_reducible apply Result.settled_ok
      | with_reducible apply Result.settled_bind
      | with_reducible apply Result.settled_map
      | with_reducible apply parseTokens_settled toks
      | with_reducible apply within_scanIgnoreWhitespace_unscan
      | with_reducible apply within_scan_unscan
      | with_reducible apply within_scanIgnoreWhitespace
      | with_reducible apply within_scan
      | with_reducible apply within_consumeWhitespace
      | dsimp only
      | split
      | intro _

theorem parseInt_settled (go : Stdlib) (min max : Int) {m : Nat} {p : Parser}
    (h : pending p ≤ m) : (parseInt go min max p).settled m := by
  unfold parseInt
  repeat' first
    | assumption
    | with_reducible exact Result.settled_error
    | with_reducible apply Result.settled_ok
    | with_reducible apply Result.settled_bind
    | with_reducible apply Result.settled_map
    | with_reducible apply within_scanIgnoreWhitespace_unscan
    | with_reducible apply within_scan_unscan
    | with_reducible apply within_scanIgnoreWhitespace
    | with_reducible apply within_scan
    | with_reducible apply within_consumeWhitespace
    | dsimp only
    | split
    | intro _

theorem parseDuration_settled {m : Nat} {p : Parser}
    (h : pending p ≤ m) : (parseDuration p).settled m := by
  unfold parseDuration
  repeat' first
    | assumption
    | with_reducible exact Result.settled_error
    | with_reducible apply Result.settled_ok
    | with_reducible apply Result.settled_bind
    | with_reducible apply Result.settled_map
    | with_reducible apply within_scanIgnoreWhitespace_unscan
    | with_reducible apply within_scan_unscan
    | with_reducible apply within_scanIgnoreWhitespace
    | with_reducible apply within_scan
    | with_reducible apply within_consumeWhitespace
    | dsimp only
    | split
    | intro _

theorem parseIdentifier_settled {m : Nat} {p : Parser}
    (h : pending p ≤ m) : (parseIdentifier p).settled m := by
  unfold parseIdentifier
  repeat' first
    | assumption
    | with_reducible exact Result.settled_error
    | with_reducible apply Result.settled_ok
    | with_reducible apply Result.settled_bind
    | with_reducible apply Result.settled_map
    | with_reducible apply within_scanIgnoreWhitespace_unscan
    | with_reducible apply within_scan_unscan
    | with_reducible apply within_scanIgnoreWhitespace
    | with_reducible apply within_scan
    | with_reducible apply within_consumeWhitespace
    | dsimp only
    | split
    | intro _

theorem parseCreateRetentionPolicyStatement_settled (go : Stdlib) {m : Nat} {p : Parser}
    (h : pending p ≤ m) : (parseCreateRetentionPolicyStatement go p).settled m := by
  unfold parseCreateRetentionPolicyStatement
  repeat' first
    | assumption
    | with_reducible exact Result.settled_error
    | with_reducible apply Result.settled_ok
    | with_reducible apply Result.settled_bind
    | with_reducible apply Result.settled_map
    | with_reducible apply parseInt_settled
    | with_reducible apply parseDuration_settled
    | with_reducible apply parseIdentifier_settled
    | with_reducible apply within_scanIgnoreWhitespace_unscan
    | with_reducible apply within_scan_unscan
    | with_reducible apply within_scanIgnoreWhitespace
    | with_reducible apply within_scan
    | with_reducible apply within_consumeWhitespace
    | dsimp only
    | split
    | intro _

theorem parseAlterOptions_settled (go : Stdlib) : ∀ (k i : Nat)
    (stmt : AlterRetentionPolicyStatement) {m : Nat} {p : Parser}, pending p ≤ m →
    (parseAlterOptions go k i stmt p).settled m
  | 0, i, stmt, m, p, h => by
    unfold parseAlterOptions
    exact Result.settled_ok h
  | k + 1, i, stmt, m, p, h => by
    unfold parseAlterOptions
    repeat' first
      | assumption
      | with_reducible exact Result.settled_error
      | with_reducible apply Result.settled_ok
      | with_reducible apply Result.settled_bind
      | with_reducible apply Result.settled_map
      | with_reducible apply parseAlterOptions_settled go k
      | with_reducible apply parseInt_settled
      | with_reducible apply parseDuration_settled
      | with_reducible apply within_scanIgnoreWhitespace_unscan
      | with_reducible apply within_scan_unscan
      | with_reducible apply within_scanIgnoreWhitespace
      | with_reducible apply within_scan
      | with_reducible apply within_consumeWhitespace
      | dsimp only
      | split
      | intro _

theorem parseAlterRetentionPolicyStatement_settled (go : Stdlib) {m : Nat} {p : Parser}
    (h : pending p ≤ m) : (parseAlterRetentionPolicyStatement go p).settled m := by
  unfold parseAlterRetentionPolicyStatement
  repeat' first
    | assumption
    | with_reducible exact Result.settled_error
    | with_reducible apply Result.settled_ok
    | with_reducible apply Result.settled_bind
    | with_reducible apply Result.settled_map
    | with_reducible apply parseIdentifier_settled
    | with_reducible apply parseAlterOptions_settled
    | with_reducible apply within_scanIgnoreWhitespace_unscan
    | with_reducible apply within_scan_unscan
    | with_reducible apply within_scanIgnoreWhitespace
    | with_reducible apply within_scan
    | with_reducible apply within_consumeWhitespace
    | dsimp only
    | split
    | intro _

theorem parsePrivilege_settled {m : Nat} {p : Parser}
    (h : pending p ≤ m) : (parsePrivilege p).settled m := by
  unfold parsePrivilege
  repeat' first
    | assumption
    | with_reducible exact Result.settled_error
    | with_reducible apply Result.settled_ok
    | with_reducible apply Result.settled_bind
    | with_reducible apply Result.settled_map
    | with_reducible apply within_scanIgnoreWhitespace_unscan
    | with_reducible apply within_scan_unscan
    | with_reducible apply within_scanIgnoreWhitespace
    | with_reducible apply within_scan
    | with_reducible apply within_consumeWhitespace
    | dsimp only
    | split
    | intro _

theorem parseOnClause_settled (priv : Privilege) {m : Nat} {p : Parser}
    (h : pending p ≤ m) : (parseOnClause priv p).settled m := by
  unfold parseOnClause
  repeat' first
    | assumption
    | with_reducible exact Result.settled_error
    | with_reducible apply Result.settled_ok
    | with_reducible apply Result.settled_bind
    | with_reducible apply Result.settled_map
    | with_reducible apply within_scanIgnoreWhitespace_unscan
    | with_reducible apply within_scan_unscan
    | with_reducible apply within_scanIgnoreWhitespace
    | with_reducible apply within_scan
    | with_reducible apply within_consumeWhitespace
    | dsimp only
    | split
    | intro _

theorem parseRevokeStatement_settled {m : Nat} {p : Parser}
    (h : pending p ≤ m) : (parseRevokeStatement p).settled m := by
  unfold parseRevokeStatement
  repeat' first
    | assumption
    | with_reducible exact Result.settled_error
    | with_reducible apply Result.settled_ok
    | with_reducible apply Result.settled_bind
    | with_reducible apply Result.settled_map
    | with_reducible apply parsePrivilege_settled
    | with_reducible apply parseOnClause_settled
    | with_reducible apply within_scanIgnoreWhitespace_unscan
    | with_reducible apply within_scan_unscan
    | with_reducible apply within_scanIgnoreWhitespace
    | with_reducible apply within_scan
    | with_reducible apply within_consumeWhitespace
    | dsimp only
    | split
    | intro _

theorem parseGrantStatement_settled {m : Nat} {p : Parser}
    (h : pending p ≤ m) : (parseGrantStatement p).settled m := by
  unfold parseGrantStatement
  repeat' first
    | assumption
    | with_reducible exact Result.settled_error
    | with_reducible apply Result.settled_ok
    | with_reducible apply Result.settled_bind
    | with_reducible apply Result.settled_map
    | with_reducible apply parsePrivilege_settled
    | with_reducible apply parseOnClause_settled
    | with_reducible apply within_scanIgnoreWhitespace_unscan
    | with_reducible apply within_scan_unscan
    | with_reducible apply within_scanIgnoreWhitespace
    | with_reducible apply within_scan
    | with_reducible apply within_consumeWhitespace
    | dsimp only
    | split
    | intro _

theorem parseTarget_settled (tr : targetRequirement) {m : Nat} {p : Parser}
    (h : pending p ≤ m) : (parseTarget tr p).settled m := by
  unfold parseTarget
  repeat' first
    | assumption
    | with_reducible exact Result.settled_error
    | with_reducible apply Result.settled_ok
    | with_reducible apply Result.settled_bind
    | with_reducible apply Result.settled_map
    | with_reducible apply parseIdentifier_settled
    | with_reducible apply within_scanIgnoreWhitespace_unscan
    | with_reducible apply within_scan_unscan
    | with_reducible apply within_scanIgnoreWhitespace
    | with_reducible apply within_scan
    | with_reducible apply within_consumeWhitespace
    | dsimp only
    | split
    | intro _

theorem parseAlias_settled {m : Nat} {p : Parser}
    (h : pending p ≤ m) : (parseAlias p).settled m := by
  unfold parseAlias
  repeat' first
    | assumption
    | with_reducible exact Result.settled_error
    | with_reducible apply Result.settled_ok
    | with_reducible apply Result.settled_bind
    | with_reducible apply Result.settled_map
    | with_reducible apply within_scanIgnoreWhitespace_unscan
    | with_reducible apply within_scan_unscan
    | with_reducible apply within_scanIgnoreWhitespace
    | with_reducible apply within_scan
    | with_reducible apply within_consumeWhitespace
    | dsimp only
    | split
    | intro _

theorem parseLimit_settled {m : Nat} {p : Parser}
    (h : pending p ≤ m) : (parseLimit p).settled m := by
  unfold parseLimit
  repeat' first
    | assumption
    | with_reducible exact Result.settled_error
    | with_reducible apply Result.settled_ok
    | with_reducible apply Result.settled_bind
    | with_reducible apply Result.settled_map
    | with_reducible apply within_scanIgnoreWhitespace_unscan
    | with_reducible apply within_scan_unscan
    | with_reducible apply within_scanIgnoreWhitespace
    | with_reducible apply within_scan
    | with_reducible apply within_consumeWhitespace
    | dsimp only
    | split
    | intro _

theorem parseSortField_settled {m : Nat} {p : Parser}
    (h : pending p ≤ m) : (parseSortField p).settled m := by
  unfold parseSortField
  repeat' first
    | assumption
    | with_reducible exact Result.settled_error
    | with_reducible apply Result.settled_ok
    | with_reducible apply Result.settled_bind
    | with_reducible apply Result.settled_map
    | with_reducible apply within_scanIgnoreWhitespace_unscan
    | with_reducible apply within_scan_unscan
    | with_reducible apply within_scanIgnoreWhitespace
    | with_reducible apply within_scan
    | with_reducible apply within_consumeWhitespace
    | dsimp only
    | split
    | intro _

theorem parseDropSeriesStatement_settled {m : Nat} {p : Parser}
    (h : pending p ≤ m) : (parseDropSeriesStatement p).settled m := by
  unfold parseDropSeriesStatement
  repeat' first
    | assumption
    | with_reducible exact Result.settled_error
    | with_reducible apply Result.settled_ok
    | with_reducible apply Result.settled_bind
    | with_reducible apply Result.settled_map
    | with_reducible apply within_scanIgnoreWhitespace_unscan
    | with_reducible apply within_scan_unscan
    | with_reducible apply within_scanIgnoreWhitespace
    | with_reducible apply within_scan
    | with_reducible apply within_consumeWhitespace
    | dsimp only
    | split
    | intro _

theorem parseListContinuousQueriesStatement_settled {m : Nat} {p : Parser}
    (h : pending p ≤ m) : (parseListContinuousQueriesStatement p).settled m := by
  unfold parseListContinuousQueriesStatement
  repeat' first
    | assumption
    | with_reducible exact Result.settled_error
    | with_reducible apply Result.settled_ok
    | with_reducible apply Result.settled_bind
    | with_reducible apply Result.settled_map
    | with_reducible apply within_scanIgnoreWhitespace_unscan
    | with_reducible apply within_scan_unscan
    | with_reducible apply within_scanIgnoreWhitespace
    | with_reducible apply within_scan
    | with_reducible apply within_consumeWhitespace
    | dsimp only
    | split
    | intro _

theorem parseListDatabasesStatement_settled {m : Nat} {p : Parser}
    (h : pending p ≤ m) : (parseListDatabasesStatement p).settled m :=
  Result.settled_ok h

theorem parseCreateDatabaseStatement_settled {m : Nat} {p : Parser}
    (h : pending p ≤ m) : (parseCreateDatabaseStatement p).settled m := by
  unfold parseCreateDatabaseStatement
  repeat' first
    | assumption
    | with_reducible exact Result.settled_error
    | with_reducible apply Result.settled_ok
    | with_reducible apply Result.settled_bind
    | with_reducible apply Result.settled_map
    | with_reducible apply within_scanIgnoreWhitespace_unscan
    | with_reducible apply within_scan_unscan
    | with_reducible apply within_scanIgnoreWhitespace
    | with_reducible apply within_scan
    | with_reducible apply within_consumeWhitespace
    | dsimp only
    | split
    | intro _

theorem parseDropDatabaseStatement_settled {m : Nat} {p : Parser}
    (h : pending p ≤ m) : (parseDropDatabaseStatement p).settled m := by
  unfold parseDropDatabaseStatement
  repeat' first
    | assumption
    | with_reducible exact Result.settled_error
    | with_reducible apply Result.settled_ok
    | with_reducible apply Result.settled_bind
    | with_reducible apply Result.settled_map
    | with_reducible apply within_scanIgnoreWhitespace_unscan
    | with_reducible apply within_scan_unscan
    | with_reducible apply within_scanIgnoreWhitespace
    | with_reducible apply within_scan
    | with_reducible apply within_consumeWhitespace
    | dsimp only
    | split
    | intro _

theorem parseCreateUserStatement_settled {m : Nat} {p : Parser}
    (h : pending p ≤ m) : (parseCreateUserStatement p).settled m := by
  unfold parseCreateUserStatement
  repeat' first
    | assumption
    | with_reducible exact Result.settled_error
    | with_reducible apply Result.settled_ok
    | with_reducible apply Result.settled_bind
    | with_reducible apply Result.settled_map
    | with_reducible apply parseTokens_settled
    | with_reducible apply within_scanIgnoreWhitespace_unscan
    | with_reducible apply within_scan_unscan
    | with_reducible apply within_scanIgnoreWhitespace
    | with_reducible apply within_scan
    | with_reducible apply within_consumeWhitespace
    | dsimp only
    | split
    | intro _

theorem parseDropUserStatement_settled {m : Nat} {p : Parser}
    (h : pending p ≤ m) : (parseDropUserStatement p).settled m := by
  unfold parseDropUserStatement
  repeat' first
    | assumption
    | with_reducible exact Result.settled_error
    | with_reducible apply Result.settled_ok
    | with_reducible apply Result.settled_bind
    | with_reducible apply Result.settled_map
    | with_reducible apply within_scanIgnoreWhitespace_unscan
    | with_reducible apply within_scan_unscan
    | with_reducible apply within_scanIgnoreWhitespace
    | with_reducible apply within_scan
    | with_reducible apply within_consumeWhitespace
    | dsimp only
    | split
    | intro _

theorem parseDropContinuousQueryStatement_settled {m : Nat} {p : Parser}
    (h : pending p ≤ m) : (parseDropContinuousQueryStatement p).settled m := by
  unfold parseDropContinuousQueryStatement
  repeat' first
    | assumption
    | with_reducible exact Result.settled_error
    | with_reducible apply Result.settled_ok
    | with_reducible apply Result.settled_bind
    | with_reducible apply Result.settled_map
    | with_reducible apply within_scanIgnoreWhitespace_unscan
    | with_reducible apply within_scan_unscan
    | with_reducible apply within_scanIgnoreWhitespace
    | with_reducible apply within_scan
    | with_reducible apply within_consumeWhitespace
    | dsimp only
    | split
    | intro _

theorem parseDropStatement_settled {m : Nat} {p : Parser}
    (h : pending p ≤ m) : (parseDropStatement p).settled m := by
  unfold parseDropStatement
  repeat' first
    | assumption
    | with_reducible exact Result.settled_error
    | with_reducible apply Result.settled_ok
    | with_reducible apply Result.settled_bind
    | with_reducible apply Result.settled_map
    | with_reducible apply parseDropSeriesStatement_settled
    | with_reducible apply parseDropDatabaseStatement_settled
    | with_reducible apply parseDropUserStatement_settled
    | with_reducible apply parseDropContinuousQueryStatement_settled
    | with_reducible apply within_scanIgnoreWhitespace_unscan
    | with_reducible apply within_scan_unscan
    | with_reducible apply within_scanIgnoreWhitespace
    | with_reducible apply within_scan
    | with_reducible apply within_consumeWhitespace
    | dsimp only
    | split
    | intro _

theorem parseAlterStatement_settled (go : Stdlib) {m : Nat} {p : Parser}
    (h : pending p ≤ m) : (parseAlterStatement go p).settled m := by
  unfold parseAlterStatement
  repeat' first
    | assumption
    | with_reducible exact Result.settled_error
    | with_reducible apply Result.settled_ok
    | with_reducible apply Result.settled_bind
    | with_reducible apply Result.settled_map
    | with_reducible apply parseAlterRetentionPolicyStatement_settled
    | with_reducible apply within_scanIgnoreWhitespace_unscan
    | with_reducible apply within_scan_unscan
    | with_reducible apply within_scanIgnoreWhitespace
    | with_reducible apply within_scan
    | with_reducible apply within_consumeWhitespace
    | dsimp only
    | split
    | intro _

/-! The same, for the tokens alone. -/

theorem parseInt_within (go : Stdlib) (min max : Int) {m : Nat} {p : Parser}
    (h : pending p ≤ m) : (parseInt go min max p).within m :=
  (parseInt_settled go min max h).2

theorem parseDuration_within {m : Nat} {p : Parser}
    (h : pending p ≤ m) : (parseDuration p).within m :=
  (parseDuration_settled h).2

theorem parseIdentifier_within {m : Nat} {p : Parser}
    (h : pending p ≤ m) : (parseIdentifier p).within m :=
  (parseIdentifier_settled h).2

theorem parseCreateRetentionPolicyStatement_within (go : Stdlib) {m : Nat} {p : Parser}
    (h : pending p ≤ m) : (parseCreateRetentionPolicyStatement go p).within m :=
  (parseCreateRetentionPolicyStatement_settled go h).2

theorem parseAlterRetentionPolicyStatement_within (go : Stdlib) {m : Nat} {p : Parser}
    (h : pending p ≤ m) : (parseAlterRetentionPolicyStatement go p).within m :=
  (parseAlterRetentionPolicyStatement_settled go h).2

theorem parsePrivilege_within {m : Nat} {p : Parser}
    (h : pending p ≤ m) : (parsePrivilege p).within m :=
  (parsePrivilege_settled h).2

theorem parseOnClause_within (priv : Privilege) {m : Nat} {p : Parser}
    (h : pending p ≤ m) : (parseOnClause priv p).within m :=
  (parseOnClause_settled priv h).2

theorem parseRevokeStatement_within {m : Nat} {p : Parser}
    (h : pending p ≤ m) : (parseRevokeStatement p).within m :=
  (parseRevokeStatement_settled h).2

theorem parseGrantStatement_within {m : Nat} {p : Parser}
    (h : pending p ≤ m) : (parseGrantStatement p).within m :=
  (parseGrantStatement_settled h).2

theorem parseTarget_within (tr : targetRequirement) {m : Nat} {p : Parser}
    (h : pending p ≤ m) : (parseTarget tr p).within m :=
  (parseTarget_settled tr h).2

theorem parseAlias_within {m : Nat} {p : Parser}
    (h : pending p ≤ m) : (parseAlias p).within m :=
  (parseAlias_settled h).2

theorem parseLimit_within {m : Nat} {p : Parser}
    (h : pending p ≤ m) : (parseLimit p).within m :=
  (parseLimit_settled h).2

theorem parseSortField_within {m : Nat} {p : Parser}
    (h : pending p ≤ m) : (parseSortField p).within m :=
  (parseSortField_settled h).2

theorem parseDropSeriesStatement_within {m : Nat} {p : Parser}
    (h : pending p ≤ m) : (parseDropSeriesStatement p).within m :=
  (parseDropSeriesStatement_settled h).2

theorem parseListContinuousQueriesStatement_within {m : Nat} {p : Parser}
    (h : pending p ≤ m) : (parseListContinuousQueriesStatement p).within m :=
  (parseListContinuousQueriesStatement_settled h).2

theorem parseListDatabasesStatement_within {m : Nat} {p : Parser}
    (h : pending p ≤ m) : (parseListDatabasesStatement p).within m :=
  (parseListDatabasesStatement_settled h).2

theorem parseCreateDatabaseStatement_within {m : Nat} {p : Parser}
    (h : pending p ≤ m) : (parseCreateDatabaseStatement p).within m :=
  (parseCreateDatabaseStatement_settled h).2

theorem parseDropDatabaseStatement_within {m : Nat} {p : Parser}
    (h : pending p ≤ m) : (parseDropDatabaseStatement p).within m :=
  (parseDropDatabaseStatement_settled h).2

theorem parseCreateUserStatement_within {m : Nat} {p : Parser}
    (h : pending p ≤ m) : (parseCreateUserStatement p).within m :=
  (parseCreateUserStatement_settled h).2

theorem parseDropUserStatement_within {m : Nat} {p : Parser}
    (h : pending p ≤ m) : (parseDropUserStatement p).within m :=
  (parseDropUserStatement_settled h).2

theorem parseDropContinuousQueryStatement_within {m : Nat} {p : Parser}
    (h : pending p ≤ m) : (parseDropContinuousQueryStatement p).within m :=
  (parseDropContinuousQueryStatement_settled h).2

theorem parseDropStatement_within {m : Nat} {p : Parser}
    (h : pending p ≤ m) : (parseDropStatement p).within m :=
  (parseDropStatement_settled h).2

theorem parseAlterStatement_within (go : Stdlib) {m : Nat} {p : Parser}
    (h : pending p ≤ m) : (parseAlterStatement go p).within m :=
  (parseAlterStatement_settled go h).2

theorem parseTokens_within (toks : List Token) {m : Nat} {p : Parser}
    (h : pending p ≤ m) : (parseTokens toks p).within m :=
  (parseTokens_settled toks h).2

theorem Result.within_of_settled {α : Type} {m : Nat} {r : Result α} (h : r.settled m) :
    r.within m := h.2

/-! ## Termination: the expression parser never gives tokens back -/

theorem expr_within (go : Stdlib) : ∀ n : Nat,
    (∀ (p : Parser) (m : Nat), pending p ≤ m → (ParseExpr go n p).within m)
    ∧ (∀ (e : Expr) (p : Parser) (m : Nat), pending p ≤ m →
        (ParseExprLoop go n e p).within m)
    ∧ (∀ (p : Parser) (m : Nat), pending p ≤ m → (parseUnaryExpr go n p).within m)
    ∧ (∀ (name : String) (p : Parser) (m : Nat), pending p ≤ m →
        (parseCall go n name p).within m)
    ∧ (∀ (name : String) (args : List Expr) (p : Parser) (m : Nat), pending p ≤ m →
        (parseCallArgs go n name args p).within m)
  | 0 => by
    simp only [ParseExpr, ParseExprLoop, parseUnaryExpr, parseCall, parseCallArgs]
    exact ⟨fun _ _ _ => Result.within_outOfFuel, fun _ _ _ _ => Result.within_outOfFuel,
      fun _ _ _ => Result.within_outOfFuel, fun _ _ _ _ => Result.within_outOfFuel,
      fun _ _ _ _ _ => Result.within_outOfFuel⟩
  | n + 1 => by
    obtain ⟨hE, hL, hU, hC, hA⟩ := expr_within go n
    have hE' : ∀ {p q : Parser} {v : Expr} {m : Nat}, ParseExpr go n p = .ok v q →
        pending p ≤ m → pending q ≤ m := fun h hm => hE _ _ hm _ _ h
    have hU' : ∀ {p q : Parser} {v : Expr} {m : Nat}, parseUnaryExpr go n p = .ok v q →
        pending p ≤ m → pending q ≤ m := fun h hm => hU _ _ hm _ _ h
    refine ⟨?_, ?_, ?_, ?_, ?_⟩
    · intro p m h
      rw [ParseExpr]
      repeat' first
        | assumption
        | with_reducible exact Result.within_error
        | with_reducible exact Result.within_outOfFuel
        | with_reducible apply Result.within_ok
        | with_reducible apply hE
        | with_reducible apply hL
        | with_reducible apply hU
        | with_reducible apply hC
        | with_reducible apply hA
        | with_reducible refine hE' (by assumption) ?_
        | with_reducible refine hU' (by assumption) ?_
        | with_reducible apply within_scanIgnoreWhitespace_unscan
        | with_reducible apply within_scan_unscan
        | with_reducible apply within_scanIgnoreWhitespace
        | with_reducible apply within_scan
        | dsimp only
        | split
        | intro _
    · intro e p m h
      rw [ParseExprLoop]
      repeat' first
        | assumption
        | with_reducible exact Result.within_error
        | with_reducible exact Result.within_outOfFuel
        | with_reducible apply Result.within_ok
        | with_reducible apply hE
        | with_reducible apply hL
        | with_reducible apply hU
        | with_reducible apply hC
        | with_reducible apply hA
        | with_reducible refine hE' (by assumption) ?_
        | with_reducible refine hU' (by assumption) ?_
        | with_reducible apply within_scanIgnoreWhitespace_unscan
        | with_reducible apply within_scan_unscan
        | with_reducible apply within_scanIgnoreWhitespace
        | with_reducible apply within_scan
        | dsimp only
        | split
        | intro _
    · intro p m h
      rw [parseUnaryExpr]
      repeat' first
        | assumption
        | with_reducible exact Result.within_error
        | with_reducible exact Result.within_outOfFuel
        | with_reducible apply Result.within_ok
        | with_reducible apply hE
        | with_reducible apply hL
        | with_reducible apply hU
        | with_reducible apply hC
        | with_reducible apply hA
        | with_reducible refine hE' (by assumption) ?_
        | with_reducible refine hU' (by assumption) ?_
        | with_reducible apply within_scanIgnoreWhitespace_unscan
        | with_reducible apply within_scan_unscan
        | with_reducible apply within_scanIgnoreWhitespace
        | with_reducible apply within_scan
        | dsimp only
        | split
        | intro _
    · intro name p m h
      rw [parseCall]
      repeat' first
        | assumption
        | with_reducible exact Result.within_error
        | with_reducible exact Result.within_outOfFuel
        | with_reducible apply Result.within_ok
        | with_reducible apply hE
        | with_reducible apply hL
        | with_reducible apply hU
        | with_reducible apply hC
        | with_reducible apply hA
        | with_reducible refine hE' (by assumption) ?_
        | with_reducible refine hU' (by assumption) ?_
        | with_reducible apply within_scanIgnoreWhitespace_unscan
        | with_reducible apply within_scan_unscan
        | with_reducible apply within_scanIgnoreWhitespace
        | with_reducible apply within_scan
        | dsimp only
        | split
        | intro _
    · intro name args p m h
      rw [parseCallArgs]
      repeat' first
        | assumption
        | with_reducible exact Result.within_error
        | with_reducible exact Result.within_outOfFuel
        | with_reducible apply Result.within_ok
        | with_reducible apply hE
        | with_reducible apply hL
        | with_reducible apply hU
        | with_reducible apply hC
        | with_reducible apply hA
        | with_reducible refine hE' (by assumption) ?_
        | with_reducible refine hU' (by assumption) ?_
        | with_reducible apply within_scanIgnoreWhitespace_unscan
        | with_reducible apply within_scan_unscan
        | with_reducible apply within_scanIgnoreWhitespace
        | with_reducible apply within_scan
        | dsimp only
        | split
        | intro _

theorem ParseExpr_within (go : Stdlib) (n : Nat) {m : Nat} {p : Parser} (h : pending p ≤ m) :
    (ParseExpr go n p).within m :=
  (expr_within go n).1 p m h

/-! ## Termination: the statement parsers never give tokens back -/

theorem parseField_within (go : Stdlib) (n : Nat) {m : Nat} {p : Parser}
    (h : pending p ≤ m) : (parseField go n p).within m := by
  unfold parseField
  repeat' first
    | assumption
    | with_reducible exact Result.within_error
    | with_reducible exact Result.within_outOfFuel
    | with_reducible apply Result.within_ok
    | with_reducible apply Result.within_bind
    | with_reducible apply Result.within_map
    | with_reducible apply ParseExpr_within
    | with_reducible apply parseAlias_within
    | with_reducible apply within_scanIgnoreWhitespace_unscan
    | with_reducible apply within_scan_unscan
    | with_reducible apply within_scanIgnoreWhitespace
    | with_reducible apply within_scan
    | with_reducible apply within_consumeWhitespace
    | dsimp only
    | split
    | intro _

theorem parseFieldsLoop_within (go : Stdlib) : ∀ (n : Nat) (fields : List Field) {m : Nat} {p : Parser},
    pending p ≤ m → (parseFieldsLoop go n fields p).within m
  | 0, fields, m, p, h => by
    unfold parseFieldsLoop
    exact Result.within_outOfFuel
  | n + 1, fields, m, p, h => by
    unfold parseFieldsLoop
    repeat' first
      | assumption
      | with_reducible exact Result.within_error
      | with_reducible exact Result.within_outOfFuel
      | with_reducible apply Result.within_ok
      | with_reducible apply Result.within_bind
      | with_reducible apply Result.within_map
      | with_reducible apply parseFieldsLoop_within go n
      | with_reducible apply parseField_within
      | with_reducible apply within_scanIgnoreWhitespace_unscan
      | with_reducible apply within_scan_unscan
      | with_reducible apply within_scanIgnoreWhitespace
      | with_reducible apply within_scan
      | with_reducible apply within_consumeWhitespace
      | dsimp only
      | split
      | intro _

theorem parseFields_within (go : Stdlib) (n : Nat) {m : Nat} {p : Parser}
    (h : pending p ≤ m) : (parseFields go n p).within m := by
  unfold parseFields
  repeat' first
    | assumption
    | with_reducible exact Result.within_error
    | with_reducible exact Result.within_outOfFuel
    | with_reducible apply Result.within_ok
    | with_reducible apply Result.within_bind
    | with_reducible apply Result.within_map
    | with_reducible apply parseFieldsLoop_within
    | with_reducible apply within_scanIgnoreWhitespace_unscan
    | with_reducible apply within_scan_unscan
    | with_reducible apply within_scanIgnoreWhitespace
    | with_reducible apply within_scan
    | with_reducible apply within_consumeWhitespace
    | dsimp only
    | split
    | intro _

theorem parseSourceMeasurements_within : ∀ (n : Nat) (measurements : List Measurement) {m : Nat} {p : Parser},
    pending p ≤ m → (parseSourceMeasurements n measurements p).within m
  | 0, measurements, m, p, h => by
    unfold parseSourceMeasurements
    exact Result.within_outOfFuel
  | n + 1, measurements, m, p, h => by
    unfold parseSourceMeasurements
    repeat' first
      | assumption
      | with_reducible exact Result.within_error
      | with_reducible exact Result.within_outOfFuel
      | with_reducible apply Result.within_ok
      | with_reducible apply Result.within_bind
      | with_reducible apply Result.within_map
      | with_reducible apply parseSourceMeasurements_within n
      | with_reducible apply within_scanIgnoreWhitespace_unscan
      | with_reducible apply within_scan_unscan
      | with_reducible apply within_scanIgnoreWhitespace
      | with_reducible apply within_scan
      | with_reducible apply within_consumeWhitespace
      | dsimp only
      | split
      | intro _

theorem parseSource_within (n : Nat) {m : Nat} {p : Parser}
    (h : pending p ≤ m) : (parseSource n p).within m := by
  unfold parseSource
  repeat' first
    | assumption
    | with_reducible exact Result.within_error
    | with_reducible exact Result.within_outOfFuel
    | with_reducible apply Result.within_ok
    | with_reducible apply Result.within_bind
    | with_reducible apply Result.within_map
    | with_reducible apply parseSourceMeasurements_within
    | with_reducible apply within_scanIgnoreWhitespace_unscan
    | with_reducible apply within_scan_unscan
    | with_reducible apply within_scanIgnoreWhitespace
    | with_reducible apply within_scan
    | with_reducible apply within_consumeWhitespace
    | dsimp only
    | split
    | intro _

theorem parseCondition_within (go : Stdlib) (n : Nat) {m : Nat} {p : Parser}
    (h : pending p ≤ m) : (parseCondition go n p).within m := by
  unfold parseCondition
  repeat' first
    | assumption
    | with_reducible exact Result.within_error
    | with_reducible exact Result.within_outOfFuel
    | with_reducible apply Result.within_ok
    | with_reducible apply Result.within_bind
    | with_reducible apply Result.within_map
    | with_reducible apply ParseExpr_within
    | with_reducible apply within_scanIgnoreWhitespace_unscan
    | with_reducible apply within_scan_unscan
    | with_reducible apply within_scanIgnoreWhitespace
    | with_reducible apply within_scan
    | with_reducible apply within_consumeWhitespace
    | dsimp only
    | split
    | intro _

theorem parseDimension_within (go : Stdlib) (n : Nat) {m : Nat} {p : Parser}
    (h : pending p ≤ m) : (parseDimension go n p).within m := by
  unfold parseDimension
  repeat' first
    | assumption
    | with_reducible exact Result.within_error
    | with_reducible exact Result.within_outOfFuel
    | with_reducible apply Result.within_ok
    | with_reducible apply Result.within_bind
    | with_reducible apply Result.within_map
    | with_reducible apply ParseExpr_within
    | with_reducible apply within_scanIgnoreWhitespace_unscan
    | with_reducible apply within_scan_unscan
    | with_reducible apply within_scanIgnoreWhitespace
    | with_reducible apply within_scan
    | with_reducible apply within_consumeWhitespace
    | dsimp only
    | split
    | intro _

theorem parseDimensionsLoop_within (go : Stdlib) : ∀ (n : Nat) (dimensions : List Dimension) {m : Nat} {p : Parser},
    pending p ≤ m → (parseDimensionsLoop go n dimensions p).within m
  | 0, dimensions, m, p, h => by
    unfold parseDimensionsLoop
    exact Result.within_outOfFuel
  | n + 1, dimensions, m, p, h => by
    unfold parseDimensionsLoop
    repeat' first
      | assumption
      | with_reducible exact Result.within_error
      | with_reducible exact Result.within_outOfFuel
      | with_reducible apply Result.within_ok
      | with_reducible apply Result.within_bind
      | with_reducible apply Result.within_map
      | with_reducible apply parseDimensionsLoop_within go n
      | with_reducible apply parseDimension_within
      | with_reducible apply within_scanIgnoreWhitespace_unscan
      | with_reducible apply within_scan_unscan
      | with_reducible apply within_scanIgnoreWhitespace
      | with_reducible apply within_scan
      | with_reducible apply within_consumeWhitespace
      | dsimp only
      | split
      | intro _

theorem parseDimensions_within (go : Stdlib) (n : Nat) {m : Nat} {p : Parser}
    (h : pending p ≤ m) : (parseDimensions go n p).within m := by
  unfold parseDimensions
  repeat' first
    | assumption
    | with_reducible exact Result.within_error
    | with_reducible exact Result.within_outOfFuel
    | with_reducible apply Result.within_ok
    | with_reducible apply Result.within_bind
    | with_reducible apply Result.within_map
    | with_reducible apply parseDimensionsLoop_within
    | with_reducible apply within_scanIgnoreWhitespace_unscan
    | with_reducible apply within_scan_unscan
    | with_reducible apply within_scanIgnoreWhitespace
    | with_reducible apply within_scan
    | with_reducible apply within_consumeWhitespace
    | dsimp only
    | split
    | intro _

theorem parseSortFieldsLoop_within : ∀ (n : Nat) (fields : List SortField) {m : Nat} {p : Parser},
    pending p ≤ m → (parseSortFieldsLoop n fields p).within m
  | 0, fields, m, p, h => by
    unfold parseSortFieldsLoop
    exact Result.within_outOfFuel
  | n + 1, fields, m, p, h => by
    unfold parseSortFieldsLoop
    repeat' first
      | assumption
      | with_reducible exact Result.within_error
      | with_reducible exact Result.within_outOfFuel
      | with_reducible apply Result.within_ok
      | with_reducible apply Result.within_bind
      | with_reducible apply Result.within_map
      | with_reducible apply parseSortFieldsLoop_within n
      | with_reducible apply parseSortField_within
      | with_reducible apply within_scanIgnoreWhitespace_unscan
      | with_reducible apply within_scan_unscan
      | with_reducible apply within_scanIgnoreWhitespace
      | with_reducible apply within_scan
      | with_reducible apply within_consumeWhitespace
      | dsimp only
      | split
      | intro _

theorem parseSortFields_within (n : Nat) {m : Nat} {p : Parser}
    (h : pending p ≤ m) : (parseSortFields n p).within m := by
  unfold parseSortFields
  repeat' first
    | assumption
    | with_reducible exact Result.within_error
    | with_reducible exact Result.within_outOfFuel
    | with_reducible apply Result.within_ok
    | with_reducible apply Result.within_bind
    | with_reducible apply Result.within_map
    | with_reducible apply parseSortField_within
    | with_reducible apply parseSortFieldsLoop_within
    | with_reducible apply within_scanIgnoreWhitespace_unscan
    | with_reducible apply within_scan_unscan
    | with_reducible apply within_scanIgnoreWhitespace
    | with_reducible apply within_scan
    | with_reducible apply within_consumeWhitespace
    | dsimp only
    | split
    | intro _

theorem parseOrderBy_within (n : Nat) {m : Nat} {p : Parser}
    (h : pending p ≤ m) : (parseOrderBy n p).within m := by
  unfold parseOrderBy
  repeat' first
    | assumption
    | with_reducible exact Result.within_error
    | with_reducible exact Result.within_outOfFuel
    | with_reducible apply Result.within_ok
    | with_reducible apply Result.within_bind
    | with_reducible apply Result.within_map
    | with_reducible apply parseSortFields_within
    | with_reducible apply within_scanIgnoreWhitespace_unscan
    | with_reducible apply within_scan_unscan
    | with_reducible apply within_scanIgnoreWhitespace
    | with_reducible apply within_scan
    | with_reducible apply within_consumeWhitespace
    | dsimp only
    | split
    | intro _

theorem parseSelectStatement_within (go : Stdlib) (n : Nat) (tr : targetRequirement) {m : Nat} {p : Parser}
    (h : pending p ≤ m) : (parseSelectStatement go n tr p).within m := by
  unfold parseSelectStatement
  repeat' first
    | assumption
    | with_reducible exact Result.within_error
    | with_reducible exact Result.within_outOfFuel
    | with_reducible apply Result.within_ok
    | with_reducible apply Result.within_bind
    | with_reducible apply Result.within_map
    | with_reducible apply parseTarget_within
    | with_reducible apply parseFields_within
    | with_reducible apply parseSource_within
    | with_reducible apply parseCondition_within
    | with_reducible apply parseDimensions_within
    | with_reducible apply parseLimit_within
    | with_reducible apply parseOrderBy_within
    | with_reducible apply within_scanIgnoreWhitespace_unscan
    | with_reducible apply within_scan_unscan
    | with_reducible apply within_scanIgnoreWhitespace
    | with_reducible apply within_scan
    | with_reducible apply within_consumeWhitespace
    | dsimp only
    | split
    | intro _

theorem parseDeleteStatement_within (go : Stdlib) (n : Nat) {m : Nat} {p : Parser}
    (h : pending p ≤ m) : (parseDeleteStatement go n p).within m := by
  unfold parseDeleteStatement
  repeat' first
    | assumption
    | with_reducible exact Result.within_error
    | with_reducible exact Result.within_outOfFuel
    | with_reducible apply Result.within_ok
    | with_reducible apply Result.within_bind
    | with_reducible apply Result.within_map
    | with_reducible apply parseSource_within
    | with_reducible apply parseCondition_within
    | with_reducible apply within_scanIgnoreWhitespace_unscan
    | with_reducible apply within_scan_unscan
    | with_reducible apply within_scanIgnoreWhitespace
    | with_reducible apply within_scan
    | with_reducible apply within_consumeWhitespace
    | dsimp only
    | split
    | intro _

theorem parseListSeriesStatement_within (go : Stdlib) (n : Nat) {m : Nat} {p : Parser}
    (h : pending p ≤ m) : (parseListSeriesStatement go n p).within m := by
  unfold parseListSeriesStatement
  repeat' first
    | assumption
    | with_reducible exact Result.within_error
    | with_reducible exact Result.within_outOfFuel
    | with_reducible apply Result.within_ok
    | with_reducible apply Result.within_bind
    | with_reducible apply Result.within_map
    | with_reducible apply parseCondition_within
    | with_reducible apply parseLimit_within
    | with_reducible apply parseOrderBy_within
    | with_reducible apply within_scanIgnoreWhitespace_unscan
    | with_reducible apply within_scan_unscan
    | with_reducible apply within_scanIgnoreWhitespace
    | with_reducible apply within_scan
    | with_reducible apply within_consumeWhitespace
    | dsimp only
    | split
    | intro _

theorem parseListMeasurementsStatement_within (go : Stdlib) (n : Nat) {m : Nat} {p : Parser}
    (h : pending p ≤ m) : (parseListMeasurementsStatement go n p).within m := by
  unfold parseListMeasurementsStatement
  repeat' first
    | assumption
    | with_reducible exact Result.within_error
    | with_reducible exact Result.within_outOfFuel
    | with_reducible apply Result.within_ok
    | with_reducible apply Result.within_bind
    | with_reducible apply Result.within_map
    | with_reducible apply parseCondition_within
    | with_reducible apply parseLimit_within
    | with_reducible apply parseOrderBy_within
    | with_reducible apply within_scanIgnoreWhitespace_unscan
    | with_reducible apply within_scan_unscan
    | with_reducible apply within_scanIgnoreWhitespace
    | with_reducible apply within_scan
    | with_reducible apply within_consumeWhitespace
    | dsimp only
    | split
    | intro _

theorem parseListTagKeysStatement_within (go : Stdlib) (n : Nat) {m : Nat} {p : Parser}
    (h : pending p ≤ m) : (parseListTagKeysStatement go n p).within m := by
  unfold parseListTagKeysStatement
  repeat' first
    | assumption
    | with_reducible exact Result.within_error
    | with_reducible exact Result.within_outOfFuel
    | with_reducible apply Result.within_ok
    | with_reducible apply Result.within_bind
    | with_reducible apply Result.within_map
    | with_reducible apply parseSource_within
    | with_reducible apply parseCondition_within
    | with_reducible apply parseLimit_within
    | with_reducible apply parseOrderBy_within
    | with_reducible apply within_scanIgnoreWhitespace_unscan
    | with_reducible apply within_scan_unscan
    | with_reducible apply within_scanIgnoreWhitespace
    | with_reducible apply within_scan
    | with_reducible apply within_consumeWhitespace
    | dsimp only
    | split
    | intro _

theorem parseListTagValuesStatement_within (go : Stdlib) (n : Nat) {m : Nat} {p : Parser}
    (h : pending p ≤ m) : (parseListTagValuesStatement go n p).within m := by
  unfold parseListTagValuesStatement
  repeat' first
    | assumption
    | with_reducible exact Result.within_error
    | with_reducible exact Result.within_outOfFuel
    | with_reducible apply Result.within_ok
    | with_reducible apply Result.within_bind
    | with_reducible apply Result.within_map
    | with_reducible apply parseSource_within
    | with_reducible apply parseCondition_within
    | with_reducible apply parseLimit_within
    | with_reducible apply parseOrderBy_within
    | with_reducible apply within_scanIgnoreWhitespace_unscan
    | with_reducible apply within_scan_unscan
    | with_reducible apply within_scanIgnoreWhitespace
    | with_reducible apply within_scan
    | with_reducible apply within_consumeWhitespace
    | dsimp only
    | split
    | intro _

theorem parseListFieldKeysStatement_within (go : Stdlib) (n : Nat) {m : Nat} {p : Parser}
    (h : pending p ≤ m) : (parseListFieldKeysStatement go n p).within m := by
  unfold parseListFieldKeysStatement
  repeat' first
    | assumption
    | with_reducible exact Result.within_error
    | with_reducible exact Result.within_outOfFuel
    | with_reducible apply Result.within_ok
    | with_reducible apply Result.within_bind
    | with_reducible apply Result.within_map
    | with_reducible apply parseSource_within
    | with_reducible apply parseCondition_within
    | with_reducible apply parseLimit_within
    | with_reducible apply parseOrderBy_within
    | with_reducible apply within_scanIgnoreWhitespace_unscan
    | with_reducible apply within_scan_unscan
    | with_reducible apply within_scanIgnoreWhitespace
    | with_reducible apply within_scan
    | with_reducible apply within_consumeWhitespace
    | dsimp only
    | split
    | intro _

theorem parseListFieldValuesStatement_within (go : Stdlib) (n : Nat) {m : Nat} {p : Parser}
    (h : pending p ≤ m) : (parseListFieldValuesStatement go n p).within m := by
  unfold parseListFieldValuesStatement
  repeat' first
    | assumption
    | with_reducible exact Result.within_error
    | with_reducible exact Result.within_outOfFuel
    | with_reducible apply Result.within_ok
    | with_reducible apply Result.within_bind
    | with_reducible apply Result.within_map
    | with_reducible apply parseSource_within
    | with_reducible apply parseCondition_within
    | with_reducible apply parseLimit_within
    | with_reducible apply parseOrderBy_within
    | with_reducible apply within_scanIgnoreWhitespace_unscan
    | with_reducible apply within_scan_unscan
    | with_reducible apply within_scanIgnoreWhitespace
    | with_reducible apply within_scan
    | with_reducible apply within_consumeWhitespace
    | dsimp only
    | split
    | intro _

theorem parseCreateContinuousQueryStatement_within (go : Stdlib) (n : Nat) {m : Nat} {p : Parser}
    (h : pending p ≤ m) : (parseCreateContinuousQueryStatement go n p).within m := by
  unfold parseCreateContinuousQueryStatement
  repeat' first
    | assumption
    | with_reducible exact Result.within_error
    | with_reducible exact Result.within_outOfFuel
    | with_reducible apply Result.within_ok
    | with_reducible apply Result.within_bind
    | with_reducible apply Result.within_map
    | with_reducible apply parseTokens_within
    | with_reducible apply parseIdentifier_within
    | with_reducible apply parseSelectStatement_within
    | with_reducible apply within_scanIgnoreWhitespace_unscan
    | with_reducible apply within_scan_unscan
    | with_reducible apply within_scanIgnoreWhitespace
    | with_reducible apply within_scan
    | with_reducible apply within_consumeWhitespace
    | dsimp only
    | split
    | intro _

theorem parseListStatement_within (go : Stdlib) (n : Nat) {m : Nat} {p : Parser}
    (h : pending p ≤ m) : (parseListStatement go n p).within m := by
  unfold parseListStatement
  repeat' first
    | assumption
    | with_reducible exact Result.within_error
    | with_reducible exact Result.within_outOfFuel
    | with_reducible apply Result.within_ok
    | with_reducible apply Result.within_bind
    | with_reducible apply Result.within_map
    | with_reducible apply parseListSeriesStatement_within
    | with_reducible apply parseListMeasurementsStatement_within
    | with_reducible apply parseListTagKeysStatement_within
    | with_reducible apply parseListTagValuesStatement_within
    | with_reducible apply parseListFieldKeysStatement_within
    | with_reducible apply parseListFieldValuesStatement_within
    | with_reducible apply parseListContinuousQueriesStatement_within
    | with_reducible apply parseListDatabasesStatement_within
    | with_reducible apply within_scanIgnoreWhitespace_unscan
    | with_reducible apply within_scan_unscan
    | with_reducible apply within_scanIgnoreWhitespace
    | with_reducible apply within_scan
    | with_reducible apply within_consumeWhitespace
    | dsimp only
    | split
    | intro _

theorem parseCreateStatement_within (go : Stdlib) (n : Nat) {m : Nat} {p : Parser}
    (h : pending p ≤ m) : (parseCreateStatement go n p).within m := by
  unfold parseCreateStatement
  repeat' first
    | assumption
    | with_reducible exact Result.within_error
    | with_reducible exact Result.within_outOfFuel
    | with_reducible apply Result.within_ok
    | with_reducible apply Result.within_bind
    | with_reducible apply Result.within_map
    | with_reducible apply parseCreateRetentionPolicyStatement_within
    | with_reducible apply parseCreateContinuousQueryStatement_within
    | with_reducible apply parseCreateDatabaseStatement_within
    | with_reducible apply parseCreateUserStatement_within
    | with_reducible apply within_scanIgnoreWhitespace_unscan
    | with_reducible apply within_scan_unscan
    | with_reducible apply within_scanIgnoreWhitespace
    | with_reducible apply within_scan
    | with_reducible apply within_consumeWhitespace
    | dsimp only
    | split
    | intro _

theorem ParseStatement_within (go : Stdlib) (n : Nat) {m : Nat} {p : Parser}
    (h : pending p ≤ m) : (ParseStatement go n p).within m := by
  unfold ParseStatement
  repeat' first
    | assumption
    | with_reducible exact Result.within_error
    | with_reducible exact Result.within_outOfFuel
    | with_reducible apply Result.within_ok
    | with_reducible apply Result.within_bind
    | with_reducible apply Result.within_map
    | with_reducible apply parseRevokeStatement_within
    | with_reducible apply parseGrantStatement_within
    | with_reducible apply parseSelectStatement_within
    | with_reducible apply parseDeleteStatement_within
    | with_reducible apply parseListStatement_within
    | with_reducible apply parseCreateStatement_within
    | with_reducible apply parseDropStatement_within
    | with_reducible apply parseAlterStatement_within
    | with_reducible apply within_scanIgnoreWhitespace_unscan
    | with_reducible apply within_scan_unscan
    | with_reducible apply within_scanIgnoreWhitespace
    | with_reducible apply within_scan
    | with_reducible apply within_consumeWhitespace
    | dsimp only
    | split
    | intro _

theorem ParseQueryLoop_within (go : Stdlib) : ∀ (n : Nat) (statements : List Statement) {m : Nat} {p : Parser},
    pending p ≤ m → (ParseQueryLoop go n statements p).within m
  | 0, statements, m, p, h => by
    unfold ParseQueryLoop
    exact Result.within_outOfFuel
  | n + 1, statements, m, p, h => by
    unfold ParseQueryLoop
    repeat' first
      | assumption
      | with_reducible exact Result.within_error
      | with_reducible exact Result.within_outOfFuel
      | with_reducible apply Result.within_ok
      | with_reducible apply Result.within_bind
      | with_reducible apply Result.within_map
      | with_reducible apply ParseQueryLoop_within go n
      | with_reducible apply ParseStatement_within
      | with_reducible apply within_scanIgnoreWhitespace_unscan
      | with_reducible apply within_scan_unscan
      | with_reducible apply within_scanIgnoreWhitespace
      | with_reducible apply within_scan
      | with_reducible apply within_consumeWhitespace
      | dsimp only
      | split
      | intro _

theorem ParseQuery_within (go : Stdlib) (n : Nat) {m : Nat} {p : Parser}
    (h : pending p ≤ m) : (ParseQuery go n p).within m := by
  unfold ParseQuery
  repeat' first
    | assumption
    | with_reducible exact Result.within_error
    | with_reducible exact Result.within_outOfFuel
    | with_reducible apply Result.within_ok
    | with_reducible apply Result.within_bind
    | with_reducible apply Result.within_map
    | with_reducible apply ParseQueryLoop_within
    | with_reducible apply within_scanIgnoreWhitespace_unscan
    | with_reducible apply within_scan_unscan
    | with_reducible apply within_scanIgnoreWhitespace
    | with_reducible apply within_scan
    | with_reducible apply within_consumeWhitespace
    | dsimp only
    | split
    | intro _

/-! ## Termination: composing parser methods -/

theorem Terminates.ok {α : Type} {v : α} {q : Parser} :
    Terminates (fun _ : Nat => Result.ok v q) :=
  ⟨_, by simp, 0, fun _ _ => rfl⟩

theorem Terminates.error {α : Type} {e : ParseError} :
    Terminates (fun _ : Nat => (Result.error e : Result α)) :=
  ⟨_, by simp, 0, fun _ _ => rfl⟩

theorem Terminates.of_settled {α : Type} {m : Nat} {r : Result α} (h : r.settled m) :
    Terminates (fun _ : Nat => r) :=
  ⟨r, h.1, 0, fun _ _ => rfl⟩

theorem Terminates.of_bind {α β : Type} {f : Nat → Result α} {k : Nat → α → Parser → Result β}
    (h1 : Terminates f)
    (h2 : ∀ v q, (∃ n, f n = .ok v q) → Terminates (fun n => k n v q)) :
    Terminates (fun n => (f n).bind (k n)) := by
  obtain ⟨r, hr, n1, hn1⟩ := h1
  cases r with
  | ok v q =>
    obtain ⟨r2, h2'⟩ := h2 v q ⟨n1, hn1 n1 le_rfl⟩
    exact ⟨r2, Returns.bind ⟨hr, n1, hn1⟩ h2'⟩
  | error e =>
    refine ⟨.error e, by simp, n1, fun m hm => ?_⟩
    show (f m).bind (k m) = .error e
    rw [hn1 m hm]
    rfl
  | outOfFuel => exact absurd rfl hr

theorem Terminates.map {α β : Type} {f : Nat → Result α} (g : α → β) (h : Terminates f) :
    Terminates (fun n => (f n).map g) :=
  Terminates.of_bind h fun _ _ _ => Terminates.ok

theorem Terminates.ite {α : Type} {c : Prop} [Decidable c] {a b : Nat → Result α}
    (h1 : c → Terminates a) (h2 : ¬ c → Terminates b) :
    Terminates (fun n => if c then a n else b n) := by
  by_cases hc : c
  · simpa [hc] using h1 hc
  · simpa [hc] using h2 hc

/-- A method that spends one unit of its bound and then runs `b`. -/
theorem Terminates.succ {α : Type} {f b : Nat → Result α}
    (h : ∀ n, f (n + 1) = b n) (hb : Terminates b) : Terminates f := by
  obtain ⟨r, hr, n, hn⟩ := hb
  refine ⟨r, hr, n + 1, fun m hm => ?_⟩
  obtain ⟨j, rfl⟩ : ∃ j, m = j + 1 := ⟨m - 1, by omega⟩
  rw [h]
  exact hn j (by omega)

/-! ## Termination: the expression parser -/

theorem isOperator_ne_EOF {t : Token} (h : t.isOperator = true) : t ≠ .EOF := by
  rintro rfl
  exact absurd h (by decide)

theorem ParseExprLoop_terminates_step (go : Stdlib) (m : Nat)
    (ihU : ∀ p, pending p < m → Terminates (fun n => parseUnaryExpr go n p))
    (ihL : ∀ p, pending p < m → ∀ e, Terminates (fun n => ParseExprLoop go n e p))
    (p : Parser) (hp : pending p < m + 1) (e : Expr) :
    Terminates (fun n => ParseExprLoop go n e p) := by
  refine Terminates.succ (b := fun n =>
    if (!(p.scanIgnoreWhitespace).1.tok.isOperator) = true then
      .ok e (p.scanIgnoreWhitespace).2.unscan
    else (parseUnaryExpr go n (p.scanIgnoreWhitespace).2).bind fun rhs q =>
      ParseExprLoop go n (assignRoot e (p.scanIgnoreWhitespace).1.tok rhs) q)
    (fun n => by
      rw [ParseExprLoop]
      dsimp only
      split
      · rfl
      · cases parseUnaryExpr go n (p.scanIgnoreWhitespace).2 <;> rfl) ?_
  apply Terminates.ite
  · intro _
    exact Terminates.ok
  · intro hop
    have hop' : (p.scanIgnoreWhitespace).1.tok.isOperator = true := by simpa using hop
    have hlt : pending (p.scanIgnoreWhitespace).2 < pending p :=
      pending_scanIgnoreWhitespace_lt p (isOperator_ne_EOF hop')
    apply Terminates.of_bind (ihU _ (by omega))
    rintro rhs q ⟨n, hn⟩
    have hq : pending q ≤ pending (p.scanIgnoreWhitespace).2 :=
      (expr_within go n).2.2.1 _ _ le_rfl rhs q hn
    exact ihL q (by omega) _

theorem parseUnaryExpr_terminates_step (go : Stdlib) (m : Nat)
    (ihE : ∀ p, pending p < m → Terminates (fun n => ParseExpr go n p))
    (ihC : ∀ p, pending p < m → ∀ name, Terminates (fun n => parseCall go n name p))
    (p : Parser) (hp : pending p < m + 1) :
    Terminates (fun n => parseUnaryExpr go n p) := by
  by_cases hl : (p.scanIgnoreWhitespace).1.tok = .LPAREN
  · refine Terminates.succ (b := fun n =>
      (ParseExpr go n (p.scanIgnoreWhitespace).2).bind fun expr q =>
        if (q.scanIgnoreWhitespace).1.tok ≠ .RPAREN then
          .error (newParseError
            (tokstr (q.scanIgnoreWhitespace).1.tok (q.scanIgnoreWhitespace).1.lit) [")"]
            (q.scanIgnoreWhitespace).1.pos)
        else .ok (.ParenExpr expr) (q.scanIgnoreWhitespace).2)
      (fun n => by
        rw [parseUnaryExpr, if_pos hl]
        dsimp only
        cases ParseExpr go n (p.scanIgnoreWhitespace).2 <;> rfl) ?_
    have hlt : pending (p.scanIgnoreWhitespace).2 < pending p :=
      pending_scanIgnoreWhitespace_lt p (by rw [hl]; decide)
    apply Terminates.of_bind (ihE _ (by omega))
    intro expr q _
    apply Terminates.ite
    · intro _; exact Terminates.error
    · intro _; exact Terminates.ok
  · by_cases hcall :
        (((p.scanIgnoreWhitespace).2.unscan).scanIgnoreWhitespace).1.tok = .IDENT
        ∧ (((p.scanIgnoreWhitespace).2.unscan).scanIgnoreWhitespace).2.scan.1.tok = .LPAREN
    · refine Terminates.succ (b := fun n =>
        parseCall go n (((p.scanIgnoreWhitespace).2.unscan).scanIgnoreWhitespace).1.lit
          (((p.scanIgnoreWhitespace).2.unscan).scanIgnoreWhitespace).2.scan.2)
        (fun n => by
          rw [parseUnaryExpr, if_neg hl]
          simp only [hcall.1, hcall.2, if_true]) ?_
      have h1 : pending (p.scanIgnoreWhitespace).2.unscan ≤ pending p :=
        pending_scanIgnoreWhitespace_unscan p
      have h2 : pending (((p.scanIgnoreWhitespace).2.unscan).scanIgnoreWhitespace).2
          < pending (p.scanIgnoreWhitespace).2.unscan :=
        pending_scanIgnoreWhitespace_lt _ (by rw [hcall.1]; decide)
      have h3 := pending_scan (((p.scanIgnoreWhitespace).2.unscan).scanIgnoreWhitespace).2
      exact ihC _ (by omega) _
    · have hne : parseUnaryExpr go 1 p ≠ .outOfFuel := by
        rw [parseUnaryExpr, if_neg hl]
        dsimp only
        split
        · rename_i hid
          split
          · rename_i hlp
            exact absurd ⟨hid, hlp⟩ hcall
          · simp
        all_goals (repeat' split) <;> simp
      exact ⟨_, parseUnaryExpr_returns go rfl hne⟩

theorem ParseExpr_terminates_step (go : Stdlib) (m : Nat)
    (hU : ∀ p, pending p < m + 1 → Terminates (fun n => parseUnaryExpr go n p))
    (hL : ∀ p, pending p < m + 1 → ∀ e, Terminates (fun n => ParseExprLoop go n e p))
    (p : Parser) (hp : pending p < m + 1) :
    Terminates (fun n => ParseExpr go n p) := by
  refine Terminates.succ (b := fun n =>
    (parseUnaryExpr go n p).bind fun expr q => ParseExprLoop go n expr q)
    (fun n => by
      rw [ParseExpr]
      dsimp only
      cases parseUnaryExpr go n p <;> rfl) ?_
  apply Terminates.of_bind (hU p hp)
  rintro expr q ⟨n, hn⟩
  have hq : pending q ≤ pending p := (expr_within go n).2.2.1 _ _ le_rfl expr q hn
  exact hL q (by omega) _

theorem parseCallArgs_terminates_step (go : Stdlib) (m : Nat)
    (hE : ∀ p, pending p < m + 1 → Terminates (fun n => ParseExpr go n p))
    (ihA : ∀ p, pending p < m → ∀ name args,
      Terminates (fun n => parseCallArgs go n name args p))
    (p : Parser) (hp : pending p < m + 1) (name : String) (args : List Expr) :
    Terminates (fun n => parseCallArgs go n name args p) := by
  refine Terminates.succ (b := fun n =>
    (ParseExpr go n p).bind fun arg q =>
      if (q.scan).1.tok ≠ .COMMA then
        if (((q.scan).2.unscan).scan).1.tok ≠ .RPAREN then
          .error (newParseError
            (tokstr (((q.scan).2.unscan).scan).1.tok (((q.scan).2.unscan).scan).1.lit) [")"]
            (((q.scan).2.unscan).scan).1.pos)
        else .ok (.Call name (args ++ [arg])) (((q.scan).2.unscan).scan).2
      else parseCallArgs go n name (args ++ [arg]) (q.scan).2)
    (fun n => by
      rw [parseCallArgs]
      dsimp only
      cases ParseExpr go n p <;> rfl) ?_
  apply Terminates.of_bind (hE p hp)
  rintro arg q ⟨n, hn⟩
  have hq : pending q ≤ pending p := (expr_within go n).1 _ _ le_rfl arg q hn
  apply Terminates.ite
  · intro _
    apply Terminates.ite
    · intro _; exact Terminates.error
    · intro _; exact Terminates.ok
  · intro hc
    have hc' : (q.scan).1.tok = .COMMA := by simpa using hc
    have hlt : pending (q.scan).2 < pending q := pending_scan_lt q (by rw [hc']; decide)
    exact ihA _ (by omega) _ _

theorem parseCall_terminates_step (go : Stdlib) (m : Nat)
    (hA : ∀ p, pending p < m + 1 → ∀ name args,
      Terminates (fun n => parseCallArgs go n name args p))
    (p : Parser) (hp : pending p < m + 1) (name : String) :
    Terminates (fun n => parseCall go n name p) := by
  refine Terminates.succ (b := fun n =>
    if (p.scan).1.tok = .RPAREN then .ok (.Call name []) (p.scan).2
    else parseCallArgs go n name [] (p.scan).2.unscan)
    (fun n => by rw [parseCall]) ?_
  apply Terminates.ite
  · intro _; exact Terminates.ok
  · intro _
    have h1 := pending_scan_unscan p
    exact hA _ (by omega) _ _

/-- The five methods of the expression parser return, by induction on the
number of tokens that are pending. -/
theorem expr_terminates (go : Stdlib) : ∀ (m : Nat) (p : Parser), pending p < m →
    Terminates (fun n => ParseExpr go n p)
    ∧ (∀ e, Terminates (fun n => ParseExprLoop go n e p))
    ∧ Terminates (fun n => parseUnaryExpr go n p)
    ∧ (∀ name, Terminates (fun n => parseCall go n name p))
    ∧ (∀ name args, Terminates (fun n => parseCallArgs go n name args p))
  | 0, p, h => absurd h (Nat.not_lt_zero _)
  | m + 1, p, hp => by
    have ih := expr_terminates go m
    have hL := ParseExprLoop_terminates_step go m (fun q hq => (ih q hq).2.2.1)
      (fun q hq => (ih q hq).2.1)
    have hU := parseUnaryExpr_terminates_step go m (fun q hq => (ih q hq).1)
      (fun q hq => (ih q hq).2.2.2.1)
    have hE := ParseExpr_terminates_step go m hU hL
    have hA := parseCallArgs_terminates_step go m hE (fun q hq => (ih q hq).2.2.2.2)
    have hC := parseCall_terminates_step go m hA
    exact ⟨hE p hp, hL p hp, hU p hp, hC p hp, hA p hp⟩

theorem ParseExpr_terminates (go : Stdlib) (p : Parser) :
    Terminates (fun n => ParseExpr go n p) :=
  (expr_terminates go (pending p + 1) p (Nat.lt_succ_self _)).1

/-! ## Termination: the statement parsers -/

theorem parseTokens_terminates (toks : List Token) {p : Parser} :
    Terminates (fun _ : Nat => parseTokens toks p) :=
  Terminates.of_settled (parseTokens_settled toks (le_refl (pending p)))

theorem parseInt_terminates (go : Stdlib) (min max : Int) {p : Parser} :
    Terminates (fun _ : Nat => parseInt go min max p) :=
  Terminates.of_settled (parseInt_settled go min max (le_refl (pending p)))

theorem parseDuration_terminates {p : Parser} :
    Terminates (fun _ : Nat => parseDuration p) :=
  Terminates.of_settled (parseDuration_settled (le_refl (pending p)))

theorem parseIdentifier_terminates {p : Parser} :
    Terminates (fun _ : Nat => parseIdentifier p) :=
  Terminates.of_settled (parseIdentifier_settled (le_refl (pending p)))

theorem parseCreateRetentionPolicyStatement_terminates (go : Stdlib) {p : Parser} :
    Terminates (fun _ : Nat => parseCreateRetentionPolicyStatement go p) :=
  Terminates.of_settled (parseCreateRetentionPolicyStatement_settled go (le_refl (pending p)))

theorem parseAlterRetentionPolicyStatement_terminates (go : Stdlib) {p : Parser} :
    Terminates (fun _ : Nat => parseAlterRetentionPolicyStatement go p) :=
  Terminates.of_settled (parseAlterRetentionPolicyStatement_settled go (le_refl (pending p)))

theorem parsePrivilege_terminates {p : Parser} :
    Terminates (fun _ : Nat => parsePrivilege p) :=
  Terminates.of_settled (parsePrivilege_settled (le_refl (pending p)))

theorem parseOnClause_terminates (priv : Privilege) {p : Parser} :
    Terminates (fun _ : Nat => parseOnClause priv p) :=
  Terminates.of_settled (parseOnClause_settled priv (le_refl (pending p)))

theorem parseRevokeStatement_terminates {p : Parser} :
    Terminates (fun _ : Nat => parseRevokeStatement p) :=
  Terminates.of_settled (parseRevokeStatement_settled (le_refl (pending p)))

theorem parseGrantStatement_terminates {p : Parser} :
    Terminates (fun _ : Nat => parseGrantStatement p) :=
  Terminates.of_settled (parseGrantStatement_settled (le_refl (pending p)))

theorem parseTarget_terminates (tr : targetRequirement) {p : Parser} :
    Terminates (fun _ : Nat => parseTarget tr p) :=
  Terminates.of_settled (parseTarget_settled tr (le_refl (pending p)))

theorem parseAlias_terminates {p : Parser} :
    Terminates (fun _ : Nat => parseAlias p) :=
  Terminates.of_settled (parseAlias_settled (le_refl (pending p)))

theorem parseLimit_terminates {p : Parser} :
    Terminates (fun _ : Nat => parseLimit p) :=
  Terminates.of_settled (parseLimit_settled (le_refl (pending p)))

theorem parseSortField_terminates {p : Parser} :
    Terminates (fun _ : Nat => parseSortField p) :=
  Terminates.of_settled (parseSortField_settled (le_refl (pending p)))

theorem parseDropSeriesStatement_terminates {p : Parser} :
    Terminates (fun _ : Nat => parseDropSeriesStatement p) :=
  Terminates.of_settled (parseDropSeriesStatement_settled (le_refl (pending p)))

theorem parseListContinuousQueriesStatement_terminates {p : Parser} :
    Terminates (fun _ : Nat => parseListContinuousQueriesStatement p) :=
  Terminates.of_settled (parseListContinuousQueriesStatement_settled (le_refl (pending p)))

theorem parseListDatabasesStatement_terminates {p : Parser} :
    Terminates (fun _ : Nat => parseListDatabasesStatement p) :=
  Terminates.of_settled (parseListDatabasesStatement_settled (le_refl (pending p)))

theorem parseCreateDatabaseStatement_terminates {p : Parser} :
    Terminates (fun _ : Nat => parseCreateDatabaseStatement p) :=
  Terminates.of_settled (parseCreateDatabaseStatement_settled (le_refl (pending p)))

theorem parseDropDatabaseStatement_terminates {p : Parser} :
    Terminates (fun _ : Nat => parseDropDatabaseStatement p) :=
  Terminates.of_settled (parseDropDatabaseStatement_settled (le_refl (pending p)))

theorem parseCreateUserStatement_terminates {p : Parser} :
    Terminates (fun _ : Nat => parseCreateUserStatement p) :=
  Terminates.of_settled (parseCreateUserStatement_settled (le_refl (pending p)))

theorem parseDropUserStatement_terminates {p : Parser} :
    Terminates (fun _ : Nat => parseDropUserStatement p) :=
  Terminates.of_settled (parseDropUserStatement_settled (le_refl (pending p)))

theorem parseDropContinuousQueryStatement_terminates {p : Parser} :
    Terminates (fun _ : Nat => parseDropContinuousQueryStatement p) :=
  Terminates.of_settled (parseDropContinuousQueryStatement_settled (le_refl (pending p)))

theorem parseDropStatement_terminates {p : Parser} :
    Terminates (fun _ : Nat => parseDropStatement p) :=
  Terminates.of_settled (parseDropStatement_settled (le_refl (pending p)))

theorem parseAlterStatement_terminates (go : Stdlib) {p : Parser} :
    Terminates (fun _ : Nat => parseAlterStatement go p) :=
  Terminates.of_settled (parseAlterStatement_settled go (le_refl (pending p)))

theorem parseField_terminates (go : Stdlib) (p : Parser) :
    Terminates (fun n => parseField go n p) := by
  unfold parseField
  repeat' first
    | with_reducible exact Terminates.ok
    | with_reducible exact Terminates.error
    | with_reducible apply Terminates.of_bind
    | with_reducible apply Terminates.map
    | with_reducible apply Terminates.ite
    | with_reducible apply ParseExpr_terminates
    | with_reducible apply parseAlias_terminates
    | dsimp only
    | intro _

theorem parseFieldsLoop_terminates_of_lt (go : Stdlib) : ∀ (m : Nat) (p : Parser),
    pending p < m → ∀ fields, Terminates (fun n => parseFieldsLoop go n fields p)
  | 0, p, h, _ => absurd h (Nat.not_lt_zero _)
  | m + 1, p, hp, fields => by
    refine Terminates.succ (b := fun n =>
      (parseField go n p).bind fun f q =>
        if (q.scan).1.tok ≠ .COMMA then .ok (fields ++ [f]) (q.scan).2.unscan
        else parseFieldsLoop go n (fields ++ [f]) (q.scan).2)
      (fun n => by rw [parseFieldsLoop]) ?_
    apply Terminates.of_bind (parseField_terminates go p)
    rintro f q ⟨n, hn⟩
    have hq : pending q ≤ pending p := parseField_within go n (le_refl _) f q hn
    apply Terminates.ite
    · intro _; exact Terminates.ok
    · intro hc
      have hc' : (q.scan).1.tok = .COMMA := by simpa using hc
      have hlt := pending_scan_lt q (by rw [hc']; decide)
      exact parseFieldsLoop_terminates_of_lt go m _ (by omega) _

theorem parseFieldsLoop_terminates (go : Stdlib) (fields : List Field) (p : Parser) :
    Terminates (fun n => parseFieldsLoop go n fields p) :=
  parseFieldsLoop_terminates_of_lt go (pending p + 1) p (Nat.lt_succ_self _) fields

theorem parseFields_terminates (go : Stdlib) (p : Parser) :
    Terminates (fun n => parseFields go n p) := by
  unfold parseFields
  repeat' first
    | with_reducible exact Terminates.ok
    | with_reducible exact Terminates.error
    | with_reducible apply Terminates.of_bind
    | with_reducible apply Terminates.map
    | with_reducible apply Terminates.ite
    | with_reducible apply parseFieldsLoop_terminates
    | dsimp only
    | intro _

theorem parseSourceMeasurements_terminates_of_lt : ∀ (m : Nat) (p : Parser),
    pending p < m → ∀ measurements, Terminates (fun n => parseSourceMeasurements n measurements p)
  | 0, p, h, _ => absurd h (Nat.not_lt_zero _)
  | m + 1, p, hp, measurements => by
    refine Terminates.succ (b := fun n =>
      if (p.scanIgnoreWhitespace).1.tok ≠ .IDENT ∧ (p.scanIgnoreWhitespace).1.tok ≠ .STRING then
        .error (newParseError
          (tokstr (p.scanIgnoreWhitespace).1.tok (p.scanIgnoreWhitespace).1.lit)
          ["measurement name"] (p.scanIgnoreWhitespace).1.pos)
      else if ((p.scanIgnoreWhitespace).2.scan).1.tok ≠ .COMMA then
        .ok (measurements ++ [{ Name := (p.scanIgnoreWhitespace).1.lit }])
          ((p.scanIgnoreWhitespace).2.scan).2.unscan
      else parseSourceMeasurements n
        (measurements ++ [{ Name := (p.scanIgnoreWhitespace).1.lit }])
        ((p.scanIgnoreWhitespace).2.scan).2)
      (fun n => by rw [parseSourceMeasurements]) ?_
    apply Terminates.ite
    · intro _; exact Terminates.error
    · intro _
      apply Terminates.ite
      · intro _; exact Terminates.ok
      · intro hc
        have hc' : ((p.scanIgnoreWhitespace).2.scan).1.tok = .COMMA := by simpa using hc
        have hlt := pending_scan_lt (p.scanIgnoreWhitespace).2 (by rw [hc']; decide)
        have hle := pending_scanIgnoreWhitespace p
        exact parseSourceMeasurements_terminates_of_lt m _ (by omega) _

theorem parseSourceMeasurements_terminates (measurements : List Measurement) (p : Parser) :
    Terminates (fun n => parseSourceMeasurements n measurements p) :=
  parseSourceMeasurements_terminates_of_lt (pending p + 1) p (Nat.lt_succ_self _) measurements

theorem parseSource_terminates (p : Parser) :
    Terminates (fun n => parseSource n p) := by
  unfold parseSource
  repeat' first
    | with_reducible exact Terminates.ok
    | with_reducible exact Terminates.error
    | with_reducible apply Terminates.of_bind
    | with_reducible apply Terminates.map
    | with_reducible apply Terminates.ite
    | with_reducible apply parseSourceMeasurements_terminates
    | dsimp only
    | intro _

theorem parseCondition_terminates (go : Stdlib) (p : Parser) :
    Terminates (fun n => parseCondition go n p) := by
  unfold parseCondition
  repeat' first
    | with_reducible exact Terminates.ok
    | with_reducible exact Terminates.error
    | with_reducible apply Terminates.of_bind
    | with_reducible apply Terminates.map
    | with_reducible apply Terminates.ite
    | with_reducible apply ParseExpr_terminates
    | dsimp only
    | intro _

theorem parseDimension_terminates (go : Stdlib) (p : Parser) :
    Terminates (fun n => parseDimension go n p) := by
  unfold parseDimension
  repeat' first
    | with_reducible exact Terminates.ok
    | with_reducible exact Terminates.error
    | with_reducible apply Terminates.of_bind
    | with_reducible apply Terminates.map
    | with_reducible apply Terminates.ite
    | with_reducible apply ParseExpr_terminates
    | dsimp only
    | intro _

theorem parseDimensionsLoop_terminates_of_lt (go : Stdlib) : ∀ (m : Nat) (p : Parser),
    pending p < m → ∀ dimensions, Terminates (fun n => parseDimensionsLoop go n dimensions p)
  | 0, p, h, _ => absurd h (Nat.not_lt_zero _)
  | m + 1, p, hp, dimensions => by
    refine Terminates.succ (b := fun n =>
      (parseDimension go n p).bind fun d q =>
        if (q.scan).1.tok ≠ .COMMA then .ok (dimensions ++ [d]) (q.scan).2.unscan
        else parseDimensionsLoop go n (dimensions ++ [d]) (q.scan).2)
      (fun n => by rw [parseDimensionsLoop]) ?_
    apply Terminates.of_bind (parseDimension_terminates go p)
    rintro d q ⟨n, hn⟩
    have hq : pending q ≤ pending p := parseDimension_within go n (le_refl _) d q hn
    apply Terminates.ite
    · intro _; exact Terminates.ok
    · intro hc
      have hc' : (q.scan).1.tok = .COMMA := by simpa using hc
      have hlt := pending_scan_lt q (by rw [hc']; decide)
      exact parseDimensionsLoop_terminates_of_lt go m _ (by omega) _

theorem parseDimensionsLoop_terminates (go : Stdlib) (dimensions : List Dimension) (p : Parser) :
    Terminates (fun n => parseDimensionsLoop go n dimensions p) :=
  parseDimensionsLoop_terminates_of_lt go (pending p + 1) p (Nat.lt_succ_self _) dimensions

theorem parseDimensions_terminates (go : Stdlib) (p : Parser) :
    Terminates (fun n => parseDimensions go n p) := by
  unfold parseDimensions
  repeat' first
    | with_reducible exact Terminates.ok
    | with_reducible exact Terminates.error
    | with_reducible apply Terminates.of_bind
    | with_reducible apply Terminates.map
    | with_reducible apply Terminates.ite
    | with_reducible apply parseDimensionsLoop_terminates
    | dsimp only
    | intro _

theorem parseSortFieldsLoop_terminates_of_lt : ∀ (m : Nat) (p : Parser),
    pending p < m → ∀ fields, Terminates (fun n => parseSortFieldsLoop n fields p)
  | 0, p, h, _ => absurd h (Nat.not_lt_zero _)
  | m + 1, p, hp, fields => by
    refine Terminates.succ (b := fun n =>
      if (p.scanIgnoreWhitespace).1.tok ≠ .COMMA then
        .ok fields (p.scanIgnoreWhitespace).2.unscan
      else
        (parseSortField (p.scanIgnoreWhitespace).2).bind fun field q =>
          parseSortFieldsLoop n (fields ++ [field]) q)
      (fun n => by rw [parseSortFieldsLoop]) ?_
    apply Terminates.ite
    · intro _; exact Terminates.ok
    · intro hc
      have hc' : (p.scanIgnoreWhitespace).1.tok = .COMMA := by simpa using hc
      have hlt := pending_scanIgnoreWhitespace_lt p (by rw [hc']; decide)
      apply Terminates.of_bind parseSortField_terminates
      rintro field q ⟨_, hn⟩
      have hq : pending q ≤ pending (p.scanIgnoreWhitespace).2 :=
        parseSortField_within (le_refl _) field q hn
      exact parseSortFieldsLoop_terminates_of_lt m _ (by omega) _

theorem parseSortFieldsLoop_terminates (fields : List SortField) (p : Parser) :
    Terminates (fun n => parseSortFieldsLoop n fields p) :=
  parseSortFieldsLoop_terminates_of_lt (pending p + 1) p (Nat.lt_succ_self _) fields

theorem parseSortFields_terminates (p : Parser) :
    Terminates (fun n => parseSortFields n p) := by
  unfold parseSortFields
  repeat' first
    | with_reducible exact Terminates.ok
    | with_reducible exact Terminates.error
    | with_reducible apply Terminates.of_bind
    | with_reducible apply Terminates.map
    | with_reducible apply Terminates.ite
    | with_reducible apply parseSortField_terminates
    | with_reducible apply parseSortFieldsLoop_terminates
    | dsimp only
    | intro _

theorem parseOrderBy_terminates (p : Parser) :
    Terminates (fun n => parseOrderBy n p) := by
  unfold parseOrderBy
  repeat' first
    | with_reducible exact Terminates.ok
    | with_reducible exact Terminates.error
    | with_reducible apply Terminates.of_bind
    | with_reducible apply Terminates.map
    | with_reducible apply Terminates.ite
    | with_reducible apply parseSortFields_terminates
    | dsimp only
    | intro _

theorem parseSelectStatement_terminates (go : Stdlib) (tr : targetRequirement) (p : Parser) :
    Terminates (fun n => parseSelectStatement go n tr p) := by
  unfold parseSelectStatement
  repeat' first
    | with_reducible exact Terminates.ok
    | with_reducible exact Terminates.error
    | with_reducible apply Terminates.of_bind
    | with_reducible apply Terminates.map
    | with_reducible apply Terminates.ite
    | with_reducible apply parseTarget_terminates
    | with_reducible apply parseFields_terminates
    | with_reducible apply parseSource_terminates
    | with_reducible apply parseCondition_terminates
    | with_reducible apply parseDimensions_terminates
    | with_reducible apply parseLimit_terminates
    | with_reducible apply parseOrderBy_terminates
    | dsimp only
    | intro _

theorem parseDeleteStatement_terminates (go : Stdlib) (p : Parser) :
    Terminates (fun n => parseDeleteStatement go n p) := by
  unfold parseDeleteStatement
  repeat' first
    | with_reducible exact Terminates.ok
    | with_reducible exact Terminates.error
    | with_reducible apply Terminates.of_bind
    | with_reducible apply Terminates.map
    | with_reducible apply Terminates.ite
    | with_reducible apply parseSource_terminates
    | with_reducible apply parseCondition_terminates
    | dsimp only
    | intro _

theorem parseListSeriesStatement_terminates (go : Stdlib) (p : Parser) :
    Terminates (fun n => parseListSeriesStatement go n p) := by
  unfold parseListSeriesStatement
  repeat' first
    | with_reducible exact Terminates.ok
    | with_reducible exact Terminates.error
    | with_reducible apply Terminates.of_bind
    | with_reducible apply Terminates.map
    | with_reducible apply Terminates.ite
    | with_reducible apply parseCondition_terminates
    | with_reducible apply parseLimit_terminates
    | with_reducible apply parseOrderBy_terminates
    | dsimp only
    | intro _

theorem parseListMeasurementsStatement_terminates (go : Stdlib) (p : Parser) :
    Terminates (fun n => parseListMeasurementsStatement go n p) := by
  unfold parseListMeasurementsStatement
  repeat' first
    | with_reducible exact Terminates.ok
    | with_reducible exact Terminates.error
    | with_reducible apply Terminates.of_bind
    | with_reducible apply Terminates.map
    | with_reducible apply Terminates.ite
    | with_reducible apply parseCondition_terminates
    | with_reducible apply parseLimit_terminates
    | with_reducible apply parseOrderBy_terminates
    | dsimp only
    | intro _

theorem parseListTagKeysStatement_terminates (go : Stdlib) (p : Parser) :
    Terminates (fun n => parseListTagKeysStatement go n p) := by
  unfold parseListTagKeysStatement
  repeat' first
    | with_reducible exact Terminates.ok
    | with_reducible exact Terminates.error
    | with_reducible apply Terminates.of_bind
    | with_reducible apply Terminates.map
    | with_reducible apply Terminates.ite
    | with_reducible apply parseSource_terminates
    | with_reducible apply parseCondition_terminates
    | with_reducible apply parseLimit_terminates
    | with_reducible apply parseOrderBy_terminates
    | dsimp only
    | intro _

theorem parseListTagValuesStatement_terminates (go : Stdlib) (p : Parser) :
    Terminates (fun n => parseListTagValuesStatement go n p) := by
  unfold parseListTagValuesStatement
  repeat' first
    | with_reducible exact Terminates.ok
    | with_reducible exact Terminates.error
    | with_reducible apply Terminates.of_bind
    | with_reducible apply Terminates.map
    | with_reducible apply Terminates.ite
    | with_reducible apply parseSource_terminates
    | with_reducible apply parseCondition_terminates
    | with_reducible apply parseLimit_terminates
    | with_reducible apply parseOrderBy_terminates
    | dsimp only
    | intro _

theorem parseListFieldKeysStatement_terminates (go : Stdlib) (p : Parser) :
    Terminates (fun n => parseListFieldKeysStatement go n p) := by
  unfold parseListFieldKeysStatement
  repeat' first
    | with_reducible exact Terminates.ok
    | with_reducible exact Terminates.error
    | with_reducible apply Terminates.of_bind
    | with_reducible apply Terminates.map
    | with_reducible apply Terminates.ite
    | with_reducible apply parseSource_terminates
    | with_reducible apply parseCondition_terminates
    | with_reducible apply parseLimit_terminates
    | with_reducible apply parseOrderBy_terminates
    | dsimp only
    | intro _

theorem parseListFieldValuesStatement_terminates (go : Stdlib) (p : Parser) :
    Terminates (fun n => parseListFieldValuesStatement go n p) := by
  unfold parseListFieldValuesStatement
  repeat' first
    | with_reducible exact Terminates.ok
    | with_reducible exact Terminates.error
    | with_reducible apply Terminates.of_bind
    | with_reducible apply Terminates.map
    | with_reducible apply Terminates.ite
    | with_reducible apply parseSource_terminates
    | with_reducible apply parseCondition_terminates
    | with_reducible apply parseLimit_terminates
    | with_reducible apply parseOrderBy_terminates
    | dsimp only
    | intro _

theorem parseCreateContinuousQueryStatement_terminates (go : Stdlib) (p : Parser) :
    Terminates (fun n => parseCreateContinuousQueryStatement go n p) := by
  unfold parseCreateContinuousQueryStatement
  repeat' first
    | with_reducible exact Terminates.ok
    | with_reducible exact Terminates.error
    | with_reducible apply Terminates.of_bind
    | with_reducible apply Terminates.map
    | with_reducible apply Terminates.ite
    | with_reducible apply parseTokens_terminates
    | with_reducible apply parseIdentifier_terminates
    | with_reducible apply parseSelectStatement_terminates
    | dsimp only
    | intro _

theorem parseListStatement_terminates (go : Stdlib) (p : Parser) :
    Terminates (fun n => parseListStatement go n p) := by
  unfold parseListStatement
  repeat' first
    | with_reducible exact Terminates.ok
    | with_reducible exact Terminates.error
    | with_reducible apply Terminates.of_bind
    | with_reducible apply Terminates.map
    | with_reducible apply Terminates.ite
    | with_reducible apply parseListSeriesStatement_terminates
    | with_reducible apply parseListMeasurementsStatement_terminates
    | with_reducible apply parseListTagKeysStatement_terminates
    | with_reducible apply parseListTagValuesStatement_terminates
    | with_reducible apply parseListFieldKeysStatement_terminates
    | with_reducible apply parseListFieldValuesStatement_terminates
    | with_reducible apply parseListContinuousQueriesStatement_terminates
    | with_reducible apply parseListDatabasesStatement_terminates
    | dsimp only
    | intro _

theorem parseCreateStatement_terminates (go : Stdlib) (p : Parser) :
    Terminates (fun n => parseCreateStatement go n p) := by
  unfold parseCreateStatement
  repeat' first
    | with_reducible exact Terminates.ok
    | with_reducible exact Terminates.error
    | with_reducible apply Terminates.of_bind
    | with_reducible apply Terminates.map
    | with_reducible apply Terminates.ite
    | with_reducible apply parseCreateRetentionPolicyStatement_terminates
    | with_reducible apply parseCreateContinuousQueryStatement_terminates
    | with_reducible apply parseCreateDatabaseStatement_terminates
    | with_reducible apply parseCreateUserStatement_terminates
    | dsimp only
    | intro _

theorem Terminates.congr {α : Type} {f g : Nat → Result α} (h : ∀ n, f n = g n)
    (hg : Terminates g) : Terminates f := by
  have : f = g := funext h
  rw [this]
  exact hg

/-- The switch of ParseStatement, as a chain of tests. -/
theorem ParseStatement_eq_ite (go : Stdlib) (n : Nat) (p : Parser) :
    ParseStatement go n p =
      if (p.scanIgnoreWhitespace).1.tok = .SELECT then
        (parseSelectStatement go n .targetNotRequired (p.scanIgnoreWhitespace).2).map .Select
      else if (p.scanIgnoreWhitespace).1.tok = .DELETE then
        (parseDeleteStatement go n (p.scanIgnoreWhitespace).2).map .Delete
      else if (p.scanIgnoreWhitespace).1.tok = .LIST then
        parseListStatement go n (p.scanIgnoreWhitespace).2
      else if (p.scanIgnoreWhitespace).1.tok = .CREATE then
        parseCreateStatement go n (p.scanIgnoreWhitespace).2
      else if (p.scanIgnoreWhitespace).1.tok = .DROP then
        parseDropStatement (p.scanIgnoreWhitespace).2
      else if (p.scanIgnoreWhitespace).1.tok = .GRANT then
        (parseGrantStatement (p.scanIgnoreWhitespace).2).map .Grant
      else if (p.scanIgnoreWhitespace).1.tok = .REVOKE then
        (parseRevokeStatement (p.scanIgnoreWhitespace).2).map .Revoke
      else if (p.scanIgnoreWhitespace).1.tok = .ALTER then
        parseAlterStatement go (p.scanIgnoreWhitespace).2
      else
        .error (newParseError
          (tokstr (p.scanIgnoreWhitespace).1.tok (p.scanIgnoreWhitespace).1.lit) ["SELECT"]
          (p.scanIgnoreWhitespace).1.pos) := by
  unfold ParseStatement
  dsimp only
  split <;> simp_all

theorem ParseStatement_terminates (go : Stdlib) (p : Parser) :
    Terminates (fun n => ParseStatement go n p) := by
  refine Terminates.congr (ParseStatement_eq_ite go · p) ?_
  repeat' first
    | with_reducible exact Terminates.ok
    | with_reducible exact Terminates.error
    | with_reducible apply Terminates.of_bind
    | with_reducible apply Terminates.map
    | with_reducible apply Terminates.ite
    | with_reducible apply parseRevokeStatement_terminates
    | with_reducible apply parseGrantStatement_terminates
    | with_reducible apply parseSelectStatement_terminates
    | with_reducible apply parseDeleteStatement_terminates
    | with_reducible apply parseListStatement_terminates
    | with_reducible apply parseCreateStatement_terminates
    | with_reducible apply parseDropStatement_terminates
    | with_reducible apply parseAlterStatement_terminates
    | dsimp only
    | intro _

theorem ParseQueryLoop_terminates_of_lt (go : Stdlib) : ∀ (m : Nat) (p : Parser),
    pending p < m → ∀ statements, Terminates (fun n => ParseQueryLoop go n statements p)
  | 0, p, h, _ => absurd h (Nat.not_lt_zero _)
  | m + 1, p, hp, statements => by
    refine Terminates.succ (b := fun n =>
      (ParseStatement go n p).bind fun s q =>
        if (q.scanIgnoreWhitespace).1.tok ≠ .SEMICOLON
            ∧ (q.scanIgnoreWhitespace).1.tok ≠ .EOF then
          .error (newParseError
            (tokstr (q.scanIgnoreWhitespace).1.tok (q.scanIgnoreWhitespace).1.lit) [";", "EOF"]
            (q.scanIgnoreWhitespace).1.pos)
        else if (q.scanIgnoreWhitespace).1.tok = .EOF then
          .ok { Statements := statements ++ [s] } (q.scanIgnoreWhitespace).2
        else ParseQueryLoop go n (statements ++ [s]) (q.scanIgnoreWhitespace).2)
      (fun n => by rw [ParseQueryLoop]) ?_
    apply Terminates.of_bind (ParseStatement_terminates go p)
    rintro s q ⟨n, hn⟩
    have hq : pending q ≤ pending p := ParseStatement_within go n (le_refl _) s q hn
    apply Terminates.ite
    · intro _; exact Terminates.error
    · intro _
      apply Terminates.ite
      · intro _; exact Terminates.ok
      · intro hc
        have hlt := pending_scanIgnoreWhitespace_lt q hc
        exact ParseQueryLoop_terminates_of_lt go m _ (by omega) _

theorem ParseQueryLoop_terminates (go : Stdlib) (statements : List Statement) (p : Parser) :
    Terminates (fun n => ParseQueryLoop go n statements p) :=
  ParseQueryLoop_terminates_of_lt go (pending p + 1) p (Nat.lt_succ_self _) statements

theorem ParseQuery_terminates (go : Stdlib) (p : Parser) :
    Terminates (fun n => ParseQuery go n p) := by
  unfold ParseQuery
  repeat' first
    | with_reducible exact Terminates.ok
    | with_reducible exact Terminates.error
    | with_reducible apply Terminates.of_bind
    | with_reducible apply Terminates.map
    | with_reducible apply Terminates.ite
    | with_reducible apply ParseQueryLoop_terminates
    | dsimp only
    | intro _

/-! ## Termination: ParseExpr, ParseStatement and ParseQuery -/

theorem ParseQuery_terminates_within (go : Stdlib) (p : Parser) :
    ∃ r, Returns (fun n => ParseQuery go n p) r
      ∧ ∀ v q, r = .ok v q → pending q ≤ pending p := by
  obtain ⟨r, hr⟩ := ParseQuery_terminates go p
  refine ⟨r, hr, fun v q h => ?_⟩
  obtain ⟨_, n, hn⟩ := hr
  have hn' : ParseQuery go n p = r := hn n le_rfl
  exact ParseQuery_within go n (le_refl _) v q (hn'.trans h)

/-- C40: from every parser state (a finite sequence of tokens still to be
scanned, after which the scanner returns EOF forever) ParseExpr, ParseStatement
and ParseQuery each return a result or an error, and the state a result leaves
has no more tokens pending than the state the method started in: tokens are only
consumed.  Every scan of a token that is not EOF, as each iteration of each loop
makes, leaves strictly fewer tokens pending. -/
theorem parsing_terminates (go : Stdlib) (p : Parser) :
    (∃ r, Returns (fun n => ParseExpr go n p) r
      ∧ ∀ v q, r = .ok v q → pending q ≤ pending p)
    ∧ (∃ r, Returns (fun n => ParseStatement go n p) r
      ∧ ∀ v q, r = .ok v q → pending q ≤ pending p)
    ∧ (∃ r, Returns (fun n => ParseQuery go n p) r
      ∧ ∀ v q, r = .ok v q → pending q ≤ pending p)
    ∧ ((p.scan).1.tok ≠ .EOF → pending (p.scan).2 < pending p)
    ∧ ((p.scanIgnoreWhitespace).1.tok ≠ .EOF →
        pending (p.scanIgnoreWhitespace).2 < pending p)
    ∧ pending (p.scanIgnoreWhitespace).2.unscan ≤ pending p := by
  refine ⟨?_, ?_, ParseQuery_terminates_within go p, pending_scan_lt p,
    pending_scanIgnoreWhitespace_lt p, pending_scanIgnoreWhitespace_unscan p⟩
  · obtain ⟨r, hr⟩ := ParseExpr_terminates go p
    refine ⟨r, hr, fun v q h => ?_⟩
    obtain ⟨_, n, hn⟩ := hr
    have hn' : ParseExpr go n p = r := hn n le_rfl
    exact ParseExpr_within go n (le_refl _) v q (hn'.trans h)
  · obtain ⟨r, hr⟩ := ParseStatement_terminates go p
    refine ⟨r, hr, fun v q h => ?_⟩
    obtain ⟨_, n, hn⟩ := hr
    have hn' : ParseStatement go n p = r := hn n le_rfl
    exact ParseStatement_within go n (le_refl _) v q (hn'.trans h)

/-- C40 at the tokens of `SELECT a FROM b; SELECT c FROM d`: of the 16 tokens
that are pending, the first scan consumes one, and ParseQuery returns and leaves
at most 16 pending. -/
theorem parsing_terminates_witness :
    pending (NewParser tokens_two_selects ⟨0, 32⟩) = 16
    ∧ ((NewParser tokens_two_selects ⟨0, 32⟩).scan).1.tok ≠ .EOF
    ∧ pending ((NewParser tokens_two_selects ⟨0, 32⟩).scan).2 < 16
    ∧ ∃ r, Returns (fun n => ParseQuery demoLib n (NewParser tokens_two_selects ⟨0, 32⟩)) r
      ∧ ∀ v q, r = .ok v q → pending q ≤ 16 :=
  ⟨rfl, by decide,
   (parsing_terminates demoLib (NewParser tokens_two_selects ⟨0, 32⟩)).2.2.2.1 (by decide),
   (parsing_terminates demoLib (NewParser tokens_two_selects ⟨0, 32⟩)).2.2.1⟩

end influxql
